import Mathlib

/-!
Mesen-GDB debugger control plane.

A shallow embedding of the command-line debugger front end
(`GDB/debugger_cli.cpp`, `GDB/batch_runner.cpp`, `GDB/cli_notification.h`,
`GDB/DapMain.cpp`) and theorems about it.

Conventions
* `std::string` is a `List Char` (one `Char` per byte).
* `uint32_t`, `uint16_t`, `uint8_t` are `Nat` reduced modulo `2^32`, `2^16`, `2^8`;
  `int32_t` is an `Int` in `[-2^31, 2^31)`.
* A C++ function that may throw returns `Except StdException _`.
-/

namespace MesenGDB

/-! ## Standard library pieces used by the front end -/

/-- The two exceptions `std::stoul` and `std::stoi` can throw. -/
inductive StdException where
  | invalid_argument
  | out_of_range
  deriving DecidableEq, Repr

instance instDecidableEqExcept {ε α : Type} [DecidableEq ε] [DecidableEq α] :
    DecidableEq (Except ε α)
  | Except.ok a, Except.ok b =>
    if h : a = b then isTrue (congrArg Except.ok h)
    else isFalse (fun h2 => h (Except.ok.inj h2))
  | Except.error a, Except.error b =>
    if h : a = b then isTrue (congrArg Except.error h)
    else isFalse (fun h2 => h (Except.error.inj h2))
  | Except.ok _, Except.error _ => isFalse (fun h => Except.noConfusion h)
  | Except.error _, Except.ok _ => isFalse (fun h => Except.noConfusion h)

/-- Width of `unsigned long`. The front end is built for Linux and macOS only
(`DapMain.cpp` includes the Linux key manager unless `__APPLE__`), both LP64. -/
def ULONG_BITS : Nat := 64

/-- The C `isspace` in the "C" locale: space, `\t`, `\n`, `\v`, `\f`, `\r`. -/
def isspace (c : Char) : Bool :=
  c.toNat = 32 || (9 ≤ c.toNat && c.toNat ≤ 13)

/-- Value of a character as a digit in bases up to 36, as `strtoul` reads it. -/
def digitValue (c : Char) : Option Nat :=
  if 48 ≤ c.toNat ∧ c.toNat ≤ 57 then some (c.toNat - 48)
  else if 97 ≤ c.toNat ∧ c.toNat ≤ 122 then some (c.toNat - 97 + 10)
  else if 65 ≤ c.toNat ∧ c.toNat ≤ 90 then some (c.toNat - 65 + 10)
  else none

/-- Is `c` a digit of the given base? -/
def isDigitIn (base : Nat) (c : Char) : Bool :=
  match digitValue c with
  | some d => decide (d < base)
  | none => false

/-- Value of a digit of the given base (0 for a non-digit). -/
def digitIn (c : Char) : Nat := (digitValue c).getD 0

/-- Skip leading white space, as `strtoul` does first. -/
def skipSpaces : List Char → List Char
  | [] => []
  | c :: cs => if isspace c then skipSpaces cs else c :: cs

/-- Optional sign: returns whether a minus was read, and the rest. -/
def takeSign : List Char → Bool × List Char
  | [] => (false, [])
  | c :: cs => if c = '-' then (true, cs) else if c = '+' then (false, cs) else (false, c :: cs)

/-- In base 16 an optional `0x` or `0X` is skipped when a hex digit follows it. -/
def skipHexPrefix (base : Nat) : List Char → List Char
  | c0 :: c1 :: c2 :: cs =>
    if base = 16 ∧ c0 = '0' ∧ (c1 = 'x' ∨ c1 = 'X') ∧ isDigitIn 16 c2 then c2 :: cs
    else c0 :: c1 :: c2 :: cs
  | cs => cs

/-- The longest run of digits of the base at the start of the text. -/
def takeDigits (base : Nat) : List Char → List Char
  | [] => []
  | c :: cs => if isDigitIn base c then c :: takeDigits base cs else []

/-- Positional value of a digit string, most significant digit first. -/
def digitsValue (base : Nat) (ds : List Char) : Nat :=
  ds.foldl (fun acc c => acc * base + digitIn c) 0

/-- The call `std::stoul(s, nullptr, base)`: `strtoul` on the text, `invalid_argument` when
no digit was converted, `out_of_range` when the digits do not fit `unsigned long`; text
after the digits is ignored, and a minus sign negates in `unsigned long`. -/
def stoul (s : List Char) (base : Nat) : Except StdException Nat :=
  let signed := takeSign (skipSpaces s)
  let ds := takeDigits base (skipHexPrefix base signed.2)
  if ds = [] then Except.error StdException.invalid_argument
  else
    let v := digitsValue base ds
    if 2 ^ ULONG_BITS ≤ v then Except.error StdException.out_of_range
    else Except.ok (if signed.1 then (2 ^ ULONG_BITS - v) % 2 ^ ULONG_BITS else v)

/-- The call `s.find(c)`: index of the first occurrence, `none` for `npos`. -/
def find : List Char → Char → Option Nat
  | [], _ => none
  | x :: xs, c => if x = c then some 0 else (find xs c).map (· + 1)

/-- Conversion to `uint32_t`. -/
def toU32 (n : Nat) : Nat := n % 2 ^ 32

/-! ## `DebuggerCli::ParseAddress` and `ParseAddr` -/

/-- The prefix stripping of `ParseAddress`: one leading `$`, else a leading `0x` or `0X`,
each only when something follows it. -/
def stripPrefix (s : List Char) : List Char :=
  if s.length > 1 ∧ s.head? = some '$' then s.drop 1
  else if s.length > 2 ∧ s.head? = some '0' ∧ (s.get? 1 = some 'x' ∨ s.get? 1 = some 'X') then
    s.drop 2
  else s

/-- The method `DebuggerCli::ParseAddress` (debugger_cli.cpp:67-85). -/
def ParseAddress (str : List Char) : Except StdException Nat :=
  let s := str
  match find s ':' with
  | some colon => do
    let bank ← (stoul (s.take colon) 16).map toU32
    let addr ← (stoul (s.drop (colon + 1)) 16).map toU32
    pure (toU32 (bank <<< 16) ||| (addr &&& 0xFFFF))
  | none => (stoul (stripPrefix s) 16).map toU32

/-- The function `ParseAddr` of the command-line front end (DapMain.cpp:58-71). -/
def ParseAddr (s : List Char) : Except StdException Nat :=
  let str := s
  match find str ':' with
  | some colon => do
    let bank ← (stoul (str.take colon) 16).map toU32
    let addr ← (stoul (str.drop (colon + 1)) 16).map toU32
    pure (toU32 (bank <<< 16) ||| (addr &&& 0xFFFF))
  | none => (stoul (stripPrefix str) 16).map toU32

/-- The text shapes the address syntax names: hex digits, `$` and hex digits, `0x` and
hex digits, hex digits `:` hex digits. -/
def isHexString (t : List Char) : Bool :=
  !t.isEmpty && t.all (isDigitIn 16)

/-- Does the text have one of the accepted address shapes? -/
def acceptedShape (s : List Char) : Bool :=
  isHexString s
  || (match s with
      | c :: t => decide (c = '$') && isHexString t
      | [] => false)
  || (match s with
      | c0 :: c1 :: t => decide (c0 = '0') && decide (c1 = 'x') && isHexString t
      | _ => false)
  || (match find s ':' with
      | some k => isHexString (s.take k) && isHexString (s.drop (k + 1))
      | none => false)

/-- The texts `ParseAddress` hands to `std::stoul`: bank and offset around the first colon,
else the text after the optional prefix. -/
def convertedTexts (s : List Char) : List (List Char) :=
  match find s ':' with
  | some colon => [s.take colon, s.drop (colon + 1)]
  | none => [stripPrefix s]

/-- Does the text begin with a hex digit once white space and one sign are skipped? -/
def startsWithHexDigit (t : List Char) : Bool :=
  match (takeSign (skipSpaces t)).2 with
  | c :: _ => isDigitIn 16 c
  | [] => false

/-! ## The notification bridge (`cli_notification.h`) -/

/-- Modelled from the spec: the enum `ConsoleNotificationType` is declared in
`Shared/Interfaces/INotificationListener.h`, which is not among the sources; the sources
name `CodeBreak`, `EmulationStopped` and `PpuFrameDone`, every other kind is `Other`. -/
inductive ConsoleNotificationType where
  | CodeBreak
  | EmulationStopped
  | PpuFrameDone
  | Other (code : Nat)
  deriving DecidableEq, Repr

/-- The data members of `CliNotificationListener` guarded by its mutex. -/
structure CliNotificationListener where
  _breakOccurred : Bool := false
  _stopped : Bool := false
  deriving DecidableEq, Repr

namespace CliNotificationListener

/-- The method `ProcessNotification`, run under the mutex by the notifying thread. -/
def ProcessNotification (l : CliNotificationListener) (type : ConsoleNotificationType) :
    CliNotificationListener :=
  if type = ConsoleNotificationType.CodeBreak then
    { l with _breakOccurred := true }
  else if type = ConsoleNotificationType.EmulationStopped then
    { l with _stopped := true, _breakOccurred := true }
  else l

/-- The notifications in `arriving`, processed in order. -/
def deliver (l : CliNotificationListener) (arriving : List ConsoleNotificationType) :
    CliNotificationListener :=
  arriving.foldl ProcessNotification l

/-- The method `WaitForBreak`. `arriving` lists the notifications that other threads process
while the caller is blocked inside the condition variable (none when the pending flag is
already set, since the call then returns without blocking). The result is `none` when the
call never returns: an unbounded wait (`timeoutMs <= 0`) during which the pending flag is
never set. -/
def WaitForBreak (l : CliNotificationListener) (timeoutMs : Int)
    (arriving : List ConsoleNotificationType) : Option (Bool × CliNotificationListener) :=
  if l._breakOccurred then
    some (true, { l with _breakOccurred := false })
  else
    let l1 := deliver l arriving
    if timeoutMs > 0 then
      some (l1._breakOccurred, { l1 with _breakOccurred := false })
    else if l1._breakOccurred then
      some (true, { l1 with _breakOccurred := false })
    else none

/-- The method `IsStopped`. -/
def IsStopped (l : CliNotificationListener) : Bool := l._stopped

/-- The method `Reset`. -/
def Reset (l : CliNotificationListener) : CliNotificationListener :=
  { l with _breakOccurred := false }

end CliNotificationListener

/-- Is the notification one of the two stop kinds the bridge records? -/
def isStopNotification (t : ConsoleNotificationType) : Bool :=
  decide (t = ConsoleNotificationType.CodeBreak) ||
    decide (t = ConsoleNotificationType.EmulationStopped)

/-! ## Core types the front end uses -/

/-- Modelled from the spec: the enum `CpuType` is declared in `Shared/CpuType.h`, which is
not among the sources; these are the enumerators the switches of `console_info.h` list. -/
inductive CpuType where
  | Snes | Spc | NecDsp | Sa1 | Gsu | Cx4 | St018 | Gameboy | Nes | Pce | Sms | Gba | Ws
  deriving DecidableEq, Repr

/-- Modelled from the spec: the enum `ConsoleType` is declared in `Shared/SettingTypes.h`,
which is not among the sources; these are the enumerators `console_info.h` lists. -/
inductive ConsoleType where
  | Snes | Gameboy | Nes | PcEngine | Sms | Gba | Ws
  deriving DecidableEq, Repr

/-- Modelled from the spec: the enum `MemoryType` is declared in `Shared/MemoryType.h`, which
is not among the sources; the regions are those `console_info.h` names, `None` is used by
`CmdDump`, and `Other` stands for every enumerator the sources do not name (the CPU address
spaces among them). -/
inductive MemoryType where
  | NesInternalRam | NesPrgRom | NesSaveRam | NesWorkRam | NesChrRam | NesChrRom
  | NesSpriteRam | NesPaletteRam | NesNametableRam
  | SnesWorkRam | SnesVideoRam | SnesCgRam | SnesSpriteRam | SnesPrgRom | SnesSaveRam
  | GbWorkRam | GbVideoRam | GbCartRam | GbHighRam | GbSpriteRam | GbPrgRom
  | GbaIntWorkRam | GbaExtWorkRam | GbaVideoRam | GbaSpriteRam | GbaPaletteRam | GbaPrgRom
  | GbaSaveRam
  | PceWorkRam | PceVideoRam | PcePaletteRam | PceSpriteRam | PcePrgRom | PceSaveRam
  | PceCdromRam | PceAdpcmRam
  | SmsWorkRam | SmsVideoRam | SmsPaletteRam | SmsPrgRom | SmsCartRam
  | WsWorkRam | WsPrgRom | WsCartRam | WsBootRom | WsInternalEeprom
  | None
  | Other (code : Nat)
  deriving DecidableEq, Repr

/-- Modelled from the spec: the enum `BreakpointTypeFlags` is declared in
`Debugger/DebugTypes.h`, which is not among the sources; the trigger kinds are execute,
write and read. -/
inductive BreakpointTypeFlags where
  | Read | Write | Execute
  deriving DecidableEq, Repr

/-- Conversion of a `uint32_t` to `int32_t`. -/
def toI32 (n : Nat) : Int :=
  if n % 2 ^ 32 < 2 ^ 31 then ((n % 2 ^ 32 : Nat) : Int) else ((n % 2 ^ 32 : Nat) : Int) - 2 ^ 32

/-- The core breakpoint, with the fields of `BreakpointData` (debugger_cli.cpp:24-37), the
struct that mirrors the layout of `Breakpoint`; `condition` is the C string in the buffer. -/
structure Breakpoint where
  id : Nat
  cpuType : CpuType
  memoryType : MemoryType
  type : BreakpointTypeFlags
  startAddr : Int
  endAddr : Int
  enabled : Bool
  markEvent : Bool
  ignoreDummyOperations : Bool
  condition : List Char
  deriving DecidableEq, Repr

/-- Modelled from the spec: the class `Debugger` is not among the sources. It holds the
active breakpoint set, which `SetBreakpoints` replaces wholesale; `setBreakpointsCalls`
counts the calls received. -/
structure Debugger where
  breakpoints : List Breakpoint
  setBreakpointsCalls : Nat
  deriving DecidableEq, Repr

/-- Modelled from the spec: `Debugger::SetBreakpoints` replaces the whole active set. -/
def Debugger.SetBreakpoints (dbg : Debugger) (bps : List Breakpoint) : Debugger :=
  { breakpoints := bps, setBreakpointsCalls := dbg.setBreakpointsCalls + 1 }

/-- Modelled from the spec: the class `Emulator` is not among the sources. `debugger` is what
`GetDebugger(false)` yields: `none` while the debugger is not initialised. -/
structure Emulator where
  debugger : Option Debugger
  deriving DecidableEq, Repr

/-! ## Text output helpers (`printf` conversions) -/

/-- The conversion `%d`. -/
def fmtDec (i : Int) : String :=
  if i < 0 then "-" ++ String.mk (Nat.toDigits 10 i.natAbs) else String.mk (Nat.toDigits 10 i.toNat)

/-- Left-justify in a field of `width` characters (`%-Ns`, `%-Nd`). -/
def padRight (width : Nat) (t : String) : String :=
  t ++ String.mk (List.replicate (width - t.length) ' ')

/-- The conversion `%0NX`: upper-case hex, zero-padded to `width` digits. -/
def fmtHexUpper (width : Nat) (n : Nat) : String :=
  let ds := (Nat.toDigits 16 n).map Char.toUpper
  String.mk (List.replicate (width - ds.length) '0' ++ ds)

/-! ## The interactive shell (`debugger_cli.h`, `debugger_cli.cpp`) -/

/-- The struct `CliBreakpoint` (debugger_cli.h:12-17). -/
structure CliBreakpoint where
  id : Nat
  address : Nat
  isWatch : Bool
  enabled : Bool
  deriving DecidableEq, Repr

/-- The data members of `DebuggerCli` (debugger_cli.h:21-28), the emulator it points to
included. -/
structure DebuggerCli where
  _emu : Emulator
  _primaryCpu : CpuType
  _consoleType : ConsoleType
  _breakpoints : List CliBreakpoint
  _nextBreakpointId : Nat
  _jsonOutput : Bool
  _quit : Bool
  deriving DecidableEq, Repr

namespace DebuggerCli

/-- The constructor `DebuggerCli::DebuggerCli`: no breakpoints, id counter 1. -/
def new (emu : Emulator) (primaryCpu : CpuType) (consoleType : ConsoleType)
    (jsonOutput : Bool) : DebuggerCli :=
  { _emu := emu, _primaryCpu := primaryCpu, _consoleType := consoleType,
    _breakpoints := [], _nextBreakpointId := 1, _jsonOutput := jsonOutput, _quit := false }

/-- The method `AddInitialBreakpoint` (debugger_cli.cpp:46-54). -/
def AddInitialBreakpoint (cli : DebuggerCli) (addr : Nat) : DebuggerCli :=
  let bp : CliBreakpoint :=
    { id := cli._nextBreakpointId, address := addr, isWatch := false, enabled := true }
  { cli with
    _nextBreakpointId := toU32 (cli._nextBreakpointId + 1),
    _breakpoints := cli._breakpoints ++ [bp] }

/-- The loop body of `SyncBreakpoints` (debugger_cli.cpp:96-112) for one enabled entry. -/
def translate (primaryCpu : CpuType) (cpuMemType : MemoryType) (cbp : CliBreakpoint) :
    Breakpoint :=
  { id := cbp.id,
    cpuType := primaryCpu,
    memoryType := cpuMemType,
    type := if cbp.isWatch then BreakpointTypeFlags.Write else BreakpointTypeFlags.Execute,
    startAddr := toI32 cbp.address,
    endAddr := toI32 cbp.address,
    enabled := true,
    markEvent := false,
    ignoreDummyOperations := false,
    condition := [] }

/-- The vector `bps` that `SyncBreakpoints` builds (debugger_cli.cpp:92-113). -/
def buildBreakpoints (primaryCpu : CpuType) (cpuMemType : MemoryType) :
    List CliBreakpoint → List Breakpoint
  | [] => []
  | cbp :: rest =>
    if !cbp.enabled then buildBreakpoints primaryCpu cpuMemType rest
    else translate primaryCpu cpuMemType cbp :: buildBreakpoints primaryCpu cpuMemType rest

/-- The method `SyncBreakpoints` (debugger_cli.cpp:87-120). `GetCpuMemoryType` is
`DebugUtilities::GetCpuMemoryType`, which is not among the sources. -/
def SyncBreakpoints (GetCpuMemoryType : CpuType → MemoryType) (cli : DebuggerCli) :
    DebuggerCli :=
  let cpuMemType := GetCpuMemoryType cli._primaryCpu
  let bps := buildBreakpoints cli._primaryCpu cpuMemType cli._breakpoints
  match cli._emu.debugger with
  | some dbg => { cli with _emu := { debugger := some (dbg.SetBreakpoints bps) } }
  | none => cli

/-- The method `CmdBreak` (debugger_cli.cpp:204-214); the second component is the text
printed. -/
def CmdBreak (GetCpuMemoryType : CpuType → MemoryType) (cli : DebuggerCli) (addr : Nat) :
    DebuggerCli × String :=
  let bp : CliBreakpoint :=
    { id := cli._nextBreakpointId, address := addr, isWatch := false, enabled := true }
  let cli1 := { cli with
    _nextBreakpointId := toU32 (cli._nextBreakpointId + 1),
    _breakpoints := cli._breakpoints ++ [bp] }
  (SyncBreakpoints GetCpuMemoryType cli1,
    "Breakpoint " ++ fmtDec (toI32 bp.id) ++ " at $" ++ fmtHexUpper 6 addr ++ "\n")

/-- The method `CmdWatch` (debugger_cli.cpp:216-226). -/
def CmdWatch (GetCpuMemoryType : CpuType → MemoryType) (cli : DebuggerCli) (addr : Nat) :
    DebuggerCli × String :=
  let bp : CliBreakpoint :=
    { id := cli._nextBreakpointId, address := addr, isWatch := true, enabled := true }
  let cli1 := { cli with
    _nextBreakpointId := toU32 (cli._nextBreakpointId + 1),
    _breakpoints := cli._breakpoints ++ [bp] }
  (SyncBreakpoints GetCpuMemoryType cli1,
    "Watchpoint " ++ fmtDec (toI32 bp.id) ++ " at $" ++ fmtHexUpper 6 addr ++ " (write)\n")

/-- The call `std::remove_if` followed by `erase` in `CmdDelete`: the entries whose id is not
`id`, in their order. -/
def removeId (id : Nat) : List CliBreakpoint → List CliBreakpoint
  | [] => []
  | bp :: rest => if bp.id = id then removeId id rest else bp :: removeId id rest

/-- The method `CmdDelete` (debugger_cli.cpp:228-239). `remove_if` returns `end()` exactly
when no entry is removed. -/
def CmdDelete (GetCpuMemoryType : CpuType → MemoryType) (cli : DebuggerCli) (id : Nat) :
    DebuggerCli × String :=
  let kept := removeId id cli._breakpoints
  if kept.length = cli._breakpoints.length then
    (cli, "No breakpoint " ++ fmtDec (toI32 id) ++ "\n")
  else
    (SyncBreakpoints GetCpuMemoryType { cli with _breakpoints := kept },
      "Deleted breakpoint " ++ fmtDec (toI32 id) ++ "\n")

/-- One row of the listing of `CmdInfoBreak` (debugger_cli.cpp:249-252). -/
def infoBreakRow (bp : CliBreakpoint) : String :=
  padRight 4 (fmtDec (toI32 bp.id)) ++ " " ++
    padRight 6 (if bp.isWatch then "watch" else "break") ++ " $" ++
    fmtHexUpper 6 bp.address ++ "  " ++ (if bp.enabled then "yes" else "no") ++ "\n"

/-- The method `CmdInfoBreak` (debugger_cli.cpp:241-254): the text printed. -/
def CmdInfoBreak (cli : DebuggerCli) : String :=
  if cli._breakpoints.isEmpty then "No breakpoints.\n"
  else
    cli._breakpoints.foldl (fun out bp => out ++ infoBreakRow bp)
      (padRight 4 "ID" ++ " " ++ padRight 6 "Type" ++ " " ++ padRight 8 "Address" ++ " " ++
        "Enabled" ++ "\n")

end DebuggerCli

/-! ## The batch runner (`batch_runner.h`, `batch_runner.cpp`) -/

/-- The call `std::stoi(s)` in the given base: `strtol`, then the range check of `int`. -/
def stoi (s : List Char) (base : Nat) : Except StdException Int :=
  let signed := takeSign (skipSpaces s)
  let ds := takeDigits base (skipHexPrefix base signed.2)
  if ds = [] then Except.error StdException.invalid_argument
  else
    let v : Int := if signed.1 then -((digitsValue base ds : Nat) : Int) else (digitsValue base ds : Nat)
    if v < -(2 ^ 31) ∨ 2 ^ 31 ≤ v then Except.error StdException.out_of_range
    else Except.ok v

/-- Conversion to `uint16_t`. -/
def toU16 (n : Nat) : Nat := n % 2 ^ 16

/-- The C `tolower` on an ASCII character. -/
def tolower (c : Char) : Char :=
  if 65 ≤ c.toNat ∧ c.toNat ≤ 90 then Char.ofNat (c.toNat + 32) else c

/-- The function `iequals` (batch_runner.cpp:41-48). -/
def iequals : List Char → List Char → Bool
  | [], [] => true
  | a :: as, b :: bs => if tolower a ≠ tolower b then false else iequals as bs
  | _, _ => false

/-- Modelled from the spec: the CPU state structs are declared in the per-console headers
(`NES/NesTypes.h` and so on), which are not among the sources; each holds the members the
front end reads, as numbers. -/
structure NesCpuState where
  PC : Nat := 0
  SP : Nat := 0
  A : Nat := 0
  X : Nat := 0
  Y : Nat := 0
  PS : Nat := 0
  CycleCount : Nat := 0

/-- Modelled from the spec: see `NesCpuState`. -/
structure SnesCpuState where
  CycleCount : Nat := 0
  A : Nat := 0
  X : Nat := 0
  Y : Nat := 0
  SP : Nat := 0
  D : Nat := 0
  PC : Nat := 0
  K : Nat := 0
  DBR : Nat := 0
  PS : Nat := 0
  StopState : Nat := 0

/-- Modelled from the spec: see `NesCpuState`. -/
structure GbCpuState where
  CycleCount : Nat := 0
  PC : Nat := 0
  SP : Nat := 0
  A : Nat := 0
  Flags : Nat := 0
  B : Nat := 0
  C : Nat := 0
  D : Nat := 0
  E : Nat := 0
  H : Nat := 0
  L : Nat := 0

/-- Modelled from the spec: the enum `GbaCpuMode` is declared in `GBA/GbaTypes.h`, which is
not among the sources; these are the enumerators `GbaModeName` lists, and `Other` stands for
a value that is none of them. -/
inductive GbaCpuMode where
  | User | Fiq | Irq | Supervisor | Abort | Undefined | System
  | Other (code : Nat)
  deriving DecidableEq, Repr

/-- Modelled from the spec: the struct `GbaCpuFlags` is declared in `GBA/GbaTypes.h`, which is
not among the sources; it holds the members the formatter reads, and `ToInt32` is what its
method `ToInt32()` returns. -/
structure GbaCpuFlags where
  Mode : GbaCpuMode := GbaCpuMode.User
  Thumb : Bool := false
  Overflow : Bool := false
  Carry : Bool := false
  Zero : Bool := false
  Negative : Bool := false
  ToInt32 : Nat := 0

/-- Modelled from the spec: see `NesCpuState`; `R i` is the array element `R[i]`. -/
structure GbaCpuState where
  R : Nat → Nat := fun _ => 0
  CycleCount : Nat := 0
  CPSR : GbaCpuFlags := {}

/-- Modelled from the spec: see `NesCpuState`. -/
structure PceCpuState where
  CycleCount : Nat := 0
  PC : Nat := 0
  SP : Nat := 0
  A : Nat := 0
  X : Nat := 0
  Y : Nat := 0
  PS : Nat := 0

/-- Modelled from the spec: see `NesCpuState`. -/
structure SmsCpuState where
  CycleCount : Nat := 0
  PC : Nat := 0
  SP : Nat := 0
  A : Nat := 0
  Flags : Nat := 0
  B : Nat := 0
  C : Nat := 0
  D : Nat := 0
  E : Nat := 0
  H : Nat := 0
  L : Nat := 0
  IXL : Nat := 0
  IXH : Nat := 0
  IYL : Nat := 0
  IYH : Nat := 0
  I : Nat := 0
  R : Nat := 0

/-- Modelled from the spec: the struct `WsCpuFlags` is declared in `WS/WsTypes.h`, which is
not among the sources; it holds the members the formatter reads, and `Get` is what its method
`Get()` returns. -/
structure WsCpuFlags where
  Carry : Bool := false
  Parity : Bool := false
  AuxCarry : Bool := false
  Zero : Bool := false
  Sign : Bool := false
  Trap : Bool := false
  Irq : Bool := false
  Direction : Bool := false
  Overflow : Bool := false
  Get : Nat := 0

/-- Modelled from the spec: see `NesCpuState`. -/
structure WsCpuState where
  CycleCount : Nat := 0
  CS : Nat := 0
  IP : Nat := 0
  SS : Nat := 0
  SP : Nat := 0
  BP : Nat := 0
  DS : Nat := 0
  ES : Nat := 0
  SI : Nat := 0
  DI : Nat := 0
  AX : Nat := 0
  BX : Nat := 0
  CX : Nat := 0
  DX : Nat := 0
  Flags : WsCpuFlags := {}

/-- The 512-byte `stateBuffer`, as each `reinterpret_cast` of it reads it. -/
structure StateBuffer where
  nes : NesCpuState := {}
  snes : SnesCpuState := {}
  gb : GbCpuState := {}
  gba : GbaCpuState := {}
  pce : PceCpuState := {}
  sms : SmsCpuState := {}
  ws : WsCpuState := {}

/-- A chain `if(iequals(name, "A")) return s.A; ...`: the value of the first entry whose
name matches, converted to the `uint16_t` result. -/
def firstMatch (name : List Char) : List (String × Nat) → Option Nat
  | [] => none
  | (reg, value) :: rest =>
    if iequals name reg.toList then some (toU16 value) else firstMatch name rest

/-- The method `BatchRunner::GetRegisterValue` (batch_runner.cpp:50-154): the returned value
and the `found` flag, or the exception that leaves the function. -/
def GetRegisterValue (primaryCpu : CpuType) (name : List Char) (stateBuffer : StateBuffer) :
    Except StdException (Nat × Bool) :=
  let notFound : Except StdException (Nat × Bool) := Except.ok (0, false)
  let chain (table : List (String × Nat)) : Except StdException (Nat × Bool) :=
    match firstMatch name table with
    | some v => Except.ok (v, true)
    | none => notFound
  match primaryCpu with
  | CpuType.Nes =>
    let s := stateBuffer.nes
    chain [("A", s.A), ("X", s.X), ("Y", s.Y), ("SP", s.SP), ("PC", s.PC), ("PS", s.PS)]
  | CpuType.Snes | CpuType.Sa1 =>
    let s := stateBuffer.snes
    chain [("A", s.A), ("X", s.X), ("Y", s.Y), ("SP", s.SP), ("D", s.D), ("DBR", s.DBR),
      ("PS", s.PS), ("PC", s.PC), ("K", s.K)]
  | CpuType.Gameboy =>
    let s := stateBuffer.gb
    chain [("A", s.A), ("F", s.Flags), ("B", s.B), ("C", s.C), ("D", s.D), ("E", s.E),
      ("H", s.H), ("L", s.L), ("SP", s.SP), ("PC", s.PC)]
  | CpuType.Gba =>
    let s := stateBuffer.gba
    let rest := chain [("SP", s.R 13), ("LR", s.R 14), ("PC", s.R 15)]
    if name.length ≥ 2 ∧ (name.head? = some 'R' ∨ name.head? = some 'r') then
      match stoi (name.drop 1) 10 with
      | Except.error e => Except.error e
      | Except.ok idx =>
        if idx ≥ 0 ∧ idx ≤ 15 then Except.ok (toU16 (s.R idx.toNat), true) else rest
    else rest
  | CpuType.Pce =>
    let s := stateBuffer.pce
    chain [("A", s.A), ("X", s.X), ("Y", s.Y), ("SP", s.SP), ("PC", s.PC), ("PS", s.PS)]
  | CpuType.Sms =>
    let s := stateBuffer.sms
    chain [("A", s.A), ("F", s.Flags), ("B", s.B), ("C", s.C), ("D", s.D), ("E", s.E),
      ("H", s.H), ("L", s.L), ("SP", s.SP), ("PC", s.PC),
      ("IX", (s.IXH <<< 8) ||| s.IXL), ("IY", (s.IYH <<< 8) ||| s.IYL)]
  | CpuType.Ws =>
    let s := stateBuffer.ws
    chain [("AX", s.AX), ("BX", s.BX), ("CX", s.CX), ("DX", s.DX), ("SP", s.SP), ("BP", s.BP),
      ("SI", s.SI), ("DI", s.DI), ("CS", s.CS), ("IP", s.IP), ("DS", s.DS), ("ES", s.ES),
      ("SS", s.SS)]
  | _ => notFound

/-- The enum `BatchAssertion::Type`. -/
inductive AssertionType where
  | Reg
  | Mem
  deriving DecidableEq, Repr

/-- The struct `BatchAssertion` (batch_runner.h:12-19). -/
structure BatchAssertion where
  type : AssertionType
  name : List Char
  address : Nat
  expected : Nat
  size : Nat
  deriving DecidableEq, Repr

/-- The struct `MemoryDump` (batch_runner.h:21-24). -/
structure MemoryDump where
  memType : Int
  filename : String
  deriving DecidableEq, Repr

/-- The data members of `BatchRunner` (batch_runner.h:27-35), with the state of the listener
it points to. -/
structure BatchRunner where
  _listener : CliNotificationListener
  _primaryCpu : CpuType
  _consoleType : ConsoleType
  _jsonOutput : Bool
  _timeoutMs : Int
  _assertions : List BatchAssertion
  _dumps : List MemoryDump

/-- What the emulator, the core debugger and the file system answer during one
`BatchRunner::Run`: whether `GetDebugger` yields a debugger at each of its calls (at the
start, after the wait, for the dump at a position, for the memory assertion at a position),
the notifications processed during the wait, the snapshot `GetCpuState` writes, and the
memory dumper's answers. -/
structure BatchWorld where
  dbgAtStart : Bool
  arriving : List ConsoleNotificationType
  dbgAfterWait : Bool
  stateBuffer : StateBuffer
  dbgAtDump : Nat → Bool
  GetMemorySize : Int → Nat
  GetMemoryState : Int → List Nat
  fileOpens : String → Bool
  dbgAtCheck : Nat → Bool
  GetMemoryValue : MemoryType → Nat → Nat
  GetMemoryValue16 : MemoryType → Nat → Nat

/-- What a run writes: standard output, standard error, and the files of the dumps. -/
structure Streams where
  stdout : String := ""
  stderr : String := ""
  files : List (String × List Nat) := []
  deriving DecidableEq, Repr

/-- How a call ends: it returns a value, an exception leaves it, or it never returns. -/
inductive Outcome (α : Type) where
  | returned (a : α)
  | threw (e : StdException)
  | blocked

/-- The dump loop of `BatchRunner::Run` (batch_runner.cpp:199-223), from position `i` on. -/
def runDumps (w : BatchWorld) (jsonOutput : Bool) : List MemoryDump → Nat → Streams → Streams
  | [], _, io => io
  | d :: rest, i, io =>
    if !w.dbgAtDump i then runDumps w jsonOutput rest (i + 1) io
    else
      let size := toU32 (w.GetMemorySize d.memType)
      if size = 0 then
        runDumps w jsonOutput rest (i + 1)
          { io with stderr := io.stderr ++ "Warning: memory type not available for dump to " ++
              d.filename ++ "\n" }
      else
        let buf := w.GetMemoryState d.memType
        if !w.fileOpens d.filename then
          runDumps w jsonOutput rest (i + 1)
            { io with stderr := io.stderr ++ "Error: could not open " ++ d.filename ++
                " for writing\n" }
        else
          let io1 := { io with files := io.files ++ [(d.filename, buf)] }
          if !jsonOutput then
            runDumps w jsonOutput rest (i + 1)
              { io1 with stderr := io1.stderr ++ "Dumped " ++ fmtDec size ++ " bytes to " ++
                  d.filename ++ "\n" }
          else runDumps w jsonOutput rest (i + 1) io1

/-- The comparison at the end of the assertion loop body (batch_runner.cpp:261-274). -/
def report (jsonOutput : Bool) (label : String) (actual expected : Nat)
    (acc : Bool × Streams) : Bool × Streams :=
  if actual ≠ expected then
    let line :=
      if jsonOutput then
        "\x7b\"assertion_failed\":\"" ++ label ++ "\",\"expected\":" ++ fmtDec expected ++
          ",\"actual\":" ++ fmtDec actual ++ "\x7d\n"
      else
        "FAIL: " ++ label ++ " = $" ++ fmtHexUpper 4 actual ++ " (expected $" ++
          fmtHexUpper 4 expected ++ ")\n"
    (false, { acc.2 with stderr := acc.2.stderr ++ line })
  else
    if !jsonOutput then
      let line := "PASS: " ++ label ++ " = $" ++ fmtHexUpper 4 actual ++ "\n"
      (acc.1, { acc.2 with stdout := acc.2.stdout ++ line })
    else acc

/-- The assertion loop of `BatchRunner::Run` (batch_runner.cpp:232-275), from position `i`
on; the accumulator holds `allPassed` and the output so far. -/
def runChecks (w : BatchWorld) (primaryCpu : CpuType) (jsonOutput : Bool)
    (cpuMemType : MemoryType) :
    List BatchAssertion → Nat → Bool × Streams → Except StdException (Bool × Streams)
  | [], _, acc => Except.ok acc
  | check :: rest, i, acc =>
    if check.type = AssertionType.Reg then
      match GetRegisterValue primaryCpu check.name w.stateBuffer with
      | Except.error e => Except.error e
      | Except.ok (actual, found) =>
        if !found then
          let line := "Unknown register: " ++ String.mk check.name ++ "\n"
          runChecks w primaryCpu jsonOutput cpuMemType rest (i + 1)
            (false, { acc.2 with stderr := acc.2.stderr ++ line })
        else
          runChecks w primaryCpu jsonOutput cpuMemType rest (i + 1)
            (report jsonOutput (String.mk check.name) actual check.expected acc)
    else
      let label := "[$" ++ fmtHexUpper 6 check.address ++ "]"
      if !w.dbgAtCheck i then
        runChecks w primaryCpu jsonOutput cpuMemType rest (i + 1) (false, acc.2)
      else
        let actual :=
          if check.size = 2 then toU16 (w.GetMemoryValue16 cpuMemType check.address)
          else w.GetMemoryValue cpuMemType check.address % 2 ^ 8
        runChecks w primaryCpu jsonOutput cpuMemType rest (i + 1)
          (report jsonOutput label actual check.expected acc)

/-- What `BatchRunner::Run` leaves behind when it returns. -/
structure RunResult where
  exitCode : Int
  io : Streams
  listener : CliNotificationListener
  deriving DecidableEq, Repr

/-- The method `BatchRunner::Run` (batch_runner.cpp:156-278). `GetCpuMemoryType` is
`DebugUtilities::GetCpuMemoryType`; `FormatRegisters` and `FormatRegistersJson` are the
formatter's renderings of the snapshot. -/
def BatchRunner.Run (GetCpuMemoryType : CpuType → MemoryType)
    (FormatRegisters FormatRegistersJson : CpuType → StateBuffer → String)
    (w : BatchWorld) (r : BatchRunner) : Outcome RunResult :=
  if !w.dbgAtStart then
    Outcome.returned
      { exitCode := 2, io := { stderr := "Error: debugger not initialized\n" },
        listener := r._listener }
  else
    match r._listener.Reset.WaitForBreak r._timeoutMs w.arriving with
    | none => Outcome.blocked
    | some (hitBreak, listener) =>
      if !hitBreak then
        Outcome.returned
          { exitCode := 2,
            io := { stderr := "Error: timeout after " ++ fmtDec r._timeoutMs ++ "ms\n" },
            listener := listener }
      else if !w.dbgAfterWait then
        Outcome.returned
          { exitCode := 2, io := { stderr := "Error: debugger lost\n" }, listener := listener }
      else
        let text :=
          if r._jsonOutput then FormatRegistersJson r._primaryCpu w.stateBuffer
          else FormatRegisters r._primaryCpu w.stateBuffer
        let io := runDumps w r._jsonOutput r._dumps 0 { stdout := text ++ "\n" }
        if r._assertions.isEmpty then
          Outcome.returned { exitCode := 0, io := io, listener := listener }
        else
          let cpuMemType := GetCpuMemoryType r._primaryCpu
          match runChecks w r._primaryCpu r._jsonOutput cpuMemType r._assertions 0 (true, io) with
          | Except.error e => Outcome.threw e
          | Except.ok (allPassed, io1) =>
            Outcome.returned
              { exitCode := if allPassed then 0 else 1, io := io1, listener := listener }

/-! ## Reachable shell states and the reading of a batch assertion -/

/-- The shell states reached from construction through `AddInitialBreakpoint`, `break`,
`watch` and `delete`, with the number of breakpoints created on the way; between two
commands the emulator may change in any way. -/
inductive ReachableIn (GetCpuMemoryType : CpuType → MemoryType) : Nat → DebuggerCli → Prop where
  | init (emu : Emulator) (primaryCpu : CpuType) (consoleType : ConsoleType)
      (jsonOutput : Bool) :
      ReachableIn GetCpuMemoryType 0 (DebuggerCli.new emu primaryCpu consoleType jsonOutput)
  | addInitial {n : Nat} {cli : DebuggerCli} (addr : Nat) :
      ReachableIn GetCpuMemoryType n cli →
      ReachableIn GetCpuMemoryType (n + 1) (cli.AddInitialBreakpoint addr)
  | cmdBreak {n : Nat} {cli : DebuggerCli} (addr : Nat) :
      ReachableIn GetCpuMemoryType n cli →
      ReachableIn GetCpuMemoryType (n + 1) (DebuggerCli.CmdBreak GetCpuMemoryType cli addr).1
  | cmdWatch {n : Nat} {cli : DebuggerCli} (addr : Nat) :
      ReachableIn GetCpuMemoryType n cli →
      ReachableIn GetCpuMemoryType (n + 1) (DebuggerCli.CmdWatch GetCpuMemoryType cli addr).1
  | cmdDelete {n : Nat} {cli : DebuggerCli} (id : Nat) :
      ReachableIn GetCpuMemoryType n cli →
      ReachableIn GetCpuMemoryType n (DebuggerCli.CmdDelete GetCpuMemoryType cli id).1
  | emulator {n : Nat} {cli : DebuggerCli} (emu : Emulator) :
      ReachableIn GetCpuMemoryType n cli →
      ReachableIn GetCpuMemoryType n { cli with _emu := emu }

/-- The assertion at position `i` of the list passes: its actual value is resolved (the
register is found, the debugger is there for the memory read) and equals the expected
value. -/
def assertionPasses (GetCpuMemoryType : CpuType → MemoryType) (w : BatchWorld)
    (primaryCpu : CpuType) (i : Nat) (check : BatchAssertion) : Bool :=
  match check.type with
  | AssertionType.Reg =>
    match GetRegisterValue primaryCpu check.name w.stateBuffer with
    | Except.ok (actual, found) => found && decide (actual = check.expected)
    | Except.error _ => false
  | AssertionType.Mem =>
    w.dbgAtCheck i &&
      decide ((if check.size = 2 then
          toU16 (w.GetMemoryValue16 (GetCpuMemoryType primaryCpu) check.address)
        else w.GetMemoryValue (GetCpuMemoryType primaryCpu) check.address % 2 ^ 8) =
        check.expected)

/-- The register lookup of the assertion completes without an exception. -/
def lookupCompletes (w : BatchWorld) (primaryCpu : CpuType) (check : BatchAssertion) : Bool :=
  match check.type with
  | AssertionType.Reg =>
    match GetRegisterValue primaryCpu check.name w.stateBuffer with
    | Except.ok _ => true
    | Except.error _ => false
  | AssertionType.Mem => true

/-- A world for examples: the debugger is always there, the notifications in `arriving`
come in during the wait, the NES snapshot holds `A = $12`, memory reads return the low byte
of the address, and every region has four bytes. -/
def sampleWorld (arriving : List ConsoleNotificationType) : BatchWorld :=
  { dbgAtStart := true,
    arriving := arriving,
    dbgAfterWait := true,
    stateBuffer := { nes := { A := 0x12 } },
    dbgAtDump := fun _ => true,
    GetMemorySize := fun _ => 4,
    GetMemoryState := fun _ => [1, 2, 3, 4],
    fileOpens := fun _ => true,
    dbgAtCheck := fun _ => true,
    GetMemoryValue := fun _ addr => addr % 256,
    GetMemoryValue16 := fun _ addr => addr % 65536 }

/-- A batch runner for examples, in text mode, with a fresh listener and no dumps. -/
def sampleRunner (primaryCpu : CpuType) (timeoutMs : Int) (assertions : List BatchAssertion) :
    BatchRunner :=
  { _listener := {},
    _primaryCpu := primaryCpu,
    _consoleType := ConsoleType.Nes,
    _jsonOutput := false,
    _timeoutMs := timeoutMs,
    _assertions := assertions,
    _dumps := [] }

/-! ## The formatter (`formatter.cpp`) -/

/-- The conversion `%0Nx`: lower-case hex, zero-padded to `width` digits. -/
def fmtHexLower (width : Nat) (n : Nat) : String :=
  let ds := Nat.toDigits 16 n
  String.mk (List.replicate (width - ds.length) '0' ++ ds)

/-- What `snprintf(buf, size, ...)` leaves in the buffer: the text, cut after `size - 1`
characters. -/
def snprintf (size : Nat) (text : String) : String :=
  String.mk (text.data.take (size - 1))

/-- The choice `(value & mask) ? set : clear`. -/
def flagChar (value mask : Nat) (set clear : Char) : Char :=
  if value &&& mask ≠ 0 then set else clear

/-- The choice `(value & mask) ? "true" : "false"`. -/
def flagJson (value mask : Nat) : String :=
  if value &&& mask ≠ 0 then "true" else "false"

/-- The choice `b ? "true" : "false"`. -/
def boolJson (b : Bool) : String :=
  if b then "true" else "false"

/-- Conversion to `unsigned long`. -/
def toULong (n : Nat) : Nat := n % 2 ^ ULONG_BITS

namespace PSFlags

/-- Modelled from the spec: the masks of `PSFlags` are declared in `NES/NesTypes.h`, which is
not among the sources; they are the bits of the 6502 status byte, in the order
N V 1 B D I Z C from bit 7 down to bit 0. -/
def Carry : Nat := 0x01

/-- Modelled from the spec: see `PSFlags.Carry`. -/
def Zero : Nat := 0x02

/-- Modelled from the spec: see `PSFlags.Carry`. -/
def Interrupt : Nat := 0x04

/-- Modelled from the spec: see `PSFlags.Carry`. -/
def Decimal : Nat := 0x08

/-- Modelled from the spec: see `PSFlags.Carry`. -/
def Break : Nat := 0x10

/-- Modelled from the spec: see `PSFlags.Carry`. -/
def Reserved : Nat := 0x20

/-- Modelled from the spec: see `PSFlags.Carry`. -/
def Overflow : Nat := 0x40

/-- Modelled from the spec: see `PSFlags.Carry`. -/
def Negative : Nat := 0x80

end PSFlags

namespace ProcFlags

/-- Modelled from the spec: the masks of `ProcFlags` are declared in `SNES/SnesCpuTypes.h`,
which is not among the sources; they are the bits of the 65816 status byte, in the order
N V M X D I Z C from bit 7 down to bit 0. -/
def Carry : Nat := 0x01

/-- Modelled from the spec: see `ProcFlags.Carry`. -/
def Zero : Nat := 0x02

/-- Modelled from the spec: see `ProcFlags.Carry`. -/
def IrqDisable : Nat := 0x04

/-- Modelled from the spec: see `ProcFlags.Carry`. -/
def Decimal : Nat := 0x08

/-- Modelled from the spec: see `ProcFlags.Carry`. -/
def IndexMode8 : Nat := 0x10

/-- Modelled from the spec: see `ProcFlags.Carry`. -/
def MemoryMode8 : Nat := 0x20

/-- Modelled from the spec: see `ProcFlags.Carry`. -/
def Overflow : Nat := 0x40

/-- Modelled from the spec: see `ProcFlags.Carry`. -/
def Negative : Nat := 0x80

end ProcFlags

namespace GbCpuFlags

/-- Modelled from the spec: the masks of `GbCpuFlags` are declared in `Gameboy/GbTypes.h`,
which is not among the sources; they are the four flag bits of the LR35902, Z N H C from
bit 7 down to bit 4. -/
def Carry : Nat := 0x10

/-- Modelled from the spec: see `GbCpuFlags.Carry`. -/
def HalfCarry : Nat := 0x20

/-- Modelled from the spec: see `GbCpuFlags.Carry`. -/
def AddSub : Nat := 0x40

/-- Modelled from the spec: see `GbCpuFlags.Carry`. -/
def Zero : Nat := 0x80

end GbCpuFlags

namespace PceCpuFlags

/-- Modelled from the spec: the masks of `PceCpuFlags` are declared in `PCE/PceTypes.h`,
which is not among the sources; they are the bits of the HuC6280 status byte, in the order
N V T B D I Z C from bit 7 down to bit 0. -/
def Carry : Nat := 0x01

/-- Modelled from the spec: see `PceCpuFlags.Carry`. -/
def Zero : Nat := 0x02

/-- Modelled from the spec: see `PceCpuFlags.Carry`. -/
def Interrupt : Nat := 0x04

/-- Modelled from the spec: see `PceCpuFlags.Carry`. -/
def Decimal : Nat := 0x08

/-- Modelled from the spec: see `PceCpuFlags.Carry`. -/
def Break : Nat := 0x10

/-- Modelled from the spec: see `PceCpuFlags.Carry`. -/
def Memory : Nat := 0x20

/-- Modelled from the spec: see `PceCpuFlags.Carry`. -/
def Overflow : Nat := 0x40

/-- Modelled from the spec: see `PceCpuFlags.Carry`. -/
def Negative : Nat := 0x80

end PceCpuFlags

namespace SmsCpuFlags

/-- Modelled from the spec: the masks of `SmsCpuFlags` are declared in `SMS/SmsTypes.h`,
which is not among the sources; they are the bits of the Z80 flag byte, in the order
S Z 5 H 3 P N C from bit 7 down to bit 0. -/
def Carry : Nat := 0x01

/-- Modelled from the spec: see `SmsCpuFlags.Carry`. -/
def AddSub : Nat := 0x02

/-- Modelled from the spec: see `SmsCpuFlags.Carry`. -/
def Parity : Nat := 0x04

/-- Modelled from the spec: see `SmsCpuFlags.Carry`. -/
def F3 : Nat := 0x08

/-- Modelled from the spec: see `SmsCpuFlags.Carry`. -/
def HalfCarry : Nat := 0x10

/-- Modelled from the spec: see `SmsCpuFlags.Carry`. -/
def F5 : Nat := 0x20

/-- Modelled from the spec: see `SmsCpuFlags.Carry`. -/
def Zero : Nat := 0x40

/-- Modelled from the spec: see `SmsCpuFlags.Carry`. -/
def Sign : Nat := 0x80

end SmsCpuFlags

namespace Formatter

/-- The function `FormatNesFlags` (formatter.cpp:17-30). -/
def FormatNesFlags (ps : Nat) : String :=
  String.mk
    [flagChar ps PSFlags.Negative 'N' 'n',
     flagChar ps PSFlags.Overflow 'V' 'v',
     flagChar ps PSFlags.Reserved '1' '0',
     flagChar ps PSFlags.Break 'B' 'b',
     flagChar ps PSFlags.Decimal 'D' 'd',
     flagChar ps PSFlags.Interrupt 'I' 'i',
     flagChar ps PSFlags.Zero 'Z' 'z',
     flagChar ps PSFlags.Carry 'C' 'c']

/-- The function `FormatNesRegisters` (formatter.cpp:32-42). -/
def FormatNesRegisters (s : NesCpuState) : String :=
  snprintf 256
    ("PC=$" ++ fmtHexUpper 4 s.PC ++ "  A=$" ++ fmtHexUpper 2 s.A ++ "  X=$" ++
      fmtHexUpper 2 s.X ++ "  Y=$" ++ fmtHexUpper 2 s.Y ++ "  SP=$" ++ fmtHexUpper 2 s.SP ++
      "\nFlags: " ++ FormatNesFlags s.PS ++ "  Cycles: " ++ fmtDec (toULong s.CycleCount))

/-- The function `FormatNesRegistersJson` (formatter.cpp:44-70). -/
def FormatNesRegistersJson (s : NesCpuState) : String :=
  let ps := s.PS
  snprintf 512
    ("\x7b\"registers\":\x7b" ++
      "\"pc\":\"" ++ fmtHexLower 4 s.PC ++ "\"," ++
      "\"a\":\"" ++ fmtHexLower 2 s.A ++ "\"," ++
      "\"x\":\"" ++ fmtHexLower 2 s.X ++ "\"," ++
      "\"y\":\"" ++ fmtHexLower 2 s.Y ++ "\"," ++
      "\"sp\":\"" ++ fmtHexLower 2 s.SP ++ "\"," ++
      "\"ps\":\"" ++ fmtHexLower 2 ps ++ "\"," ++
      "\"flags\":\x7b" ++
      "\"n\":" ++ flagJson ps PSFlags.Negative ++ ",\"v\":" ++ flagJson ps PSFlags.Overflow ++
      ",\"d\":" ++ flagJson ps PSFlags.Decimal ++ ",\"i\":" ++ flagJson ps PSFlags.Interrupt ++
      ",\"z\":" ++ flagJson ps PSFlags.Zero ++ ",\"c\":" ++ flagJson ps PSFlags.Carry ++
      "\x7d\x7d," ++
      "\"cycles\":" ++ fmtDec (toULong s.CycleCount) ++
      "\x7d")

/-- The function `FormatSnesFlags` (formatter.cpp:74-87). -/
def FormatSnesFlags (ps : Nat) : String :=
  String.mk
    [flagChar ps ProcFlags.Negative 'N' 'n',
     flagChar ps ProcFlags.Overflow 'V' 'v',
     flagChar ps ProcFlags.MemoryMode8 'M' 'm',
     flagChar ps ProcFlags.IndexMode8 'X' 'x',
     flagChar ps ProcFlags.Decimal 'D' 'd',
     flagChar ps ProcFlags.IrqDisable 'I' 'i',
     flagChar ps ProcFlags.Zero 'Z' 'z',
     flagChar ps ProcFlags.Carry 'C' 'c']

/-- The function `FormatSnesRegisters` (formatter.cpp:89-106). -/
def FormatSnesRegisters (s : SnesCpuState) : String :=
  let m8 : Bool := decide (s.PS &&& ProcFlags.MemoryMode8 ≠ 0)
  let x8 : Bool := decide (s.PS &&& ProcFlags.IndexMode8 ≠ 0)
  snprintf 256
    ("PC=$" ++ fmtHexUpper 2 s.K ++ ":" ++ fmtHexUpper 4 s.PC ++ "  A=$" ++ fmtHexUpper 4 s.A ++
      "  X=$" ++ fmtHexUpper 4 s.X ++ "  Y=$" ++ fmtHexUpper 4 s.Y ++ "  SP=$" ++
      fmtHexUpper 4 s.SP ++ "  D=$" ++ fmtHexUpper 4 s.D ++ "  DBR=$" ++ fmtHexUpper 2 s.DBR ++
      "\nFlags: " ++ FormatSnesFlags s.PS ++ "  [" ++ (if m8 then "m8" else "m16") ++ " " ++
      (if x8 then "x8" else "x16") ++ "]  Cycles: " ++ fmtDec (toULong s.CycleCount))

/-- The function `FormatSnesRegistersJson` (formatter.cpp:108-143). -/
def FormatSnesRegistersJson (s : SnesCpuState) : String :=
  let ps := s.PS
  snprintf 1024
    ("\x7b\"registers\":\x7b" ++
      "\"pc\":\"" ++ fmtHexLower 2 s.K ++ fmtHexLower 4 s.PC ++ "\"," ++
      "\"a\":\"" ++ fmtHexLower 4 s.A ++ "\"," ++
      "\"x\":\"" ++ fmtHexLower 4 s.X ++ "\"," ++
      "\"y\":\"" ++ fmtHexLower 4 s.Y ++ "\"," ++
      "\"sp\":\"" ++ fmtHexLower 4 s.SP ++ "\"," ++
      "\"d\":\"" ++ fmtHexLower 4 s.D ++ "\"," ++
      "\"dbr\":\"" ++ fmtHexLower 2 s.DBR ++ "\"," ++
      "\"ps\":\"" ++ fmtHexLower 2 ps ++ "\"," ++
      "\"flags\":\x7b" ++
      "\"n\":" ++ flagJson ps ProcFlags.Negative ++ ",\"v\":" ++
      flagJson ps ProcFlags.Overflow ++ ",\"m\":" ++ flagJson ps ProcFlags.MemoryMode8 ++
      ",\"x\":" ++ flagJson ps ProcFlags.IndexMode8 ++ "," ++
      "\"d\":" ++ flagJson ps ProcFlags.Decimal ++ ",\"i\":" ++
      flagJson ps ProcFlags.IrqDisable ++ ",\"z\":" ++ flagJson ps ProcFlags.Zero ++
      ",\"c\":" ++ flagJson ps ProcFlags.Carry ++
      "\x7d\x7d," ++
      "\"cycles\":" ++ fmtDec (toULong s.CycleCount) ++ "," ++
      "\"stop_state\":" ++ fmtDec s.StopState ++
      "\x7d")

/-- The function `FormatGbFlags` (formatter.cpp:147-156). -/
def FormatGbFlags (f : Nat) : String :=
  String.mk
    [flagChar f GbCpuFlags.Zero 'Z' 'z',
     flagChar f GbCpuFlags.AddSub 'N' 'n',
     flagChar f GbCpuFlags.HalfCarry 'H' 'h',
     flagChar f GbCpuFlags.Carry 'C' 'c']

/-- The function `FormatGbRegisters` (formatter.cpp:158-169). -/
def FormatGbRegisters (s : GbCpuState) : String :=
  snprintf 256
    ("PC=$" ++ fmtHexUpper 4 s.PC ++ "  SP=$" ++ fmtHexUpper 4 s.SP ++ "  A=$" ++
      fmtHexUpper 2 s.A ++ "  F=$" ++ fmtHexUpper 2 s.Flags ++ "  B=$" ++ fmtHexUpper 2 s.B ++
      "  C=$" ++ fmtHexUpper 2 s.C ++ "  D=$" ++ fmtHexUpper 2 s.D ++ "  E=$" ++
      fmtHexUpper 2 s.E ++ "  H=$" ++ fmtHexUpper 2 s.H ++ "  L=$" ++ fmtHexUpper 2 s.L ++
      "\nFlags: " ++ FormatGbFlags s.Flags ++ "  Cycles: " ++ fmtDec (toULong s.CycleCount))

/-- The function `FormatGbRegistersJson` (formatter.cpp:171-195). -/
def FormatGbRegistersJson (s : GbCpuState) : String :=
  let f := s.Flags
  snprintf 512
    ("\x7b\"registers\":\x7b" ++
      "\"pc\":\"" ++ fmtHexLower 4 s.PC ++ "\",\"sp\":\"" ++ fmtHexLower 4 s.SP ++ "\"," ++
      "\"a\":\"" ++ fmtHexLower 2 s.A ++ "\",\"f\":\"" ++ fmtHexLower 2 f ++ "\"," ++
      "\"b\":\"" ++ fmtHexLower 2 s.B ++ "\",\"c\":\"" ++ fmtHexLower 2 s.C ++ "\"," ++
      "\"d\":\"" ++ fmtHexLower 2 s.D ++ "\",\"e\":\"" ++ fmtHexLower 2 s.E ++ "\"," ++
      "\"h\":\"" ++ fmtHexLower 2 s.H ++ "\",\"l\":\"" ++ fmtHexLower 2 s.L ++ "\"," ++
      "\"flags\":\x7b" ++
      "\"z\":" ++ flagJson f GbCpuFlags.Zero ++ ",\"n\":" ++ flagJson f GbCpuFlags.AddSub ++
      ",\"h\":" ++ flagJson f GbCpuFlags.HalfCarry ++ ",\"c\":" ++
      flagJson f GbCpuFlags.Carry ++
      "\x7d\x7d," ++
      "\"cycles\":" ++ fmtDec (toULong s.CycleCount) ++
      "\x7d")

/-- The function `GbaModeName` (formatter.cpp:199-211). -/
def GbaModeName (mode : GbaCpuMode) : String :=
  match mode with
  | GbaCpuMode.User => "USR"
  | GbaCpuMode.Fiq => "FIQ"
  | GbaCpuMode.Irq => "IRQ"
  | GbaCpuMode.Supervisor => "SVC"
  | GbaCpuMode.Abort => "ABT"
  | GbaCpuMode.Undefined => "UND"
  | GbaCpuMode.System => "SYS"
  | GbaCpuMode.Other _ => "???"

/-- One round of the loop of `FormatGbaRegisters` (formatter.cpp:217-224): the label, the
register and the line break after every fourth register. -/
def gbaRegisterText (s : GbaCpuState) (i : Nat) : String :=
  (if i = 13 then "SP=" else if i = 14 then "LR=" else if i = 15 then "PC="
    else "R" ++ fmtDec i ++ "=") ++
  "$" ++ fmtHexUpper 8 (s.R i) ++ "  " ++
  (if i = 3 ∨ i = 7 ∨ i = 11 then "\n" else "")

/-- The function `FormatGbaRegisters` (formatter.cpp:213-237). The calls of `snprintf`
write one after the other into the buffer of 512 bytes. -/
def FormatGbaRegisters (s : GbaCpuState) : String :=
  let cpsr := toU32 s.CPSR.ToInt32
  snprintf 512
    ((List.range 16).foldl (fun buf i => buf ++ gbaRegisterText s i) "" ++
      "\nCPSR=$" ++ fmtHexUpper 8 cpsr ++ "  [" ++
      String.mk [if s.CPSR.Negative then 'N' else 'n', if s.CPSR.Zero then 'Z' else 'z',
        if s.CPSR.Carry then 'C' else 'c', if s.CPSR.Overflow then 'V' else 'v'] ++
      " " ++ (if s.CPSR.Thumb then "THUMB" else "ARM") ++ " " ++ GbaModeName s.CPSR.Mode ++
      "]  Cycles: " ++ fmtDec (toULong s.CycleCount))

/-- One round of the loop of `FormatGbaRegistersJson` (formatter.cpp:243-249). -/
def gbaRegisterJson (s : GbaCpuState) (i : Nat) : String :=
  let key := snprintf 8 ("\"r" ++ fmtDec i ++ "\"")
  let val := snprintf 16 ("\"" ++ fmtHexLower 8 (s.R i) ++ "\"")
  (if i > 0 then "," else "") ++ key ++ ":" ++ val

/-- The function `FormatGbaRegistersJson` (formatter.cpp:239-270). -/
def FormatGbaRegistersJson (s : GbaCpuState) : String :=
  let cpsr := toU32 s.CPSR.ToInt32
  let extra := snprintf 256
    (",\"cpsr\":\"" ++ fmtHexLower 8 cpsr ++ "\"," ++
      "\"flags\":\x7b" ++
      "\"n\":" ++ boolJson s.CPSR.Negative ++ ",\"z\":" ++ boolJson s.CPSR.Zero ++
      ",\"c\":" ++ boolJson s.CPSR.Carry ++ ",\"v\":" ++ boolJson s.CPSR.Overflow ++ "," ++
      "\"thumb\":" ++ boolJson s.CPSR.Thumb ++ ",\"mode\":\"" ++ GbaModeName s.CPSR.Mode ++
      "\"" ++
      "\x7d\x7d," ++
      "\"cycles\":" ++ fmtDec (toULong s.CycleCount) ++
      "\x7d")
  (List.range 16).foldl (fun oss i => oss ++ gbaRegisterJson s i) "\x7b\"registers\":\x7b" ++
    extra

/-- The function `FormatPceFlags` (formatter.cpp:274-287). -/
def FormatPceFlags (ps : Nat) : String :=
  String.mk
    [flagChar ps PceCpuFlags.Negative 'N' 'n',
     flagChar ps PceCpuFlags.Overflow 'V' 'v',
     flagChar ps PceCpuFlags.Memory 'T' 't',
     flagChar ps PceCpuFlags.Break 'B' 'b',
     flagChar ps PceCpuFlags.Decimal 'D' 'd',
     flagChar ps PceCpuFlags.Interrupt 'I' 'i',
     flagChar ps PceCpuFlags.Zero 'Z' 'z',
     flagChar ps PceCpuFlags.Carry 'C' 'c']

/-- The function `FormatPceRegisters` (formatter.cpp:289-299). -/
def FormatPceRegisters (s : PceCpuState) : String :=
  snprintf 256
    ("PC=$" ++ fmtHexUpper 4 s.PC ++ "  A=$" ++ fmtHexUpper 2 s.A ++ "  X=$" ++
      fmtHexUpper 2 s.X ++ "  Y=$" ++ fmtHexUpper 2 s.Y ++ "  SP=$" ++ fmtHexUpper 2 s.SP ++
      "\nFlags: " ++ FormatPceFlags s.PS ++ "  Cycles: " ++ fmtDec (toULong s.CycleCount))

/-- The function `FormatPceRegistersJson` (formatter.cpp:301-328). -/
def FormatPceRegistersJson (s : PceCpuState) : String :=
  let ps := s.PS
  snprintf 512
    ("\x7b\"registers\":\x7b" ++
      "\"pc\":\"" ++ fmtHexLower 4 s.PC ++ "\"," ++
      "\"a\":\"" ++ fmtHexLower 2 s.A ++ "\"," ++
      "\"x\":\"" ++ fmtHexLower 2 s.X ++ "\"," ++
      "\"y\":\"" ++ fmtHexLower 2 s.Y ++ "\"," ++
      "\"sp\":\"" ++ fmtHexLower 2 s.SP ++ "\"," ++
      "\"ps\":\"" ++ fmtHexLower 2 ps ++ "\"," ++
      "\"flags\":\x7b" ++
      "\"n\":" ++ flagJson ps PceCpuFlags.Negative ++ ",\"v\":" ++
      flagJson ps PceCpuFlags.Overflow ++ ",\"t\":" ++ flagJson ps PceCpuFlags.Memory ++
      ",\"d\":" ++ flagJson ps PceCpuFlags.Decimal ++ ",\"i\":" ++
      flagJson ps PceCpuFlags.Interrupt ++ ",\"z\":" ++ flagJson ps PceCpuFlags.Zero ++
      ",\"c\":" ++ flagJson ps PceCpuFlags.Carry ++
      "\x7d\x7d," ++
      "\"cycles\":" ++ fmtDec (toULong s.CycleCount) ++
      "\x7d")

/-- The function `FormatSmsFlags` (formatter.cpp:332-345). -/
def FormatSmsFlags (f : Nat) : String :=
  String.mk
    [flagChar f SmsCpuFlags.Sign 'S' 's',
     flagChar f SmsCpuFlags.Zero 'Z' 'z',
     flagChar f SmsCpuFlags.F5 '5' '.',
     flagChar f SmsCpuFlags.HalfCarry 'H' 'h',
     flagChar f SmsCpuFlags.F3 '3' '.',
     flagChar f SmsCpuFlags.Parity 'P' 'p',
     flagChar f SmsCpuFlags.AddSub 'N' 'n',
     flagChar f SmsCpuFlags.Carry 'C' 'c']

/-- The function `FormatSmsRegisters` (formatter.cpp:347-361). -/
def FormatSmsRegisters (s : SmsCpuState) : String :=
  snprintf 512
    ("PC=$" ++ fmtHexUpper 4 s.PC ++ "  SP=$" ++ fmtHexUpper 4 s.SP ++ "  A=$" ++
      fmtHexUpper 2 s.A ++ "  F=$" ++ fmtHexUpper 2 s.Flags ++ "  B=$" ++ fmtHexUpper 2 s.B ++
      "  C=$" ++ fmtHexUpper 2 s.C ++ "  D=$" ++ fmtHexUpper 2 s.D ++ "  E=$" ++
      fmtHexUpper 2 s.E ++ "  H=$" ++ fmtHexUpper 2 s.H ++ "  L=$" ++ fmtHexUpper 2 s.L ++
      "\nIX=$" ++ fmtHexUpper 2 s.IXH ++ fmtHexUpper 2 s.IXL ++ "  IY=$" ++
      fmtHexUpper 2 s.IYH ++ fmtHexUpper 2 s.IYL ++ "  I=$" ++ fmtHexUpper 2 s.I ++ "  R=$" ++
      fmtHexUpper 2 s.R ++
      "\nFlags: " ++ FormatSmsFlags s.Flags ++ "  Cycles: " ++ fmtDec (toULong s.CycleCount))

/-- The function `FormatSmsRegistersJson` (formatter.cpp:363-393). -/
def FormatSmsRegistersJson (s : SmsCpuState) : String :=
  let f := s.Flags
  snprintf 1024
    ("\x7b\"registers\":\x7b" ++
      "\"pc\":\"" ++ fmtHexLower 4 s.PC ++ "\",\"sp\":\"" ++ fmtHexLower 4 s.SP ++ "\"," ++
      "\"a\":\"" ++ fmtHexLower 2 s.A ++ "\",\"f\":\"" ++ fmtHexLower 2 f ++ "\"," ++
      "\"b\":\"" ++ fmtHexLower 2 s.B ++ "\",\"c\":\"" ++ fmtHexLower 2 s.C ++ "\"," ++
      "\"d\":\"" ++ fmtHexLower 2 s.D ++ "\",\"e\":\"" ++ fmtHexLower 2 s.E ++ "\"," ++
      "\"h\":\"" ++ fmtHexLower 2 s.H ++ "\",\"l\":\"" ++ fmtHexLower 2 s.L ++ "\"," ++
      "\"ix\":\"" ++ fmtHexLower 4 ((s.IXH <<< 8) ||| s.IXL) ++ "\",\"iy\":\"" ++
      fmtHexLower 4 ((s.IYH <<< 8) ||| s.IYL) ++ "\"," ++
      "\"i\":\"" ++ fmtHexLower 2 s.I ++ "\",\"r\":\"" ++ fmtHexLower 2 s.R ++ "\"," ++
      "\"flags\":\x7b" ++
      "\"s\":" ++ flagJson f SmsCpuFlags.Sign ++ ",\"z\":" ++ flagJson f SmsCpuFlags.Zero ++
      ",\"h\":" ++ flagJson f SmsCpuFlags.HalfCarry ++ ",\"p\":" ++
      flagJson f SmsCpuFlags.Parity ++ ",\"n\":" ++ flagJson f SmsCpuFlags.AddSub ++
      ",\"c\":" ++ flagJson f SmsCpuFlags.Carry ++
      "\x7d\x7d," ++
      "\"cycles\":" ++ fmtDec (toULong s.CycleCount) ++
      "\x7d")

/-- The function `FormatWsRegisters` (formatter.cpp:397-421). -/
def FormatWsRegisters (s : WsCpuState) : String :=
  let flags := toU16 s.Flags.Get
  snprintf 512
    ("CS:IP=$" ++ fmtHexUpper 4 s.CS ++ ":" ++ fmtHexUpper 4 s.IP ++ "  AX=$" ++
      fmtHexUpper 4 s.AX ++ "  BX=$" ++ fmtHexUpper 4 s.BX ++ "  CX=$" ++ fmtHexUpper 4 s.CX ++
      "  DX=$" ++ fmtHexUpper 4 s.DX ++
      "\nSP=$" ++ fmtHexUpper 4 s.SP ++ "  BP=$" ++ fmtHexUpper 4 s.BP ++ "  SI=$" ++
      fmtHexUpper 4 s.SI ++ "  DI=$" ++ fmtHexUpper 4 s.DI ++ "  DS=$" ++ fmtHexUpper 4 s.DS ++
      "  ES=$" ++ fmtHexUpper 4 s.ES ++ "  SS=$" ++ fmtHexUpper 4 s.SS ++
      "\nFlags=$" ++ fmtHexUpper 4 flags ++ " [" ++
      String.mk [if s.Flags.Overflow then 'O' else 'o', if s.Flags.Direction then 'D' else 'd',
        if s.Flags.Irq then 'I' else 'i', if s.Flags.Trap then 'T' else 't',
        if s.Flags.Sign then 'S' else 's', if s.Flags.Zero then 'Z' else 'z',
        if s.Flags.AuxCarry then 'A' else 'a', if s.Flags.Parity then 'P' else 'p',
        if s.Flags.Carry then 'C' else 'c'] ++
      "]  Cycles: " ++ fmtDec (toULong s.CycleCount))

/-- The function `FormatWsRegistersJson` (formatter.cpp:423-458). -/
def FormatWsRegistersJson (s : WsCpuState) : String :=
  let flags := toU16 s.Flags.Get
  snprintf 1024
    ("\x7b\"registers\":\x7b" ++
      "\"cs\":\"" ++ fmtHexLower 4 s.CS ++ "\",\"ip\":\"" ++ fmtHexLower 4 s.IP ++ "\"," ++
      "\"ax\":\"" ++ fmtHexLower 4 s.AX ++ "\",\"bx\":\"" ++ fmtHexLower 4 s.BX ++ "\"," ++
      "\"cx\":\"" ++ fmtHexLower 4 s.CX ++ "\",\"dx\":\"" ++ fmtHexLower 4 s.DX ++ "\"," ++
      "\"sp\":\"" ++ fmtHexLower 4 s.SP ++ "\",\"bp\":\"" ++ fmtHexLower 4 s.BP ++ "\"," ++
      "\"si\":\"" ++ fmtHexLower 4 s.SI ++ "\",\"di\":\"" ++ fmtHexLower 4 s.DI ++ "\"," ++
      "\"ds\":\"" ++ fmtHexLower 4 s.DS ++ "\",\"es\":\"" ++ fmtHexLower 4 s.ES ++
      "\",\"ss\":\"" ++ fmtHexLower 4 s.SS ++ "\"," ++
      "\"flags\":\"" ++ fmtHexLower 4 flags ++ "\"," ++
      "\"flag_bits\":\x7b" ++
      "\"o\":" ++ boolJson s.Flags.Overflow ++ ",\"d\":" ++ boolJson s.Flags.Direction ++
      ",\"i\":" ++ boolJson s.Flags.Irq ++ ",\"t\":" ++ boolJson s.Flags.Trap ++ "," ++
      "\"s\":" ++ boolJson s.Flags.Sign ++ ",\"z\":" ++ boolJson s.Flags.Zero ++
      ",\"a\":" ++ boolJson s.Flags.AuxCarry ++ ",\"p\":" ++ boolJson s.Flags.Parity ++
      ",\"c\":" ++ boolJson s.Flags.Carry ++
      "\x7d\x7d," ++
      "\"cycles\":" ++ fmtDec (toULong s.CycleCount) ++
      "\x7d")

/-- The function `Formatter::FormatRegisters` (formatter.cpp:462-483); the casts of `state`
read the buffer as the state struct of the CPU type. -/
def FormatRegisters (cpu : CpuType) (state : StateBuffer) : String :=
  match cpu with
  | CpuType.Nes => FormatNesRegisters state.nes
  | CpuType.Snes | CpuType.Sa1 => FormatSnesRegisters state.snes
  | CpuType.Gameboy => FormatGbRegisters state.gb
  | CpuType.Gba => FormatGbaRegisters state.gba
  | CpuType.Pce => FormatPceRegisters state.pce
  | CpuType.Sms => FormatSmsRegisters state.sms
  | CpuType.Ws => FormatWsRegisters state.ws
  | _ => "[Register display not implemented for this CPU type]"

/-- The function `Formatter::FormatRegistersJson` (formatter.cpp:485-506). -/
def FormatRegistersJson (cpu : CpuType) (state : StateBuffer) : String :=
  match cpu with
  | CpuType.Nes => FormatNesRegistersJson state.nes
  | CpuType.Snes | CpuType.Sa1 => FormatSnesRegistersJson state.snes
  | CpuType.Gameboy => FormatGbRegistersJson state.gb
  | CpuType.Gba => FormatGbaRegistersJson state.gba
  | CpuType.Pce => FormatPceRegistersJson state.pce
  | CpuType.Sms => FormatSmsRegistersJson state.sms
  | CpuType.Ws => FormatWsRegistersJson state.ws
  | _ => "\x7b\"error\":\"unsupported cpu type\"\x7d"

end Formatter

/-! ## JSON values and their text -/

/-- A JSON value, as far as the formatter's output needs it: strings, non-negative
integers, booleans and objects. -/
inductive Json where
  | str (s : String)
  | num (n : Nat)
  | bool (b : Bool)
  | obj (members : List (String × Json))

namespace Json

/-- The JSON text of one character inside a string: quote and backslash are escaped,
control characters are written as `\u00XX`. -/
def escapeChar (c : Char) : List Char :=
  if c = '"' then ['\\', '"']
  else if c = '\\' then ['\\', '\\']
  else if c.toNat < 32 then
    ['\\', 'u', '0', '0', Nat.digitChar (c.toNat / 16), Nat.digitChar (c.toNat % 16)]
  else [c]

/-- The JSON text of a string, with the quotes. -/
def quote (s : String) : String :=
  "\"" ++ String.mk (s.data.flatMap escapeChar) ++ "\""

mutual

/-- The compact JSON text of a value. -/
def render : Json → String
  | str s => quote s
  | num n => String.mk (Nat.toDigits 10 n)
  | bool b => if b then "true" else "false"
  | obj members => "\x7b" ++ renderMembers members ++ "\x7d"

/-- The members of an object, separated by commas. -/
def renderMembers : List (String × Json) → String
  | [] => ""
  | [(key, value)] => quote key ++ ":" ++ render value
  | (key, value) :: next :: rest =>
    quote key ++ ":" ++ render value ++ "," ++ renderMembers (next :: rest)

end

/-- The member of an object with the given key, if the value is an object that has one. -/
def member (key : String) : Json → Option Json
  | obj members => (members.find? (fun kv => kv.1 = key)).map (fun kv => kv.2)
  | _ => none

/-- Is the value a string? -/
def isStr : Json → Bool
  | str _ => true
  | _ => false

/-- Is the value a boolean? -/
def isBool : Json → Bool
  | bool _ => true
  | _ => false

/-- Is the value a number? -/
def isNum : Json → Bool
  | num _ => true
  | _ => false

/-- Is the value an object? -/
def isObj : Json → Bool
  | obj _ => true
  | _ => false

end Json

/-- Is the character a lower-case hex digit, `0` to `9` or `a` to `f`? -/
def isLowerHexDigit (c : Char) : Bool :=
  (48 ≤ c.toNat && c.toNat ≤ 57) || (97 ≤ c.toNat && c.toNat ≤ 102)

/-- Modelled from the spec: the members of the CPU state structs are declared in the
per-console headers, which are not among the sources. A snapshot is in range for a CPU type
when each member the formatter reads fits the member's type: on NES and PCE `PC` has 16 bits
and `A`, `X`, `Y`, `SP`, `PS` have 8; on SNES and SA-1 `A`, `X`, `Y`, `SP`, `D`, `PC` have 16
bits and `K`, `DBR`, `PS`, `StopState` have 8; on Game Boy and SMS `PC` and `SP` have 16 bits
and the other registers 8; on GBA `R[0]` to `R[15]` have 32 bits; on WonderSwan every
register has 16 bits; the cycle counter has 64 bits everywhere. -/
def inRange (cpu : CpuType) (st : StateBuffer) : Bool :=
  match cpu with
  | CpuType.Nes =>
    let s := st.nes
    decide (s.PC < 2 ^ 16) && decide (s.A < 2 ^ 8) && decide (s.X < 2 ^ 8) &&
      decide (s.Y < 2 ^ 8) && decide (s.SP < 2 ^ 8) && decide (s.PS < 2 ^ 8) &&
      decide (s.CycleCount < 2 ^ 64)
  | CpuType.Snes | CpuType.Sa1 =>
    let s := st.snes
    decide (s.K < 2 ^ 8) && decide (s.PC < 2 ^ 16) && decide (s.A < 2 ^ 16) &&
      decide (s.X < 2 ^ 16) && decide (s.Y < 2 ^ 16) && decide (s.SP < 2 ^ 16) &&
      decide (s.D < 2 ^ 16) && decide (s.DBR < 2 ^ 8) && decide (s.PS < 2 ^ 8) &&
      decide (s.StopState < 2 ^ 8) && decide (s.CycleCount < 2 ^ 64)
  | CpuType.Gameboy =>
    let s := st.gb
    decide (s.PC < 2 ^ 16) && decide (s.SP < 2 ^ 16) && decide (s.A < 2 ^ 8) &&
      decide (s.Flags < 2 ^ 8) && decide (s.B < 2 ^ 8) && decide (s.C < 2 ^ 8) &&
      decide (s.D < 2 ^ 8) && decide (s.E < 2 ^ 8) && decide (s.H < 2 ^ 8) &&
      decide (s.L < 2 ^ 8) && decide (s.CycleCount < 2 ^ 64)
  | CpuType.Gba =>
    let s := st.gba
    (List.range 16).all (fun i => decide (s.R i < 2 ^ 32)) && decide (s.CycleCount < 2 ^ 64)
  | CpuType.Pce =>
    let s := st.pce
    decide (s.PC < 2 ^ 16) && decide (s.A < 2 ^ 8) && decide (s.X < 2 ^ 8) &&
      decide (s.Y < 2 ^ 8) && decide (s.SP < 2 ^ 8) && decide (s.PS < 2 ^ 8) &&
      decide (s.CycleCount < 2 ^ 64)
  | CpuType.Sms =>
    let s := st.sms
    decide (s.PC < 2 ^ 16) && decide (s.SP < 2 ^ 16) && decide (s.A < 2 ^ 8) &&
      decide (s.Flags < 2 ^ 8) && decide (s.B < 2 ^ 8) && decide (s.C < 2 ^ 8) &&
      decide (s.D < 2 ^ 8) && decide (s.E < 2 ^ 8) && decide (s.H < 2 ^ 8) &&
      decide (s.L < 2 ^ 8) && decide (s.IXH < 2 ^ 8) && decide (s.IXL < 2 ^ 8) &&
      decide (s.IYH < 2 ^ 8) && decide (s.IYL < 2 ^ 8) && decide (s.I < 2 ^ 8) &&
      decide (s.R < 2 ^ 8) && decide (s.CycleCount < 2 ^ 64)
  | CpuType.Ws =>
    let s := st.ws
    decide (s.CS < 2 ^ 16) && decide (s.IP < 2 ^ 16) && decide (s.AX < 2 ^ 16) &&
      decide (s.BX < 2 ^ 16) && decide (s.CX < 2 ^ 16) && decide (s.DX < 2 ^ 16) &&
      decide (s.SP < 2 ^ 16) && decide (s.BP < 2 ^ 16) && decide (s.SI < 2 ^ 16) &&
      decide (s.DI < 2 ^ 16) && decide (s.DS < 2 ^ 16) && decide (s.ES < 2 ^ 16) &&
      decide (s.SS < 2 ^ 16) && decide (s.CycleCount < 2 ^ 64)
  | _ => true

/-- The architectures the formatter renders: NES, SNES and SA-1, Game Boy, GBA, PCE, SMS and
WonderSwan. -/
def supported (cpu : CpuType) : Bool :=
  match cpu with
  | CpuType.Nes | CpuType.Snes | CpuType.Sa1 | CpuType.Gameboy | CpuType.Gba | CpuType.Pce
  | CpuType.Sms | CpuType.Ws => true
  | _ => false

/-- The JSON boolean of a flag mask in a status byte. -/
def flagBool (value mask : Nat) : Json :=
  Json.bool (decide (value &&& mask ≠ 0))

/-- The key of a GBA register in the JSON rendering: `r0` to `r15`. -/
def gbaKey (i : Nat) : String :=
  "r" ++ String.mk (Nat.toDigits 10 i)

/-- The registers of the JSON rendering, in order: the key and the hex text after it. -/
def jsonRegisters (cpu : CpuType) (st : StateBuffer) : List (String × String) :=
  match cpu with
  | CpuType.Nes =>
    let s := st.nes
    [("pc", fmtHexLower 4 s.PC), ("a", fmtHexLower 2 s.A), ("x", fmtHexLower 2 s.X),
     ("y", fmtHexLower 2 s.Y), ("sp", fmtHexLower 2 s.SP), ("ps", fmtHexLower 2 s.PS)]
  | CpuType.Snes | CpuType.Sa1 =>
    let s := st.snes
    [("pc", fmtHexLower 2 s.K ++ fmtHexLower 4 s.PC), ("a", fmtHexLower 4 s.A),
     ("x", fmtHexLower 4 s.X), ("y", fmtHexLower 4 s.Y), ("sp", fmtHexLower 4 s.SP),
     ("d", fmtHexLower 4 s.D), ("dbr", fmtHexLower 2 s.DBR), ("ps", fmtHexLower 2 s.PS)]
  | CpuType.Gameboy =>
    let s := st.gb
    [("pc", fmtHexLower 4 s.PC), ("sp", fmtHexLower 4 s.SP), ("a", fmtHexLower 2 s.A),
     ("f", fmtHexLower 2 s.Flags), ("b", fmtHexLower 2 s.B), ("c", fmtHexLower 2 s.C),
     ("d", fmtHexLower 2 s.D), ("e", fmtHexLower 2 s.E), ("h", fmtHexLower 2 s.H),
     ("l", fmtHexLower 2 s.L)]
  | CpuType.Gba =>
    let s := st.gba
    (List.range 16).map (fun i => (gbaKey i, fmtHexLower 8 (s.R i))) ++
      [("cpsr", fmtHexLower 8 (toU32 s.CPSR.ToInt32))]
  | CpuType.Pce =>
    let s := st.pce
    [("pc", fmtHexLower 4 s.PC), ("a", fmtHexLower 2 s.A), ("x", fmtHexLower 2 s.X),
     ("y", fmtHexLower 2 s.Y), ("sp", fmtHexLower 2 s.SP), ("ps", fmtHexLower 2 s.PS)]
  | CpuType.Sms =>
    let s := st.sms
    [("pc", fmtHexLower 4 s.PC), ("sp", fmtHexLower 4 s.SP), ("a", fmtHexLower 2 s.A),
     ("f", fmtHexLower 2 s.Flags), ("b", fmtHexLower 2 s.B), ("c", fmtHexLower 2 s.C),
     ("d", fmtHexLower 2 s.D), ("e", fmtHexLower 2 s.E), ("h", fmtHexLower 2 s.H),
     ("l", fmtHexLower 2 s.L), ("ix", fmtHexLower 4 ((s.IXH <<< 8) ||| s.IXL)),
     ("iy", fmtHexLower 4 ((s.IYH <<< 8) ||| s.IYL)), ("i", fmtHexLower 2 s.I),
     ("r", fmtHexLower 2 s.R)]
  | CpuType.Ws =>
    let s := st.ws
    [("cs", fmtHexLower 4 s.CS), ("ip", fmtHexLower 4 s.IP), ("ax", fmtHexLower 4 s.AX),
     ("bx", fmtHexLower 4 s.BX), ("cx", fmtHexLower 4 s.CX), ("dx", fmtHexLower 4 s.DX),
     ("sp", fmtHexLower 4 s.SP), ("bp", fmtHexLower 4 s.BP), ("si", fmtHexLower 4 s.SI),
     ("di", fmtHexLower 4 s.DI), ("ds", fmtHexLower 4 s.DS), ("es", fmtHexLower 4 s.ES),
     ("ss", fmtHexLower 4 s.SS), ("flags", fmtHexLower 4 (toU16 s.Flags.Get))]
  | _ => []

/-- The size in bytes and the value of each register of the JSON rendering, in order. On
SNES `pc` is the 24-bit address made of the program bank `K` and `PC`; on SMS `ix` and `iy`
are the 16-bit pairs; on WonderSwan `flags` is the flag word. -/
def registerTable (cpu : CpuType) (st : StateBuffer) : List (String × Nat × Nat) :=
  match cpu with
  | CpuType.Nes =>
    let s := st.nes
    [("pc", 2, s.PC), ("a", 1, s.A), ("x", 1, s.X), ("y", 1, s.Y), ("sp", 1, s.SP),
     ("ps", 1, s.PS)]
  | CpuType.Snes | CpuType.Sa1 =>
    let s := st.snes
    [("pc", 3, s.K * 2 ^ 16 + s.PC), ("a", 2, s.A), ("x", 2, s.X), ("y", 2, s.Y),
     ("sp", 2, s.SP), ("d", 2, s.D), ("dbr", 1, s.DBR), ("ps", 1, s.PS)]
  | CpuType.Gameboy =>
    let s := st.gb
    [("pc", 2, s.PC), ("sp", 2, s.SP), ("a", 1, s.A), ("f", 1, s.Flags), ("b", 1, s.B),
     ("c", 1, s.C), ("d", 1, s.D), ("e", 1, s.E), ("h", 1, s.H), ("l", 1, s.L)]
  | CpuType.Gba =>
    let s := st.gba
    (List.range 16).map (fun i => (gbaKey i, 4, s.R i)) ++ [("cpsr", 4, toU32 s.CPSR.ToInt32)]
  | CpuType.Pce =>
    let s := st.pce
    [("pc", 2, s.PC), ("a", 1, s.A), ("x", 1, s.X), ("y", 1, s.Y), ("sp", 1, s.SP),
     ("ps", 1, s.PS)]
  | CpuType.Sms =>
    let s := st.sms
    [("pc", 2, s.PC), ("sp", 2, s.SP), ("a", 1, s.A), ("f", 1, s.Flags), ("b", 1, s.B),
     ("c", 1, s.C), ("d", 1, s.D), ("e", 1, s.E), ("h", 1, s.H), ("l", 1, s.L),
     ("ix", 2, s.IXH * 2 ^ 8 + s.IXL), ("iy", 2, s.IYH * 2 ^ 8 + s.IYL), ("i", 1, s.I),
     ("r", 1, s.R)]
  | CpuType.Ws =>
    let s := st.ws
    [("cs", 2, s.CS), ("ip", 2, s.IP), ("ax", 2, s.AX), ("bx", 2, s.BX), ("cx", 2, s.CX),
     ("dx", 2, s.DX), ("sp", 2, s.SP), ("bp", 2, s.BP), ("si", 2, s.SI), ("di", 2, s.DI),
     ("ds", 2, s.DS), ("es", 2, s.ES), ("ss", 2, s.SS), ("flags", 2, toU16 s.Flags.Get)]
  | _ => []

/-- The key under which the JSON rendering nests the flag object in `registers`:
`flag_bits` on WonderSwan, where `flags` is the flag word, and `flags` elsewhere. -/
def flagsKey (cpu : CpuType) : String :=
  match cpu with
  | CpuType.Ws => "flag_bits"
  | _ => "flags"

/-- The members of the flag object of the JSON rendering, in order. -/
def jsonFlags (cpu : CpuType) (st : StateBuffer) : List (String × Json) :=
  match cpu with
  | CpuType.Nes =>
    let ps := st.nes.PS
    [("n", flagBool ps PSFlags.Negative), ("v", flagBool ps PSFlags.Overflow),
     ("d", flagBool ps PSFlags.Decimal), ("i", flagBool ps PSFlags.Interrupt),
     ("z", flagBool ps PSFlags.Zero), ("c", flagBool ps PSFlags.Carry)]
  | CpuType.Snes | CpuType.Sa1 =>
    let ps := st.snes.PS
    [("n", flagBool ps ProcFlags.Negative), ("v", flagBool ps ProcFlags.Overflow),
     ("m", flagBool ps ProcFlags.MemoryMode8), ("x", flagBool ps ProcFlags.IndexMode8),
     ("d", flagBool ps ProcFlags.Decimal), ("i", flagBool ps ProcFlags.IrqDisable),
     ("z", flagBool ps ProcFlags.Zero), ("c", flagBool ps ProcFlags.Carry)]
  | CpuType.Gameboy =>
    let f := st.gb.Flags
    [("z", flagBool f GbCpuFlags.Zero), ("n", flagBool f GbCpuFlags.AddSub),
     ("h", flagBool f GbCpuFlags.HalfCarry), ("c", flagBool f GbCpuFlags.Carry)]
  | CpuType.Gba =>
    let f := st.gba.CPSR
    [("n", Json.bool f.Negative), ("z", Json.bool f.Zero), ("c", Json.bool f.Carry),
     ("v", Json.bool f.Overflow), ("thumb", Json.bool f.Thumb),
     ("mode", Json.str (Formatter.GbaModeName f.Mode))]
  | CpuType.Pce =>
    let ps := st.pce.PS
    [("n", flagBool ps PceCpuFlags.Negative), ("v", flagBool ps PceCpuFlags.Overflow),
     ("t", flagBool ps PceCpuFlags.Memory), ("d", flagBool ps PceCpuFlags.Decimal),
     ("i", flagBool ps PceCpuFlags.Interrupt), ("z", flagBool ps PceCpuFlags.Zero),
     ("c", flagBool ps PceCpuFlags.Carry)]
  | CpuType.Sms =>
    let f := st.sms.Flags
    [("s", flagBool f SmsCpuFlags.Sign), ("z", flagBool f SmsCpuFlags.Zero),
     ("h", flagBool f SmsCpuFlags.HalfCarry), ("p", flagBool f SmsCpuFlags.Parity),
     ("n", flagBool f SmsCpuFlags.AddSub), ("c", flagBool f SmsCpuFlags.Carry)]
  | CpuType.Ws =>
    let f := st.ws.Flags
    [("o", Json.bool f.Overflow), ("d", Json.bool f.Direction), ("i", Json.bool f.Irq),
     ("t", Json.bool f.Trap), ("s", Json.bool f.Sign), ("z", Json.bool f.Zero),
     ("a", Json.bool f.AuxCarry), ("p", Json.bool f.Parity), ("c", Json.bool f.Carry)]
  | _ => []

/-- The cycle counter of the snapshot of a CPU type. -/
def cycleCount (cpu : CpuType) (st : StateBuffer) : Nat :=
  match cpu with
  | CpuType.Nes => st.nes.CycleCount
  | CpuType.Snes | CpuType.Sa1 => st.snes.CycleCount
  | CpuType.Gameboy => st.gb.CycleCount
  | CpuType.Gba => st.gba.CycleCount
  | CpuType.Pce => st.pce.CycleCount
  | CpuType.Sms => st.sms.CycleCount
  | CpuType.Ws => st.ws.CycleCount
  | _ => 0

/-- The top-level members of the JSON rendering after `cycles`: `stop_state` on SNES and
SA-1, none elsewhere. -/
def jsonExtra (cpu : CpuType) (st : StateBuffer) : List (String × Json) :=
  match cpu with
  | CpuType.Snes | CpuType.Sa1 => [("stop_state", Json.num st.snes.StopState)]
  | _ => []

/-- The JSON value of a snapshot: the object `registers`, holding the registers as hex
strings and after them the flag object, then the number `cycles`, then the extra members. -/
def registersJson (cpu : CpuType) (st : StateBuffer) : Json :=
  Json.obj
    ([("registers",
        Json.obj ((jsonRegisters cpu st).map (fun kt => (kt.1, Json.str kt.2)) ++
          [(flagsKey cpu, Json.obj (jsonFlags cpu st))])),
      ("cycles", Json.num (cycleCount cpu st))] ++ jsonExtra cpu st)

/-- Do the two buffers hold the same snapshot for the CPU type, that is, the same state
struct where the formatter reads it? -/
def sameSnapshot (cpu : CpuType) (a b : StateBuffer) : Prop :=
  match cpu with
  | CpuType.Nes => a.nes = b.nes
  | CpuType.Snes | CpuType.Sa1 => a.snes = b.snes
  | CpuType.Gameboy => a.gb = b.gb
  | CpuType.Gba => a.gba = b.gba
  | CpuType.Pce => a.pce = b.pce
  | CpuType.Sms => a.sms = b.sms
  | CpuType.Ws => a.ws = b.ws
  | _ => True

/-! ## Console tables (`console_info.h`) and the command line (`DapMain.cpp`) -/

namespace ConsoleInfo

/-- The struct `MemoryRegion` (console_info.h:69-73). -/
structure MemoryRegion where
  type : MemoryType
  name : String
  shortName : String
  deriving DecidableEq, Repr

/-- The function `GetConsoleName` (console_info.h:50-62). -/
def GetConsoleName (console : ConsoleType) : String :=
  match console with
  | ConsoleType.Snes => "Super Nintendo"
  | ConsoleType.Gameboy => "Game Boy"
  | ConsoleType.Nes => "Nintendo Entertainment System"
  | ConsoleType.PcEngine => "PC Engine"
  | ConsoleType.Sms => "Sega Master System"
  | ConsoleType.Gba => "Game Boy Advance"
  | ConsoleType.Ws => "WonderSwan"

/-- The function `GetMemoryRegions` (console_info.h:75-153). -/
def GetMemoryRegions (console : ConsoleType) : List MemoryRegion :=
  match console with
  | ConsoleType.Nes =>
    [⟨MemoryType.NesInternalRam, "Internal RAM", "ram"⟩,
     ⟨MemoryType.NesPrgRom, "PRG ROM", "rom"⟩,
     ⟨MemoryType.NesSaveRam, "Save RAM", "sram"⟩,
     ⟨MemoryType.NesWorkRam, "Work RAM", "wram"⟩,
     ⟨MemoryType.NesChrRam, "CHR RAM", "chr"⟩,
     ⟨MemoryType.NesChrRom, "CHR ROM", "chrrom"⟩,
     ⟨MemoryType.NesSpriteRam, "Sprite RAM", "oam"⟩,
     ⟨MemoryType.NesPaletteRam, "Palette RAM", "pal"⟩,
     ⟨MemoryType.NesNametableRam, "Nametable RAM", "nt"⟩]
  | ConsoleType.Snes =>
    [⟨MemoryType.SnesWorkRam, "Work RAM", "wram"⟩,
     ⟨MemoryType.SnesVideoRam, "Video RAM", "vram"⟩,
     ⟨MemoryType.SnesCgRam, "Palette RAM", "cgram"⟩,
     ⟨MemoryType.SnesSpriteRam, "Sprite RAM", "oam"⟩,
     ⟨MemoryType.SnesPrgRom, "PRG ROM", "rom"⟩,
     ⟨MemoryType.SnesSaveRam, "Save RAM", "sram"⟩]
  | ConsoleType.Gameboy =>
    [⟨MemoryType.GbWorkRam, "Work RAM", "wram"⟩,
     ⟨MemoryType.GbVideoRam, "Video RAM", "vram"⟩,
     ⟨MemoryType.GbCartRam, "Cart RAM", "cartram"⟩,
     ⟨MemoryType.GbHighRam, "High RAM", "hram"⟩,
     ⟨MemoryType.GbSpriteRam, "Sprite RAM", "oam"⟩,
     ⟨MemoryType.GbPrgRom, "PRG ROM", "rom"⟩]
  | ConsoleType.Gba =>
    [⟨MemoryType.GbaIntWorkRam, "Internal Work RAM", "iwram"⟩,
     ⟨MemoryType.GbaExtWorkRam, "External Work RAM", "ewram"⟩,
     ⟨MemoryType.GbaVideoRam, "Video RAM", "vram"⟩,
     ⟨MemoryType.GbaSpriteRam, "Sprite RAM", "oam"⟩,
     ⟨MemoryType.GbaPaletteRam, "Palette RAM", "pal"⟩,
     ⟨MemoryType.GbaPrgRom, "PRG ROM", "rom"⟩,
     ⟨MemoryType.GbaSaveRam, "Save RAM", "sram"⟩]
  | ConsoleType.PcEngine =>
    [⟨MemoryType.PceWorkRam, "Work RAM", "wram"⟩,
     ⟨MemoryType.PceVideoRam, "Video RAM", "vram"⟩,
     ⟨MemoryType.PcePaletteRam, "Palette RAM", "pal"⟩,
     ⟨MemoryType.PceSpriteRam, "Sprite RAM", "oam"⟩,
     ⟨MemoryType.PcePrgRom, "PRG ROM", "rom"⟩,
     ⟨MemoryType.PceSaveRam, "Save RAM", "sram"⟩,
     ⟨MemoryType.PceCdromRam, "CD-ROM RAM", "cdram"⟩,
     ⟨MemoryType.PceAdpcmRam, "ADPCM RAM", "adpcm"⟩]
  | ConsoleType.Sms =>
    [⟨MemoryType.SmsWorkRam, "Work RAM", "wram"⟩,
     ⟨MemoryType.SmsVideoRam, "Video RAM", "vram"⟩,
     ⟨MemoryType.SmsPaletteRam, "Palette RAM", "pal"⟩,
     ⟨MemoryType.SmsPrgRom, "PRG ROM", "rom"⟩,
     ⟨MemoryType.SmsCartRam, "Cart RAM", "cartram"⟩]
  | ConsoleType.Ws =>
    [⟨MemoryType.WsWorkRam, "Work RAM", "wram"⟩,
     ⟨MemoryType.WsPrgRom, "PRG ROM", "rom"⟩,
     ⟨MemoryType.WsCartRam, "Cart RAM", "cartram"⟩,
     ⟨MemoryType.WsBootRom, "Boot ROM", "bootrom"⟩,
     ⟨MemoryType.WsInternalEeprom, "Internal EEPROM", "eeprom"⟩]

end ConsoleInfo

/-- The struct `CliArgs` (DapMain.cpp:46-56). -/
structure CliArgs where
  romPath : List Char := []
  dapMode : Bool := false
  batchMode : Bool := false
  jsonOutput : Bool := false
  headless : Bool := false
  timeoutMs : Int := 10000
  breakAddresses : List Nat := []
  assertions : List BatchAssertion := []
  dumps : List MemoryDump := []
  deriving DecidableEq, Repr

/-- The function `PrintUsage` (DapMain.cpp:73-103): the text written to standard error. -/
def PrintUsage (prog : String) : String :=
  "Usage: " ++ prog ++ " [options] <rom_path>\n" ++
  "\n" ++
  "Modes:\n" ++
  "  <rom_path>              CLI interactive mode (default)\n" ++
  "  <rom_path> --batch      CLI batch mode\n" ++
  "  --dap                   DAP mode: speak DAP JSON on stdin/stdout\n" ++
  "\n" ++
  "Options:\n" ++
  "  --dap                   DAP mode (for VSCode integration)\n" ++
  "  --batch                 Batch mode (non-interactive)\n" ++
  "  --json                  JSON output (CLI/batch modes)\n" ++
  "  --headless              No SDL window (max speed)\n" ++
  "  --break <addr>          Set initial breakpoint (hex, repeatable)\n" ++
  "  --timeout <ms>          Batch timeout (default 10000)\n" ++
  "  --check-reg <R>=<V>     Assert register (batch)\n" ++
  "  --check-mem <A>=<V>     Assert memory byte (batch)\n" ++
  "  --check-mem16 <A>=<V>   Assert memory word (batch)\n" ++
  "  --dump <type> <file>    Dump memory region (batch)\n" ++
  "  --help                  Show this help\n" ++
  "\n" ++
  "Address formats: $1234, 0x1234, 1234, 00:8000\n" ++
  "\n" ++
  "Examples:\n" ++
  "  " ++ prog ++ " game.nes                          Interactive NES debugger\n" ++
  "  " ++ prog ++ " game.sfc --batch --break $8100    Run SNES to address, print state\n" ++
  "  " ++ prog ++ " --dap                             Start DAP server for VSCode\n"

/-- What `ParseArgs` returns: its result, the arguments read so far, and the text written to
standard error. -/
structure ParseResult where
  ok : Bool
  args : CliArgs
  stderr : String
  deriving DecidableEq, Repr

/-- How one round of the loop of `ParseArgs` ends: the function returns, an exception leaves
it, or the loop goes on after `used` further arguments were read with `argv[++i]`. -/
inductive ParseStep where
  | returned (res : ParseResult)
  | threw (e : StdException)
  | next (used : Nat) (args : CliArgs)
  deriving DecidableEq, Repr

/-- The body of the loop of `ParseArgs` (DapMain.cpp:108-169) for `arg = argv[i]`; `rest`
holds the arguments after it, so that `i + 1 < argc` reads `1 ≤ rest.length`. In a register
assertion `address` is left uninitialised by the source; it is 0 here. -/
def parseStep (prog : String) (arg : List Char) (rest : List (List Char)) (args : CliArgs) :
    ParseStep :=
  if arg = "--help".toList ∨ arg = "-h".toList then
    ParseStep.returned ⟨false, args, PrintUsage prog⟩
  else if arg = "--dap".toList then ParseStep.next 0 { args with dapMode := true }
  else if arg = "--batch".toList then ParseStep.next 0 { args with batchMode := true }
  else if arg = "--json".toList then ParseStep.next 0 { args with jsonOutput := true }
  else if arg = "--headless".toList then ParseStep.next 0 { args with headless := true }
  else if arg = "--break".toList ∧ 1 ≤ rest.length then
    match ParseAddr (rest.headD []) with
    | Except.error e => ParseStep.threw e
    | Except.ok addr =>
      ParseStep.next 1 { args with breakAddresses := args.breakAddresses ++ [addr] }
  else if arg = "--timeout".toList ∧ 1 ≤ rest.length then
    match stoi (rest.headD []) 10 with
    | Except.error e => ParseStep.threw e
    | Except.ok t => ParseStep.next 1 { args with timeoutMs := t }
  else if arg = "--check-reg".toList ∧ 1 ≤ rest.length then
    let s := rest.headD []
    match find s '=' with
    | none =>
      ParseStep.returned ⟨false, args, "Invalid --check-reg format: " ++ String.mk s ++
        " (expected REG=VALUE)\n"⟩
    | some eq =>
      match ParseAddr (s.drop (eq + 1)) with
      | Except.error e => ParseStep.threw e
      | Except.ok expected =>
        let a : BatchAssertion :=
          { type := AssertionType.Reg, name := s.take eq, address := 0,
            expected := toU16 expected, size := 2 }
        ParseStep.next 1 { args with assertions := args.assertions ++ [a] }
  else if (arg = "--check-mem".toList ∨ arg = "--check-mem16".toList) ∧ 1 ≤ rest.length then
    let s := rest.headD []
    match find s '=' with
    | none =>
      ParseStep.returned ⟨false, args, "Invalid " ++ String.mk arg ++ " format: " ++
        String.mk s ++ " (expected ADDR=VALUE)\n"⟩
    | some eq =>
      match ParseAddr (s.take eq) with
      | Except.error e => ParseStep.threw e
      | Except.ok address =>
        match ParseAddr (s.drop (eq + 1)) with
        | Except.error e => ParseStep.threw e
        | Except.ok expected =>
          let a : BatchAssertion :=
            { type := AssertionType.Mem, name := [], address := address,
              expected := toU16 expected,
              size := if arg = "--check-mem16".toList then 2 else 1 }
          ParseStep.next 1 { args with assertions := args.assertions ++ [a] }
  else if arg = "--dump".toList ∧ 2 ≤ rest.length then
    let type := rest.headD []
    let file := rest.tail.headD []
    ParseStep.next 2
      { args with dumps := args.dumps ++ [⟨-1, String.mk type ++ "\t" ++ String.mk file⟩] }
  else if arg.head? = some '-' then
    ParseStep.returned ⟨false, args, "Unknown option: " ++ String.mk arg ++ "\n" ++
      PrintUsage prog⟩
  else if args.romPath.isEmpty then ParseStep.next 0 { args with romPath := arg }
  else ParseStep.returned ⟨false, args, "Multiple ROM paths specified\n"⟩

/-- The loop of `ParseArgs` (DapMain.cpp:107-172) over the arguments that remain, `argv[i]`
first: one round, then the loop goes on behind the arguments the round read. A round reads
only arguments that are there, so the last case is never reached. -/
def parseLoop (prog : String) :
    List (List Char) → CliArgs → Except StdException ParseResult
  | [], args => Except.ok ⟨true, args, ""⟩
  | arg :: rest, args =>
    match parseStep prog arg rest args, rest with
    | ParseStep.returned res, _ => Except.ok res
    | ParseStep.threw e, _ => Except.error e
    | ParseStep.next 0 args1, rest0 => parseLoop prog rest0 args1
    | ParseStep.next 1 args1, _ :: rest1 => parseLoop prog rest1 args1
    | ParseStep.next _ args1, _ :: _ :: rest2 => parseLoop prog rest2 args1
    | ParseStep.next _ args1, _ => Except.ok ⟨true, args1, ""⟩

/-- The function `ParseArgs` (DapMain.cpp:105-173) on `argv[0]` and the arguments after
it. -/
def ParseArgs (prog : String) (argv : List (List Char)) : Except StdException ParseResult :=
  parseLoop prog argv {}

/-- The loop body that resolves one `--dump` request after the ROM is loaded
(DapMain.cpp:271-296). `memTypeCode` is the number of a `MemoryType` enumerator, which the
cast `(int)r.type` yields. The second component is the text written to standard error. -/
def resolveDump (memTypeCode : MemoryType → Nat) (consoleType : ConsoleType)
    (d : MemoryDump) : MemoryDump × String :=
  if d.memType = -1 then
    let text := d.filename.data
    let typeName :=
      match find text '\t' with
      | some tab => text.take tab
      | none => text
    let fileName :=
      match find text '\t' with
      | some tab => text.drop (tab + 1)
      | none => text
    let regions := ConsoleInfo.GetMemoryRegions consoleType
    match regions.find? (fun r => decide (typeName = r.shortName.data)) with
    | some r => (⟨(memTypeCode r.type : Int), String.mk fileName⟩, "")
    | none =>
      (⟨d.memType, String.mk fileName⟩,
        "Unknown dump type '" ++ String.mk typeName ++ "' for " ++
          ConsoleInfo.GetConsoleName consoleType ++ ". Valid types:" ++
          regions.foldl (fun out r => out ++ " " ++ r.shortName) "" ++ "\n")
  else (d, "")

/-- The loop that resolves the `--dump` requests (DapMain.cpp:270-297). -/
def resolveDumps (memTypeCode : MemoryType → Nat) (consoleType : ConsoleType) :
    List MemoryDump → List MemoryDump × String
  | [] => ([], "")
  | d :: rest =>
    let first := resolveDump memTypeCode consoleType d
    let others := resolveDumps memTypeCode consoleType rest
    (first.1 :: others.1, first.2 ++ others.2)

/-- The dumps handed to `BatchRunner::AddDump` (DapMain.cpp:351-355): those with a
non-negative memory type, in order. -/
def addDumps : List MemoryDump → List MemoryDump
  | [] => []
  | d :: rest => if d.memType ≥ 0 then d :: addDumps rest else addDumps rest

/-- Do the two characters differ at most in the case of an ASCII letter: they are equal, or
one is an upper-case ASCII letter and the other is its lower-case form? -/
def sameUpToCase (a b : Char) : Bool :=
  decide (a = b) ||
    (decide (65 ≤ a.toNat) && decide (a.toNat ≤ 90) && decide (b.toNat = a.toNat + 32)) ||
    (decide (65 ≤ b.toNat) && decide (b.toNat ≤ 90) && decide (a.toNat = b.toNat + 32))

/-- Do the two names differ only in the case of ASCII letters: they have the same length and
agree up to case at every position? -/
def differOnlyInCase : List Char → List Char → Bool
  | [], [] => true
  | a :: as, b :: bs => sameUpToCase a b && differOnlyInCase as bs
  | _, _ => false

/-- The report of one assertion in text mode while the debugger is available: whether the
line goes to standard output (otherwise to standard error), and the line. A register that is
not found gives `Unknown register`, a value equal to the expected one `PASS`, any other value
`FAIL`. -/
def textReport (GetCpuMemoryType : CpuType → MemoryType) (w : BatchWorld)
    (primaryCpu : CpuType) (check : BatchAssertion) : Bool × String :=
  let pass (label : String) (actual : Nat) : Bool × String :=
    (true, "PASS: " ++ label ++ " = $" ++ fmtHexUpper 4 actual ++ "\n")
  let fail (label : String) (actual : Nat) : Bool × String :=
    (false, "FAIL: " ++ label ++ " = $" ++ fmtHexUpper 4 actual ++ " (expected $" ++
      fmtHexUpper 4 check.expected ++ ")\n")
  match check.type with
  | AssertionType.Reg =>
    match GetRegisterValue primaryCpu check.name w.stateBuffer with
    | Except.ok (actual, true) =>
      if actual = check.expected then pass (String.mk check.name) actual
      else fail (String.mk check.name) actual
    | _ => (false, "Unknown register: " ++ String.mk check.name ++ "\n")
  | AssertionType.Mem =>
    let label := "[$" ++ fmtHexUpper 6 check.address ++ "]"
    let actual :=
      if check.size = 2 then
        toU16 (w.GetMemoryValue16 (GetCpuMemoryType primaryCpu) check.address)
      else w.GetMemoryValue (GetCpuMemoryType primaryCpu) check.address % 2 ^ 8
    if actual = check.expected then pass label actual else fail label actual

/-- The text a stream holds after the lines of `reports` meant for it were written to it in
order. -/
def writeLines (toStdout : Bool) (reports : List (Bool × String)) (before : String) : String :=
  reports.foldl (fun out r => if r.1 = toStdout then out ++ r.2 else out) before

/-- The entry `kt` of the JSON rendering (key and text) shows the register `r` (key, size in
bytes, value): the keys agree, and the text is lower-case hex with exactly two digits per
byte whose value is the register's value. -/
def showsRegister (kt : String × String) (r : String × Nat × Nat) : Prop :=
  kt.1 = r.1 ∧ kt.2.length = 2 * r.2.1 ∧ (∀ c ∈ kt.2.data, isLowerHexDigit c = true) ∧
    digitsValue 16 kt.2.data = r.2.2

/-- What `ParseArgs` stores for `--dump <type> <file>`: the sentinel -1 and the two texts
joined by a tab. -/
def storedDump (typeName file : List Char) : MemoryDump :=
  ⟨-1, String.mk typeName ++ "\t" ++ String.mk file⟩

/-- The region of the console's table with the alias `typeName`, if there is one. -/
def dumpRegion (console : ConsoleType) (typeName : List Char) :
    Option ConsoleInfo.MemoryRegion :=
  (ConsoleInfo.GetMemoryRegions console).find? (fun r => decide (typeName = r.shortName.data))

/-- The report for an alias that is not in the console's table: it lists the console's
aliases. -/
def unknownDumpReport (console : ConsoleType) (typeName : List Char) : String :=
  "Unknown dump type '" ++ String.mk typeName ++ "' for " ++
    ConsoleInfo.GetConsoleName console ++ ". Valid types:" ++
    (ConsoleInfo.GetMemoryRegions console).foldl (fun out r => out ++ " " ++ r.shortName) "" ++
    "\n"

/-! ## Memory, disassembly and call-stack renderings (`formatter.cpp`) -/

/-- Modelled from the spec: the struct `CodeLineData` is declared in `Debugger/DebugTypes.h`,
which is not among the sources; it holds the members the formatter reads: the address (an
`int32_t`, negative for a line without one), the instruction size, the instruction bytes, and
the text and the comment as C strings. -/
structure CodeLineData where
  Address : Int := 0
  OpSize : Nat := 0
  ByteCode : List Nat := []
  Text : List Char := []
  Comment : List Char := []
  deriving DecidableEq, Repr

/-- Modelled from the spec: the struct `StackFrameInfo` is declared in
`Debugger/DebugTypes.h`, which is not among the sources; it holds the members the formatter
reads: the 32-bit source and target addresses and the flags. -/
structure StackFrameInfo where
  Source : Nat := 0
  Target : Nat := 0
  Flags : Nat := 0
  deriving DecidableEq, Repr

/-- The element `data[k]` of a buffer of `uint8_t`. -/
def byteAt (data : List Nat) (k : Nat) : Nat := data.getD k 0 % 2 ^ 8

namespace Formatter

/-- The character of a byte in the ASCII column: `(c >= 0x20 && c <= 0x7E) ? c : '.'`. -/
def asciiChar (c : Nat) : Char :=
  if 0x20 ≤ c ∧ c ≤ 0x7E then Char.ofNat c else '.'

/-- The values of `j` for which the inner loops of `FormatMemoryHex` run:
`for(j = 0; j < 16 && (i + j) < len; j++)`, with `i + j` computed in `uint32_t`. -/
def memoryHexColumns (len i : Nat) : List Nat :=
  (List.range 16).takeWhile (fun j => decide (toU32 (i + j) < len))

/-- One round of the outer loop of `FormatMemoryHex` (formatter.cpp:512-529): the address,
the bytes in hex, a blank, the ASCII column and the line break. -/
def memoryHexRow (data : List Nat) (len startAddr i : Nat) : String :=
  let js := memoryHexColumns len i
  snprintf 16 (fmtHexUpper 6 (toU32 (startAddr + i)) ++ ": ") ++
    js.foldl (fun oss j => oss ++ snprintf 4 (fmtHexUpper 2 (byteAt data (toU32 (i + j))) ++ " "))
      "" ++
    " " ++ String.mk (js.map (fun j => asciiChar (byteAt data (toU32 (i + j))))) ++ "\n"

/-- The outer loop of `FormatMemoryHex`, `for(uint32_t i = 0; i < len; i += 16)`, from the
value `i` on, with the text written so far; `none` when the loop has not ended after `fuel`
rounds. -/
def memoryHexLoop (data : List Nat) (len startAddr : Nat) : Nat → Nat → String → Option String
  | 0, _, _ => none
  | fuel + 1, i, oss =>
    if i < len then
      memoryHexLoop data len startAddr fuel (toU32 (i + 16))
        (oss ++ memoryHexRow data len startAddr i)
    else some oss

/-- The function `FormatMemoryHex` (formatter.cpp:508-532) on the buffer `data`, run for at
most `fuel` rounds of its loop. -/
def FormatMemoryHex (fuel : Nat) (data : List Nat) (len startAddr : Nat) : Option String :=
  memoryHexLoop data len startAddr fuel 0 ""

/-- The loop body of `FormatDisassembly` (formatter.cpp:541-559) for a line with a
non-negative address. -/
def disassemblyLine (line : CodeLineData) : String :=
  let shown := (List.range 4).takeWhile (fun j => decide (j < line.OpSize))
  snprintf 16 (fmtHexUpper 6 line.Address.toNat ++ ": ") ++
    shown.foldl (fun oss j => oss ++ snprintf 4 (fmtHexUpper 2 (byteAt line.ByteCode j) ++ " "))
      "" ++
    String.join (List.replicate (4 - line.OpSize) "   ") ++
    String.mk line.Text ++
    (if line.Comment ≠ [] then "  ; " ++ String.mk line.Comment else "") ++ "\n"

/-- The function `FormatDisassembly` (formatter.cpp:534-563); `count` is the length of
`lines`. -/
def FormatDisassembly (lines : List CodeLineData) : String :=
  lines.foldl (fun oss line => if line.Address < 0 then oss else oss ++ disassemblyLine line) ""

/-- The loop body of `FormatCallstack` (formatter.cpp:569-575) for the frame at index `i`;
`%d` prints the `uint32_t` index as an `int`. -/
def callstackLine (i : Nat) (frame : StackFrameInfo) : String :=
  let type :=
    if frame.Flags &&& 1 ≠ 0 then " [NMI]"
    else if frame.Flags &&& 2 ≠ 0 then " [IRQ]"
    else ""
  snprintf 64 ("#" ++ fmtDec (toI32 i) ++ "  $" ++ fmtHexUpper 6 frame.Source ++ " -> $" ++
    fmtHexUpper 6 frame.Target ++ type ++ "\n")

/-- The loop of `FormatCallstack` from index `i` on, with the text written so far. -/
def callstackLoop : List StackFrameInfo → Nat → String → String
  | [], _, oss => oss
  | frame :: rest, i, oss => callstackLoop rest (i + 1) (oss ++ callstackLine i frame)

/-- The function `FormatCallstack` (formatter.cpp:565-578); `count` is the length of
`frames`. -/
def FormatCallstack (frames : List StackFrameInfo) : String :=
  callstackLoop frames 0 ""

end Formatter

/-- The function `main` (DapMain.cpp:382-408): the exit code and the text written to standard
error. `RunCliMode` is the function of that name, which loads the ROM and runs the shell or
the batch runner; `RunDapMode` (DapMain.cpp:176-185) prints a placeholder and returns 0.
Nothing in `main` catches an exception of `ParseArgs`. -/
def main (RunCliMode : CliArgs → Outcome (Int × String)) (prog : String)
    (argv : List (List Char)) : Outcome (Int × String) :=
  match ParseArgs prog argv with
  | Except.error e => Outcome.threw e
  | Except.ok res =>
    if !res.ok then Outcome.returned (2, res.stderr)
    else if res.args.dapMode then
      Outcome.returned
        (0, res.stderr ++ "[DAP] DAP mode not yet implemented. Waiting for Phase 1.\n")
    else if res.args.romPath.isEmpty then
      Outcome.returned (2, res.stderr ++ "Error: ROM path is required.\n" ++ PrintUsage prog)
    else RunCliMode res.args

/-- The list `rendering` of keys and hex texts shows the value `v` for the register under
`key`, whose looked-up value is `actual`: there is exactly one text under `key`, it has 2 or
4 digits, and `actual` is `v` exactly when the text is `v` in lower-case hex of that many
digits. -/
def shownAs (rendering : List (String × String)) (key : String) (actual v : Nat) : Prop :=
  ∃ text, (key, text) ∈ rendering ∧ (∀ t, (key, t) ∈ rendering → t = text) ∧
    (text.length = 2 ∨ text.length = 4) ∧ (actual = v ↔ text = fmtHexLower text.length v)

/-! ## The shell loop (`DebuggerCli::Run` and the command handlers) -/

/-- The function `GetCpuName` (console_info.h:30-48). -/
def ConsoleInfo.GetCpuName (cpu : CpuType) : String :=
  match cpu with
  | CpuType.Snes => "SNES 65816"
  | CpuType.Spc => "SNES SPC700"
  | CpuType.NecDsp => "SNES NEC DSP"
  | CpuType.Sa1 => "SNES SA-1"
  | CpuType.Gsu => "SNES GSU"
  | CpuType.Cx4 => "SNES CX4"
  | CpuType.St018 => "SNES ST018"
  | CpuType.Gameboy => "GB LR35902"
  | CpuType.Nes => "NES 6502"
  | CpuType.Pce => "PCE HuC6280"
  | CpuType.Sms => "SMS Z80"
  | CpuType.Gba => "GBA ARM7"
  | CpuType.Ws => "WS V30MZ"

/-- Modelled from the spec: the enum `StepType` is declared in `Debugger/DebugTypes.h`, which
is not among the sources; these are the enumerators the shell passes to `Debugger::Step`. -/
inductive StepType where
  | Step | StepOver | StepOut | PpuFrame
  deriving DecidableEq, Repr

/-- A call the shell or the batch runner makes on the bridge (`Reset`, `WaitForBreak`) or on
the core (the other constructors), with its arguments. `GetDebugger`, which only hands out
the debugger, is not recorded, and neither is `SetBreakpoints`, which the `Debugger` value
counts itself. -/
inductive CoreAction where
  | Reset
  | Step (cpu : CpuType) (count : Int) (type : StepType)
  | Run
  | WaitForBreak (timeoutMs : Int)
  | GetCpuState (cpu : CpuType)
  | GetProgramCounter (cpu : CpuType)
  | GetDisassemblyOutput (cpu : CpuType) (address : Nat) (rowCount : Int)
  | GetMemorySize (memType : MemoryType)
  | GetMemoryValues (memType : MemoryType) (start stop : Nat)
  | GetMemoryState (memType : MemoryType)
  | SetMemoryValue (memType : MemoryType) (address value : Nat)
  | GetCallstack (cpu : CpuType)
  | GetCpuTypes
  | EmuReset
  | StartLogging (file : List Char)
  | StopLogging
  deriving DecidableEq, Repr

/-- What the emulator, the core debugger and the file system answer while the shell executes
one command: whether `GetDebugger` yields a debugger in the command handler
(`dbgRequest`), in the `disasm` branch of `Run` (`dbgProgramCounter`), in `PrintState`
(`dbgState`) and in `PrintDisassemblyAtPC` (`dbgDisasmAtPC`); the notifications processed
during the wait; the snapshot `GetCpuState` writes; the rows `GetDisassemblyOutput` writes
(their number is its return value); the buffer `GetMemoryValues` fills; the call stack, `none`
when `GetCallstackManager` returns null. -/
structure ShellWorld where
  dbgRequest : Bool
  dbgProgramCounter : Bool
  arriving : List ConsoleNotificationType
  dbgState : Bool
  stateBuffer : StateBuffer
  dbgDisasmAtPC : Bool
  GetProgramCounter : CpuType → Nat
  GetDisassemblyOutput : CpuType → Nat → Int → List CodeLineData
  GetMemorySize : MemoryType → Nat
  GetMemoryValues : MemoryType → Nat → Nat → List Nat
  GetMemoryState : MemoryType → List Nat
  fileOpens : String → Bool
  callstack : Option (List StackFrameInfo)
  GetCpuTypes : List CpuType

/-- The shell with what it has done so far: the data members of `DebuggerCli`, the listener
it shares, the output written, and the calls made on the bridge and the core. -/
structure Shell where
  cli : DebuggerCli
  listener : CliNotificationListener
  io : Streams := {}
  log : List CoreAction := []
  deriving DecidableEq, Repr

/-- An exception of the standard library with the function that threw it (`e.what()`
depends on both): `std::stoi`, `std::stoul`, or the constructor of `std::vector` called with
a negative count (`std::length_error`). -/
inductive Thrown where
  | stoi (e : StdException)
  | stoul (e : StdException)
  | vector_length
  deriving DecidableEq, Repr

/-- How a command handler ends: it returns, an exception leaves it, or it never returns. -/
inductive Ending where
  | returned
  | threw (e : Thrown)
  | blocked
  deriving DecidableEq, Repr

/-- Text written to standard output. -/
def Shell.print (sh : Shell) (text : String) : Shell :=
  { sh with io := { sh.io with stdout := sh.io.stdout ++ text } }

/-- Text written to standard error. -/
def Shell.printErr (sh : Shell) (text : String) : Shell :=
  { sh with io := { sh.io with stderr := sh.io.stderr ++ text } }

/-- A call on the bridge or the core, recorded. -/
def Shell.act (sh : Shell) (a : CoreAction) : Shell :=
  { sh with log := sh.log ++ [a] }

/-- What `printf("%s", s.c_str())` prints of a `std::string`: the characters before the
first NUL. -/
def c_str (s : List Char) : String :=
  String.mk (s.takeWhile (fun c => decide (c ≠ Char.ofNat 0)))

/-- Conversion of the `int` result of an expression to 32 bits, two-complement. -/
def wrapI32 (i : Int) : Int := toI32 (i % 2 ^ 32).toNat

namespace DebuggerCli

/-- The loop of `Tokenize`: `cur` is the token being read. -/
def tokenizeLoop : List Char → List Char → List (List Char)
  | [], cur => if cur = [] then [] else [cur]
  | c :: rest, cur =>
    if isspace c then
      if cur = [] then tokenizeLoop rest [] else cur :: tokenizeLoop rest []
    else tokenizeLoop rest (cur ++ [c])

/-- The method `Tokenize` (debugger_cli.cpp:56-65): the maximal runs of characters that are
not white space, as `iss >> token` extracts them. -/
def Tokenize (line : List Char) : List (List Char) :=
  tokenizeLoop line []

/-- The method `PrintDisassemblyAtPC` (debugger_cli.cpp:143-153). -/
def PrintDisassemblyAtPC (w : ShellWorld) (sh : Shell) (lines : Int) : Shell :=
  if !w.dbgDisasmAtPC then sh
  else
    let pc := toU32 (w.GetProgramCounter sh.cli._primaryCpu)
    let sh1 := sh.act (CoreAction.GetProgramCounter sh.cli._primaryCpu)
    let rows := w.GetDisassemblyOutput sh.cli._primaryCpu pc lines
    let sh2 := sh1.act (CoreAction.GetDisassemblyOutput sh.cli._primaryCpu pc lines)
    sh2.print (Formatter.FormatDisassembly rows)

/-- The method `PrintState` (debugger_cli.cpp:122-141). -/
def PrintState (w : ShellWorld) (sh : Shell) : Shell :=
  if !w.dbgState then sh
  else
    let sh1 := sh.act (CoreAction.GetCpuState sh.cli._primaryCpu)
    if sh.cli._jsonOutput then
      sh1.print (Formatter.FormatRegistersJson sh.cli._primaryCpu w.stateBuffer ++ "\n")
    else
      PrintDisassemblyAtPC w
        (sh1.print (Formatter.FormatRegisters sh.cli._primaryCpu w.stateBuffer ++ "\n")) 3

/-- The end of the five control commands: `_listener->WaitForBreak(timeoutMs)` and then
`PrintState()`. -/
def waitAndPrint (w : ShellWorld) (sh : Shell) (timeoutMs : Int) : Shell × Ending :=
  let sh1 := sh.act (CoreAction.WaitForBreak timeoutMs)
  match sh1.listener.WaitForBreak timeoutMs w.arriving with
  | none => (sh1, Ending.blocked)
  | some res => (PrintState w { sh1 with listener := res.2 }, Ending.returned)

/-- The start of the five control commands: `_listener->Reset()`. -/
def resetBridge (sh : Shell) : Shell :=
  { sh with listener := sh.listener.Reset, log := sh.log ++ [CoreAction.Reset] }

/-- The method `CmdStep` (debugger_cli.cpp:155-165). -/
def CmdStep (w : ShellWorld) (sh : Shell) (count : Int) : Shell × Ending :=
  let sh1 := resetBridge sh
  let sh2 :=
    if w.dbgRequest then sh1.act (CoreAction.Step sh.cli._primaryCpu count StepType.Step)
    else sh1
  waitAndPrint w sh2 5000

/-- The method `CmdNext` (debugger_cli.cpp:167-177). -/
def CmdNext (w : ShellWorld) (sh : Shell) : Shell × Ending :=
  let sh1 := resetBridge sh
  let sh2 :=
    if w.dbgRequest then sh1.act (CoreAction.Step sh.cli._primaryCpu 1 StepType.StepOver)
    else sh1
  waitAndPrint w sh2 5000

/-- The method `CmdFinish` (debugger_cli.cpp:179-189). -/
def CmdFinish (w : ShellWorld) (sh : Shell) : Shell × Ending :=
  let sh1 := resetBridge sh
  let sh2 :=
    if w.dbgRequest then sh1.act (CoreAction.Step sh.cli._primaryCpu 1 StepType.StepOut)
    else sh1
  waitAndPrint w sh2 30000

/-- The method `CmdRun` (debugger_cli.cpp:191-202). -/
def CmdRun (w : ShellWorld) (sh : Shell) : Shell × Ending :=
  let sh1 := resetBridge sh
  let sh2 := if w.dbgRequest then sh1.act CoreAction.Run else sh1
  waitAndPrint w (sh2.print "Running... (press Ctrl+C to interrupt)\n") 0

/-- The method `CmdFrames` (debugger_cli.cpp:414-424); the timeout is computed in `int`. -/
def CmdFrames (w : ShellWorld) (sh : Shell) (count : Int) : Shell × Ending :=
  let sh1 := resetBridge sh
  let sh2 :=
    if w.dbgRequest then sh1.act (CoreAction.Step sh.cli._primaryCpu count StepType.PpuFrame)
    else sh1
  waitAndPrint w sh2 (wrapI32 (count * 1000 + 5000))

/-- The method `CmdInfoRegions` (debugger_cli.cpp:256-264): the text printed. `memTypeCode`
is the number of a `MemoryType` enumerator. -/
def CmdInfoRegions (memTypeCode : MemoryType → Nat) (cli : DebuggerCli) : String :=
  (ConsoleInfo.GetMemoryRegions cli._consoleType).foldl
    (fun out r => out ++ padRight 12 r.shortName ++ " " ++ padRight 24 r.name ++ " " ++
      fmtDec (memTypeCode r.type) ++ "\n")
    ("Memory regions for " ++ ConsoleInfo.GetConsoleName cli._consoleType ++ ":\n" ++
      padRight 12 "Command" ++ " " ++ padRight 24 "Name" ++ " " ++ "Type" ++ "\n")

/-- The method `CmdInfoCpu` (debugger_cli.cpp:266-279). -/
def CmdInfoCpu (w : ShellWorld) (sh : Shell) : Shell :=
  let head := "Console: " ++ ConsoleInfo.GetConsoleName sh.cli._consoleType ++ "\n" ++
    "Primary CPU: " ++ ConsoleInfo.GetCpuName sh.cli._primaryCpu ++ "\n"
  let sh1 := (sh.print head).act CoreAction.GetCpuTypes
  if w.GetCpuTypes.length > 1 then
    sh1.print (w.GetCpuTypes.foldl
      (fun out cpu => out ++ "  " ++ ConsoleInfo.GetCpuName cpu ++
        (if cpu = sh.cli._primaryCpu then " (primary)" else "") ++ "\n")
      "Active CPUs:\n")
  else sh1

/-- The end of `CmdMem` and `CmdMemTyped`: the buffer of `len` bytes, the call of
`GetMemoryValues` with the end address `addr + len - 1` computed in `uint32_t`, and the hex
dump. The allocation of the buffer is taken to succeed, and `FormatMemoryHex` gets the rounds
it needs whenever its loop ends. -/
def readAndPrint (w : ShellWorld) (sh : Shell) (memType : MemoryType) (addr len : Nat) :
    Shell × Ending :=
  let stop := toU32 (addr + len + (2 ^ 32 - 1))
  let buf := w.GetMemoryValues memType addr stop
  let sh1 := sh.act (CoreAction.GetMemoryValues memType addr stop)
  match Formatter.FormatMemoryHex (len / 16 + 2) buf len addr with
  | none => (sh1, Ending.blocked)
  | some text => (sh1.print text, Ending.returned)

/-- The method `CmdMem` (debugger_cli.cpp:286-296). -/
def CmdMem (GetCpuMemoryType : CpuType → MemoryType) (w : ShellWorld) (sh : Shell)
    (addr len : Nat) : Shell × Ending :=
  if !w.dbgRequest then (sh, Ending.returned)
  else readAndPrint w sh (GetCpuMemoryType sh.cli._primaryCpu) addr len

/-- The method `CmdMemTyped` (debugger_cli.cpp:298-320). The `int` parameter `memType` is the
number of the enumerator, which the casts convert back and forth. -/
def CmdMemTyped (w : ShellWorld) (sh : Shell) (addr len : Nat) (memType : MemoryType)
    (label : String) : Shell × Ending :=
  if !w.dbgRequest then (sh, Ending.returned)
  else
    let size := toU32 (w.GetMemorySize memType)
    let sh1 := sh.act (CoreAction.GetMemorySize memType)
    if size = 0 then (sh1.print (label ++ " not available.\n"), Ending.returned)
    else if addr ≥ size then
      (sh1.print ("Address $" ++ fmtHexUpper 4 addr ++ " out of range (size: $" ++
        fmtHexUpper 0 size ++ " / " ++ fmtDec size ++ " bytes)\n"), Ending.returned)
    else
      let len1 := if toU32 (addr + len) > size then size - addr else len
      readAndPrint w sh1 memType addr len1

/-- The method `CmdDump` (debugger_cli.cpp:322-365). -/
def CmdDump (w : ShellWorld) (sh : Shell) (type filename : List Char) : Shell :=
  if !w.dbgRequest then sh
  else
    let regions := ConsoleInfo.GetMemoryRegions sh.cli._consoleType
    let hit := regions.find? (fun r => decide (type = r.shortName.toList))
    let memType := match hit with
      | some r => r.type
      | none => MemoryType.None
    let label := match hit with
      | some r => r.name
      | none => ""
    if memType = MemoryType.None then
      sh.print ("Unknown memory type: " ++ c_str type ++ "\nValid types for " ++
        ConsoleInfo.GetConsoleName sh.cli._consoleType ++ ":" ++
        regions.foldl (fun out r => out ++ " " ++ r.shortName) "" ++ "\n")
    else
      let size := toU32 (w.GetMemorySize memType)
      let sh1 := sh.act (CoreAction.GetMemorySize memType)
      if size = 0 then sh1.print (label ++ " not available.\n")
      else
        let buf := w.GetMemoryState memType
        let sh2 := sh1.act (CoreAction.GetMemoryState memType)
        if !w.fileOpens (String.mk filename) then
          sh2.print ("Failed to open " ++ c_str filename ++ " for writing.\n")
        else
          let files := sh2.io.files ++ [(String.mk filename, buf)]
          let sh3 := { sh2 with io := { sh2.io with files := files } }
          sh3.print ("Dumped " ++ fmtDec size ++ " bytes of " ++ label ++ " to " ++
            c_str filename ++ "\n")

/-- The method `CmdSet` (debugger_cli.cpp:367-376). -/
def CmdSet (GetCpuMemoryType : CpuType → MemoryType) (w : ShellWorld) (sh : Shell)
    (addr val : Nat) : Shell :=
  if !w.dbgRequest then sh
  else
    let sh1 := sh.act
      (CoreAction.SetMemoryValue (GetCpuMemoryType sh.cli._primaryCpu) addr val)
    sh1.print ("[$" ++ fmtHexUpper 6 addr ++ "] = $" ++ fmtHexUpper 2 val ++ "\n")

/-- The method `CmdDisasm` (debugger_cli.cpp:378-388). The constructor of
`std::vector<CodeLineData> output(count)` throws `std::length_error` on a negative count;
an allocation of a non-negative count is taken to succeed. -/
def CmdDisasm (w : ShellWorld) (sh : Shell) (addr : Nat) (count : Int) : Shell × Ending :=
  if !w.dbgRequest then (sh, Ending.returned)
  else if count < 0 then (sh, Ending.threw Thrown.vector_length)
  else
    let rows := w.GetDisassemblyOutput sh.cli._primaryCpu addr count
    let sh1 := sh.act (CoreAction.GetDisassemblyOutput sh.cli._primaryCpu addr count)
    (sh1.print (Formatter.FormatDisassembly rows), Ending.returned)

/-- The method `CmdBacktrace` (debugger_cli.cpp:390-412). -/
def CmdBacktrace (w : ShellWorld) (sh : Shell) : Shell :=
  if !w.dbgRequest then sh
  else
    match w.callstack with
    | none => sh.print "Callstack not available.\n"
    | some frames =>
      let sh1 := sh.act (CoreAction.GetCallstack sh.cli._primaryCpu)
      if frames.length = 0 then sh1.print "Empty callstack.\n"
      else sh1.print (Formatter.FormatCallstack frames)

/-- The method `CmdReset` (debugger_cli.cpp:426-432). -/
def CmdReset (w : ShellWorld) (sh : Shell) : Shell :=
  PrintState w (sh.act CoreAction.EmuReset)

/-- The method `CmdTrace` (debugger_cli.cpp:434-447). -/
def CmdTrace (w : ShellWorld) (sh : Shell) (filename : List Char) : Shell :=
  if !w.dbgRequest then sh
  else if filename = "off".toList then
    (sh.act CoreAction.StopLogging).print "Trace logging stopped.\n"
  else
    (sh.act (CoreAction.StartLogging filename)).print
      ("Tracing to: " ++ String.mk filename ++ "\n")

/-- The method `CmdHelp` (debugger_cli.cpp:449-497): the text printed. -/
def CmdHelp (cli : DebuggerCli) : String :=
  let regions := ConsoleInfo.GetMemoryRegions cli._consoleType
  "Commands:\n" ++
  "  step [N]          Step N instructions (default 1)\n" ++
  "  s [N]             Alias for step\n" ++
  "  next              Step over (skip calls)\n" ++
  "  n                 Alias for next\n" ++
  "  finish            Step out (run to return)\n" ++
  "  run               Resume execution until breakpoint\n" ++
  "  c                 Alias for run (continue)\n" ++
  "  break <addr>      Set execution breakpoint\n" ++
  "  b <addr>          Alias for break\n" ++
  "  watch <addr>      Set write watchpoint\n" ++
  "  delete <id>       Delete breakpoint by ID\n" ++
  "  info break        List all breakpoints\n" ++
  "  info regions      List available memory regions\n" ++
  "  info cpu          Show console/CPU info\n" ++
  "  regs              Show CPU registers\n" ++
  "  r                 Alias for regs\n" ++
  "  mem <addr> [len]  Show CPU memory (default 256 bytes)\n" ++
  "  x <addr> [len]    Alias for mem\n" ++
  regions.foldl
    (fun out r => out ++ "  " ++ padRight 8 r.shortName ++ " <addr> [len] Show " ++ r.name ++
      "\n") "" ++
  "  dump <type> <file> Dump memory to file (types: " ++
  String.intercalate ", " (regions.map (fun r => r.shortName)) ++
  ")\n" ++
  "  set <addr> <val>  Set CPU memory byte\n" ++
  "  disasm [addr] [n] Disassemble (default: at PC, 10 lines)\n" ++
  "  d [addr] [n]      Alias for disasm\n" ++
  "  bt                Show callstack\n" ++
  "  frames <N>        Run N PPU frames\n" ++
  "  reset             Reset emulator\n" ++
  "  trace <file|off>  Start/stop trace logging\n" ++
  "  help              Show this help\n" ++
  "  quit              Exit debugger\n" ++
  "\n" ++
  "Address formats: $1234, 0x1234, 1234, 00:8000\n"

/-- The branches of the `if` chain on the first token in `Run` (debugger_cli.cpp:546-614), in
its order; `Other` is the final `else`. -/
inductive Verb where
  | Step | Next | Finish | Run | Break | Watch | Delete | Info | Regs | Mem | Dump | Set
  | Disasm | Backtrace | Frames | Reset | Trace | Help | Quit | Other
  deriving DecidableEq, Repr

/-- The conditions of the `if` chain on `cmd` in `Run` (debugger_cli.cpp:546-598). -/
def classify (cmd : List Char) : Verb :=
  if cmd = "step".toList ∨ cmd = "s".toList then Verb.Step
  else if cmd = "next".toList ∨ cmd = "n".toList then Verb.Next
  else if cmd = "finish".toList then Verb.Finish
  else if cmd = "run".toList ∨ cmd = "c".toList ∨ cmd = "continue".toList then Verb.Run
  else if cmd = "break".toList ∨ cmd = "b".toList then Verb.Break
  else if cmd = "watch".toList then Verb.Watch
  else if cmd = "delete".toList ∨ cmd = "del".toList then Verb.Delete
  else if cmd = "info".toList then Verb.Info
  else if cmd = "regs".toList ∨ cmd = "r".toList then Verb.Regs
  else if cmd = "mem".toList ∨ cmd = "x".toList then Verb.Mem
  else if cmd = "dump".toList then Verb.Dump
  else if cmd = "set".toList then Verb.Set
  else if cmd = "disasm".toList ∨ cmd = "d".toList then Verb.Disasm
  else if cmd = "bt".toList ∨ cmd = "backtrace".toList then Verb.Backtrace
  else if cmd = "frames".toList then Verb.Frames
  else if cmd = "reset".toList then Verb.Reset
  else if cmd = "trace".toList then Verb.Trace
  else if cmd = "help".toList ∨ cmd = "h".toList ∨ cmd = "?".toList then Verb.Help
  else if cmd = "quit".toList ∨ cmd = "q".toList ∨ cmd = "exit".toList then Verb.Quit
  else Verb.Other

/-- A conversion by `std::stoi` at its call site in `Run`. -/
def viaStoi (r : Except StdException Int) : Except Thrown Int :=
  match r with
  | Except.ok v => Except.ok v
  | Except.error e => Except.error (Thrown.stoi e)

/-- A conversion by `std::stoul`, directly or inside `ParseAddress`, at its call site in
`Run`. -/
def viaStoul (r : Except StdException Nat) : Except Thrown Nat :=
  match r with
  | Except.ok v => Except.ok v
  | Except.error e => Except.error (Thrown.stoul e)

/-- The final `else` of the chain in `Run` (debugger_cli.cpp:599-613): the region commands
and the report of an unknown command. -/
def regionCommand (w : ShellWorld) (sh : Shell) (tokens : List (List Char)) : Shell × Ending :=
  let cmd := tokens.headD []
  match (ConsoleInfo.GetMemoryRegions sh.cli._consoleType).find?
      (fun r => decide (cmd = r.shortName.toList)) with
  | some r =>
    match (if tokens.length > 1 then viaStoul (ParseAddress (tokens.getD 1 []))
        else Except.ok 0) with
    | Except.error e => (sh, Ending.threw e)
    | Except.ok addr =>
      match (if tokens.length > 2 then viaStoul (stoul (tokens.getD 2 []) 10)
          else Except.ok 256) with
      | Except.error e => (sh, Ending.threw e)
      | Except.ok len => CmdMemTyped w sh addr (toU32 len) r.type r.name
  | none =>
    (sh.print ("Unknown command: " ++ String.mk cmd ++ ". Type 'help' for commands.\n"),
      Ending.returned)

/-- The `disasm` branch of `Run` (debugger_cli.cpp:573-584). -/
def disasmCommand (w : ShellWorld) (sh : Shell) (tokens : List (List Char)) : Shell × Ending :=
  match (if tokens.length > 1 then viaStoul (ParseAddress (tokens.getD 1 []))
      else Except.ok 0) with
  | Except.error e => (sh, Ending.threw e)
  | Except.ok addr0 =>
    match (if tokens.length > 2 then viaStoi (stoi (tokens.getD 2 []) 10)
        else Except.ok 10) with
    | Except.error e => (sh, Ending.threw e)
    | Except.ok count =>
      if tokens.length > 1 then CmdDisasm w sh addr0 count
      else if w.dbgProgramCounter then
        CmdDisasm w (sh.act (CoreAction.GetProgramCounter sh.cli._primaryCpu))
          (toU32 (w.GetProgramCounter sh.cli._primaryCpu)) count
      else CmdDisasm w sh addr0 count

/-- The body of the `try` block in `Run` (debugger_cli.cpp:545-614) on a non-empty token
list. -/
def dispatch (GetCpuMemoryType : CpuType → MemoryType) (memTypeCode : MemoryType → Nat)
    (w : ShellWorld) (sh : Shell) (tokens : List (List Char)) : Shell × Ending :=
  let arg1 := tokens.getD 1 []
  let arg2 := tokens.getD 2 []
  match classify (tokens.headD []) with
  | Verb.Step =>
    match (if tokens.length > 1 then viaStoi (stoi arg1 10) else Except.ok 1) with
    | Except.error e => (sh, Ending.threw e)
    | Except.ok count => CmdStep w sh count
  | Verb.Next => CmdNext w sh
  | Verb.Finish => CmdFinish w sh
  | Verb.Run => CmdRun w sh
  | Verb.Break =>
    if tokens.length < 2 then (sh.print "Usage: break <addr>\n", Ending.returned)
    else
      match viaStoul (ParseAddress arg1) with
      | Except.error e => (sh, Ending.threw e)
      | Except.ok addr =>
        let res := CmdBreak GetCpuMemoryType sh.cli addr
        ({ sh with cli := res.1 }.print res.2, Ending.returned)
  | Verb.Watch =>
    if tokens.length < 2 then (sh.print "Usage: watch <addr>\n", Ending.returned)
    else
      match viaStoul (ParseAddress arg1) with
      | Except.error e => (sh, Ending.threw e)
      | Except.ok addr =>
        let res := CmdWatch GetCpuMemoryType sh.cli addr
        ({ sh with cli := res.1 }.print res.2, Ending.returned)
  | Verb.Delete =>
    if tokens.length < 2 then (sh.print "Usage: delete <id>\n", Ending.returned)
    else
      match viaStoul (stoul arg1 10) with
      | Except.error e => (sh, Ending.threw e)
      | Except.ok id =>
        let res := CmdDelete GetCpuMemoryType sh.cli (toU32 id)
        ({ sh with cli := res.1 }.print res.2, Ending.returned)
  | Verb.Info =>
    if tokens.length > 1 ∧ arg1 = "break".toList then
      (sh.print (CmdInfoBreak sh.cli), Ending.returned)
    else if tokens.length > 1 ∧ arg1 = "regions".toList then
      (sh.print (CmdInfoRegions memTypeCode sh.cli), Ending.returned)
    else if tokens.length > 1 ∧ arg1 = "cpu".toList then (CmdInfoCpu w sh, Ending.returned)
    else (sh.print "Usage: info break|regions|cpu\n", Ending.returned)
  | Verb.Regs => (PrintState w sh, Ending.returned)
  | Verb.Mem =>
    if tokens.length < 2 then (sh.print "Usage: mem <addr> [len]\n", Ending.returned)
    else
      match viaStoul (ParseAddress arg1) with
      | Except.error e => (sh, Ending.threw e)
      | Except.ok addr =>
        match (if tokens.length > 2 then viaStoul (stoul arg2 10) else Except.ok 256) with
        | Except.error e => (sh, Ending.threw e)
        | Except.ok len => CmdMem GetCpuMemoryType w sh addr (toU32 len)
  | Verb.Dump =>
    if tokens.length < 3 then
      (sh.print ("Usage: dump <type> <file>\nTypes:" ++
        (ConsoleInfo.GetMemoryRegions sh.cli._consoleType).foldl
          (fun out r => out ++ " " ++ r.shortName) "" ++ "\n"), Ending.returned)
    else (CmdDump w sh arg1 arg2, Ending.returned)
  | Verb.Set =>
    if tokens.length < 3 then (sh.print "Usage: set <addr> <val>\n", Ending.returned)
    else
      match viaStoul (ParseAddress arg1) with
      | Except.error e => (sh, Ending.threw e)
      | Except.ok addr =>
        match viaStoul (stoul arg2 16) with
        | Except.error e => (sh, Ending.threw e)
        | Except.ok val => (CmdSet GetCpuMemoryType w sh addr (val % 2 ^ 8), Ending.returned)
  | Verb.Disasm => disasmCommand w sh tokens
  | Verb.Backtrace => (CmdBacktrace w sh, Ending.returned)
  | Verb.Frames =>
    if tokens.length < 2 then (sh.print "Usage: frames <N>\n", Ending.returned)
    else
      match viaStoi (stoi arg1 10) with
      | Except.error e => (sh, Ending.threw e)
      | Except.ok count => CmdFrames w sh count
  | Verb.Reset => (CmdReset w sh, Ending.returned)
  | Verb.Trace =>
    if tokens.length < 2 then (sh.print "Usage: trace <file|off>\n", Ending.returned)
    else (CmdTrace w sh arg1, Ending.returned)
  | Verb.Help => (sh.print (CmdHelp sh.cli), Ending.returned)
  | Verb.Quit => ({ sh with cli := { sh.cli with _quit := true } }, Ending.returned)
  | Verb.Other => regionCommand w sh tokens

/-- One round of the loop of `Run` after `std::getline` has read `line`
(debugger_cli.cpp:538-617): the result is the shell after the round and whether the round
ends (`true`) or never returns (`false`). `what` is the text `e.what()` of a caught
exception. -/
def execLine (GetCpuMemoryType : CpuType → MemoryType) (memTypeCode : MemoryType → Nat)
    (what : Thrown → String) (w : ShellWorld) (sh : Shell) (line : List Char) : Shell × Bool :=
  if line = [] then (sh, true)
  else
    let tokens := Tokenize line
    if tokens = [] then (sh, true)
    else
      match dispatch GetCpuMemoryType memTypeCode w sh tokens with
      | (sh1, Ending.returned) => (sh1, true)
      | (sh1, Ending.threw e) => (sh1.printErr ("Error: " ++ what e ++ "\n"), true)
      | (sh1, Ending.blocked) => (sh1, false)

/-- The loop of `Run` (debugger_cli.cpp:534-618) on the lines standard input still holds,
each with what the core answers while it is executed; at the end of the input `std::getline`
fails and the loop is left. The result is the shell at the end and whether `Run` returns. -/
def runLoop (GetCpuMemoryType : CpuType → MemoryType) (memTypeCode : MemoryType → Nat)
    (what : Thrown → String) : List (ShellWorld × List Char) → Shell → Shell × Bool
  | [], sh => if sh.cli._quit then (sh, true) else (sh.print "(mesen) ", true)
  | (w, line) :: rest, sh =>
    if sh.cli._quit then (sh, true)
    else
      let res := execLine GetCpuMemoryType memTypeCode what w (sh.print "(mesen) ") line
      if res.2 then runLoop GetCpuMemoryType memTypeCode what rest res.1 else res

/-- The method `Run` (debugger_cli.cpp:499-618): `start` is what the core answers to the
first `PrintState`. -/
def Run (GetCpuMemoryType : CpuType → MemoryType) (memTypeCode : MemoryType → Nat)
    (what : Thrown → String) (start : ShellWorld) (input : List (ShellWorld × List Char))
    (sh : Shell) : Shell × Bool :=
  let sh1 := { sh with cli := SyncBreakpoints GetCpuMemoryType sh.cli }
  let sh2 := sh1.print ("Mesen CLI Debugger [" ++
    ConsoleInfo.GetConsoleName sh.cli._consoleType ++ " / " ++
    ConsoleInfo.GetCpuName sh.cli._primaryCpu ++ "]. Type 'help' for commands.\n")
  runLoop GetCpuMemoryType memTypeCode what input (PrintState start sh2)

/-- The verbs and abbreviations the `if` chain of `Run` compares the first token with. -/
def builtinVerbs : List (List Char) :=
  ["step", "s", "next", "n", "finish", "run", "c", "continue", "break", "b", "watch",
   "delete", "del", "info", "regs", "r", "mem", "x", "dump", "set", "disasm", "d", "bt",
   "backtrace", "frames", "reset", "trace", "help", "h", "?", "quit", "q", "exit"].map
    String.toList

end DebuggerCli

/-- A call `BatchRunner::Run` makes on the bridge (`Reset`, `WaitForBreak`) or on the core
(the other constructors), with its arguments. `GetDebugger`, which only hands out the
debugger, is not recorded. -/
inductive BatchAction where
  | Reset
  | Run
  | WaitForBreak (timeoutMs : Int)
  | GetCpuState (cpu : CpuType)
  | GetMemorySize (memType : Int)
  | GetMemoryState (memType : Int)
  | GetMemoryValue (memType : MemoryType) (address : Nat)
  | GetMemoryValue16 (memType : MemoryType) (address : Nat)
  deriving DecidableEq, Repr

/-- Is the call a read of the memory dumper (`GetMemorySize`, `GetMemoryState`,
`GetMemoryValue`, `GetMemoryValue16`)? -/
def BatchAction.isMemoryRead (a : BatchAction) : Bool :=
  match a with
  | BatchAction.GetMemorySize _ => true
  | BatchAction.GetMemoryState _ => true
  | BatchAction.GetMemoryValue _ _ => true
  | BatchAction.GetMemoryValue16 _ _ => true
  | _ => false

/-- The dump loop of `BatchRunner::Run` (batch_runner.cpp:199-223), from position `i` on,
with the calls it makes on the core recorded after those in `log`. -/
def runDumpsLogged (w : BatchWorld) (jsonOutput : Bool) :
    List MemoryDump → Nat → Streams → List BatchAction → Streams × List BatchAction
  | [], _, io, log => (io, log)
  | d :: rest, i, io, log =>
    if !w.dbgAtDump i then runDumpsLogged w jsonOutput rest (i + 1) io log
    else
      let size := toU32 (w.GetMemorySize d.memType)
      let log1 := log ++ [BatchAction.GetMemorySize d.memType]
      if size = 0 then
        runDumpsLogged w jsonOutput rest (i + 1)
          { io with stderr := io.stderr ++ "Warning: memory type not available for dump to " ++
              d.filename ++ "\n" } log1
      else
        let buf := w.GetMemoryState d.memType
        let log2 := log1 ++ [BatchAction.GetMemoryState d.memType]
        if !w.fileOpens d.filename then
          runDumpsLogged w jsonOutput rest (i + 1)
            { io with stderr := io.stderr ++ "Error: could not open " ++ d.filename ++
                " for writing\n" } log2
        else
          let io1 := { io with files := io.files ++ [(d.filename, buf)] }
          if !jsonOutput then
            runDumpsLogged w jsonOutput rest (i + 1)
              { io1 with stderr := io1.stderr ++ "Dumped " ++ fmtDec size ++ " bytes to " ++
                  d.filename ++ "\n" } log2
          else runDumpsLogged w jsonOutput rest (i + 1) io1 log2

/-- The assertion loop of `BatchRunner::Run` (batch_runner.cpp:232-275), from position `i`
on, with the calls it makes on the core recorded after those in `log`; the calls made before
an exception stay recorded. -/
def runChecksLogged (w : BatchWorld) (primaryCpu : CpuType) (jsonOutput : Bool)
    (cpuMemType : MemoryType) :
    List BatchAssertion → Nat → Bool × Streams → List BatchAction →
      List BatchAction × Except StdException (Bool × Streams)
  | [], _, acc, log => (log, Except.ok acc)
  | check :: rest, i, acc, log =>
    if check.type = AssertionType.Reg then
      match GetRegisterValue primaryCpu check.name w.stateBuffer with
      | Except.error e => (log, Except.error e)
      | Except.ok (actual, found) =>
        if !found then
          let line := "Unknown register: " ++ String.mk check.name ++ "\n"
          runChecksLogged w primaryCpu jsonOutput cpuMemType rest (i + 1)
            (false, { acc.2 with stderr := acc.2.stderr ++ line }) log
        else
          runChecksLogged w primaryCpu jsonOutput cpuMemType rest (i + 1)
            (report jsonOutput (String.mk check.name) actual check.expected acc) log
    else
      let label := "[$" ++ fmtHexUpper 6 check.address ++ "]"
      if !w.dbgAtCheck i then
        runChecksLogged w primaryCpu jsonOutput cpuMemType rest (i + 1) (false, acc.2) log
      else
        let actual :=
          if check.size = 2 then toU16 (w.GetMemoryValue16 cpuMemType check.address)
          else w.GetMemoryValue cpuMemType check.address % 2 ^ 8
        let log1 := log ++
          [if check.size = 2 then BatchAction.GetMemoryValue16 cpuMemType check.address
            else BatchAction.GetMemoryValue cpuMemType check.address]
        runChecksLogged w primaryCpu jsonOutput cpuMemType rest (i + 1)
          (report jsonOutput label actual check.expected acc) log1

/-- The method `BatchRunner::Run` (batch_runner.cpp:156-278) with the calls it makes on the
bridge and on the core recorded in the order of the source: `_listener->Reset()` and
`dbg->Run()` in the first block, `_listener->WaitForBreak(_timeoutMs)`, `dbg->GetCpuState`,
then the reads of the dump loop and of the assertion loop. The second component is the
outcome, as in `BatchRunner.Run`. -/
def BatchRunner.RunLogged (GetCpuMemoryType : CpuType → MemoryType)
    (FormatRegisters FormatRegistersJson : CpuType → StateBuffer → String)
    (w : BatchWorld) (r : BatchRunner) : List BatchAction × Outcome RunResult :=
  if !w.dbgAtStart then
    ([], Outcome.returned
      { exitCode := 2, io := { stderr := "Error: debugger not initialized\n" },
        listener := r._listener })
  else
    let log := [BatchAction.Reset, BatchAction.Run, BatchAction.WaitForBreak r._timeoutMs]
    match r._listener.Reset.WaitForBreak r._timeoutMs w.arriving with
    | none => (log, Outcome.blocked)
    | some (hitBreak, listener) =>
      if !hitBreak then
        (log, Outcome.returned
          { exitCode := 2,
            io := { stderr := "Error: timeout after " ++ fmtDec r._timeoutMs ++ "ms\n" },
            listener := listener })
      else if !w.dbgAfterWait then
        (log, Outcome.returned
          { exitCode := 2, io := { stderr := "Error: debugger lost\n" }, listener := listener })
      else
        let log1 := log ++ [BatchAction.GetCpuState r._primaryCpu]
        let text :=
          if r._jsonOutput then FormatRegistersJson r._primaryCpu w.stateBuffer
          else FormatRegisters r._primaryCpu w.stateBuffer
        let dumped := runDumpsLogged w r._jsonOutput r._dumps 0 { stdout := text ++ "\n" } log1
        if r._assertions.isEmpty then
          (dumped.2, Outcome.returned { exitCode := 0, io := dumped.1, listener := listener })
        else
          let cpuMemType := GetCpuMemoryType r._primaryCpu
          match runChecksLogged w r._primaryCpu r._jsonOutput cpuMemType r._assertions 0
              (true, dumped.1) dumped.2 with
          | (log2, Except.error e) => (log2, Outcome.threw e)
          | (log2, Except.ok (allPassed, io1)) =>
            (log2, Outcome.returned
              { exitCode := if allPassed then 0 else 1, io := io1, listener := listener })

/-- Does the conversion throw? -/
def fails {α : Type} (r : Except StdException α) : Bool :=
  match r with
  | Except.error _ => true
  | Except.ok _ => false

/-- Is the token list a command whose address or numeric argument fails to parse: `step` or
`frames` with a count `std::stoi` rejects, `break` or `watch` with an address `ParseAddress`
rejects, `delete` with an id `std::stoul` rejects, `mem`, `set`, `disasm` or a region command
with such an address, length, value or count? -/
def argumentFails (regions : List ConsoleInfo.MemoryRegion) (tokens : List (List Char)) :
    Bool :=
  let cmd := tokens.headD []
  let arg1 := tokens.getD 1 []
  let arg2 := tokens.getD 2 []
  (decide (cmd = "step".toList ∨ cmd = "s".toList) && decide (1 < tokens.length) &&
    fails (stoi arg1 10)) ||
  (decide (cmd = "frames".toList) && decide (2 ≤ tokens.length) && fails (stoi arg1 10)) ||
  (decide (cmd = "break".toList ∨ cmd = "b".toList) && decide (2 ≤ tokens.length) &&
    fails (ParseAddress arg1)) ||
  (decide (cmd = "watch".toList) && decide (2 ≤ tokens.length) && fails (ParseAddress arg1)) ||
  (decide (cmd = "delete".toList ∨ cmd = "del".toList) && decide (2 ≤ tokens.length) &&
    fails (stoul arg1 10)) ||
  (decide (cmd = "mem".toList ∨ cmd = "x".toList) && decide (2 ≤ tokens.length) &&
    (fails (ParseAddress arg1) || (decide (2 < tokens.length) && fails (stoul arg2 10)))) ||
  (decide (cmd = "set".toList) && decide (3 ≤ tokens.length) &&
    (fails (ParseAddress arg1) || fails (stoul arg2 16))) ||
  (decide (cmd = "disasm".toList ∨ cmd = "d".toList) && decide (1 < tokens.length) &&
    (fails (ParseAddress arg1) || (decide (2 < tokens.length) && fails (stoi arg2 10)))) ||
  (decide (cmd ∉ DebuggerCli.builtinVerbs) &&
    regions.any (fun r => decide (cmd = r.shortName.toList)) && decide (1 < tokens.length) &&
    (fails (ParseAddress arg1) || (decide (2 < tokens.length) && fails (stoul arg2 10))))

/-- A shell for examples: an NES console, no debugger behind `_emu`, a fresh listener. -/
def sampleShell : Shell :=
  { cli := DebuggerCli.new { debugger := none } CpuType.Nes ConsoleType.Nes false,
    listener := {} }

/-- A core for examples: the debugger is always there, the notifications in `arriving` come
in during a wait, every region has `0x800` bytes, all zero, and the call stack is empty. -/
def sampleCore (arriving : List ConsoleNotificationType) : ShellWorld :=
  { dbgRequest := true,
    dbgProgramCounter := true,
    arriving := arriving,
    dbgState := true,
    stateBuffer := {},
    dbgDisasmAtPC := true,
    GetProgramCounter := fun _ => 0x8000,
    GetDisassemblyOutput := fun _ _ _ => [],
    GetMemorySize := fun _ => 0x800,
    GetMemoryValues := fun _ _ _ => [],
    GetMemoryState := fun _ => [],
    fileOpens := fun _ => true,
    callstack := some [],
    GetCpuTypes := [CpuType.Nes] }
/-- The calls `PrintState` makes on the core (debugger_cli.cpp:122-153): the capture of the
CPU state and, in text mode, the reads of `PrintDisassemblyAtPC(3)`. -/
def DebuggerCli.stateActions (w : ShellWorld) (cli : DebuggerCli) : List CoreAction :=
  if !w.dbgState then []
  else
    CoreAction.GetCpuState cli._primaryCpu ::
      (if cli._jsonOutput then []
       else if !w.dbgDisasmAtPC then []
       else
        [CoreAction.GetProgramCounter cli._primaryCpu,
         CoreAction.GetDisassemblyOutput cli._primaryCpu
           (toU32 (w.GetProgramCounter cli._primaryCpu)) 3])

/-- The exit status of a call of `BatchRunner::Run`: the exit code it returns, the exception
that leaves it, or the fact that it never returns. -/
def exitCodeOf (o : Outcome RunResult) : Outcome Int :=
  match o with
  | Outcome.returned res => Outcome.returned res.exitCode
  | Outcome.threw e => Outcome.threw e
  | Outcome.blocked => Outcome.blocked

/-- The register keys of the JSON rendering that the register lookup of the batch runner does
not know: `i` and `r` on SMS, `cpsr` on GBA, `flags` on WonderSwan. -/
def unresolvedKeys (cpu : CpuType) : List String :=
  match cpu with
  | CpuType.Sms => ["i", "r"]
  | CpuType.Gba => ["cpsr"]
  | CpuType.Ws => ["flags"]
  | _ => []

/-- The flags string of the text rendering (formatter.cpp:32-42, 89-106, 158-169, 213-237,
289-299, 347-361, 397-421): the `%s` argument after `Flags: ` on NES, SNES and SA-1, Game Boy,
PCE and SMS, the four `%c` arguments between the brackets on GBA and the nine on
WonderSwan. -/
def textFlags (cpu : CpuType) (st : StateBuffer) : String :=
  match cpu with
  | CpuType.Nes => Formatter.FormatNesFlags st.nes.PS
  | CpuType.Snes | CpuType.Sa1 => Formatter.FormatSnesFlags st.snes.PS
  | CpuType.Gameboy => Formatter.FormatGbFlags st.gb.Flags
  | CpuType.Gba =>
    let s := st.gba
    String.mk [if s.CPSR.Negative then 'N' else 'n', if s.CPSR.Zero then 'Z' else 'z',
      if s.CPSR.Carry then 'C' else 'c', if s.CPSR.Overflow then 'V' else 'v']
  | CpuType.Pce => Formatter.FormatPceFlags st.pce.PS
  | CpuType.Sms => Formatter.FormatSmsFlags st.sms.Flags
  | CpuType.Ws =>
    let s := st.ws
    String.mk [if s.Flags.Overflow then 'O' else 'o', if s.Flags.Direction then 'D' else 'd',
      if s.Flags.Irq then 'I' else 'i', if s.Flags.Trap then 'T' else 't',
      if s.Flags.Sign then 'S' else 's', if s.Flags.Zero then 'Z' else 'z',
      if s.Flags.AuxCarry then 'A' else 'a', if s.Flags.Parity then 'P' else 'p',
      if s.Flags.Carry then 'C' else 'c']
  | _ => ""

/-- The part of the format string of the text rendering that shows the flags, filled in: the
flags string between the literal text before and after it; on GBA the bracket also holds
`THUMB` or `ARM` for `thumb` and the mode name `mode`. -/
def flagsSegment (cpu : CpuType) (flags : String) (thumb : Bool) (mode : String) : String :=
  match cpu with
  | CpuType.Nes | CpuType.Gameboy | CpuType.Pce | CpuType.Sms =>
    "\nFlags: " ++ flags ++ "  Cycles: "
  | CpuType.Snes | CpuType.Sa1 => "\nFlags: " ++ flags ++ "  ["
  | CpuType.Gba =>
    "  [" ++ flags ++ " " ++ (if thumb then "THUMB" else "ARM") ++ " " ++ mode ++ "]  Cycles: "
  | CpuType.Ws => " [" ++ flags ++ "]  Cycles: "
  | _ => ""

/-- The number of characters of the text rendering before the part that shows the flags: the
registers before it are printed with fixed widths. -/
def flagsOffset (cpu : CpuType) : Nat :=
  match cpu with
  | CpuType.Nes | CpuType.Pce => 37
  | CpuType.Snes | CpuType.Sa1 => 66
  | CpuType.Gameboy => 74
  | CpuType.Gba => 245
  | CpuType.Sms => 107
  | CpuType.Ws => 137
  | _ => 0

/-! # Theorems -/

/-! ## Characters and `std::stoul` -/

/-- The characters that are hex digits, by code. -/
theorem isDigitIn_sixteen_code (c : Char) (h : isDigitIn 16 c = true) :
    (48 ≤ c.toNat ∧ c.toNat ≤ 57) ∨ (97 ≤ c.toNat ∧ c.toNat ≤ 102) ∨
      (65 ≤ c.toNat ∧ c.toNat ≤ 70) := by
  unfold isDigitIn digitValue at h
  split_ifs at h with h1 h2 h3
  · left; exact h1
  · right; left
    simp only [decide_eq_true_eq] at h
    omega
  · right; right
    simp only [decide_eq_true_eq] at h
    omega

/-- A hex digit is not white space. -/
theorem isspace_of_hex (c : Char) (h : isDigitIn 16 c = true) : isspace c = false := by
  have hc := isDigitIn_sixteen_code c h
  unfold isspace
  simp only [Bool.or_eq_false_iff, Bool.and_eq_false_iff, decide_eq_false_iff_not]
  omega

/-- A hex digit differs from every character whose code is outside the digit ranges. -/
theorem hex_ne_of_code (c d : Char) (h : isDigitIn 16 c = true)
    (hd : ¬((48 ≤ d.toNat ∧ d.toNat ≤ 57) ∨ (97 ≤ d.toNat ∧ d.toNat ≤ 102) ∨
      (65 ≤ d.toNat ∧ d.toNat ≤ 70))) : c ≠ d := by
  intro hcd
  subst hcd
  exact hd (isDigitIn_sixteen_code c h)

theorem skipSpaces_hex (c : Char) (cs : List Char) (h : isDigitIn 16 c = true) :
    skipSpaces (c :: cs) = c :: cs := by
  simp [skipSpaces, isspace_of_hex c h]

theorem takeSign_hex (c : Char) (cs : List Char) (h : isDigitIn 16 c = true) :
    takeSign (c :: cs) = (false, c :: cs) := by
  have h1 : c ≠ '-' := hex_ne_of_code c '-' h (by decide)
  have h2 : c ≠ '+' := hex_ne_of_code c '+' h (by decide)
  simp [takeSign, h1, h2]

theorem skipHexPrefix_hex (t : List Char) (h : ∀ c ∈ t, isDigitIn 16 c = true) :
    skipHexPrefix 16 t = t := by
  match t, h with
  | [], _ => rfl
  | [_], _ => rfl
  | [_, _], _ => rfl
  | c0 :: c1 :: c2 :: cs, h =>
    have hc1 : isDigitIn 16 c1 = true := h c1 (by simp)
    have h1 : c1 ≠ 'x' := hex_ne_of_code c1 'x' hc1 (by decide)
    have h2 : c1 ≠ 'X' := hex_ne_of_code c1 'X' hc1 (by decide)
    simp [skipHexPrefix, h1, h2]

theorem takeDigits_all (base : Nat) (t : List Char) (h : ∀ c ∈ t, isDigitIn base c = true) :
    takeDigits base t = t := by
  induction t with
  | nil => rfl
  | cons c cs ih =>
    have hc : isDigitIn base c = true := h c (by simp)
    have hcs : ∀ d ∈ cs, isDigitIn base d = true := fun d hd => h d (by simp [hd])
    simp [takeDigits, hc, ih hcs]

/-- On a non-empty string of hex digits whose value fits `unsigned long`, `std::stoul` in
base 16 returns the value. -/
theorem stoul_hex (t : List Char) (hne : t ≠ []) (h : ∀ c ∈ t, isDigitIn 16 c = true)
    (hv : digitsValue 16 t < 2 ^ ULONG_BITS) : stoul t 16 = Except.ok (digitsValue 16 t) := by
  match t, hne, h, hv with
  | c :: cs, _, h, hv =>
    have hc : isDigitIn 16 c = true := h c (by simp)
    unfold stoul
    simp only [skipSpaces_hex c cs hc, takeSign_hex c cs hc, skipHexPrefix_hex (c :: cs) h,
      takeDigits_all 16 (c :: cs) h]
    simp [Nat.not_le.mpr hv]

theorem digitIn_lt_of_isDigitIn (base : Nat) (c : Char) (h : isDigitIn base c = true) :
    digitIn c < base := by
  unfold isDigitIn at h
  unfold digitIn
  cases hd : digitValue c with
  | none => simp [hd] at h
  | some d =>
    simp only [hd, decide_eq_true_eq] at h
    simpa using h

theorem foldl_digits_bound (t : List Char) (h : ∀ c ∈ t, isDigitIn 16 c = true) (acc : Nat) :
    t.foldl (fun a c => a * 16 + digitIn c) acc + 1 ≤ (acc + 1) * 16 ^ t.length := by
  induction t generalizing acc with
  | nil => simp
  | cons c cs ih =>
    have hc : digitIn c < 16 := digitIn_lt_of_isDigitIn 16 c (h c (by simp))
    have hcs : ∀ d ∈ cs, isDigitIn 16 d = true := fun d hd => h d (by simp [hd])
    have step : acc * 16 + digitIn c + 1 ≤ (acc + 1) * 16 := by omega
    calc List.foldl (fun a c => a * 16 + digitIn c) acc (c :: cs) + 1
        = List.foldl (fun a c => a * 16 + digitIn c) (acc * 16 + digitIn c) cs + 1 := rfl
      _ ≤ (acc * 16 + digitIn c + 1) * 16 ^ cs.length := ih hcs _
      _ ≤ ((acc + 1) * 16) * 16 ^ cs.length := Nat.mul_le_mul_right _ step
      _ = (acc + 1) * 16 ^ (c :: cs).length := by
        rw [List.length_cons, Nat.pow_succ]; ring

/-- A string of `n` hex digits has a value below `16 ^ n`. -/
theorem digitsValue_lt (t : List Char) (h : ∀ c ∈ t, isDigitIn 16 c = true) :
    digitsValue 16 t < 16 ^ t.length := by
  have := foldl_digits_bound t h 0
  unfold digitsValue
  omega

theorem find_hex (t : List Char) (h : ∀ c ∈ t, isDigitIn 16 c = true) : find t ':' = none := by
  induction t with
  | nil => rfl
  | cons c cs ih =>
    have hc : c ≠ ':' := hex_ne_of_code c ':' (h c (by simp)) (by decide)
    have hcs : ∀ d ∈ cs, isDigitIn 16 d = true := fun d hd => h d (by simp [hd])
    simp [find, hc, ih hcs]

theorem find_hex_colon (b o : List Char) (h : ∀ c ∈ b, isDigitIn 16 c = true) :
    find (b ++ ':' :: o) ':' = some b.length := by
  induction b with
  | nil => simp [find]
  | cons c cs ih =>
    have hc : c ≠ ':' := hex_ne_of_code c ':' (h c (by simp)) (by decide)
    have hcs : ∀ d ∈ cs, isDigitIn 16 d = true := fun d hd => h d (by simp [hd])
    simp [find, hc, ih hcs]

theorem stripPrefix_hex (t : List Char) (h : ∀ c ∈ t, isDigitIn 16 c = true) :
    stripPrefix t = t := by
  match t, h with
  | [], _ => rfl
  | [c], h =>
    have h1 : c ≠ '$' := hex_ne_of_code c '$' (h c (by simp)) (by decide)
    simp [stripPrefix, h1]
  | c0 :: c1 :: cs, h =>
    have h0 : c0 ≠ '$' := hex_ne_of_code c0 '$' (h c0 (by simp)) (by decide)
    have h1 : c1 ≠ 'x' := hex_ne_of_code c1 'x' (h c1 (by simp)) (by decide)
    have h2 : c1 ≠ 'X' := hex_ne_of_code c1 'X' (h c1 (by simp)) (by decide)
    simp [stripPrefix, h0, h1, h2]

theorem stripPrefix_dollar (t : List Char) (hne : t ≠ []) : stripPrefix ('$' :: t) = t := by
  match t, hne with
  | c :: cs, _ => simp [stripPrefix]

theorem stripPrefix_zero_x (t : List Char) (hne : t ≠ []) :
    stripPrefix ('0' :: 'x' :: t) = t := by
  match t, hne with
  | c :: cs, _ => simp [stripPrefix]

/-- Packing a bank and an offset: the bank lands in bits 16 to 31, the low 16 bits of the
offset in bits 0 to 15. -/
theorem pack_eq (B O : Nat) :
    toU32 (B <<< 16) ||| (O &&& 0xFFFF) = 65536 * (B % 65536) + O % 65536 := by
  have h1 : O &&& 0xFFFF = O % 2 ^ 16 := Nat.and_pow_two_sub_one_eq_mod O 16
  have h2 : toU32 (B <<< 16) = 2 ^ 16 * (B % 65536) := by
    unfold toU32
    rw [Nat.shiftLeft_eq]
    omega
  have h3 : O % 2 ^ 16 < 2 ^ 16 := Nat.mod_lt _ (by decide)
  rw [h1, h2, ← Nat.mul_add_lt_is_or h3]
  norm_num

theorem pack_spec (B O : Nat) :
    ((B <<< 16) ||| (O &&& 0xFFFF)) % 2 ^ 32 = 65536 * (B % 65536) + O % 65536 := by
  have h1 : O &&& 0xFFFF = O % 2 ^ 16 := Nat.and_pow_two_sub_one_eq_mod O 16
  have h3 : O % 2 ^ 16 < 2 ^ 16 := Nat.mod_lt _ (by decide)
  have h4 : B <<< 16 = 2 ^ 16 * B := by rw [Nat.shiftLeft_eq, Nat.mul_comm]
  rw [h1, h4, ← Nat.mul_add_lt_is_or h3]
  omega

/-! ## Address parsing -/

theorem hex_value_fits (t : List Char)
    (hv : digitsValue 16 t < 2 ^ 32) : digitsValue 16 t < 2 ^ ULONG_BITS :=
  Nat.lt_of_lt_of_le hv (by decide)

/-- `ParseAddress` on a bare string of hex digits whose value fits 32 bits. -/
theorem ParseAddress_plain (t : List Char) (hne : t ≠ []) (h : ∀ c ∈ t, isDigitIn 16 c = true)
    (hv : digitsValue 16 t < 2 ^ 32) : ParseAddress t = Except.ok (digitsValue 16 t) := by
  unfold ParseAddress
  simp only [find_hex t h, stripPrefix_hex t h, stoul_hex t hne h (hex_value_fits t hv)]
  simp only [Except.map, toU32, Nat.mod_eq_of_lt hv]

/-- `ParseAddress` on `bank:offset` with both halves hex digits whose values fit 32 bits. -/
theorem ParseAddress_colon (b o : List Char) (hb : b ≠ []) (ho : o ≠ [])
    (hbhex : ∀ c ∈ b, isDigitIn 16 c = true) (hohex : ∀ c ∈ o, isDigitIn 16 c = true)
    (hB : digitsValue 16 b < 2 ^ 32) (hO : digitsValue 16 o < 2 ^ 32) :
    ParseAddress (b ++ ':' :: o) =
      Except.ok (65536 * (digitsValue 16 b % 65536) + digitsValue 16 o % 65536) := by
  unfold ParseAddress
  have ht : (b ++ ':' :: o).take b.length = b := by simp
  have hd : (b ++ ':' :: o).drop (b.length + 1) = o := by
    rw [← List.drop_drop]
    simp
  simp only [find_hex_colon b o hbhex, ht, hd, stoul_hex b hb hbhex (hex_value_fits b hB),
    stoul_hex o ho hohex (hex_value_fits o hO)]
  simp only [Except.map, bind, Except.bind, pure, Except.pure]
  rw [show toU32 (digitsValue 16 b) = digitsValue 16 b from Nat.mod_eq_of_lt hB,
    show toU32 (digitsValue 16 o) = digitsValue 16 o from Nat.mod_eq_of_lt hO, pack_eq]

/-- C2: for every string `h` of one to four hex digits with value `v`, `ParseAddress`
returns `v` for `h`, `$h`, `0xh` and `00:h`, and `0x10000 + v` for `01:h`. -/
theorem ParseAddress_accepted_forms (h : List Char) (hlen1 : 1 ≤ h.length)
    (hlen4 : h.length ≤ 4) (hhex : ∀ c ∈ h, isDigitIn 16 c = true) :
    ParseAddress h = Except.ok (digitsValue 16 h) ∧
    ParseAddress ('$' :: h) = Except.ok (digitsValue 16 h) ∧
    ParseAddress ('0' :: 'x' :: h) = Except.ok (digitsValue 16 h) ∧
    ParseAddress ('0' :: '0' :: ':' :: h) = Except.ok (digitsValue 16 h) ∧
    ParseAddress ('0' :: '1' :: ':' :: h) = Except.ok (0x10000 + digitsValue 16 h) := by
  have hne : h ≠ [] := by
    intro h0
    rw [h0] at hlen1
    simp at hlen1
  have hv16 : digitsValue 16 h < 65536 :=
    Nat.lt_of_lt_of_le (digitsValue_lt h hhex)
      (Nat.le_trans (Nat.pow_le_pow_right (by decide) hlen4) (by decide))
  have hv : digitsValue 16 h < 2 ^ 32 := Nat.lt_of_lt_of_le hv16 (by decide)
  have hplain := ParseAddress_plain h hne hhex hv
  have hnocolon := find_hex h hhex
  refine ⟨hplain, ?_, ?_, ?_, ?_⟩
  · have hf : find ('$' :: h) ':' = none := by simp [find, hnocolon]
    unfold ParseAddress
    simp only [hf, stripPrefix_dollar h hne, stoul_hex h hne hhex (hex_value_fits h hv)]
    simp only [Except.map, toU32, Nat.mod_eq_of_lt hv]
  · have hf : find ('0' :: 'x' :: h) ':' = none := by simp [find, hnocolon]
    unfold ParseAddress
    simp only [hf, stripPrefix_zero_x h hne, stoul_hex h hne hhex (hex_value_fits h hv)]
    simp only [Except.map, toU32, Nat.mod_eq_of_lt hv]
  · have := ParseAddress_colon ['0', '0'] h (by simp) hne (by decide) hhex (by decide) hv
    rw [show ['0', '0'] ++ ':' :: h = '0' :: '0' :: ':' :: h from rfl] at this
    rw [this, show digitsValue 16 ['0', '0'] = 0 from by decide]
    simp [Nat.mod_eq_of_lt hv16]
  · have := ParseAddress_colon ['0', '1'] h (by simp) hne (by decide) hhex (by decide) hv
    rw [show ['0', '1'] ++ ':' :: h = '0' :: '1' :: ':' :: h from rfl] at this
    rw [this, show digitsValue 16 ['0', '1'] = 1 from by decide]
    simp [Nat.mod_eq_of_lt hv16]

/-- C2 at `h = "1234"`: `0x1234` four times and `0x11234`. -/
theorem ParseAddress_accepted_forms_witness :
    ParseAddress "1234".toList = Except.ok 0x1234 ∧
    ParseAddress "$1234".toList = Except.ok 0x1234 ∧
    ParseAddress "0x1234".toList = Except.ok 0x1234 ∧
    ParseAddress "00:1234".toList = Except.ok 0x1234 ∧
    ParseAddress "01:1234".toList = Except.ok 0x11234 :=
  ParseAddress_accepted_forms ['1', '2', '3', '4'] (by decide) (by decide) (by decide)

/-- C3: for non-empty hex strings `b` and `o` with values below `2^32`, `ParseAddress` on
`b:o` returns `((B << 16) | (O & 0xFFFF))` truncated to 32 bits; the low 16 bits of the
result are those of `O`, and the bits above them are the low 16 bits of `B` alone. -/
theorem ParseAddress_bank_offset (b o : List Char) (hb : b ≠ []) (ho : o ≠ [])
    (hbhex : ∀ c ∈ b, isDigitIn 16 c = true) (hohex : ∀ c ∈ o, isDigitIn 16 c = true)
    (hB : digitsValue 16 b < 2 ^ 32) (hO : digitsValue 16 o < 2 ^ 32) :
    ∃ r, ParseAddress (b ++ ':' :: o) = Except.ok r ∧
      r = ((digitsValue 16 b <<< 16) ||| (digitsValue 16 o &&& 0xFFFF)) % 2 ^ 32 ∧
      r % 2 ^ 16 = digitsValue 16 o % 2 ^ 16 ∧
      r / 2 ^ 16 = digitsValue 16 b % 2 ^ 16 := by
  refine ⟨_, ParseAddress_colon b o hb ho hbhex hohex hB hO, ?_, ?_, ?_⟩
  · rw [pack_spec]
  · omega
  · omega

/-- C3 at bank `7E` and offset `12345`: offset bit 16 does not reach the bank. -/
theorem ParseAddress_bank_offset_witness :
    ∃ r, ParseAddress "7E:12345".toList = Except.ok r ∧
      r = ((0x7E <<< 16) ||| (0x12345 &&& 0xFFFF)) % 2 ^ 32 ∧
      r % 2 ^ 16 = 0x12345 % 2 ^ 16 ∧
      r / 2 ^ 16 = 0x7E % 2 ^ 16 :=
  ParseAddress_bank_offset ['7', 'E'] ['1', '2', '3', '4', '5'] (by decide) (by decide)
    (by decide) (by decide) (by decide) (by decide)

theorem takeDigits_of_not_digit (base : Nat) (c : Char) (cs : List Char)
    (h : isDigitIn base c = false) : takeDigits base (c :: cs) = [] := by
  simp [takeDigits, h]

theorem skipHexPrefix_of_not_hex (c : Char) (cs : List Char) (h : isDigitIn 16 c = false) :
    skipHexPrefix 16 (c :: cs) = c :: cs := by
  have h0 : c ≠ '0' := by
    intro hc
    rw [hc] at h
    exact absurd h (by decide)
  match cs with
  | [] => rfl
  | [_] => rfl
  | c1 :: c2 :: rest => simp [skipHexPrefix, h0]

/-- Without a hex digit after the white space and the sign, `std::stoul` in base 16 throws
`invalid_argument`. -/
theorem stoul_no_digit (t : List Char) (h : startsWithHexDigit t = false) :
    stoul t 16 = Except.error StdException.invalid_argument := by
  unfold startsWithHexDigit at h
  unfold stoul
  cases hr : (takeSign (skipSpaces t)).2 with
  | nil => simp [hr, skipHexPrefix, takeDigits]
  | cons c cs =>
    rw [hr] at h
    simp only at h
    simp [hr, skipHexPrefix_of_not_hex c cs h, takeDigits_of_not_digit 16 c cs h]

/-- With a hex digit after the white space and the sign, `std::stoul` in base 16 does not
throw `invalid_argument`. -/
theorem stoul_digit (t : List Char) (h : startsWithHexDigit t = true) :
    stoul t 16 ≠ Except.error StdException.invalid_argument := by
  unfold startsWithHexDigit at h
  unfold stoul
  cases hr : (takeSign (skipSpaces t)).2 with
  | nil => simp [hr] at h
  | cons c cs =>
    rw [hr] at h
    simp only at h
    have hne : takeDigits 16 (skipHexPrefix 16 (c :: cs)) ≠ [] := by
      match cs with
      | [] => simp [skipHexPrefix, takeDigits, h]
      | [_] => simp [skipHexPrefix, takeDigits, h]
      | c1 :: c2 :: rest =>
        by_cases hp : (c = '0' ∧ (c1 = 'x' ∨ c1 = 'X') ∧ isDigitIn 16 c2 = true)
        · have hp2 : isDigitIn 16 c2 = true := hp.2.2
          have hsk : skipHexPrefix 16 (c :: c1 :: c2 :: rest) = c2 :: rest := by
            simp only [skipHexPrefix, true_and, hp, and_self, if_true]
          rw [hsk]
          simp [takeDigits, hp2]
        · have hsk : skipHexPrefix 16 (c :: c1 :: c2 :: rest) = c :: c1 :: c2 :: rest := by
            simp only [skipHexPrefix, true_and, hp, if_false]
          rw [hsk]
          simp [takeDigits, h]
    simp only [hr, hne, if_false]
    split_ifs <;> simp

/-- `ParseAddress` on a text without colon. -/
theorem ParseAddress_of_no_colon (s : List Char) (hf : find s ':' = none) :
    ParseAddress s =
      match stoul (stripPrefix s) 16 with
      | Except.error e => Except.error e
      | Except.ok v => Except.ok (toU32 v) := by
  unfold ParseAddress
  simp only [hf]
  cases stoul (stripPrefix s) 16 <;> rfl

/-- `ParseAddress` on a text whose first colon is at index `colon`. -/
theorem ParseAddress_of_colon (s : List Char) (colon : Nat) (hf : find s ':' = some colon) :
    ParseAddress s =
      match stoul (s.take colon) 16 with
      | Except.error e => Except.error e
      | Except.ok bank =>
        match stoul (s.drop (colon + 1)) 16 with
        | Except.error e => Except.error e
        | Except.ok addr => Except.ok (toU32 (toU32 bank <<< 16) ||| (toU32 addr &&& 0xFFFF)) := by
  unfold ParseAddress
  simp only [hf]
  cases stoul (s.take colon) 16 with
  | error e => rfl
  | ok bank => cases stoul (s.drop (colon + 1)) 16 <;> rfl

/-- C4, as amended: `ParseAddress` fails with an error for every string in which a text it
hands to the conversion (the string after the optional `$` or `0x` prefix, or the bank or
offset part around the first colon) does not begin with a hex digit once leading white space
and one optional sign are skipped. -/
theorem ParseAddress_fails_without_digit (s : List Char)
    (h : ∃ t ∈ convertedTexts s, startsWithHexDigit t = false) :
    ∃ e, ParseAddress s = Except.error e := by
  obtain ⟨t, ht, hbad⟩ := h
  unfold convertedTexts at ht
  cases hf : find s ':' with
  | none =>
    rw [hf] at ht
    simp only [List.mem_singleton] at ht
    subst ht
    rw [ParseAddress_of_no_colon s hf, stoul_no_digit _ hbad]
    exact ⟨_, rfl⟩
  | some colon =>
    rw [hf] at ht
    simp only [List.mem_cons, List.mem_singleton, List.not_mem_nil, or_false] at ht
    rw [ParseAddress_of_colon s colon hf]
    rcases ht with ht | ht
    · subst ht
      rw [stoul_no_digit _ hbad]
      exact ⟨_, rfl⟩
    · subst ht
      cases hb : stoul (List.take colon s) 16 with
      | error e => exact ⟨e, rfl⟩
      | ok v =>
        rw [stoul_no_digit _ hbad]
        exact ⟨_, rfl⟩

/-- C4, as amended, at the empty string, a bare `$`, a bare sign and an empty offset. -/
theorem ParseAddress_fails_without_digit_witness :
    (∃ e, ParseAddress [] = Except.error e) ∧ (∃ e, ParseAddress ['$'] = Except.error e) ∧
    (∃ e, ParseAddress ['-'] = Except.error e) ∧
    (∃ e, ParseAddress ['0', '0', ':'] = Except.error e) :=
  ⟨ParseAddress_fails_without_digit [] ⟨[], by decide, by decide⟩,
   ParseAddress_fails_without_digit ['$'] ⟨['$'], by decide, by decide⟩,
   ParseAddress_fails_without_digit ['-'] ⟨['-'], by decide, by decide⟩,
   ParseAddress_fails_without_digit ['0', '0', ':'] ⟨[], by decide, by decide⟩⟩

/-- C4 as stated fails: hex digits followed by other characters, a signed number, a second
colon and a bare `0x` have none of the accepted shapes, yet `ParseAddress` returns an
address for each. -/
theorem ParseAddress_accepts_malformed :
    (acceptedShape "12zz".toList = false ∧ ParseAddress "12zz".toList = Except.ok 0x12) ∧
    (acceptedShape "-1".toList = false ∧ ParseAddress "-1".toList = Except.ok 0xFFFFFFFF) ∧
    (acceptedShape "1:2:3".toList = false ∧ ParseAddress "1:2:3".toList = Except.ok 0x10002) ∧
    (acceptedShape "0x".toList = false ∧ ParseAddress "0x".toList = Except.ok 0) := by
  decide

/-- When `ParseAddress` fails with `invalid_argument`, a text it converts does not begin
with a hex digit after the white space and the sign. -/
theorem ParseAddress_invalid_argument_only_without_digit (s : List Char)
    (h : ParseAddress s = Except.error StdException.invalid_argument) :
    ∃ t ∈ convertedTexts s, startsWithHexDigit t = false := by
  unfold convertedTexts
  cases hf : find s ':' with
  | none =>
    rw [ParseAddress_of_no_colon s hf] at h
    refine ⟨stripPrefix s, by simp, ?_⟩
    by_contra hd
    apply stoul_digit _ (by simpa using hd)
    cases hs : stoul (stripPrefix s) 16 with
    | error e =>
      rw [hs] at h
      exact h
    | ok v =>
      rw [hs] at h
      exact Except.noConfusion h
  | some colon =>
    rw [ParseAddress_of_colon s colon hf] at h
    cases hb : stoul (List.take colon s) 16 with
    | error e =>
      rw [hb] at h
      refine ⟨List.take colon s, by simp, ?_⟩
      by_contra hd
      apply stoul_digit _ (by simpa using hd)
      rw [hb]
      exact h
    | ok v =>
      rw [hb] at h
      cases ho : stoul (List.drop (colon + 1) s) 16 with
      | error e =>
        rw [ho] at h
        refine ⟨List.drop (colon + 1) s, by simp, ?_⟩
        by_contra hd
        apply stoul_digit _ (by simpa using hd)
        rw [ho]
        exact h
      | ok v2 =>
        rw [ho] at h
        exact Except.noConfusion h

/-! ## The notification bridge -/

namespace CliNotificationListener

theorem ProcessNotification_stop (l : CliNotificationListener) (t : ConsoleNotificationType)
    (h : isStopNotification t = true) : (ProcessNotification l t)._breakOccurred = true := by
  cases t <;> simp [isStopNotification] at h <;> simp [ProcessNotification]

theorem ProcessNotification_quiet (l : CliNotificationListener) (t : ConsoleNotificationType)
    (h : isStopNotification t = false) : ProcessNotification l t = l := by
  cases t <;> simp [isStopNotification] at h <;> simp [ProcessNotification]

theorem ProcessNotification_keeps_pending (l : CliNotificationListener)
    (t : ConsoleNotificationType) (h : l._breakOccurred = true) :
    (ProcessNotification l t)._breakOccurred = true := by
  unfold ProcessNotification
  split_ifs <;> simp [h]

theorem deliver_keeps_pending (ns : List ConsoleNotificationType) (l : CliNotificationListener)
    (h : l._breakOccurred = true) : (deliver l ns)._breakOccurred = true := by
  induction ns generalizing l with
  | nil => exact h
  | cons t ts ih => exact ih _ (ProcessNotification_keeps_pending l t h)

/-- One or more stop notifications leave the pending flag set. -/
theorem deliver_stops_pending (ns : List ConsoleNotificationType) (l : CliNotificationListener)
    (hne : ns ≠ []) (h : ∀ t ∈ ns, isStopNotification t = true) :
    (deliver l ns)._breakOccurred = true := by
  match ns, hne with
  | t :: ts, _ =>
    exact deliver_keeps_pending ts _ (ProcessNotification_stop l t (h t (by simp)))

/-- Notifications that are not stop notifications leave the bridge as it is. -/
theorem deliver_quiet (ns : List ConsoleNotificationType) (l : CliNotificationListener)
    (h : ∀ t ∈ ns, isStopNotification t = false) : deliver l ns = l := by
  induction ns generalizing l with
  | nil => rfl
  | cons t ts ih =>
    have ht : ProcessNotification l t = l := ProcessNotification_quiet l t (h t (by simp))
    have hts : ∀ u ∈ ts, isStopNotification u = false := fun u hu => h u (by simp [hu])
    show deliver (ProcessNotification l t) ts = l
    rw [ht]
    exact ih l hts

/-- A bounded wait on a bridge with no pending flag, during which no stop notification
arrives, returns false. -/
theorem WaitForBreak_times_out (l : CliNotificationListener) (timeoutMs : Int)
    (arriving : List ConsoleNotificationType) (hclear : l._breakOccurred = false)
    (hpos : 0 < timeoutMs) (hquiet : ∀ t ∈ arriving, isStopNotification t = false) :
    WaitForBreak l timeoutMs arriving = some (false, l) := by
  unfold WaitForBreak
  rw [deliver_quiet arriving l hquiet]
  have hl : ({ l with _breakOccurred := false } : CliNotificationListener) = l := by
    cases l
    simp only at hclear
    simp [hclear]
  simp [hclear, hpos, hl]

end CliNotificationListener

/-- C5: from every bridge state, after one or more stop notifications (CodeBreak or
EmulationStopped) with no wait in between, the next `WaitForBreak` returns true, and a
further `WaitForBreak` with a positive timeout during which no stop notification arrives
returns false. -/
theorem bridge_coalesces_signals (l : CliNotificationListener)
    (signals : List ConsoleNotificationType) (hn : 1 ≤ signals.length)
    (hstop : ∀ t ∈ signals, isStopNotification t = true)
    (timeout1 : Int) (arriving1 : List ConsoleNotificationType)
    (timeout2 : Int) (hpos : 0 < timeout2) (arriving2 : List ConsoleNotificationType)
    (hquiet : ∀ t ∈ arriving2, isStopNotification t = false) :
    ∃ l1 l2, (l.deliver signals).WaitForBreak timeout1 arriving1 = some (true, l1) ∧
      l1.WaitForBreak timeout2 arriving2 = some (false, l2) := by
  have hne : signals ≠ [] := by
    intro h0
    rw [h0] at hn
    simp at hn
  have hp := CliNotificationListener.deliver_stops_pending signals l hne hstop
  refine ⟨{ l.deliver signals with _breakOccurred := false },
    { l.deliver signals with _breakOccurred := false }, ?_, ?_⟩
  · simp [CliNotificationListener.WaitForBreak, hp]
  · exact CliNotificationListener.WaitForBreak_times_out _ timeout2 arriving2 rfl hpos hquiet

/-- C5 with two signals, a code break and an emulation stop: one successful wait, then a
timeout. -/
theorem bridge_coalesces_signals_witness :
    ∃ l1 l2,
      (CliNotificationListener.deliver {}
          [ConsoleNotificationType.CodeBreak,
            ConsoleNotificationType.EmulationStopped]).WaitForBreak 5000 [] = some (true, l1) ∧
      l1.WaitForBreak 5000 [ConsoleNotificationType.PpuFrameDone] = some (false, l2) :=
  bridge_coalesces_signals {}
    [ConsoleNotificationType.CodeBreak, ConsoleNotificationType.EmulationStopped]
    (by decide) (by decide) 5000 [] 5000 (by decide) [ConsoleNotificationType.PpuFrameDone]
    (by decide)

/-- C6: from every bridge state, after `Reset` a `WaitForBreak` with a positive timeout
during which no stop notification arrives returns false. -/
theorem bridge_reset_clears_stale (l : CliNotificationListener) (timeoutMs : Int)
    (hpos : 0 < timeoutMs) (arriving : List ConsoleNotificationType)
    (hquiet : ∀ t ∈ arriving, isStopNotification t = false) :
    ∃ l1, l.Reset.WaitForBreak timeoutMs arriving = some (false, l1) :=
  ⟨l.Reset, CliNotificationListener.WaitForBreak_times_out l.Reset timeoutMs arriving rfl hpos
    hquiet⟩

/-- C6 on a bridge with a stale pending flag left by an emulation stop. -/
theorem bridge_reset_clears_stale_witness :
    ∃ l1, (CliNotificationListener.mk true true).Reset.WaitForBreak 5000 [] = some (false, l1) :=
  bridge_reset_clears_stale (CliNotificationListener.mk true true) 5000 (by decide) []
    (by decide)

/-! ## The breakpoint collection of the shell -/

namespace DebuggerCli

@[simp] theorem SyncBreakpoints_breakpoints (G : CpuType → MemoryType) (cli : DebuggerCli) :
    (SyncBreakpoints G cli)._breakpoints = cli._breakpoints := by
  unfold SyncBreakpoints
  cases cli._emu.debugger <;> rfl

@[simp] theorem SyncBreakpoints_nextBreakpointId (G : CpuType → MemoryType)
    (cli : DebuggerCli) : (SyncBreakpoints G cli)._nextBreakpointId = cli._nextBreakpointId := by
  unfold SyncBreakpoints
  cases cli._emu.debugger <;> rfl

@[simp] theorem SyncBreakpoints_primaryCpu (G : CpuType → MemoryType) (cli : DebuggerCli) :
    (SyncBreakpoints G cli)._primaryCpu = cli._primaryCpu := by
  unfold SyncBreakpoints
  cases cli._emu.debugger <;> rfl

theorem removeId_eq_filter (id : Nat) (bps : List CliBreakpoint) :
    removeId id bps = bps.filter (fun bp => decide (bp.id ≠ id)) := by
  induction bps with
  | nil => rfl
  | cons bp rest ih =>
    by_cases h : bp.id = id
    · simp [removeId, h, ih]
    · simp [removeId, h, ih]

theorem removeId_sublist (id : Nat) (bps : List CliBreakpoint) :
    (removeId id bps).Sublist bps := by
  rw [removeId_eq_filter]
  exact List.filter_sublist bps

/-- Removing an id no entry has leaves the collection as it is. -/
theorem removeId_of_absent (id : Nat) (bps : List CliBreakpoint)
    (h : ∀ bp ∈ bps, bp.id ≠ id) : removeId id bps = bps := by
  rw [removeId_eq_filter]
  exact List.filter_eq_self.mpr (fun bp hbp => by simpa using h bp hbp)

theorem CmdBreak_breakpoints (G : CpuType → MemoryType) (cli : DebuggerCli) (addr : Nat) :
    (CmdBreak G cli addr).1._breakpoints =
      cli._breakpoints ++ [⟨cli._nextBreakpointId, addr, false, true⟩] := by
  simp [CmdBreak]

theorem CmdBreak_nextBreakpointId (G : CpuType → MemoryType) (cli : DebuggerCli) (addr : Nat) :
    (CmdBreak G cli addr).1._nextBreakpointId = toU32 (cli._nextBreakpointId + 1) := by
  simp [CmdBreak]

theorem CmdWatch_breakpoints (G : CpuType → MemoryType) (cli : DebuggerCli) (addr : Nat) :
    (CmdWatch G cli addr).1._breakpoints =
      cli._breakpoints ++ [⟨cli._nextBreakpointId, addr, true, true⟩] := by
  simp [CmdWatch]

theorem CmdWatch_nextBreakpointId (G : CpuType → MemoryType) (cli : DebuggerCli) (addr : Nat) :
    (CmdWatch G cli addr).1._nextBreakpointId = toU32 (cli._nextBreakpointId + 1) := by
  simp [CmdWatch]

theorem CmdDelete_breakpoints (G : CpuType → MemoryType) (cli : DebuggerCli) (id : Nat) :
    (CmdDelete G cli id).1._breakpoints = removeId id cli._breakpoints := by
  unfold CmdDelete
  by_cases h : (removeId id cli._breakpoints).length = cli._breakpoints.length
  · simp only [h, if_true]
    exact ((removeId_sublist id cli._breakpoints).eq_of_length h).symm
  · simp [h]

theorem CmdDelete_nextBreakpointId (G : CpuType → MemoryType) (cli : DebuggerCli) (id : Nat) :
    (CmdDelete G cli id).1._nextBreakpointId = cli._nextBreakpointId := by
  unfold CmdDelete
  by_cases h : (removeId id cli._breakpoints).length = cli._breakpoints.length
  · simp only [h, if_true]
  · simp [h]

end DebuggerCli

/-- The invariant of the id counter and the ids in the collection. -/
theorem ids_invariant_step (ids : List Nat) (next n : Nat) (hnext : next = n + 1)
    (hsorted : ids.Pairwise (· < ·)) (hlt : ∀ i ∈ ids, i < next) (hn : n + 1 < 2 ^ 32 - 1) :
    toU32 (next + 1) = n + 1 + 1 ∧ (ids ++ [next]).Pairwise (· < ·) ∧
      ∀ i ∈ ids ++ [next], i < toU32 (next + 1) := by
  have h1 : toU32 (next + 1) = n + 1 + 1 := by
    unfold toU32
    rw [hnext]
    apply Nat.mod_eq_of_lt
    omega
  refine ⟨h1, ?_, ?_⟩
  · rw [List.pairwise_append]
    refine ⟨hsorted, List.pairwise_singleton _ _, ?_⟩
    intro a ha b hb
    simp only [List.mem_singleton] at hb
    rw [hb]
    exact hlt a ha
  · intro i hi
    rw [h1]
    simp only [List.mem_append, List.mem_singleton] at hi
    rcases hi with hi | hi
    · have := hlt i hi
      omega
    · omega

/-- The ids of a reachable shell state, while the counter has not wrapped: the counter is
the number of creations plus one, the ids increase along the collection and stay below the
counter. -/
theorem reachable_ids_invariant (G : CpuType → MemoryType) (n : Nat)
    (cli : DebuggerCli) (hreach : ReachableIn G n cli) (hn : n < 2 ^ 32 - 1) :
    cli._nextBreakpointId = n + 1 ∧
    (cli._breakpoints.map (fun bp => bp.id)).Pairwise (· < ·) ∧
    ∀ i ∈ cli._breakpoints.map (fun bp => bp.id), i < cli._nextBreakpointId := by
  induction hreach with
  | init emu cpu console json => simp [DebuggerCli.new]
  | addInitial addr _ ih =>
    obtain ⟨h1, h2, h3⟩ := ih (by omega)
    have := ids_invariant_step _ _ _ h1 h2 h3 hn
    simpa [DebuggerCli.AddInitialBreakpoint] using this
  | cmdBreak addr _ ih =>
    obtain ⟨h1, h2, h3⟩ := ih (by omega)
    have := ids_invariant_step _ _ _ h1 h2 h3 hn
    simpa [DebuggerCli.CmdBreak_breakpoints, DebuggerCli.CmdBreak_nextBreakpointId] using this
  | cmdWatch addr _ ih =>
    obtain ⟨h1, h2, h3⟩ := ih (by omega)
    have := ids_invariant_step _ _ _ h1 h2 h3 hn
    simpa [DebuggerCli.CmdWatch_breakpoints, DebuggerCli.CmdWatch_nextBreakpointId] using this
  | @cmdDelete m c id _ ih =>
    obtain ⟨h1, h2, h3⟩ := ih hn
    rw [DebuggerCli.CmdDelete_breakpoints, DebuggerCli.CmdDelete_nextBreakpointId]
    have hsub := (DebuggerCli.removeId_sublist id c._breakpoints).map
      (fun bp : CliBreakpoint => bp.id)
    exact ⟨h1, h2.sublist hsub, fun i hi => h3 i (hsub.subset hi)⟩
  | emulator emu _ ih => exact ih hn

/-- C7: in every shell state reached through `AddInitialBreakpoint`, `break`, `watch` and
`delete` with fewer than `2^32 - 1` breakpoints created, the id counter is one more than the
number of breakpoints created so far, and the ids in the collection are strictly increasing
in collection order, pairwise distinct and smaller than the id counter; so the id the next
creation takes was never assigned before. -/
theorem breakpoint_ids_unique_increasing (G : CpuType → MemoryType) (n : Nat)
    (cli : DebuggerCli) (hreach : ReachableIn G n cli) (hn : n < 2 ^ 32 - 1) :
    cli._nextBreakpointId = n + 1 ∧
    (cli._breakpoints.map (fun bp => bp.id)).Pairwise (· < ·) ∧
    (cli._breakpoints.map (fun bp => bp.id)).Nodup ∧
    ∀ bp ∈ cli._breakpoints, bp.id < cli._nextBreakpointId := by
  obtain ⟨hcount, hsorted, hbelow⟩ := reachable_ids_invariant G n cli hreach hn
  refine ⟨hcount, hsorted, ?_, ?_⟩
  · exact hsorted.imp (fun hab => Nat.ne_of_lt hab)
  · intro bp hbp
    exact hbelow bp.id (List.mem_map_of_mem _ hbp)

/-- C7 on the shell after `break 8100`, `watch 2000`, `delete 1`. -/
theorem breakpoint_ids_unique_increasing_witness :
    (DebuggerCli.CmdDelete (fun _ => MemoryType.Other 0)
      (DebuggerCli.CmdWatch (fun _ => MemoryType.Other 0)
        (DebuggerCli.CmdBreak (fun _ => MemoryType.Other 0)
          (DebuggerCli.new ⟨none⟩ CpuType.Nes ConsoleType.Nes false) 0x8100).1 0x2000).1
      1).1._nextBreakpointId = 2 + 1 ∧
    ((DebuggerCli.CmdDelete (fun _ => MemoryType.Other 0)
      (DebuggerCli.CmdWatch (fun _ => MemoryType.Other 0)
        (DebuggerCli.CmdBreak (fun _ => MemoryType.Other 0)
          (DebuggerCli.new ⟨none⟩ CpuType.Nes ConsoleType.Nes false) 0x8100).1 0x2000).1
      1).1._breakpoints.map (fun bp => bp.id)).Pairwise (· < ·) ∧
    ((DebuggerCli.CmdDelete (fun _ => MemoryType.Other 0)
      (DebuggerCli.CmdWatch (fun _ => MemoryType.Other 0)
        (DebuggerCli.CmdBreak (fun _ => MemoryType.Other 0)
          (DebuggerCli.new ⟨none⟩ CpuType.Nes ConsoleType.Nes false) 0x8100).1 0x2000).1
      1).1._breakpoints.map (fun bp => bp.id)).Nodup ∧
    ∀ bp ∈ (DebuggerCli.CmdDelete (fun _ => MemoryType.Other 0)
      (DebuggerCli.CmdWatch (fun _ => MemoryType.Other 0)
        (DebuggerCli.CmdBreak (fun _ => MemoryType.Other 0)
          (DebuggerCli.new ⟨none⟩ CpuType.Nes ConsoleType.Nes false) 0x8100).1 0x2000).1
      1).1._breakpoints,
      bp.id < (DebuggerCli.CmdDelete (fun _ => MemoryType.Other 0)
        (DebuggerCli.CmdWatch (fun _ => MemoryType.Other 0)
          (DebuggerCli.CmdBreak (fun _ => MemoryType.Other 0)
            (DebuggerCli.new ⟨none⟩ CpuType.Nes ConsoleType.Nes false) 0x8100).1 0x2000).1
        1).1._nextBreakpointId :=
  breakpoint_ids_unique_increasing (fun _ => MemoryType.Other 0) 2 _
    (ReachableIn.cmdDelete 1 (ReachableIn.cmdWatch 0x2000 (ReachableIn.cmdBreak 0x8100
      (ReachableIn.init ⟨none⟩ CpuType.Nes ConsoleType.Nes false))))
    (by decide)

theorem removeId_append (id : Nat) (xs ys : List CliBreakpoint) :
    DebuggerCli.removeId id (xs ++ ys) =
      DebuggerCli.removeId id xs ++ DebuggerCli.removeId id ys := by
  simp [DebuggerCli.removeId_eq_filter]

/-- C8, as amended: in every shell state reached with fewer than `2^32 - 1` breakpoints
created and for every address `a`, `break a` appends exactly one entry (enabled, execute
kind, address `a`, id equal to the previous id counter) after the earlier entries, and
deleting that id afterwards restores the collection; from an empty collection the listing
shows the header and one row after the add and `No breakpoints.` after the delete. -/
theorem break_then_delete_restores (G : CpuType → MemoryType) (n : Nat) (cli : DebuggerCli)
    (hreach : ReachableIn G n cli) (hn : n < 2 ^ 32 - 1) (a : Nat) :
    (DebuggerCli.CmdBreak G cli a).1._breakpoints =
      cli._breakpoints ++ [⟨cli._nextBreakpointId, a, false, true⟩] ∧
    (DebuggerCli.CmdDelete G (DebuggerCli.CmdBreak G cli a).1
      cli._nextBreakpointId).1._breakpoints = cli._breakpoints ∧
    (cli._breakpoints = [] →
      DebuggerCli.CmdInfoBreak (DebuggerCli.CmdBreak G cli a).1 =
        "ID   Type   Address  Enabled\n" ++
          DebuggerCli.infoBreakRow ⟨cli._nextBreakpointId, a, false, true⟩ ∧
      DebuggerCli.CmdInfoBreak (DebuggerCli.CmdDelete G (DebuggerCli.CmdBreak G cli a).1
        cli._nextBreakpointId).1 = "No breakpoints.\n") := by
  obtain ⟨_, _, hlt⟩ := reachable_ids_invariant G n cli hreach hn
  have habsent : ∀ bp ∈ cli._breakpoints, bp.id ≠ cli._nextBreakpointId :=
    fun bp hbp => Nat.ne_of_lt (hlt bp.id (List.mem_map_of_mem _ hbp))
  have hdel : (DebuggerCli.CmdDelete G (DebuggerCli.CmdBreak G cli a).1
      cli._nextBreakpointId).1._breakpoints = cli._breakpoints := by
    rw [DebuggerCli.CmdDelete_breakpoints, DebuggerCli.CmdBreak_breakpoints, removeId_append,
      DebuggerCli.removeId_of_absent _ _ habsent]
    simp [DebuggerCli.removeId]
  refine ⟨DebuggerCli.CmdBreak_breakpoints G cli a, hdel, ?_⟩
  intro hempty
  constructor
  · unfold DebuggerCli.CmdInfoBreak
    rw [DebuggerCli.CmdBreak_breakpoints, hempty]
    rfl
  · unfold DebuggerCli.CmdInfoBreak
    rw [hdel, hempty]
    rfl

/-- C8, as amended, on a fresh shell: `break 8100` lists one row with id 1, and deleting
id 1 empties the listing. -/
theorem break_then_delete_restores_witness :
    (DebuggerCli.CmdBreak (fun _ => MemoryType.Other 0)
        (DebuggerCli.new ⟨none⟩ CpuType.Nes ConsoleType.Nes false) 0x8100).1._breakpoints =
      [] ++ [⟨1, 0x8100, false, true⟩] ∧
    (DebuggerCli.CmdDelete (fun _ => MemoryType.Other 0)
      (DebuggerCli.CmdBreak (fun _ => MemoryType.Other 0)
        (DebuggerCli.new ⟨none⟩ CpuType.Nes ConsoleType.Nes false) 0x8100).1
      1).1._breakpoints = [] ∧
    (([] : List CliBreakpoint) = [] →
      DebuggerCli.CmdInfoBreak (DebuggerCli.CmdBreak (fun _ => MemoryType.Other 0)
          (DebuggerCli.new ⟨none⟩ CpuType.Nes ConsoleType.Nes false) 0x8100).1 =
        "ID   Type   Address  Enabled\n" ++
          DebuggerCli.infoBreakRow ⟨1, 0x8100, false, true⟩ ∧
      DebuggerCli.CmdInfoBreak (DebuggerCli.CmdDelete (fun _ => MemoryType.Other 0)
        (DebuggerCli.CmdBreak (fun _ => MemoryType.Other 0)
          (DebuggerCli.new ⟨none⟩ CpuType.Nes ConsoleType.Nes false) 0x8100).1
        1).1 = "No breakpoints.\n") :=
  break_then_delete_restores (fun _ => MemoryType.Other 0) 0
    (DebuggerCli.new ⟨none⟩ CpuType.Nes ConsoleType.Nes false)
    (ReachableIn.init ⟨none⟩ CpuType.Nes ConsoleType.Nes false) (by decide) 0x8100

/-- After one initial breakpoint and `k` rounds of `break` followed by `delete` of the new
id, the collection holds the entry with id 1 alone and the counter stands at
`(2 + k) mod 2^32`. -/
theorem counter_cycles (G : CpuType → MemoryType) (k : Nat) (hk : k ≤ 2 ^ 32 - 1) :
    ∃ cli, ReachableIn G (1 + k) cli ∧ cli._breakpoints = [⟨1, 0, false, true⟩] ∧
      cli._nextBreakpointId = (2 + k) % 2 ^ 32 := by
  induction k with
  | zero =>
    exact ⟨(DebuggerCli.new ⟨none⟩ CpuType.Nes ConsoleType.Nes false).AddInitialBreakpoint 0,
      ReachableIn.addInitial 0 (ReachableIn.init ⟨none⟩ CpuType.Nes ConsoleType.Nes false),
      rfl, rfl⟩
  | succ k ih =>
    obtain ⟨cli, hreach, hbps, hnext⟩ := ih (by omega)
    have hc : (1 : Nat) ≠ cli._nextBreakpointId := by
      rw [hnext]
      omega
    refine ⟨(DebuggerCli.CmdDelete G (DebuggerCli.CmdBreak G cli 0).1
      cli._nextBreakpointId).1, ReachableIn.cmdDelete _ (ReachableIn.cmdBreak 0 hreach), ?_, ?_⟩
    · rw [DebuggerCli.CmdDelete_breakpoints, DebuggerCli.CmdBreak_breakpoints, hbps]
      simp [DebuggerCli.removeId, hc]
    · rw [DebuggerCli.CmdDelete_nextBreakpointId, DebuggerCli.CmdBreak_nextBreakpointId, hnext]
      unfold toU32
      omega

/-- C8 as stated fails: after `2^32` breakpoints were created the shell can hold the entry
with id 1 while the id counter has wrapped to 1; `break` then assigns id 1 a second time and
deleting that id removes both entries instead of restoring the collection. -/
theorem break_then_delete_after_wrap :
    ∃ cli, ReachableIn (fun _ => MemoryType.Other 0) (2 ^ 32) cli ∧
      cli._breakpoints = [⟨1, 0, false, true⟩] ∧ cli._nextBreakpointId = 1 ∧
      (DebuggerCli.CmdBreak (fun _ => MemoryType.Other 0) cli 0x8100).1._breakpoints =
        [⟨1, 0, false, true⟩, ⟨1, 0x8100, false, true⟩] ∧
      (DebuggerCli.CmdDelete (fun _ => MemoryType.Other 0)
        (DebuggerCli.CmdBreak (fun _ => MemoryType.Other 0) cli 0x8100).1
        cli._nextBreakpointId).1._breakpoints = [] := by
  obtain ⟨cli, hreach, hbps, hnext⟩ :=
    counter_cycles (fun _ => MemoryType.Other 0) (2 ^ 32 - 1) (Nat.le_refl _)
  have h1 : cli._nextBreakpointId = 1 := by
    rw [hnext]
    decide
  refine ⟨cli, hreach, hbps, h1, ?_, ?_⟩
  · rw [DebuggerCli.CmdBreak_breakpoints, hbps, h1]
    rfl
  · rw [DebuggerCli.CmdDelete_breakpoints, DebuggerCli.CmdBreak_breakpoints, hbps, h1]
    simp [DebuggerCli.removeId]

/-! ## Translation of the collection for the core -/

theorem buildBreakpoints_eq_map_filter (cpu : CpuType) (mt : MemoryType)
    (bps : List CliBreakpoint) :
    DebuggerCli.buildBreakpoints cpu mt bps =
      (bps.filter (fun e => e.enabled)).map (DebuggerCli.translate cpu mt) := by
  induction bps with
  | nil => rfl
  | cons e rest ih =>
    cases he : e.enabled <;> simp [DebuggerCli.buildBreakpoints, he, ih]

theorem toI32_of_lt (n : Nat) (h : n < 2 ^ 31) : toI32 n = (n : Int) := by
  unfold toI32
  have h1 : n % 2 ^ 32 = n := Nat.mod_eq_of_lt (by omega)
  rw [h1, if_pos h]

/-- C9, as amended: when the debugger is there, `SyncBreakpoints` replaces the core's set,
in one call, by the list that maps in collection order each enabled entry to a core
breakpoint with the same id, start and end address both equal to the entry's address
converted to a signed 32-bit integer (the address itself when it is below `2^31`), kind
Write for a watchpoint and Execute otherwise, the primary CPU with its memory space,
enabled, no condition, not marked as event; disabled entries are skipped. -/
theorem SyncBreakpoints_pushes_translation (G : CpuType → MemoryType) (cli : DebuggerCli)
    (dbg : Debugger) (hdbg : cli._emu.debugger = some dbg) :
    (∃ dbg1, (DebuggerCli.SyncBreakpoints G cli)._emu.debugger = some dbg1 ∧
      dbg1.setBreakpointsCalls = dbg.setBreakpointsCalls + 1 ∧
      dbg1.breakpoints =
        (cli._breakpoints.filter (fun e => e.enabled)).map (fun e =>
          { id := e.id,
            cpuType := cli._primaryCpu,
            memoryType := G cli._primaryCpu,
            type := if e.isWatch then BreakpointTypeFlags.Write else BreakpointTypeFlags.Execute,
            startAddr := toI32 e.address,
            endAddr := toI32 e.address,
            enabled := true,
            markEvent := false,
            ignoreDummyOperations := false,
            condition := [] })) ∧
    ∀ e ∈ cli._breakpoints, e.address < 2 ^ 31 → toI32 e.address = (e.address : Int) := by
  refine ⟨⟨dbg.SetBreakpoints (DebuggerCli.buildBreakpoints cli._primaryCpu
    (G cli._primaryCpu) cli._breakpoints), ?_, rfl, ?_⟩, fun e _ he => toI32_of_lt _ he⟩
  · unfold DebuggerCli.SyncBreakpoints
    rw [hdbg]
  · rw [buildBreakpoints_eq_map_filter]
    rfl

/-- C9, as amended, on a collection with a breakpoint, a disabled entry and a watchpoint. -/
theorem SyncBreakpoints_pushes_translation_witness :
    (∃ dbg1, (DebuggerCli.SyncBreakpoints (fun _ => MemoryType.Other 0)
        { _emu := ⟨some ⟨[], 0⟩⟩, _primaryCpu := CpuType.Snes, _consoleType := ConsoleType.Snes,
          _breakpoints := [⟨1, 0x8100, false, true⟩, ⟨2, 0x10, false, false⟩,
            ⟨3, 0x7E0010, true, true⟩],
          _nextBreakpointId := 4, _jsonOutput := false, _quit := false })._emu.debugger =
        some dbg1 ∧
      dbg1.setBreakpointsCalls = 0 + 1 ∧
      dbg1.breakpoints =
        ([⟨1, 0x8100, false, true⟩, ⟨2, 0x10, false, false⟩,
            ⟨3, 0x7E0010, true, true⟩].filter (fun e : CliBreakpoint => e.enabled)).map (fun e =>
          { id := e.id,
            cpuType := CpuType.Snes,
            memoryType := MemoryType.Other 0,
            type := if e.isWatch then BreakpointTypeFlags.Write else BreakpointTypeFlags.Execute,
            startAddr := toI32 e.address,
            endAddr := toI32 e.address,
            enabled := true,
            markEvent := false,
            ignoreDummyOperations := false,
            condition := [] })) ∧
    ∀ e ∈ ([⟨1, 0x8100, false, true⟩, ⟨2, 0x10, false, false⟩,
        ⟨3, 0x7E0010, true, true⟩] : List CliBreakpoint),
      e.address < 2 ^ 31 → toI32 e.address = (e.address : Int) :=
  SyncBreakpoints_pushes_translation (fun _ => MemoryType.Other 0)
    { _emu := ⟨some ⟨[], 0⟩⟩, _primaryCpu := CpuType.Snes, _consoleType := ConsoleType.Snes,
      _breakpoints := [⟨1, 0x8100, false, true⟩, ⟨2, 0x10, false, false⟩,
        ⟨3, 0x7E0010, true, true⟩],
      _nextBreakpointId := 4, _jsonOutput := false, _quit := false }
    ⟨[], 0⟩ rfl

/-- C9 as stated fails: `80000000` parses to the address `0x80000000`, and for the entry
with that address `SyncBreakpoints` hands the core the start and end address
`-2147483648`, not the entry's address. -/
theorem SyncBreakpoints_address_above_int_max :
    ParseAddress "80000000".toList = Except.ok 0x80000000 ∧
    ((DebuggerCli.SyncBreakpoints (fun _ => MemoryType.Other 0)
        { _emu := ⟨some ⟨[], 0⟩⟩, _primaryCpu := CpuType.Gba, _consoleType := ConsoleType.Gba,
          _breakpoints := [⟨1, 0x80000000, false, true⟩],
          _nextBreakpointId := 2, _jsonOutput := false, _quit := false })._emu.debugger.map
      (fun dbg1 => dbg1.breakpoints.map (fun bp => (bp.id, bp.startAddr, bp.endAddr)))) =
      some [(1, -2147483648, -2147483648)] ∧
    (-2147483648 : Int) ≠ ((0x80000000 : Nat) : Int) := by
  decide

/-- C10: `SyncBreakpoints` changes neither the breakpoint collection nor the id counter, and
running it twice in a row leaves the core with the same breakpoint set as running it once,
whatever the collection and the core's prior set. -/
theorem SyncBreakpoints_idempotent (G : CpuType → MemoryType) (cli : DebuggerCli) :
    (DebuggerCli.SyncBreakpoints G cli)._breakpoints = cli._breakpoints ∧
    (DebuggerCli.SyncBreakpoints G cli)._nextBreakpointId = cli._nextBreakpointId ∧
    (DebuggerCli.SyncBreakpoints G (DebuggerCli.SyncBreakpoints G cli))._emu.debugger.map
        (fun dbg => dbg.breakpoints) =
      (DebuggerCli.SyncBreakpoints G cli)._emu.debugger.map (fun dbg => dbg.breakpoints) := by
  refine ⟨DebuggerCli.SyncBreakpoints_breakpoints G cli,
    DebuggerCli.SyncBreakpoints_nextBreakpointId G cli, ?_⟩
  unfold DebuggerCli.SyncBreakpoints
  cases h : cli._emu.debugger with
  | none => simp [h]
  | some dbg => simp [Debugger.SetBreakpoints]

/-! ## The exit code of the batch runner -/

theorem report_fst (jsonOutput : Bool) (label : String) (actual expected : Nat)
    (acc : Bool × Streams) :
    (report jsonOutput label actual expected acc).1 = (acc.1 && decide (actual = expected)) := by
  unfold report
  by_cases h : actual = expected
  · cases jsonOutput <;> simp [h]
  · cases jsonOutput <;> simp [h]

/-- When every register lookup completes, the assertion loop runs to its end, and
`allPassed` stays true exactly when it was true and every assertion passes. -/
theorem runChecks_allPassed (G : CpuType → MemoryType) (w : BatchWorld) (cpu : CpuType)
    (jsonOutput : Bool) (checks : List BatchAssertion) :
    ∀ (i : Nat) (acc : Bool × Streams),
      (∀ a ∈ checks, lookupCompletes w cpu a = true) →
      ∃ res, runChecks w cpu jsonOutput (G cpu) checks i acc = Except.ok res ∧
        (res.1 = true ↔ (acc.1 = true ∧
          ∀ k a, checks[k]? = some a → assertionPasses G w cpu (i + k) a = true)) := by
  induction checks with
  | nil =>
    intro i acc _
    exact ⟨acc, rfl, by simp⟩
  | cons check rest ih =>
    intro i acc hl
    have hrest : ∀ a ∈ rest, lookupCompletes w cpu a = true :=
      fun a ha => hl a (by simp [ha])
    have hhead : lookupCompletes w cpu check = true := hl check (by simp)
    have split : ∀ (acc1 : Bool × Streams),
        (acc1.1 = (acc.1 && assertionPasses G w cpu i check)) →
        ∃ res, runChecks w cpu jsonOutput (G cpu) rest (i + 1) acc1 = Except.ok res ∧
          (res.1 = true ↔ (acc.1 = true ∧
            ∀ k a, (check :: rest)[k]? = some a →
              assertionPasses G w cpu (i + k) a = true)) := by
      intro acc1 hacc1
      obtain ⟨res, hres, hiff⟩ := ih (i + 1) acc1 hrest
      refine ⟨res, hres, ?_⟩
      rw [hiff, hacc1]
      constructor
      · rintro ⟨h1, h2⟩
        simp only [Bool.and_eq_true] at h1
        refine ⟨h1.1, ?_⟩
        intro k a hk
        cases k with
        | zero =>
          simp only [List.getElem?_cons_zero, Option.some.injEq] at hk
          rw [← hk]
          exact h1.2
        | succ k =>
          simp only [List.getElem?_cons_succ] at hk
          have := h2 k a hk
          rw [show i + (k + 1) = i + 1 + k from by omega]
          exact this
      · rintro ⟨h1, h2⟩
        refine ⟨?_, ?_⟩
        · simp only [Bool.and_eq_true]
          exact ⟨h1, h2 0 check (by simp)⟩
        · intro k a hk
          have := h2 (k + 1) a (by simpa using hk)
          rw [show i + 1 + k = i + (k + 1) from by omega]
          exact this
    cases htype : check.type with
    | Reg =>
      unfold lookupCompletes at hhead
      rw [htype] at hhead
      simp only at hhead
      cases hget : GetRegisterValue cpu check.name w.stateBuffer with
      | error e =>
        rw [hget] at hhead
        exact absurd hhead (by simp)
      | ok vf =>
        obtain ⟨actual, found⟩ := vf
        have hpass : assertionPasses G w cpu i check =
            (found && decide (actual = check.expected)) := by
          unfold assertionPasses
          rw [htype]
          simp only [hget]
        cases found with
        | false =>
          have := split (false, { acc.2 with stderr := acc.2.stderr ++
            ("Unknown register: " ++ String.mk check.name ++ "\n") })
            (by rw [hpass]; simp)
          simpa [runChecks, htype, hget] using this
        | true =>
          have := split (report jsonOutput (String.mk check.name) actual check.expected acc)
            (by rw [hpass, report_fst]; simp)
          simpa [runChecks, htype, hget] using this
    | Mem =>
      have hpass : assertionPasses G w cpu i check =
          (w.dbgAtCheck i &&
            decide ((if check.size = 2 then toU16 (w.GetMemoryValue16 (G cpu) check.address)
              else w.GetMemoryValue (G cpu) check.address % 2 ^ 8) = check.expected)) := by
        unfold assertionPasses
        rw [htype]
      cases hdbg : w.dbgAtCheck i with
      | false =>
        have := split (false, acc.2) (by rw [hpass, hdbg]; simp)
        simpa [runChecks, htype, hdbg] using this
      | true =>
        have := split (report jsonOutput ("[$" ++ fmtHexUpper 6 check.address ++ "]")
          (if check.size = 2 then toU16 (w.GetMemoryValue16 (G cpu) check.address)
            else w.GetMemoryValue (G cpu) check.address % 2 ^ 8) check.expected acc)
          (by rw [hpass, report_fst, hdbg]; simp)
        simpa [runChecks, htype, hdbg] using this

/-- With a positive timeout `WaitForBreak` always returns. -/
theorem WaitForBreak_returns_of_pos (l : CliNotificationListener) (timeoutMs : Int)
    (hpos : 0 < timeoutMs) (arriving : List ConsoleNotificationType) :
    ∃ res, l.WaitForBreak timeoutMs arriving = some res := by
  unfold CliNotificationListener.WaitForBreak
  cases l._breakOccurred <;> simp [hpos]

/-- C1, as amended: for every batch configuration whose wait on the bridge returns (as it
always does with a positive timeout) and whose register lookups complete, `Run` returns
exactly one of 0, 1, 2: it returns 2 exactly when the debugger is unavailable at the start
or after the wait, or `WaitForBreak` reports no stop; otherwise 0 exactly when the assertion
list is empty or every assertion passes, and 1 exactly when some assertion fails. -/
theorem Run_exit_code (G : CpuType → MemoryType)
    (FormatRegisters FormatRegistersJson : CpuType → StateBuffer → String)
    (w : BatchWorld) (r : BatchRunner) (hitBreak : Bool) (l1 : CliNotificationListener)
    (hwait : r._listener.Reset.WaitForBreak r._timeoutMs w.arriving = some (hitBreak, l1))
    (hlookup : ∀ a ∈ r._assertions, lookupCompletes w r._primaryCpu a = true) :
    ∃ res, BatchRunner.Run G FormatRegisters FormatRegistersJson w r = Outcome.returned res ∧
      (res.exitCode = 0 ∨ res.exitCode = 1 ∨ res.exitCode = 2) ∧
      (res.exitCode = 2 ↔
        (w.dbgAtStart = false ∨ hitBreak = false ∨ w.dbgAfterWait = false)) ∧
      (res.exitCode = 0 ↔
        (w.dbgAtStart = true ∧ hitBreak = true ∧ w.dbgAfterWait = true ∧
          (r._assertions = [] ∨ ∀ i a, r._assertions[i]? = some a →
            assertionPasses G w r._primaryCpu i a = true))) ∧
      (res.exitCode = 1 ↔
        (w.dbgAtStart = true ∧ hitBreak = true ∧ w.dbgAfterWait = true ∧
          ∃ i a, r._assertions[i]? = some a ∧
            assertionPasses G w r._primaryCpu i a = false)) := by
  unfold BatchRunner.Run
  cases hstart : w.dbgAtStart with
  | false => exact ⟨_, rfl, by simp⟩
  | true =>
    simp only [Bool.not_true, Bool.false_eq_true, if_false, hwait]
    cases hitBreak with
    | false => exact ⟨_, rfl, by simp⟩
    | true =>
      cases hafter : w.dbgAfterWait with
      | false => exact ⟨_, rfl, by simp⟩
      | true =>
        simp only [Bool.not_true, Bool.false_eq_true, if_false]
        cases hempty : r._assertions with
        | nil => exact ⟨_, rfl, by simp⟩
        | cons check rest =>
          rw [hempty] at hlookup
          obtain ⟨res, hres, hiff⟩ := runChecks_allPassed G w r._primaryCpu r._jsonOutput
            (check :: rest) 0
            (true, runDumps w r._jsonOutput r._dumps 0
              { stdout := (if r._jsonOutput = true then FormatRegistersJson r._primaryCpu
                  w.stateBuffer else FormatRegisters r._primaryCpu w.stateBuffer) ++ "\n" })
            hlookup
          simp only [List.isEmpty_cons, Bool.false_eq_true, if_false, hres]
          simp only [true_and, Nat.zero_add] at hiff
          obtain ⟨allPassed, io1⟩ := res
          refine ⟨_, rfl, ?_⟩
          cases allPassed with
          | true =>
            have hall := hiff.mp rfl
            refine ⟨Or.inl rfl, ⟨fun h => by simp at h, fun h => by simp at h⟩,
              ⟨fun _ => ⟨trivial, trivial, trivial, Or.inr hall⟩, fun _ => rfl⟩,
              ⟨fun h => by simp at h, ?_⟩⟩
            rintro ⟨_, _, _, i, a, hi, hf⟩
            rw [hall i a hi] at hf
            exact absurd hf (by simp)
          | false =>
            have hnot : ¬ ∀ k a, (check :: rest)[k]? = some a →
                assertionPasses G w r._primaryCpu k a = true := by
              intro h
              exact absurd (hiff.mpr h) (by simp)
            refine ⟨Or.inr (Or.inl rfl), ⟨fun h => by simp at h, fun h => by simp at h⟩,
              ⟨fun h => by simp at h, ?_⟩,
              ⟨fun _ => ⟨trivial, trivial, trivial, ?_⟩, fun _ => rfl⟩⟩
            · rintro ⟨_, _, _, h | h⟩
              · exact absurd h (by simp)
              · exact absurd h hnot
            · by_contra hne
              apply hnot
              intro k a hk
              by_contra hp
              exact hne ⟨k, a, hk, by simpa using hp⟩

/-- C1, as amended, on three runs of an NES target that stops at once: the assertion
`a = $12` alone gives exit code 0, with the failing `x = $01` added it gives 1, and with the
debugger gone after the wait it gives 2. -/
theorem Run_exit_code_witness :
    (∃ res, BatchRunner.Run (fun _ => MemoryType.Other 0) (fun _ _ => "") (fun _ _ => "")
        (sampleWorld [ConsoleNotificationType.CodeBreak])
        (sampleRunner CpuType.Nes 10000 [⟨AssertionType.Reg, ['a'], 0, 0x12, 2⟩]) =
        Outcome.returned res ∧ res.exitCode = 0) ∧
    (∃ res, BatchRunner.Run (fun _ => MemoryType.Other 0) (fun _ _ => "") (fun _ _ => "")
        (sampleWorld [ConsoleNotificationType.CodeBreak])
        (sampleRunner CpuType.Nes 10000 [⟨AssertionType.Reg, ['a'], 0, 0x12, 2⟩,
          ⟨AssertionType.Reg, ['x'], 0, 0x01, 2⟩]) =
        Outcome.returned res ∧ res.exitCode = 1) ∧
    (∃ res, BatchRunner.Run (fun _ => MemoryType.Other 0) (fun _ _ => "") (fun _ _ => "")
        { sampleWorld [ConsoleNotificationType.CodeBreak] with dbgAfterWait := false }
        (sampleRunner CpuType.Nes 10000 [⟨AssertionType.Reg, ['a'], 0, 0x12, 2⟩]) =
        Outcome.returned res ∧ res.exitCode = 2) := by
  refine ⟨?_, ?_, ?_⟩
  · obtain ⟨res, hres, _, _, h0, _⟩ :=
      Run_exit_code (fun _ => MemoryType.Other 0) (fun _ _ => "") (fun _ _ => "")
        (sampleWorld [ConsoleNotificationType.CodeBreak])
        (sampleRunner CpuType.Nes 10000 [⟨AssertionType.Reg, ['a'], 0, 0x12, 2⟩])
        true {} (by decide) (by decide)
    refine ⟨res, hres, h0.mpr ⟨rfl, rfl, rfl, Or.inr ?_⟩⟩
    intro i a hi
    match i, hi with
    | 0, hi =>
      simp only [sampleRunner, List.getElem?_cons_zero, Option.some.injEq] at hi
      rw [← hi]
      decide
  · obtain ⟨res, hres, _, _, _, h1⟩ :=
      Run_exit_code (fun _ => MemoryType.Other 0) (fun _ _ => "") (fun _ _ => "")
        (sampleWorld [ConsoleNotificationType.CodeBreak])
        (sampleRunner CpuType.Nes 10000 [⟨AssertionType.Reg, ['a'], 0, 0x12, 2⟩,
          ⟨AssertionType.Reg, ['x'], 0, 0x01, 2⟩])
        true {} (by decide) (by decide)
    exact ⟨res, hres, h1.mpr ⟨rfl, rfl, rfl, 1, ⟨AssertionType.Reg, ['x'], 0, 0x01, 2⟩, rfl,
      by decide⟩⟩
  · obtain ⟨res, hres, _, h2, _, _⟩ :=
      Run_exit_code (fun _ => MemoryType.Other 0) (fun _ _ => "") (fun _ _ => "")
        { sampleWorld [ConsoleNotificationType.CodeBreak] with dbgAfterWait := false }
        (sampleRunner CpuType.Nes 10000 [⟨AssertionType.Reg, ['a'], 0, 0x12, 2⟩])
        true {} (by decide) (by decide)
    exact ⟨res, hres, h2.mpr (Or.inr (Or.inr rfl))⟩

/-- C1 as stated fails: with the timeout 0 and no stop notification, `WaitForBreak` waits
without bound and `Run` never returns an exit code. -/
theorem Run_blocks_without_timeout :
    BatchRunner.Run (fun _ => MemoryType.Other 0) (fun _ _ => "") (fun _ _ => "")
      (sampleWorld []) (sampleRunner CpuType.Nes 0 []) = Outcome.blocked := by
  rfl

/-- C14 fails on a GBA target: `Rx` is not a register name of the GBA, yet
`GetRegisterValue` does not complete with `found = false`; `std::stoi` throws
`invalid_argument` inside it, and the exception leaves `Run`, which therefore returns no
exit code. -/
theorem Run_throws_on_gba_register_name :
    GetRegisterValue CpuType.Gba ['R', 'x'] {} =
      Except.error StdException.invalid_argument ∧
    BatchRunner.Run (fun _ => MemoryType.Other 0) (fun _ _ => "") (fun _ _ => "")
      (sampleWorld [ConsoleNotificationType.CodeBreak])
      (sampleRunner CpuType.Gba 10000 [⟨AssertionType.Reg, ['R', 'x'], 0, 0, 2⟩]) =
      Outcome.threw StdException.invalid_argument := by
  constructor <;> rfl

/-! ## The JSON rendering of the registers -/

theorem toDigitsCore_append (b : Nat) (fuel : Nat) : ∀ (n : Nat) (ds : List Char),
    Nat.toDigitsCore b fuel n ds = Nat.toDigitsCore b fuel n [] ++ ds := by
  induction fuel with
  | zero => intro n ds; simp [Nat.toDigitsCore]
  | succ f ih =>
    intro n ds
    simp only [Nat.toDigitsCore]
    split_ifs with h
    · simp
    · rw [ih (n / b) (Nat.digitChar (n % b) :: ds), ih (n / b) [Nat.digitChar (n % b)]]
      simp

theorem digitChar_lowerHex (d : Nat) (h : d < 16) :
    isLowerHexDigit (Nat.digitChar d) = true ∧ digitIn (Nat.digitChar d) = d := by
  interval_cases d <;> decide

theorem digitsValue_append (b : Nat) (xs ys : List Char) :
    digitsValue b (xs ++ ys) = digitsValue b xs * b ^ ys.length + digitsValue b ys := by
  unfold digitsValue
  rw [List.foldl_append]
  generalize List.foldl (fun acc c => acc * b + digitIn c) 0 xs = a
  induction ys generalizing a with
  | nil => simp
  | cons y ys ih =>
    simp only [List.foldl_cons, List.length_cons]
    rw [ih (a * b + digitIn y), ih (0 * b + digitIn y)]
    ring

theorem toDigitsCore_hex (fuel : Nat) : ∀ (n : Nat), n < fuel →
    (∀ c ∈ Nat.toDigitsCore 16 fuel n [], isLowerHexDigit c = true) ∧
    digitsValue 16 (Nat.toDigitsCore 16 fuel n []) = n := by
  induction fuel with
  | zero => intro n h; omega
  | succ f ih =>
    intro n hn
    have hd := digitChar_lowerHex (n % 16) (Nat.mod_lt _ (by decide))
    simp only [Nat.toDigitsCore]
    split_ifs with h
    · constructor
      · intro c hc
        simp only [List.mem_singleton] at hc
        rw [hc]; exact hd.1
      · simp only [digitsValue, List.foldl_cons, List.foldl_nil, hd.2]
        omega
    · have hlt : n / 16 < f := by omega
      obtain ⟨h1, h2⟩ := ih (n / 16) hlt
      rw [toDigitsCore_append]
      constructor
      · intro c hc
        simp only [List.mem_append, List.mem_singleton] at hc
        rcases hc with hc | hc
        · exact h1 c hc
        · rw [hc]; exact hd.1
      · rw [digitsValue_append, h2]
        simp only [digitsValue, List.foldl_cons, List.foldl_nil, hd.2, List.length_singleton]
        omega

theorem digitsValue_zeros (k : Nat) (ds : List Char) :
    digitsValue 16 (List.replicate k '0' ++ ds) = digitsValue 16 ds := by
  induction k with
  | zero => simp
  | succ k ih =>
    rw [List.replicate_succ, List.cons_append]
    have : digitsValue 16 ('0' :: (List.replicate k '0' ++ ds)) =
        digitsValue 16 (['0'] ++ (List.replicate k '0' ++ ds)) := rfl
    rw [this, digitsValue_append, ih]
    have h0 : digitsValue 16 ['0'] = 0 := by decide
    rw [h0]; simp

theorem fmtHexLower_spec (w n : Nat) (hw : 0 < w) (h : n < 16 ^ w) :
    (fmtHexLower w n).length = w ∧
    (∀ c ∈ (fmtHexLower w n).data, isLowerHexDigit c = true) ∧
    digitsValue 16 (fmtHexLower w n).data = n := by
  have hlen : (Nat.toDigits 16 n).length ≤ w :=
    Nat.toDigitsCore_length 16 (by decide) (n + 1) n w h hw
  obtain ⟨h1, h2⟩ := toDigitsCore_hex (n + 1) n (Nat.lt_succ_self n)
  unfold fmtHexLower
  refine ⟨?_, ?_, ?_⟩
  · simp only [String.length, List.length_append, List.length_replicate]
    omega
  · intro c hc
    simp only [List.mem_append, List.mem_replicate] at hc
    rcases hc with hc | hc
    · rw [hc.2]; decide
    · exact h1 c hc
  · simp only []
    rw [digitsValue_zeros]
    exact h2

theorem escapeChar_lowerHex (c : Char) (h : isLowerHexDigit c = true) :
    Json.escapeChar c = [c] := by
  unfold isLowerHexDigit at h
  simp only [Bool.or_eq_true, Bool.and_eq_true, decide_eq_true_eq] at h
  have h1 : c ≠ '"' := by rintro rfl; revert h; decide
  have h2 : c ≠ '\\' := by rintro rfl; revert h; decide
  have h3 : ¬ c.toNat < 32 := by omega
  simp [Json.escapeChar, h1, h2, h3]

theorem quote_of_lowerHex (t : String) (h : ∀ c ∈ t.data, isLowerHexDigit c = true) :
    Json.quote t = "\"" ++ t ++ "\"" := by
  unfold Json.quote
  have : t.data.flatMap Json.escapeChar = t.data := by
    generalize t.data = l at h
    induction l with
    | nil => rfl
    | cons c cs ih =>
      rw [List.flatMap_cons, escapeChar_lowerHex c (h c (by simp)),
        ih (fun d hd => h d (by simp [hd]))]
      rfl
  rw [this]

theorem quote_fmtHexLower (w n : Nat) (hw : 0 < w) (h : n < 16 ^ w) :
    Json.quote (fmtHexLower w n) = "\"" ++ fmtHexLower w n ++ "\"" :=
  quote_of_lowerHex _ (fmtHexLower_spec w n hw h).2.1

theorem snprintf_of_length_le (size : Nat) (text : String) (h : text.length ≤ size - 1) :
    snprintf size text = text := by
  unfold snprintf
  rw [List.take_of_length_le h]

theorem fmtDec_nat (n : Nat) : fmtDec (n : Int) = String.mk (Nat.toDigits 10 n) := by
  unfold fmtDec
  simp

theorem fmtDec_length_le (n e : Nat) (h : n < 10 ^ e) (he : 0 < e) :
    (fmtDec (n : Int)).length ≤ e := by
  rw [fmtDec_nat]
  exact Nat.toDigitsCore_length 10 (by decide) (n + 1) n e h he

theorem flagJson_length_le (v m : Nat) : (flagJson v m).length ≤ 5 := by
  unfold flagJson
  split_ifs <;> decide

theorem flagJson_eq_render (v m : Nat) :
    flagJson v m = (Json.bool (decide (v &&& m ≠ 0))).render := by
  unfold flagJson Json.render
  by_cases h : v &&& m ≠ 0 <;> simp [h]

theorem boolJson_length_le (b : Bool) : (boolJson b).length ≤ 5 := by
  cases b <;> decide

theorem boolJson_eq_render (b : Bool) : boolJson b = (Json.bool b).render := by
  cases b <;> rfl

theorem lowerHex_append (a b : String) (ha : ∀ c ∈ a.data, isLowerHexDigit c = true)
    (hb : ∀ c ∈ b.data, isLowerHexDigit c = true) :
    ∀ c ∈ (a ++ b).data, isLowerHexDigit c = true := by
  intro c hc
  rw [String.data_append, List.mem_append] at hc
  rcases hc with hc | hc
  · exact ha c hc
  · exact hb c hc

theorem byte_pair_eq (a b : Nat) (hb : b < 2 ^ 8) : (a <<< 8) ||| b = a * 2 ^ 8 + b := by
  rw [Nat.shiftLeft_eq, Nat.mul_comm]
  exact (Nat.mul_add_lt_is_or hb a).symm

theorem byte_pair_lt (a b : Nat) (ha : a < 2 ^ 8) (hb : b < 2 ^ 8) :
    (a <<< 8) ||| b < 2 ^ 16 := by
  rw [byte_pair_eq a b hb]
  omega

set_option maxRecDepth 8000 in
/-- On Nes the JSON rendering of a snapshot in range is the text of `registersJson`. -/
theorem FormatRegistersJson_nes (st : StateBuffer)
    (h : inRange CpuType.Nes st = true) :
    Formatter.FormatRegistersJson CpuType.Nes st =
      (registersJson CpuType.Nes st).render := by
  simp only [inRange, Bool.and_eq_true, decide_eq_true_eq, and_assoc] at h
  obtain ⟨hPC, hA, hX, hY, hSP, hPS, hCyc⟩ := h
  have cyc : toULong st.nes.CycleCount = st.nes.CycleCount := Nat.mod_eq_of_lt hCyc
  have s0 := fmtHexLower_spec 4 st.nes.PC (by decide) (by omega)
  have q0 := quote_of_lowerHex _ s0.2.1
  have l0 := s0.1
  have s1 := fmtHexLower_spec 2 st.nes.A (by decide) (by omega)
  have q1 := quote_of_lowerHex _ s1.2.1
  have l1 := s1.1
  have s2 := fmtHexLower_spec 2 st.nes.X (by decide) (by omega)
  have q2 := quote_of_lowerHex _ s2.2.1
  have l2 := s2.1
  have s3 := fmtHexLower_spec 2 st.nes.Y (by decide) (by omega)
  have q3 := quote_of_lowerHex _ s3.2.1
  have l3 := s3.1
  have s4 := fmtHexLower_spec 2 st.nes.SP (by decide) (by omega)
  have q4 := quote_of_lowerHex _ s4.2.1
  have l4 := s4.1
  have s5 := fmtHexLower_spec 2 st.nes.PS (by decide) (by omega)
  have q5 := quote_of_lowerHex _ s5.2.1
  have l5 := s5.1
  show Formatter.FormatNesRegistersJson st.nes = _
  unfold Formatter.FormatNesRegistersJson
  rw [snprintf_of_length_le]
  · simp only [registersJson, jsonRegisters, jsonFlags, jsonExtra, flagsKey, cycleCount,
      flagBool, List.map_cons, List.map_nil, List.cons_append, List.nil_append,
      List.append_nil, Json.render, Json.renderMembers, cyc, flagJson_eq_render,
      boolJson_eq_render, fmtDec_nat, q0, q1, q2, q3, q4, q5]
    apply String.ext
    simp [Json.quote, Json.escapeChar]
  · simp only [String.length_append, cyc, l0, l1, l2, l3, l4, l5]
    simp only [String.length]
    simp
    have c0 := fmtDec_length_le st.nes.CycleCount 20 (by omega) (by decide)
    have f0 := flagJson_length_le st.nes.PS PSFlags.Negative
    have f1 := flagJson_length_le st.nes.PS PSFlags.Overflow
    have f2 := flagJson_length_le st.nes.PS PSFlags.Decimal
    have f3 := flagJson_length_le st.nes.PS PSFlags.Interrupt
    have f4 := flagJson_length_le st.nes.PS PSFlags.Zero
    have f5 := flagJson_length_le st.nes.PS PSFlags.Carry
    omega

set_option maxRecDepth 8000 in
/-- On Snes the JSON rendering of a snapshot in range is the text of `registersJson`. -/
theorem FormatRegistersJson_snes (st : StateBuffer)
    (h : inRange CpuType.Snes st = true) :
    Formatter.FormatRegistersJson CpuType.Snes st =
      (registersJson CpuType.Snes st).render := by
  simp only [inRange, Bool.and_eq_true, decide_eq_true_eq, and_assoc] at h
  obtain ⟨hK, hPC, hA, hX, hY, hSP, hD, hDBR, hPS, hStopState, hCyc⟩ := h
  have cyc : toULong st.snes.CycleCount = st.snes.CycleCount := Nat.mod_eq_of_lt hCyc
  have s0 := fmtHexLower_spec 2 st.snes.K (by decide) (by omega)
  have q0 := quote_of_lowerHex _ s0.2.1
  have l0 := s0.1
  have s1 := fmtHexLower_spec 4 st.snes.PC (by decide) (by omega)
  have q1 := quote_of_lowerHex _ s1.2.1
  have l1 := s1.1
  have s2 := fmtHexLower_spec 4 st.snes.A (by decide) (by omega)
  have q2 := quote_of_lowerHex _ s2.2.1
  have l2 := s2.1
  have s3 := fmtHexLower_spec 4 st.snes.X (by decide) (by omega)
  have q3 := quote_of_lowerHex _ s3.2.1
  have l3 := s3.1
  have s4 := fmtHexLower_spec 4 st.snes.Y (by decide) (by omega)
  have q4 := quote_of_lowerHex _ s4.2.1
  have l4 := s4.1
  have s5 := fmtHexLower_spec 4 st.snes.SP (by decide) (by omega)
  have q5 := quote_of_lowerHex _ s5.2.1
  have l5 := s5.1
  have s6 := fmtHexLower_spec 4 st.snes.D (by decide) (by omega)
  have q6 := quote_of_lowerHex _ s6.2.1
  have l6 := s6.1
  have s7 := fmtHexLower_spec 2 st.snes.DBR (by decide) (by omega)
  have q7 := quote_of_lowerHex _ s7.2.1
  have l7 := s7.1
  have s8 := fmtHexLower_spec 2 st.snes.PS (by decide) (by omega)
  have q8 := quote_of_lowerHex _ s8.2.1
  have l8 := s8.1
  have qpc := quote_of_lowerHex (fmtHexLower 2 st.snes.K ++ fmtHexLower 4 st.snes.PC)
    (lowerHex_append _ _ s0.2.1 s1.2.1)
  show Formatter.FormatSnesRegistersJson st.snes = _
  unfold Formatter.FormatSnesRegistersJson
  rw [snprintf_of_length_le]
  · simp only [registersJson, jsonRegisters, jsonFlags, jsonExtra, flagsKey, cycleCount,
      flagBool, List.map_cons, List.map_nil, List.cons_append, List.nil_append,
      List.append_nil, Json.render, Json.renderMembers, cyc, flagJson_eq_render,
      boolJson_eq_render, fmtDec_nat, q0, q1, q2, q3, q4, q5, q6, q7, q8, qpc]
    apply String.ext
    simp [Json.quote, Json.escapeChar]
  · simp only [String.length_append, cyc, l0, l1, l2, l3, l4, l5, l6, l7, l8]
    simp only [String.length]
    simp
    have c0 := fmtDec_length_le st.snes.CycleCount 20 (by omega) (by decide)
    have f0 := flagJson_length_le st.snes.PS ProcFlags.Negative
    have f1 := flagJson_length_le st.snes.PS ProcFlags.Overflow
    have f2 := flagJson_length_le st.snes.PS ProcFlags.MemoryMode8
    have f3 := flagJson_length_le st.snes.PS ProcFlags.IndexMode8
    have f4 := flagJson_length_le st.snes.PS ProcFlags.Decimal
    have f5 := flagJson_length_le st.snes.PS ProcFlags.IrqDisable
    have f6 := flagJson_length_le st.snes.PS ProcFlags.Zero
    have f7 := flagJson_length_le st.snes.PS ProcFlags.Carry
    have c1 := fmtDec_length_le st.snes.StopState 3 (by omega) (by decide)
    omega

set_option maxRecDepth 8000 in
/-- On Sa1 the JSON rendering of a snapshot in range is the text of `registersJson`. -/
theorem FormatRegistersJson_sa1 (st : StateBuffer)
    (h : inRange CpuType.Sa1 st = true) :
    Formatter.FormatRegistersJson CpuType.Sa1 st =
      (registersJson CpuType.Sa1 st).render := by
  simp only [inRange, Bool.and_eq_true, decide_eq_true_eq, and_assoc] at h
  obtain ⟨hK, hPC, hA, hX, hY, hSP, hD, hDBR, hPS, hStopState, hCyc⟩ := h
  have cyc : toULong st.snes.CycleCount = st.snes.CycleCount := Nat.mod_eq_of_lt hCyc
  have s0 := fmtHexLower_spec 2 st.snes.K (by decide) (by omega)
  have q0 := quote_of_lowerHex _ s0.2.1
  have l0 := s0.1
  have s1 := fmtHexLower_spec 4 st.snes.PC (by decide) (by omega)
  have q1 := quote_of_lowerHex _ s1.2.1
  have l1 := s1.1
  have s2 := fmtHexLower_spec 4 st.snes.A (by decide) (by omega)
  have q2 := quote_of_lowerHex _ s2.2.1
  have l2 := s2.1
  have s3 := fmtHexLower_spec 4 st.snes.X (by decide) (by omega)
  have q3 := quote_of_lowerHex _ s3.2.1
  have l3 := s3.1
  have s4 := fmtHexLower_spec 4 st.snes.Y (by decide) (by omega)
  have q4 := quote_of_lowerHex _ s4.2.1
  have l4 := s4.1
  have s5 := fmtHexLower_spec 4 st.snes.SP (by decide) (by omega)
  have q5 := quote_of_lowerHex _ s5.2.1
  have l5 := s5.1
  have s6 := fmtHexLower_spec 4 st.snes.D (by decide) (by omega)
  have q6 := quote_of_lowerHex _ s6.2.1
  have l6 := s6.1
  have s7 := fmtHexLower_spec 2 st.snes.DBR (by decide) (by omega)
  have q7 := quote_of_lowerHex _ s7.2.1
  have l7 := s7.1
  have s8 := fmtHexLower_spec 2 st.snes.PS (by decide) (by omega)
  have q8 := quote_of_lowerHex _ s8.2.1
  have l8 := s8.1
  have qpc := quote_of_lowerHex (fmtHexLower 2 st.snes.K ++ fmtHexLower 4 st.snes.PC)
    (lowerHex_append _ _ s0.2.1 s1.2.1)
  show Formatter.FormatSnesRegistersJson st.snes = _
  unfold Formatter.FormatSnesRegistersJson
  rw [snprintf_of_length_le]
  · simp only [registersJson, jsonRegisters, jsonFlags, jsonExtra, flagsKey, cycleCount,
      flagBool, List.map_cons, List.map_nil, List.cons_append, List.nil_append,
      List.append_nil, Json.render, Json.renderMembers, cyc, flagJson_eq_render,
      boolJson_eq_render, fmtDec_nat, q0, q1, q2, q3, q4, q5, q6, q7, q8, qpc]
    apply String.ext
    simp [Json.quote, Json.escapeChar]
  · simp only [String.length_append, cyc, l0, l1, l2, l3, l4, l5, l6, l7, l8]
    simp only [String.length]
    simp
    have c0 := fmtDec_length_le st.snes.CycleCount 20 (by omega) (by decide)
    have f0 := flagJson_length_le st.snes.PS ProcFlags.Negative
    have f1 := flagJson_length_le st.snes.PS ProcFlags.Overflow
    have f2 := flagJson_length_le st.snes.PS ProcFlags.MemoryMode8
    have f3 := flagJson_length_le st.snes.PS ProcFlags.IndexMode8
    have f4 := flagJson_length_le st.snes.PS ProcFlags.Decimal
    have f5 := flagJson_length_le st.snes.PS ProcFlags.IrqDisable
    have f6 := flagJson_length_le st.snes.PS ProcFlags.Zero
    have f7 := flagJson_length_le st.snes.PS ProcFlags.Carry
    have c1 := fmtDec_length_le st.snes.StopState 3 (by omega) (by decide)
    omega

set_option maxRecDepth 8000 in
/-- On Gameboy the JSON rendering of a snapshot in range is the text of `registersJson`. -/
theorem FormatRegistersJson_gameboy (st : StateBuffer)
    (h : inRange CpuType.Gameboy st = true) :
    Formatter.FormatRegistersJson CpuType.Gameboy st =
      (registersJson CpuType.Gameboy st).render := by
  simp only [inRange, Bool.and_eq_true, decide_eq_true_eq, and_assoc] at h
  obtain ⟨hPC, hSP, hA, hFlags, hB, hC, hD, hE, hH, hL, hCyc⟩ := h
  have cyc : toULong st.gb.CycleCount = st.gb.CycleCount := Nat.mod_eq_of_lt hCyc
  have s0 := fmtHexLower_spec 4 st.gb.PC (by decide) (by omega)
  have q0 := quote_of_lowerHex _ s0.2.1
  have l0 := s0.1
  have s1 := fmtHexLower_spec 4 st.gb.SP (by decide) (by omega)
  have q1 := quote_of_lowerHex _ s1.2.1
  have l1 := s1.1
  have s2 := fmtHexLower_spec 2 st.gb.A (by decide) (by omega)
  have q2 := quote_of_lowerHex _ s2.2.1
  have l2 := s2.1
  have s3 := fmtHexLower_spec 2 st.gb.Flags (by decide) (by omega)
  have q3 := quote_of_lowerHex _ s3.2.1
  have l3 := s3.1
  have s4 := fmtHexLower_spec 2 st.gb.B (by decide) (by omega)
  have q4 := quote_of_lowerHex _ s4.2.1
  have l4 := s4.1
  have s5 := fmtHexLower_spec 2 st.gb.C (by decide) (by omega)
  have q5 := quote_of_lowerHex _ s5.2.1
  have l5 := s5.1
  have s6 := fmtHexLower_spec 2 st.gb.D (by decide) (by omega)
  have q6 := quote_of_lowerHex _ s6.2.1
  have l6 := s6.1
  have s7 := fmtHexLower_spec 2 st.gb.E (by decide) (by omega)
  have q7 := quote_of_lowerHex _ s7.2.1
  have l7 := s7.1
  have s8 := fmtHexLower_spec 2 st.gb.H (by decide) (by omega)
  have q8 := quote_of_lowerHex _ s8.2.1
  have l8 := s8.1
  have s9 := fmtHexLower_spec 2 st.gb.L (by decide) (by omega)
  have q9 := quote_of_lowerHex _ s9.2.1
  have l9 := s9.1
  show Formatter.FormatGbRegistersJson st.gb = _
  unfold Formatter.FormatGbRegistersJson
  rw [snprintf_of_length_le]
  · simp only [registersJson, jsonRegisters, jsonFlags, jsonExtra, flagsKey, cycleCount,
      flagBool, List.map_cons, List.map_nil, List.cons_append, List.nil_append,
      List.append_nil, Json.render, Json.renderMembers, cyc, flagJson_eq_render,
      boolJson_eq_render, fmtDec_nat, q0, q1, q2, q3, q4, q5, q6, q7, q8, q9]
    apply String.ext
    simp [Json.quote, Json.escapeChar]
  · simp only [String.length_append, cyc, l0, l1, l2, l3, l4, l5, l6, l7, l8, l9]
    simp only [String.length]
    simp
    have c0 := fmtDec_length_le st.gb.CycleCount 20 (by omega) (by decide)
    have f0 := flagJson_length_le st.gb.Flags GbCpuFlags.Zero
    have f1 := flagJson_length_le st.gb.Flags GbCpuFlags.AddSub
    have f2 := flagJson_length_le st.gb.Flags GbCpuFlags.HalfCarry
    have f3 := flagJson_length_le st.gb.Flags GbCpuFlags.Carry
    omega

set_option maxRecDepth 8000 in
/-- On Pce the JSON rendering of a snapshot in range is the text of `registersJson`. -/
theorem FormatRegistersJson_pce (st : StateBuffer)
    (h : inRange CpuType.Pce st = true) :
    Formatter.FormatRegistersJson CpuType.Pce st =
      (registersJson CpuType.Pce st).render := by
  simp only [inRange, Bool.and_eq_true, decide_eq_true_eq, and_assoc] at h
  obtain ⟨hPC, hA, hX, hY, hSP, hPS, hCyc⟩ := h
  have cyc : toULong st.pce.CycleCount = st.pce.CycleCount := Nat.mod_eq_of_lt hCyc
  have s0 := fmtHexLower_spec 4 st.pce.PC (by decide) (by omega)
  have q0 := quote_of_lowerHex _ s0.2.1
  have l0 := s0.1
  have s1 := fmtHexLower_spec 2 st.pce.A (by decide) (by omega)
  have q1 := quote_of_lowerHex _ s1.2.1
  have l1 := s1.1
  have s2 := fmtHexLower_spec 2 st.pce.X (by decide) (by omega)
  have q2 := quote_of_lowerHex _ s2.2.1
  have l2 := s2.1
  have s3 := fmtHexLower_spec 2 st.pce.Y (by decide) (by omega)
  have q3 := quote_of_lowerHex _ s3.2.1
  have l3 := s3.1
  have s4 := fmtHexLower_spec 2 st.pce.SP (by decide) (by omega)
  have q4 := quote_of_lowerHex _ s4.2.1
  have l4 := s4.1
  have s5 := fmtHexLower_spec 2 st.pce.PS (by decide) (by omega)
  have q5 := quote_of_lowerHex _ s5.2.1
  have l5 := s5.1
  show Formatter.FormatPceRegistersJson st.pce = _
  unfold Formatter.FormatPceRegistersJson
  rw [snprintf_of_length_le]
  · simp only [registersJson, jsonRegisters, jsonFlags, jsonExtra, flagsKey, cycleCount,
      flagBool, List.map_cons, List.map_nil, List.cons_append, List.nil_append,
      List.append_nil, Json.render, Json.renderMembers, cyc, flagJson_eq_render,
      boolJson_eq_render, fmtDec_nat, q0, q1, q2, q3, q4, q5]
    apply String.ext
    simp [Json.quote, Json.escapeChar]
  · simp only [String.length_append, cyc, l0, l1, l2, l3, l4, l5]
    simp only [String.length]
    simp
    have c0 := fmtDec_length_le st.pce.CycleCount 20 (by omega) (by decide)
    have f0 := flagJson_length_le st.pce.PS PceCpuFlags.Negative
    have f1 := flagJson_length_le st.pce.PS PceCpuFlags.Overflow
    have f2 := flagJson_length_le st.pce.PS PceCpuFlags.Memory
    have f3 := flagJson_length_le st.pce.PS PceCpuFlags.Decimal
    have f4 := flagJson_length_le st.pce.PS PceCpuFlags.Interrupt
    have f5 := flagJson_length_le st.pce.PS PceCpuFlags.Zero
    have f6 := flagJson_length_le st.pce.PS PceCpuFlags.Carry
    omega

set_option maxRecDepth 8000 in
/-- On Sms the JSON rendering of a snapshot in range is the text of `registersJson`. -/
theorem FormatRegistersJson_sms (st : StateBuffer)
    (h : inRange CpuType.Sms st = true) :
    Formatter.FormatRegistersJson CpuType.Sms st =
      (registersJson CpuType.Sms st).render := by
  simp only [inRange, Bool.and_eq_true, decide_eq_true_eq, and_assoc] at h
  obtain ⟨hPC, hSP, hA, hFlags, hB, hC, hD, hE, hH, hL, hIXH, hIXL, hIYH, hIYL, hI, hR, hCyc⟩ := h
  have cyc : toULong st.sms.CycleCount = st.sms.CycleCount := Nat.mod_eq_of_lt hCyc
  have s0 := fmtHexLower_spec 4 st.sms.PC (by decide) (by omega)
  have q0 := quote_of_lowerHex _ s0.2.1
  have l0 := s0.1
  have s1 := fmtHexLower_spec 4 st.sms.SP (by decide) (by omega)
  have q1 := quote_of_lowerHex _ s1.2.1
  have l1 := s1.1
  have s2 := fmtHexLower_spec 2 st.sms.A (by decide) (by omega)
  have q2 := quote_of_lowerHex _ s2.2.1
  have l2 := s2.1
  have s3 := fmtHexLower_spec 2 st.sms.Flags (by decide) (by omega)
  have q3 := quote_of_lowerHex _ s3.2.1
  have l3 := s3.1
  have s4 := fmtHexLower_spec 2 st.sms.B (by decide) (by omega)
  have q4 := quote_of_lowerHex _ s4.2.1
  have l4 := s4.1
  have s5 := fmtHexLower_spec 2 st.sms.C (by decide) (by omega)
  have q5 := quote_of_lowerHex _ s5.2.1
  have l5 := s5.1
  have s6 := fmtHexLower_spec 2 st.sms.D (by decide) (by omega)
  have q6 := quote_of_lowerHex _ s6.2.1
  have l6 := s6.1
  have s7 := fmtHexLower_spec 2 st.sms.E (by decide) (by omega)
  have q7 := quote_of_lowerHex _ s7.2.1
  have l7 := s7.1
  have s8 := fmtHexLower_spec 2 st.sms.H (by decide) (by omega)
  have q8 := quote_of_lowerHex _ s8.2.1
  have l8 := s8.1
  have s9 := fmtHexLower_spec 2 st.sms.L (by decide) (by omega)
  have q9 := quote_of_lowerHex _ s9.2.1
  have l9 := s9.1
  have s10 := fmtHexLower_spec 2 st.sms.I (by decide) (by omega)
  have q10 := quote_of_lowerHex _ s10.2.1
  have l10 := s10.1
  have s11 := fmtHexLower_spec 2 st.sms.R (by decide) (by omega)
  have q11 := quote_of_lowerHex _ s11.2.1
  have l11 := s11.1
  have s12 := fmtHexLower_spec 4 ((st.sms.IXH <<< 8) ||| st.sms.IXL) (by decide)
    (by have := byte_pair_lt st.sms.IXH st.sms.IXL hIXH hIXL; omega)
  have q12 := quote_of_lowerHex _ s12.2.1
  have l12 := s12.1
  have s13 := fmtHexLower_spec 4 ((st.sms.IYH <<< 8) ||| st.sms.IYL) (by decide)
    (by have := byte_pair_lt st.sms.IYH st.sms.IYL hIYH hIYL; omega)
  have q13 := quote_of_lowerHex _ s13.2.1
  have l13 := s13.1
  show Formatter.FormatSmsRegistersJson st.sms = _
  unfold Formatter.FormatSmsRegistersJson
  rw [snprintf_of_length_le]
  · simp only [registersJson, jsonRegisters, jsonFlags, jsonExtra, flagsKey, cycleCount,
      flagBool, List.map_cons, List.map_nil, List.cons_append, List.nil_append,
      List.append_nil, Json.render, Json.renderMembers, cyc, flagJson_eq_render,
      boolJson_eq_render, fmtDec_nat, q0, q1, q2, q3, q4, q5, q6, q7, q8, q9, q10, q11, q12, q13]
    apply String.ext
    simp [Json.quote, Json.escapeChar]
  · simp only [String.length_append, cyc, l0, l1, l2, l3, l4, l5, l6, l7, l8, l9, l10, l11, l12, l13]
    simp only [String.length]
    simp
    have c0 := fmtDec_length_le st.sms.CycleCount 20 (by omega) (by decide)
    have f0 := flagJson_length_le st.sms.Flags SmsCpuFlags.Sign
    have f1 := flagJson_length_le st.sms.Flags SmsCpuFlags.Zero
    have f2 := flagJson_length_le st.sms.Flags SmsCpuFlags.HalfCarry
    have f3 := flagJson_length_le st.sms.Flags SmsCpuFlags.Parity
    have f4 := flagJson_length_le st.sms.Flags SmsCpuFlags.AddSub
    have f5 := flagJson_length_le st.sms.Flags SmsCpuFlags.Carry
    omega

set_option maxRecDepth 8000 in
/-- On Ws the JSON rendering of a snapshot in range is the text of `registersJson`. -/
theorem FormatRegistersJson_ws (st : StateBuffer)
    (h : inRange CpuType.Ws st = true) :
    Formatter.FormatRegistersJson CpuType.Ws st =
      (registersJson CpuType.Ws st).render := by
  simp only [inRange, Bool.and_eq_true, decide_eq_true_eq, and_assoc] at h
  obtain ⟨hCS, hIP, hAX, hBX, hCX, hDX, hSP, hBP, hSI, hDI, hDS, hES, hSS, hCyc⟩ := h
  have cyc : toULong st.ws.CycleCount = st.ws.CycleCount := Nat.mod_eq_of_lt hCyc
  have s0 := fmtHexLower_spec 4 st.ws.CS (by decide) (by omega)
  have q0 := quote_of_lowerHex _ s0.2.1
  have l0 := s0.1
  have s1 := fmtHexLower_spec 4 st.ws.IP (by decide) (by omega)
  have q1 := quote_of_lowerHex _ s1.2.1
  have l1 := s1.1
  have s2 := fmtHexLower_spec 4 st.ws.AX (by decide) (by omega)
  have q2 := quote_of_lowerHex _ s2.2.1
  have l2 := s2.1
  have s3 := fmtHexLower_spec 4 st.ws.BX (by decide) (by omega)
  have q3 := quote_of_lowerHex _ s3.2.1
  have l3 := s3.1
  have s4 := fmtHexLower_spec 4 st.ws.CX (by decide) (by omega)
  have q4 := quote_of_lowerHex _ s4.2.1
  have l4 := s4.1
  have s5 := fmtHexLower_spec 4 st.ws.DX (by decide) (by omega)
  have q5 := quote_of_lowerHex _ s5.2.1
  have l5 := s5.1
  have s6 := fmtHexLower_spec 4 st.ws.SP (by decide) (by omega)
  have q6 := quote_of_lowerHex _ s6.2.1
  have l6 := s6.1
  have s7 := fmtHexLower_spec 4 st.ws.BP (by decide) (by omega)
  have q7 := quote_of_lowerHex _ s7.2.1
  have l7 := s7.1
  have s8 := fmtHexLower_spec 4 st.ws.SI (by decide) (by omega)
  have q8 := quote_of_lowerHex _ s8.2.1
  have l8 := s8.1
  have s9 := fmtHexLower_spec 4 st.ws.DI (by decide) (by omega)
  have q9 := quote_of_lowerHex _ s9.2.1
  have l9 := s9.1
  have s10 := fmtHexLower_spec 4 st.ws.DS (by decide) (by omega)
  have q10 := quote_of_lowerHex _ s10.2.1
  have l10 := s10.1
  have s11 := fmtHexLower_spec 4 st.ws.ES (by decide) (by omega)
  have q11 := quote_of_lowerHex _ s11.2.1
  have l11 := s11.1
  have s12 := fmtHexLower_spec 4 st.ws.SS (by decide) (by omega)
  have q12 := quote_of_lowerHex _ s12.2.1
  have l12 := s12.1
  have s13 := fmtHexLower_spec 4 (toU16 st.ws.Flags.Get) (by decide)
    (by have := Nat.mod_lt st.ws.Flags.Get (show 0 < 2 ^ 16 by decide); unfold toU16; omega)
  have q13 := quote_of_lowerHex _ s13.2.1
  have l13 := s13.1
  show Formatter.FormatWsRegistersJson st.ws = _
  unfold Formatter.FormatWsRegistersJson
  rw [snprintf_of_length_le]
  · simp only [registersJson, jsonRegisters, jsonFlags, jsonExtra, flagsKey, cycleCount,
      flagBool, List.map_cons, List.map_nil, List.cons_append, List.nil_append,
      List.append_nil, Json.render, Json.renderMembers, cyc, flagJson_eq_render,
      boolJson_eq_render, fmtDec_nat, q0, q1, q2, q3, q4, q5, q6, q7, q8, q9, q10, q11, q12, q13]
    apply String.ext
    simp [Json.quote, Json.escapeChar]
  · simp only [String.length_append, cyc, l0, l1, l2, l3, l4, l5, l6, l7, l8, l9, l10, l11, l12, l13]
    simp only [String.length]
    simp
    have c0 := fmtDec_length_le st.ws.CycleCount 20 (by omega) (by decide)
    have f0 := boolJson_length_le st.ws.Flags.Overflow
    have f1 := boolJson_length_le st.ws.Flags.Direction
    have f2 := boolJson_length_le st.ws.Flags.Irq
    have f3 := boolJson_length_le st.ws.Flags.Trap
    have f4 := boolJson_length_le st.ws.Flags.Sign
    have f5 := boolJson_length_le st.ws.Flags.Zero
    have f6 := boolJson_length_le st.ws.Flags.AuxCarry
    have f7 := boolJson_length_le st.ws.Flags.Parity
    have f8 := boolJson_length_le st.ws.Flags.Carry
    omega

theorem quote_gbaKey (i : Nat) (hi : i < 16) :
    Json.quote (gbaKey i) = "\"" ++ gbaKey i ++ "\"" := by
  interval_cases i <;> decide

theorem gbaKey_json (i : Nat) (hi : i < 16) :
    snprintf 8 ("\"r" ++ fmtDec (i : Int) ++ "\"") = "\"" ++ gbaKey i ++ "\"" := by
  interval_cases i <;> decide

theorem quote_GbaModeName (m : GbaCpuMode) :
    Json.quote (Formatter.GbaModeName m) = "\"" ++ Formatter.GbaModeName m ++ "\"" := by
  cases m <;> first | decide | (simp only [Formatter.GbaModeName]; decide)

theorem GbaModeName_length (m : GbaCpuMode) : (Formatter.GbaModeName m).length = 3 := by
  cases m <;> first | decide | (simp only [Formatter.GbaModeName]; decide)

/-- One round of the loop of `FormatGbaRegistersJson`, for a register in range. -/
theorem gbaRegisterJson_eq (s : GbaCpuState) (i : Nat) (hi : i < 16) (hr : s.R i < 2 ^ 32) :
    Formatter.gbaRegisterJson s i =
      (if i > 0 then "," else "") ++ ("\"" ++ gbaKey i ++ "\"") ++ ":" ++
        ("\"" ++ fmtHexLower 8 (s.R i) ++ "\"") := by
  have sp := fmtHexLower_spec 8 (s.R i) (by decide) (by omega)
  unfold Formatter.gbaRegisterJson
  simp only []
  rw [gbaKey_json i hi, snprintf_of_length_le]
  simp only [String.length_append, sp.1]
  decide

set_option maxRecDepth 8000 in
/-- On Gba the JSON rendering of a snapshot in range is the text of `registersJson`. -/
theorem FormatRegistersJson_gba (st : StateBuffer)
    (h : inRange CpuType.Gba st = true) :
    Formatter.FormatRegistersJson CpuType.Gba st =
      (registersJson CpuType.Gba st).render := by
  simp only [inRange, Bool.and_eq_true, decide_eq_true_eq, List.all_eq_true] at h
  obtain ⟨hR, hCyc⟩ := h
  have hR' : ∀ i, i < 16 → st.gba.R i < 2 ^ 32 := fun i hi => hR i (List.mem_range.2 hi)
  have cyc : toULong st.gba.CycleCount = st.gba.CycleCount := Nat.mod_eq_of_lt hCyc
  have hrange : List.range 16 = [0, 1, 2, 3, 4, 5, 6, 7, 8, 9, 10, 11, 12, 13, 14, 15] := by
    decide
  have sc := fmtHexLower_spec 8 (toU32 st.gba.CPSR.ToInt32) (by decide)
    (by have := Nat.mod_lt st.gba.CPSR.ToInt32 (show 0 < 2 ^ 32 by decide); unfold toU32; omega)
  have qc := quote_of_lowerHex _ sc.2.1
  have lc := sc.1
  have g0 := gbaRegisterJson_eq st.gba 0 (by decide) (hR' 0 (by decide))
  have q0 := quote_of_lowerHex _ (fmtHexLower_spec 8 (st.gba.R 0) (by decide) (by have := hR' 0 (by decide); omega)).2.1
  have k0 := quote_gbaKey 0 (by decide)
  have g1 := gbaRegisterJson_eq st.gba 1 (by decide) (hR' 1 (by decide))
  have q1 := quote_of_lowerHex _ (fmtHexLower_spec 8 (st.gba.R 1) (by decide) (by have := hR' 1 (by decide); omega)).2.1
  have k1 := quote_gbaKey 1 (by decide)
  have g2 := gbaRegisterJson_eq st.gba 2 (by decide) (hR' 2 (by decide))
  have q2 := quote_of_lowerHex _ (fmtHexLower_spec 8 (st.gba.R 2) (by decide) (by have := hR' 2 (by decide); omega)).2.1
  have k2 := quote_gbaKey 2 (by decide)
  have g3 := gbaRegisterJson_eq st.gba 3 (by decide) (hR' 3 (by decide))
  have q3 := quote_of_lowerHex _ (fmtHexLower_spec 8 (st.gba.R 3) (by decide) (by have := hR' 3 (by decide); omega)).2.1
  have k3 := quote_gbaKey 3 (by decide)
  have g4 := gbaRegisterJson_eq st.gba 4 (by decide) (hR' 4 (by decide))
  have q4 := quote_of_lowerHex _ (fmtHexLower_spec 8 (st.gba.R 4) (by decide) (by have := hR' 4 (by decide); omega)).2.1
  have k4 := quote_gbaKey 4 (by decide)
  have g5 := gbaRegisterJson_eq st.gba 5 (by decide) (hR' 5 (by decide))
  have q5 := quote_of_lowerHex _ (fmtHexLower_spec 8 (st.gba.R 5) (by decide) (by have := hR' 5 (by decide); omega)).2.1
  have k5 := quote_gbaKey 5 (by decide)
  have g6 := gbaRegisterJson_eq st.gba 6 (by decide) (hR' 6 (by decide))
  have q6 := quote_of_lowerHex _ (fmtHexLower_spec 8 (st.gba.R 6) (by decide) (by have := hR' 6 (by decide); omega)).2.1
  have k6 := quote_gbaKey 6 (by decide)
  have g7 := gbaRegisterJson_eq st.gba 7 (by decide) (hR' 7 (by decide))
  have q7 := quote_of_lowerHex _ (fmtHexLower_spec 8 (st.gba.R 7) (by decide) (by have := hR' 7 (by decide); omega)).2.1
  have k7 := quote_gbaKey 7 (by decide)
  have g8 := gbaRegisterJson_eq st.gba 8 (by decide) (hR' 8 (by decide))
  have q8 := quote_of_lowerHex _ (fmtHexLower_spec 8 (st.gba.R 8) (by decide) (by have := hR' 8 (by decide); omega)).2.1
  have k8 := quote_gbaKey 8 (by decide)
  have g9 := gbaRegisterJson_eq st.gba 9 (by decide) (hR' 9 (by decide))
  have q9 := quote_of_lowerHex _ (fmtHexLower_spec 8 (st.gba.R 9) (by decide) (by have := hR' 9 (by decide); omega)).2.1
  have k9 := quote_gbaKey 9 (by decide)
  have g10 := gbaRegisterJson_eq st.gba 10 (by decide) (hR' 10 (by decide))
  have q10 := quote_of_lowerHex _ (fmtHexLower_spec 8 (st.gba.R 10) (by decide) (by have := hR' 10 (by decide); omega)).2.1
  have k10 := quote_gbaKey 10 (by decide)
  have g11 := gbaRegisterJson_eq st.gba 11 (by decide) (hR' 11 (by decide))
  have q11 := quote_of_lowerHex _ (fmtHexLower_spec 8 (st.gba.R 11) (by decide) (by have := hR' 11 (by decide); omega)).2.1
  have k11 := quote_gbaKey 11 (by decide)
  have g12 := gbaRegisterJson_eq st.gba 12 (by decide) (hR' 12 (by decide))
  have q12 := quote_of_lowerHex _ (fmtHexLower_spec 8 (st.gba.R 12) (by decide) (by have := hR' 12 (by decide); omega)).2.1
  have k12 := quote_gbaKey 12 (by decide)
  have g13 := gbaRegisterJson_eq st.gba 13 (by decide) (hR' 13 (by decide))
  have q13 := quote_of_lowerHex _ (fmtHexLower_spec 8 (st.gba.R 13) (by decide) (by have := hR' 13 (by decide); omega)).2.1
  have k13 := quote_gbaKey 13 (by decide)
  have g14 := gbaRegisterJson_eq st.gba 14 (by decide) (hR' 14 (by decide))
  have q14 := quote_of_lowerHex _ (fmtHexLower_spec 8 (st.gba.R 14) (by decide) (by have := hR' 14 (by decide); omega)).2.1
  have k14 := quote_gbaKey 14 (by decide)
  have g15 := gbaRegisterJson_eq st.gba 15 (by decide) (hR' 15 (by decide))
  have q15 := quote_of_lowerHex _ (fmtHexLower_spec 8 (st.gba.R 15) (by decide) (by have := hR' 15 (by decide); omega)).2.1
  have k15 := quote_gbaKey 15 (by decide)
  show Formatter.FormatGbaRegistersJson st.gba = _
  unfold Formatter.FormatGbaRegistersJson
  simp only []
  rw [snprintf_of_length_le]
  · simp only [registersJson, jsonRegisters, jsonFlags, jsonExtra, flagsKey, cycleCount,
      hrange, List.foldl_cons, List.foldl_nil,
      List.map_cons, List.map_nil, List.cons_append, List.nil_append,
      List.append_nil, Json.render, Json.renderMembers, cyc,
      boolJson_eq_render, fmtDec_nat, qc, quote_GbaModeName,
      g0, q0, k0, g1, q1, k1, g2, q2, k2, g3, q3, k3, g4, q4, k4, g5, q5, k5, g6, q6, k6, g7, q7, k7, g8, q8, k8, g9, q9, k9, g10, q10, k10, g11, q11, k11, g12, q12, k12, g13, q13, k13, g14, q14, k14, g15, q15, k15]
    apply String.ext
    simp [Json.quote, Json.escapeChar]
  · simp only [String.length_append, cyc, lc, GbaModeName_length]
    simp only [String.length]
    simp
    have c0 := fmtDec_length_le st.gba.CycleCount 20 (by omega) (by decide)
    have f0 := boolJson_length_le st.gba.CPSR.Negative
    have f1 := boolJson_length_le st.gba.CPSR.Zero
    have f2 := boolJson_length_le st.gba.CPSR.Carry
    have f3 := boolJson_length_le st.gba.CPSR.Overflow
    have f4 := boolJson_length_le st.gba.CPSR.Thumb
    omega

/-! ## Deleting a breakpoint -/

/-- Removing an id some entry has makes the collection shorter. -/
theorem removeId_length_lt (id : Nat) (bps : List CliBreakpoint)
    (h : ∃ bp ∈ bps, bp.id = id) :
    (DebuggerCli.removeId id bps).length < bps.length := by
  induction bps with
  | nil => obtain ⟨bp, hbp, _⟩ := h; cases hbp
  | cons b rest ih =>
    have hle := (DebuggerCli.removeId_sublist id rest).length_le
    by_cases hb : b.id = id
    · simp only [DebuggerCli.removeId, hb, if_true, List.length_cons]
      omega
    · simp only [DebuggerCli.removeId, hb, if_false, List.length_cons]
      obtain ⟨bp, hbp, hid⟩ := h
      rcases List.mem_cons.mp hbp with heq | hmem
      · exact absurd (heq ▸ hid) hb
      · have := ih ⟨bp, hmem, hid⟩
        omega

/-- C11: `delete <id>` on any shell state. When no entry has the id, the command prints
`No breakpoint <id>` and returns the state as it was: collection, id counter and emulator
(so the core receives no breakpoint set). When an entry has the id, the collection becomes
the entries whose id differs, in their order and unchanged; the id counter stays; the text is
`Deleted breakpoint <id>`; and `SyncBreakpoints` runs once on the new collection, so that a
debugger that is available receives exactly one more `SetBreakpoints` call, with the
translation of the new collection. -/
theorem CmdDelete_absent_or_removed (G : CpuType → MemoryType) (cli : DebuggerCli) (id : Nat) :
    ((∀ bp ∈ cli._breakpoints, bp.id ≠ id) →
      DebuggerCli.CmdDelete G cli id = (cli, "No breakpoint " ++ fmtDec (toI32 id) ++ "\n")) ∧
    ((∃ bp ∈ cli._breakpoints, bp.id = id) →
      (DebuggerCli.CmdDelete G cli id).1._breakpoints =
        cli._breakpoints.filter (fun bp => decide (bp.id ≠ id)) ∧
      (DebuggerCli.CmdDelete G cli id).1._nextBreakpointId = cli._nextBreakpointId ∧
      (DebuggerCli.CmdDelete G cli id).2 = "Deleted breakpoint " ++ fmtDec (toI32 id) ++ "\n" ∧
      (DebuggerCli.CmdDelete G cli id).1 =
        DebuggerCli.SyncBreakpoints G
          { cli with _breakpoints := cli._breakpoints.filter (fun bp => decide (bp.id ≠ id)) } ∧
      (DebuggerCli.CmdDelete G cli id).1._emu.debugger =
        cli._emu.debugger.map (fun dbg =>
          { breakpoints :=
              DebuggerCli.buildBreakpoints cli._primaryCpu (G cli._primaryCpu)
                (cli._breakpoints.filter (fun bp => decide (bp.id ≠ id))),
            setBreakpointsCalls := dbg.setBreakpointsCalls + 1 })) := by
  constructor
  · intro h
    unfold DebuggerCli.CmdDelete
    simp only [DebuggerCli.removeId_of_absent id cli._breakpoints h, if_true]
  · intro h
    have hlt := removeId_length_lt id cli._breakpoints h
    have hne : ¬ (DebuggerCli.removeId id cli._breakpoints).length = cli._breakpoints.length := by
      omega
    have hrun : DebuggerCli.CmdDelete G cli id =
        (DebuggerCli.SyncBreakpoints G
          { cli with _breakpoints := cli._breakpoints.filter (fun bp => decide (bp.id ≠ id)) },
          "Deleted breakpoint " ++ fmtDec (toI32 id) ++ "\n") := by
      unfold DebuggerCli.CmdDelete
      simp only [hne, if_false]
      rw [DebuggerCli.removeId_eq_filter]
    rw [hrun]
    refine ⟨by simp, by simp, rfl, rfl, ?_⟩
    simp only [DebuggerCli.SyncBreakpoints]
    cases hd : cli._emu.debugger with
    | none => simp [hd]
    | some dbg => simp [hd, Debugger.SetBreakpoints]

/-- The two cases of C11 on a collection with the ids 1, 2, 1: `delete 3` changes nothing,
`delete 1` leaves the entry with id 2 and pushes once. -/
theorem CmdDelete_absent_or_removed_witness :
    DebuggerCli.CmdDelete (fun _ => MemoryType.Other 0)
        { _emu := ⟨some ⟨[], 0⟩⟩, _primaryCpu := CpuType.Nes, _consoleType := ConsoleType.Nes,
          _breakpoints := [⟨1, 0x8000, false, true⟩, ⟨2, 0x9000, true, true⟩,
            ⟨1, 0xA000, false, false⟩],
          _nextBreakpointId := 3, _jsonOutput := false, _quit := false } 3 =
      ({ _emu := ⟨some ⟨[], 0⟩⟩, _primaryCpu := CpuType.Nes, _consoleType := ConsoleType.Nes,
          _breakpoints := [⟨1, 0x8000, false, true⟩, ⟨2, 0x9000, true, true⟩,
            ⟨1, 0xA000, false, false⟩],
          _nextBreakpointId := 3, _jsonOutput := false, _quit := false },
        "No breakpoint 3\n") ∧
    (DebuggerCli.CmdDelete (fun _ => MemoryType.Other 0)
        { _emu := ⟨some ⟨[], 0⟩⟩, _primaryCpu := CpuType.Nes, _consoleType := ConsoleType.Nes,
          _breakpoints := [⟨1, 0x8000, false, true⟩, ⟨2, 0x9000, true, true⟩,
            ⟨1, 0xA000, false, false⟩],
          _nextBreakpointId := 3, _jsonOutput := false, _quit := false } 1).1._breakpoints =
      [⟨2, 0x9000, true, true⟩] := by
  constructor
  · exact (CmdDelete_absent_or_removed (fun _ => MemoryType.Other 0) _ 3).1 (by decide)
  · exact ((CmdDelete_absent_or_removed (fun _ => MemoryType.Other 0) _ 1).2
      ⟨⟨1, 0x8000, false, true⟩, by decide, rfl⟩).1

/-! ## The flags text of the NES -/

/-- The test `(value & mask) != 0` for the mask of bit `k` reads bit `k`. -/
theorem and_two_pow_ne_zero (v k : Nat) : v &&& 2 ^ k ≠ 0 ↔ v.testBit k = true := by
  rw [Nat.and_two_pow]
  cases h : v.testBit k <;> simp

theorem flagChar_bit (v mask k : Nat) (set clear : Char) (hm : mask = 2 ^ k) :
    flagChar v mask set clear = if v.testBit k then set else clear := by
  unfold flagChar
  rw [hm]
  by_cases h : v.testBit k = true
  · rw [if_pos ((and_two_pow_ne_zero v k).mpr h), if_pos h]
  · rw [if_neg (fun hc => h ((and_two_pow_ne_zero v k).mp hc)), if_neg h]

/-- C17: for every status byte the NES flags text has exactly 8 characters, in the order
N V 1 B D I Z C; the character at each position is decided by one bit, from bit 7 for the
first down to bit 0 for the last: the letter is upper-case when the bit is set and lower-case
when it is clear, and the third position shows `1` when bit 5 is set (and `0` when it is
clear). The byte `0xAA`, with exactly N, reserved, D and Z set, gives `Nv1bDiZc`. -/
theorem FormatNesFlags_positions (ps : Nat) :
    (Formatter.FormatNesFlags ps).length = 8 ∧
    (Formatter.FormatNesFlags ps).data =
      [if ps.testBit 7 then 'N' else 'n', if ps.testBit 6 then 'V' else 'v',
       if ps.testBit 5 then '1' else '0', if ps.testBit 4 then 'B' else 'b',
       if ps.testBit 3 then 'D' else 'd', if ps.testBit 2 then 'I' else 'i',
       if ps.testBit 1 then 'Z' else 'z', if ps.testBit 0 then 'C' else 'c'] ∧
    PSFlags.Negative + PSFlags.Reserved + PSFlags.Decimal + PSFlags.Zero = 0xAA ∧
    Formatter.FormatNesFlags 0xAA = "Nv1bDiZc" := by
  refine ⟨rfl, ?_, by decide, by decide⟩
  unfold Formatter.FormatNesFlags
  rw [flagChar_bit ps PSFlags.Negative 7 _ _ (by decide),
    flagChar_bit ps PSFlags.Overflow 6 _ _ (by decide),
    flagChar_bit ps PSFlags.Reserved 5 _ _ (by decide),
    flagChar_bit ps PSFlags.Break 4 _ _ (by decide),
    flagChar_bit ps PSFlags.Decimal 3 _ _ (by decide),
    flagChar_bit ps PSFlags.Interrupt 2 _ _ (by decide),
    flagChar_bit ps PSFlags.Zero 1 _ _ (by decide),
    flagChar_bit ps PSFlags.Carry 0 _ _ (by decide)]

/-! ## The renderings as functions of the snapshot -/

/-- C20: `FormatRegisters` and `FormatRegistersJson` depend on the CPU type and on the
snapshot's contents only: two buffers that hold the same state struct for the CPU type (and
any two buffers for a CPU type without a rendering) give byte-identical text and
byte-identical JSON. -/
theorem Format_depends_on_snapshot_only (cpu : CpuType) (a b : StateBuffer)
    (h : sameSnapshot cpu a b) :
    Formatter.FormatRegisters cpu a = Formatter.FormatRegisters cpu b ∧
    Formatter.FormatRegistersJson cpu a = Formatter.FormatRegistersJson cpu b := by
  cases cpu <;> simp only [sameSnapshot] at h <;>
    simp only [Formatter.FormatRegisters, Formatter.FormatRegistersJson, h, and_self]

/-- Two buffers with the same NES state, which differ where the SNES state would be read,
render alike on NES. -/
theorem Format_depends_on_snapshot_only_witness :
    sameSnapshot CpuType.Nes { nes := { A := 0x12, PC := 0x8000 }, snes := { A := 7 } }
      { nes := { A := 0x12, PC := 0x8000 } } ∧
    Formatter.FormatRegisters CpuType.Nes
        { nes := { A := 0x12, PC := 0x8000 }, snes := { A := 7 } } =
      Formatter.FormatRegisters CpuType.Nes { nes := { A := 0x12, PC := 0x8000 } } ∧
    Formatter.FormatRegistersJson CpuType.Nes
        { nes := { A := 0x12, PC := 0x8000 }, snes := { A := 7 } } =
      Formatter.FormatRegistersJson CpuType.Nes { nes := { A := 0x12, PC := 0x8000 } } :=
  ⟨rfl, Format_depends_on_snapshot_only CpuType.Nes _ _ rfl⟩

/-! ## Register names up to case -/

theorem upper_code_cases (c : Char) (h1 : 65 ≤ c.toNat) (h2 : c.toNat ≤ 90) :
    (Char.ofNat (c.toNat + 32)).toNat = c.toNat + 32 := by
  generalize c.toNat = n at h1 h2
  interval_cases n <;> decide

theorem tolower_toNat (c : Char) :
    (tolower c).toNat = if 65 ≤ c.toNat ∧ c.toNat ≤ 90 then c.toNat + 32 else c.toNat := by
  unfold tolower
  split_ifs with h
  · exact upper_code_cases c h.1 h.2
  · rfl

theorem char_eq_of_toNat_eq (c d : Char) (h : c.toNat = d.toNat) : c = d := by
  rw [← Char.ofNat_toNat c, ← Char.ofNat_toNat d, h]

theorem tolower_eq_of_sameUpToCase (c d : Char) (h : sameUpToCase c d = true) :
    tolower c = tolower d := by
  apply char_eq_of_toNat_eq
  rw [tolower_toNat, tolower_toNat]
  unfold sameUpToCase at h
  simp only [Bool.or_eq_true, Bool.and_eq_true, decide_eq_true_eq] at h
  rcases h with (h | h) | h
  · rw [h]
  · obtain ⟨⟨h1, h2⟩, h3⟩ := h
    rw [if_pos ⟨h1, h2⟩, if_neg (by omega)]
    omega
  · obtain ⟨⟨h1, h2⟩, h3⟩ := h
    rw [if_neg (by omega), if_pos ⟨h1, h2⟩]
    omega

theorem iequals_congr (r : List Char) : ∀ (a b : List Char), differOnlyInCase a b = true →
    iequals a r = iequals b r := by
  induction r with
  | nil =>
    intro a b h
    cases a <;> cases b <;> simp_all [differOnlyInCase, iequals]
  | cons x xs ih =>
    intro a b h
    cases a with
    | nil => cases b <;> simp_all [differOnlyInCase, iequals]
    | cons c cs =>
      cases b with
      | nil => simp [differOnlyInCase] at h
      | cons d ds =>
        simp only [differOnlyInCase, Bool.and_eq_true] at h
        simp only [iequals, tolower_eq_of_sameUpToCase c d h.1, ih cs ds h.2]

theorem firstMatch_congr (a b : List Char) (h : differOnlyInCase a b = true)
    (table : List (String × Nat)) : firstMatch a table = firstMatch b table := by
  induction table with
  | nil => rfl
  | cons e rest ih =>
    obtain ⟨reg, value⟩ := e
    simp only [firstMatch, iequals_congr reg.toList a b h, ih]

/-- A character that `strtol` in base 10 neither skips nor reads: no white space, no sign, no
decimal digit. -/
theorem letter_inert (c : Char)
    (h : (65 ≤ c.toNat ∧ c.toNat ≤ 90) ∨ (97 ≤ c.toNat ∧ c.toNat ≤ 122)) :
    isspace c = false ∧ c ≠ '-' ∧ c ≠ '+' ∧ isDigitIn 10 c = false := by
  refine ⟨?_, ?_, ?_, ?_⟩
  · unfold isspace
    simp only [Bool.or_eq_false_iff, Bool.and_eq_false_iff, decide_eq_false_iff_not]
    omega
  · rintro rfl
    revert h
    decide
  · rintro rfl
    revert h
    decide
  · unfold isDigitIn digitValue
    split_ifs with h1 h2 h3
    · omega
    · simp
    · simp
    · rfl

theorem sameUpToCase_cases (c d : Char) (h : sameUpToCase c d = true) :
    c = d ∨
      ((isspace c = false ∧ c ≠ '-' ∧ c ≠ '+' ∧ isDigitIn 10 c = false) ∧
       (isspace d = false ∧ d ≠ '-' ∧ d ≠ '+' ∧ isDigitIn 10 d = false)) := by
  unfold sameUpToCase at h
  simp only [Bool.or_eq_true, Bool.and_eq_true, decide_eq_true_eq] at h
  rcases h with (h | h) | h
  · exact Or.inl h
  · exact Or.inr ⟨letter_inert c (Or.inl ⟨h.1.1, h.1.2⟩), letter_inert d (Or.inr (by omega))⟩
  · exact Or.inr ⟨letter_inert c (Or.inr (by omega)), letter_inert d (Or.inl ⟨h.1.1, h.1.2⟩)⟩

theorem differOnlyInCase_refl (a : List Char) : differOnlyInCase a a = true := by
  induction a with
  | nil => rfl
  | cons c cs ih => simp [differOnlyInCase, sameUpToCase, ih]

theorem skipSpaces_congr : ∀ (a b : List Char), differOnlyInCase a b = true →
    differOnlyInCase (skipSpaces a) (skipSpaces b) = true := by
  intro a
  induction a with
  | nil =>
    intro b h
    cases b
    · rfl
    · simp [differOnlyInCase] at h
  | cons c cs ih =>
    intro b h
    cases b with
    | nil => simp [differOnlyInCase] at h
    | cons d ds =>
      have h0 := h
      simp only [differOnlyInCase, Bool.and_eq_true] at h
      rcases sameUpToCase_cases c d h.1 with rfl | ⟨hc, hd⟩
      · simp only [skipSpaces]
        split_ifs
        · exact ih ds h.2
        · exact h0
      · simp only [skipSpaces, hc.1, hd.1]
        exact h0

theorem takeSign_congr (a b : List Char) (h : differOnlyInCase a b = true) :
    (takeSign a).1 = (takeSign b).1 ∧
      differOnlyInCase (takeSign a).2 (takeSign b).2 = true := by
  cases a with
  | nil =>
    cases b
    · exact ⟨rfl, rfl⟩
    · simp [differOnlyInCase] at h
  | cons c cs =>
    cases b with
    | nil => simp [differOnlyInCase] at h
    | cons d ds =>
      have h0 := h
      simp only [differOnlyInCase, Bool.and_eq_true] at h
      rcases sameUpToCase_cases c d h.1 with rfl | ⟨hc, hd⟩
      · simp only [takeSign]
        split_ifs
        · exact ⟨rfl, h.2⟩
        · exact ⟨rfl, h.2⟩
        · exact ⟨rfl, h0⟩
      · simp only [takeSign, hc.2.1, hc.2.2.1, hd.2.1, hd.2.2.1, if_false]
        exact ⟨trivial, h0⟩

theorem skipHexPrefix_ten (l : List Char) : skipHexPrefix 10 l = l := by
  unfold skipHexPrefix
  split
  · simp
  · rfl

theorem takeDigits_congr : ∀ (a b : List Char), differOnlyInCase a b = true →
    takeDigits 10 a = takeDigits 10 b := by
  intro a
  induction a with
  | nil =>
    intro b h
    cases b
    · rfl
    · simp [differOnlyInCase] at h
  | cons c cs ih =>
    intro b h
    cases b with
    | nil => simp [differOnlyInCase] at h
    | cons d ds =>
      simp only [differOnlyInCase, Bool.and_eq_true] at h
      rcases sameUpToCase_cases c d h.1 with rfl | ⟨hc, hd⟩
      · simp only [takeDigits, ih ds h.2]
      · simp [takeDigits, hc.2.2.2, hd.2.2.2]

theorem stoi_congr (a b : List Char) (h : differOnlyInCase a b = true) :
    stoi a 10 = stoi b 10 := by
  have h1 := skipSpaces_congr a b h
  have h2 := takeSign_congr _ _ h1
  have h3 := takeDigits_congr _ _ h2.2
  unfold stoi
  simp only [skipHexPrefix_ten, h2.1, h3]

theorem differOnlyInCase_length : ∀ (a b : List Char), differOnlyInCase a b = true →
    a.length = b.length := by
  intro a
  induction a with
  | nil =>
    intro b h
    cases b
    · rfl
    · simp [differOnlyInCase] at h
  | cons c cs ih =>
    intro b h
    cases b with
    | nil => simp [differOnlyInCase] at h
    | cons d ds =>
      simp only [differOnlyInCase, Bool.and_eq_true] at h
      simp [ih ds h.2]

theorem differOnlyInCase_drop_one (a b : List Char) (h : differOnlyInCase a b = true) :
    differOnlyInCase (a.drop 1) (b.drop 1) = true := by
  cases a with
  | nil =>
    cases b
    · rfl
    · simp [differOnlyInCase] at h
  | cons c cs =>
    cases b with
    | nil => simp [differOnlyInCase] at h
    | cons d ds =>
      simp only [differOnlyInCase, Bool.and_eq_true] at h
      exact h.2

theorem isR_iff_tolower (c : Char) : (c = 'R' ∨ c = 'r') ↔ tolower c = 'r' := by
  constructor
  · rintro (rfl | rfl) <;> decide
  · intro h
    have ht := congrArg Char.toNat h
    rw [tolower_toNat] at ht
    have hr : ('r' : Char).toNat = 114 := by decide
    rw [hr] at ht
    split_ifs at ht with hu
    · left
      apply char_eq_of_toNat_eq
      have : ('R' : Char).toNat = 82 := by decide
      omega
    · right
      apply char_eq_of_toNat_eq
      omega

theorem head_isR_congr (a b : List Char) (h : differOnlyInCase a b = true) :
    (a.head? = some 'R' ∨ a.head? = some 'r') ↔ (b.head? = some 'R' ∨ b.head? = some 'r') := by
  cases a with
  | nil =>
    cases b
    · rfl
    · simp [differOnlyInCase] at h
  | cons c cs =>
    cases b with
    | nil => simp [differOnlyInCase] at h
    | cons d ds =>
      simp only [differOnlyInCase, Bool.and_eq_true] at h
      simp only [List.head?_cons, Option.some.injEq]
      rw [isR_iff_tolower, isR_iff_tolower, tolower_eq_of_sameUpToCase c d h.1]

/-- The lookup gives the same outcome for two names that differ only in case. -/
theorem GetRegisterValue_congr (cpu : CpuType) (st : StateBuffer) (a b : List Char)
    (h : differOnlyInCase a b = true) :
    GetRegisterValue cpu a st = GetRegisterValue cpu b st := by
  have hf := firstMatch_congr a b h
  cases cpu <;> try (simp only [GetRegisterValue, hf])
  simp only [differOnlyInCase_length a b h, head_isR_congr a b h,
    stoi_congr _ _ (differOnlyInCase_drop_one a b h)]

/-- C13: for every CPU type, every snapshot and every two register names that differ only
in the case of ASCII letters, `GetRegisterValue` has the same outcome, that is, the same
value and the same `found` flag (or the same exception); so two register assertions with
these names and the same expected value pass or fail together. -/
theorem GetRegisterValue_case_insensitive (G : CpuType → MemoryType) (w : BatchWorld)
    (cpu : CpuType) (a b : List Char) (expected size i j : Nat)
    (h : differOnlyInCase a b = true) :
    GetRegisterValue cpu a w.stateBuffer = GetRegisterValue cpu b w.stateBuffer ∧
    assertionPasses G w cpu i ⟨AssertionType.Reg, a, 0, expected, size⟩ =
      assertionPasses G w cpu j ⟨AssertionType.Reg, b, 0, expected, size⟩ := by
  have hg := GetRegisterValue_congr cpu w.stateBuffer a b h
  refine ⟨hg, ?_⟩
  simp only [assertionPasses, hg]

/-- The names `sp` and `Sp` on the NES snapshot with `SP = $FD`: both lookups find the
value `$FD`. -/
theorem GetRegisterValue_case_insensitive_witness :
    differOnlyInCase ['s', 'p'] ['S', 'p'] = true ∧
    GetRegisterValue CpuType.Nes ['s', 'p'] { nes := { SP := 0xFD } } = Except.ok (0xFD, true) ∧
    GetRegisterValue CpuType.Nes ['s', 'p'] { nes := { SP := 0xFD } } =
      GetRegisterValue CpuType.Nes ['S', 'p'] { nes := { SP := 0xFD } } :=
  ⟨by decide, by decide,
    (GetRegisterValue_case_insensitive (fun _ => MemoryType.Other 0)
      { sampleWorld [] with stateBuffer := { nes := { SP := 0xFD } } }
      CpuType.Nes ['s', 'p'] ['S', 'p'] 0xFD 2 0 0 (by decide)).1⟩

/-! ## Memory assertions -/

/-- A run that observes a stop, with the debugger there at the start and after the wait and
every register lookup completing, returns 0 when every assertion passes and 1 otherwise. -/
theorem Run_after_stop (G : CpuType → MemoryType)
    (FormatRegisters FormatRegistersJson : CpuType → StateBuffer → String)
    (w : BatchWorld) (r : BatchRunner) (l1 : CliNotificationListener)
    (hwait : r._listener.Reset.WaitForBreak r._timeoutMs w.arriving = some (true, l1))
    (hstart : w.dbgAtStart = true) (hafter : w.dbgAfterWait = true)
    (hlookup : ∀ a ∈ r._assertions, lookupCompletes w r._primaryCpu a = true) :
    ∃ res, BatchRunner.Run G FormatRegisters FormatRegistersJson w r = Outcome.returned res ∧
      ((res.exitCode = 0 ∧ ∀ i a, r._assertions[i]? = some a →
          assertionPasses G w r._primaryCpu i a = true) ∨
       (res.exitCode = 1 ∧ ¬ ∀ i a, r._assertions[i]? = some a →
          assertionPasses G w r._primaryCpu i a = true)) := by
  unfold BatchRunner.Run
  simp only [hstart, hafter, Bool.not_true, Bool.false_eq_true, if_false, hwait]
  cases hempty : r._assertions with
  | nil => exact ⟨_, rfl, Or.inl ⟨rfl, by simp⟩⟩
  | cons check rest =>
    rw [hempty] at hlookup
    obtain ⟨res, hres, hiff⟩ := runChecks_allPassed G w r._primaryCpu r._jsonOutput
      (check :: rest) 0
      (true, runDumps w r._jsonOutput r._dumps 0
        { stdout := (if r._jsonOutput = true then FormatRegistersJson r._primaryCpu
            w.stateBuffer else FormatRegisters r._primaryCpu w.stateBuffer) ++ "\n" })
      hlookup
    simp only [List.isEmpty_cons, Bool.false_eq_true, if_false, hres]
    simp only [true_and, Nat.zero_add] at hiff
    obtain ⟨allPassed, io1⟩ := res
    refine ⟨_, rfl, ?_⟩
    cases allPassed with
    | true => exact Or.inl ⟨rfl, hiff.mp rfl⟩
    | false => exact Or.inr ⟨rfl, fun h => absurd (hiff.mpr h) (by simp)⟩

/-- After a round that read one further argument the loop goes on behind that argument. -/
theorem parseLoop_next_one (prog : String) (arg head : List Char) (rest1 : List (List Char))
    (args args1 : CliArgs)
    (h : parseStep prog arg (head :: rest1) args = ParseStep.next 1 args1) :
    parseLoop prog (arg :: head :: rest1) args = parseLoop prog rest1 args1 := by
  rw [parseLoop.eq_def]
  simp only [h]

/-- The round of the loop of `ParseArgs` for `--check-mem A=V` and `--check-mem16 A=V`. -/
theorem parseStep_check_mem (prog : String) (arg value : List Char) (rest : List (List Char))
    (args : CliArgs) (size eq address expected : Nat)
    (h : (arg = "--check-mem".toList ∧ size = 1) ∨ (arg = "--check-mem16".toList ∧ size = 2))
    (hfind : find value '=' = some eq)
    (haddr : ParseAddr (value.take eq) = Except.ok address)
    (hval : ParseAddr (value.drop (eq + 1)) = Except.ok expected) :
    parseStep prog arg (value :: rest) args =
      ParseStep.next 1
        { args with assertions := args.assertions ++
            [⟨AssertionType.Mem, [], address, toU16 expected, size⟩] } := by
  unfold parseStep
  rcases h with ⟨rfl, rfl⟩ | ⟨rfl, rfl⟩
  · rw [if_neg (by decide), if_neg (by decide), if_neg (by decide), if_neg (by decide),
      if_neg (by decide), if_neg (fun h => absurd h.1 (by decide)),
      if_neg (fun h => absurd h.1 (by decide)), if_neg (fun h => absurd h.1 (by decide)),
      if_pos ⟨Or.inl rfl, by simp⟩]
    simp only [List.headD_cons, hfind, haddr, hval]
    rw [if_neg (by decide)]
  · rw [if_neg (by decide), if_neg (by decide), if_neg (by decide), if_neg (by decide),
      if_neg (by decide), if_neg (fun h => absurd h.1 (by decide)),
      if_neg (fun h => absurd h.1 (by decide)), if_neg (fun h => absurd h.1 (by decide)),
      if_pos ⟨Or.inr rfl, by simp⟩]
    simp only [List.headD_cons, hfind, haddr, hval, if_true]

/-- C15: a memory assertion at any position of the list, in a run that observes a stop with
the debugger available (and whose register lookups complete). Its actual value is the
16-bit value `GetMemoryValue16` returns for the address when the width is 2, and otherwise
(width 1) the byte `GetMemoryValue` returns, zero-extended, both read in the memory space of
the primary CPU. Exit code 0 requires this value to equal the expected value, a different
value gives exit code 1, and when every other assertion passes the exit code is 0 exactly
when the two are equal. On the command line `--check-mem A=V` appends a memory assertion of
width 1 and `--check-mem16 A=V` one of width 2, with the parsed address and the low 16 bits
of the parsed value. -/
theorem memory_assertion_width (G : CpuType → MemoryType)
    (FormatRegisters FormatRegistersJson : CpuType → StateBuffer → String)
    (w : BatchWorld) (r : BatchRunner) (l1 : CliNotificationListener)
    (i : Nat) (check : BatchAssertion)
    (prog : String) (value : List Char) (rest : List (List Char)) (args : CliArgs)
    (eq address expected : Nat)
    (hwait : r._listener.Reset.WaitForBreak r._timeoutMs w.arriving = some (true, l1))
    (hstart : w.dbgAtStart = true) (hafter : w.dbgAfterWait = true)
    (hlookup : ∀ a ∈ r._assertions, lookupCompletes w r._primaryCpu a = true)
    (hat : r._assertions[i]? = some check) (hmem : check.type = AssertionType.Mem)
    (hdbg : w.dbgAtCheck i = true)
    (hfind : find value '=' = some eq)
    (haddr : ParseAddr (value.take eq) = Except.ok address)
    (hval : ParseAddr (value.drop (eq + 1)) = Except.ok expected) :
    (∃ res actual,
      BatchRunner.Run G FormatRegisters FormatRegistersJson w r = Outcome.returned res ∧
      (check.size = 2 →
        actual = toU16 (w.GetMemoryValue16 (G r._primaryCpu) check.address)) ∧
      (check.size = 1 → actual = w.GetMemoryValue (G r._primaryCpu) check.address % 2 ^ 8) ∧
      (res.exitCode = 0 ∨ res.exitCode = 1) ∧
      (res.exitCode = 0 → actual = check.expected) ∧
      (actual ≠ check.expected → res.exitCode = 1) ∧
      ((∀ k a, k ≠ i → r._assertions[k]? = some a →
          assertionPasses G w r._primaryCpu k a = true) →
        (res.exitCode = 0 ↔ actual = check.expected))) ∧
    parseLoop prog ("--check-mem".toList :: value :: rest) args =
      parseLoop prog rest
        { args with assertions := args.assertions ++
            [⟨AssertionType.Mem, [], address, toU16 expected, 1⟩] } ∧
    parseLoop prog ("--check-mem16".toList :: value :: rest) args =
      parseLoop prog rest
        { args with assertions := args.assertions ++
            [⟨AssertionType.Mem, [], address, toU16 expected, 2⟩] } := by
  refine ⟨?_, ?_, ?_⟩
  · obtain ⟨res, hres, hcode⟩ := Run_after_stop G FormatRegisters FormatRegistersJson w r l1
      hwait hstart hafter hlookup
    have hpass : assertionPasses G w r._primaryCpu i check =
        decide ((if check.size = 2 then
            toU16 (w.GetMemoryValue16 (G r._primaryCpu) check.address)
          else w.GetMemoryValue (G r._primaryCpu) check.address % 2 ^ 8) = check.expected) := by
      unfold assertionPasses
      simp only [hmem, hdbg, Bool.true_and]
    refine ⟨res, (if check.size = 2 then
        toU16 (w.GetMemoryValue16 (G r._primaryCpu) check.address)
      else w.GetMemoryValue (G r._primaryCpu) check.address % 2 ^ 8), hres,
      fun h2 => by rw [if_pos h2], fun h1 => by rw [if_neg (by omega)], ?_, ?_, ?_, ?_⟩
    · rcases hcode with ⟨h0, _⟩ | ⟨h1, _⟩
      · exact Or.inl h0
      · exact Or.inr h1
    · intro h0
      rcases hcode with ⟨_, hall⟩ | ⟨h1, _⟩
      · have := hall i check hat
        rw [hpass] at this
        exact of_decide_eq_true this
      · rw [h1] at h0
        exact absurd h0 (by decide)
    · intro hne
      rcases hcode with ⟨_, hall⟩ | ⟨h1, _⟩
      · have := hall i check hat
        rw [hpass] at this
        exact absurd (of_decide_eq_true this) hne
      · exact h1
    · intro hothers
      constructor
      · intro h0
        rcases hcode with ⟨_, hall⟩ | ⟨h1, _⟩
        · have := hall i check hat
          rw [hpass] at this
          exact of_decide_eq_true this
        · rw [h1] at h0
          exact absurd h0 (by decide)
      · intro heq
        rcases hcode with ⟨h0, _⟩ | ⟨_, hnot⟩
        · exact h0
        · exfalso
          apply hnot
          intro k a hk
          by_cases hki : k = i
          · subst hki
            rw [hat] at hk
            cases hk
            rw [hpass]
            exact decide_eq_true heq
          · exact hothers k a hki hk
  · exact parseLoop_next_one prog _ value rest args _
      (parseStep_check_mem prog _ value rest args 1 eq address expected (Or.inl ⟨rfl, rfl⟩)
        hfind haddr hval)
  · exact parseLoop_next_one prog _ value rest args _
      (parseStep_check_mem prog _ value rest args 2 eq address expected (Or.inr ⟨rfl, rfl⟩)
        hfind haddr hval)

/-- C15 on an NES target that stops at once: the assertion `[$10] = $10` of width 1 reads
the byte at `$10` and the run returns 0; and `--check-mem $10=$20` is read as the memory
assertion at `$10` with the expected value `$20` and width 1. -/
theorem memory_assertion_width_witness :
    (∃ res, BatchRunner.Run (fun _ => MemoryType.Other 0) Formatter.FormatRegisters
        Formatter.FormatRegistersJson (sampleWorld [ConsoleNotificationType.CodeBreak])
        (sampleRunner CpuType.Nes 10000 [⟨AssertionType.Mem, [], 0x10, 0x10, 1⟩]) =
        Outcome.returned res ∧ res.exitCode = 0) ∧
    parseLoop "mesen" ["--check-mem".toList, "$10=$20".toList] {} =
      Except.ok ⟨true, { assertions := [⟨AssertionType.Mem, [], 0x10, 0x20, 1⟩] }, ""⟩ := by
  obtain ⟨⟨res, actual, hres, _, h1, _, _, _, hiff⟩, hp1, _⟩ :=
    memory_assertion_width (fun _ => MemoryType.Other 0) Formatter.FormatRegisters
      Formatter.FormatRegistersJson (sampleWorld [ConsoleNotificationType.CodeBreak])
      (sampleRunner CpuType.Nes 10000 [⟨AssertionType.Mem, [], 0x10, 0x10, 1⟩])
      { _breakOccurred := false, _stopped := false } 0 ⟨AssertionType.Mem, [], 0x10, 0x10, 1⟩
      "mesen" "$10=$20".toList [] {} 3 0x10 0x20
      rfl rfl rfl (by decide) rfl rfl rfl (by decide) (by decide) (by decide)
  refine ⟨⟨res, hres, ?_⟩, ?_⟩
  · refine (hiff ?_).mpr ((h1 rfl).trans (by decide))
    intro k a hk hat
    cases k with
    | zero => exact absurd rfl hk
    | succ k => simp [sampleRunner] at hat
  · rw [hp1]
    rfl

/-! ## Resolving the `--dump` requests -/

/-- C16 fails for an alias that contains a tab. `--dump <rom TAB x> out.bin` on an NES is
stored as `rom TAB x TAB out.bin`; the resolution splits this text at its first tab, so the
alias `rom TAB x`, which is not in the NES region table, is read as `rom`: nothing is
reported, and the request reaches the batch runner as a dump of PRG ROM into the file
`x TAB out.bin`. -/
theorem dump_alias_with_tab_resolves (memTypeCode : MemoryType → Nat) :
    ParseArgs "mesen" ["--dump".toList, "rom\tx".toList, "out.bin".toList] =
      Except.ok ⟨true, { dumps := [⟨-1, "rom\tx\tout.bin"⟩] }, ""⟩ ∧
    (ConsoleInfo.GetMemoryRegions ConsoleType.Nes).find?
      (fun r => decide (r.shortName = "rom\tx")) = none ∧
    resolveDumps memTypeCode ConsoleType.Nes [⟨-1, "rom\tx\tout.bin"⟩] =
      ([⟨(memTypeCode MemoryType.NesPrgRom : Int), "x\tout.bin"⟩], "") ∧
    addDumps (resolveDumps memTypeCode ConsoleType.Nes [⟨-1, "rom\tx\tout.bin"⟩]).1 =
      [⟨(memTypeCode MemoryType.NesPrgRom : Int), "x\tout.bin"⟩] := by
  refine ⟨by decide, by decide, rfl, ?_⟩
  have h : resolveDumps memTypeCode ConsoleType.Nes [⟨-1, "rom\tx\tout.bin"⟩] =
      ([⟨(memTypeCode MemoryType.NesPrgRom : Int), "x\tout.bin"⟩], "") := rfl
  rw [h]
  simp [addDumps]

/-! ## The report of the assertions -/

/-- C12 fails on a GBA target. With the assertions `Rx = 0` and `PC = 0`, in this order, the
lookup of `Rx` makes `std::stoi` throw, and the exception leaves `Run`: the run does not
return, so the assertion on `PC` is never evaluated and no report line is written for either
of them; on its own the assertion on `PC` passes and is reported with one `PASS` line. -/
theorem Run_stops_reporting_after_throw :
    BatchRunner.Run (fun _ => MemoryType.Other 0) Formatter.FormatRegisters
      Formatter.FormatRegistersJson (sampleWorld [ConsoleNotificationType.CodeBreak])
      (sampleRunner CpuType.Gba 10000
        [⟨AssertionType.Reg, ['R', 'x'], 0, 0, 2⟩, ⟨AssertionType.Reg, ['P', 'C'], 0, 0, 2⟩]) =
      Outcome.threw StdException.invalid_argument ∧
    ∃ res, BatchRunner.Run (fun _ => MemoryType.Other 0) Formatter.FormatRegisters
        Formatter.FormatRegistersJson (sampleWorld [ConsoleNotificationType.CodeBreak])
        (sampleRunner CpuType.Gba 10000 [⟨AssertionType.Reg, ['P', 'C'], 0, 0, 2⟩]) =
        Outcome.returned res ∧
      res.exitCode = 0 ∧
      res.io.stdout =
        Formatter.FormatRegisters CpuType.Gba
            (sampleWorld [ConsoleNotificationType.CodeBreak]).stateBuffer ++ "\n" ++
          "PASS: PC = $0000\n" ∧
      res.io.stderr = "" := by
  refine ⟨rfl, _, rfl, rfl, ?_, rfl⟩
  have line : "PASS: " ++ String.mk ['P', 'C'] ++ " = $" ++ fmtHexUpper 4 0 ++ "\n" =
      "PASS: PC = $0000\n" := by decide
  rw [← line]
  rfl

/-- The dump loop writes nothing to standard output. -/
theorem runDumps_stdout (w : BatchWorld) (jsonOutput : Bool) (dumps : List MemoryDump) :
    ∀ (i : Nat) (io : Streams), (runDumps w jsonOutput dumps i io).stdout = io.stdout := by
  induction dumps with
  | nil => intro i io; rfl
  | cons d rest ih =>
    intro i io
    simp only [runDumps]
    split_ifs <;> simp only [ih]

/-- In text mode, while the debugger is available and the register lookups complete, the
assertion loop runs to its end and writes exactly the report line of each assertion, in the
order of the list: the `PASS` lines to standard output, the others to standard error. -/
theorem runChecks_reports (G : CpuType → MemoryType) (w : BatchWorld) (cpu : CpuType)
    (hdbg : ∀ i, w.dbgAtCheck i = true) (checks : List BatchAssertion) :
    ∀ (i : Nat) (acc : Bool × Streams),
      (∀ a ∈ checks, lookupCompletes w cpu a = true) →
      ∃ res, runChecks w cpu false (G cpu) checks i acc = Except.ok res ∧
        res.2.stdout = writeLines true (checks.map (textReport G w cpu)) acc.2.stdout ∧
        res.2.stderr = writeLines false (checks.map (textReport G w cpu)) acc.2.stderr ∧
        res.2.files = acc.2.files := by
  induction checks with
  | nil =>
    intro i acc _
    exact ⟨acc, rfl, rfl, rfl, rfl⟩
  | cons check rest ih =>
    intro i acc hl
    have hrest : ∀ a ∈ rest, lookupCompletes w cpu a = true :=
      fun a ha => hl a (by simp [ha])
    have hhead : lookupCompletes w cpu check = true := hl check (by simp)
    have step : ∀ (acc1 : Bool × Streams),
        acc1.2.stdout = writeLines true [textReport G w cpu check] acc.2.stdout →
        acc1.2.stderr = writeLines false [textReport G w cpu check] acc.2.stderr →
        acc1.2.files = acc.2.files →
        ∃ res, runChecks w cpu false (G cpu) rest (i + 1) acc1 = Except.ok res ∧
          res.2.stdout =
            writeLines true ((check :: rest).map (textReport G w cpu)) acc.2.stdout ∧
          res.2.stderr =
            writeLines false ((check :: rest).map (textReport G w cpu)) acc.2.stderr ∧
          res.2.files = acc.2.files := by
      intro acc1 h1 h2 h3
      obtain ⟨res, hres, ho, he, hf⟩ := ih (i + 1) acc1 hrest
      refine ⟨res, hres, ?_, ?_, ?_⟩
      · rw [ho, h1]; rfl
      · rw [he, h2]; rfl
      · rw [hf, h3]
    cases htype : check.type with
    | Reg =>
      unfold lookupCompletes at hhead
      rw [htype] at hhead
      simp only [runChecks, htype, if_true]
      cases hg : GetRegisterValue cpu check.name w.stateBuffer with
      | error e => rw [hg] at hhead; exact absurd hhead (by simp)
      | ok r =>
        obtain ⟨actual, found⟩ := r
        cases found with
        | false =>
          simp only [Bool.not_false, if_true]
          apply step
          · simp [writeLines, textReport, htype, hg]
          · simp [writeLines, textReport, htype, hg]
          · rfl
        | true =>
          simp only [Bool.not_true, Bool.false_eq_true, if_false]
          apply step
          · by_cases heq : actual = check.expected
            · simp [writeLines, textReport, htype, hg, report, heq]
            · simp [writeLines, textReport, htype, hg, report, heq]
          · by_cases heq : actual = check.expected
            · simp [writeLines, textReport, htype, hg, report, heq]
            · simp [writeLines, textReport, htype, hg, report, heq]
          · by_cases heq : actual = check.expected
            · simp [report, heq]
            · simp [report, heq]
    | Mem =>
      simp only [runChecks, htype, hdbg i, Bool.not_true, Bool.false_eq_true, if_false,
        reduceCtorEq]
      apply step <;>
        (simp only [writeLines, textReport, htype, report, List.foldl_cons, List.foldl_nil]
         generalize (if check.size = 2 then toU16 (w.GetMemoryValue16 (G cpu) check.address)
           else w.GetMemoryValue (G cpu) check.address % 2 ^ 8) = actual
         by_cases heq : actual = check.expected <;> simp [heq])

/-- Apart from the exception of C12: a text-mode run that observes a stop, with the debugger
available throughout and every register lookup completing, returns, and its output ends with
exactly one report line per assertion, in the order of the list. -/
theorem Run_reports_every_assertion (G : CpuType → MemoryType)
    (FormatRegisters FormatRegistersJson : CpuType → StateBuffer → String)
    (w : BatchWorld) (r : BatchRunner) (l1 : CliNotificationListener)
    (hwait : r._listener.Reset.WaitForBreak r._timeoutMs w.arriving = some (true, l1))
    (hstart : w.dbgAtStart = true) (hafter : w.dbgAfterWait = true)
    (hdbg : ∀ i, w.dbgAtCheck i = true) (htext : r._jsonOutput = false)
    (hlookup : ∀ a ∈ r._assertions, lookupCompletes w r._primaryCpu a = true) :
    ∃ res, BatchRunner.Run G FormatRegisters FormatRegistersJson w r = Outcome.returned res ∧
      res.io.stdout =
        writeLines true (r._assertions.map (textReport G w r._primaryCpu))
          (FormatRegisters r._primaryCpu w.stateBuffer ++ "\n") ∧
      res.io.stderr =
        writeLines false (r._assertions.map (textReport G w r._primaryCpu))
          (runDumps w false r._dumps 0
            { stdout := FormatRegisters r._primaryCpu w.stateBuffer ++ "\n" }).stderr := by
  unfold BatchRunner.Run
  simp only [hstart, hafter, htext, Bool.not_true, Bool.false_eq_true, if_false, hwait]
  cases hempty : r._assertions with
  | nil => exact ⟨_, rfl, by simp [writeLines, runDumps_stdout], rfl⟩
  | cons check rest =>
    rw [hempty] at hlookup
    obtain ⟨res, hres, ho, he, _⟩ := runChecks_reports G w r._primaryCpu hdbg (check :: rest) 0
      (true, runDumps w false r._dumps 0
        { stdout := FormatRegisters r._primaryCpu w.stateBuffer ++ "\n" })
      hlookup
    simp only [List.isEmpty_cons, Bool.false_eq_true, if_false, hres]
    obtain ⟨allPassed, io1⟩ := res
    refine ⟨_, rfl, ?_, ?_⟩
    · simpa [runDumps_stdout] using ho
    · simpa using he

/-! ## Unknown register names -/

/-- Apart from the GBA, the lookup of a register name always completes: either the name is
found, or the result is 0 with `found = false`. -/
theorem GetRegisterValue_completes_off_gba (cpu : CpuType) (name : List Char)
    (st : StateBuffer) (h : cpu ≠ CpuType.Gba) :
    (∃ v, GetRegisterValue cpu name st = Except.ok (v, true)) ∨
      GetRegisterValue cpu name st = Except.ok (0, false) := by
  cases cpu <;> first
    | exact absurd rfl h
    | (simp only [GetRegisterValue]
       split
       · exact Or.inl ⟨_, rfl⟩
       · exact Or.inr rfl)
    | exact Or.inr rfl

/-- Apart from the GBA, every assertion's lookup completes. -/
theorem lookupCompletes_off_gba (w : BatchWorld) (cpu : CpuType) (check : BatchAssertion)
    (h : cpu ≠ CpuType.Gba) : lookupCompletes w cpu check = true := by
  unfold lookupCompletes
  cases check.type with
  | Mem => rfl
  | Reg =>
    rcases GetRegisterValue_completes_off_gba cpu check.name w.stateBuffer h with ⟨v, hv⟩ | hv
    · simp only [hv]
    · simp only [hv]

/-! ## The registers of the JSON rendering -/

/-- A value below `16 ^ w`, written with `%0wx`, shows a register of `w / 2` bytes. -/
theorem showsRegister_hex (key : String) (w bytes n : Nat) (hw : 0 < w) (hb : w = 2 * bytes)
    (h : n < 16 ^ w) : showsRegister (key, fmtHexLower w n) (key, bytes, n) := by
  obtain ⟨h1, h2, h3⟩ := fmtHexLower_spec w n hw h
  exact ⟨rfl, by rw [h1, hb], h2, h3⟩

/-- On SNES `pc` is the bank byte followed by the 16-bit program counter: 3 bytes. -/
theorem showsRegister_bank (key : String) (k pc : Nat) (hk : k < 2 ^ 8) (hpc : pc < 2 ^ 16) :
    showsRegister (key, fmtHexLower 2 k ++ fmtHexLower 4 pc) (key, 3, k * 2 ^ 16 + pc) := by
  obtain ⟨a1, a2, a3⟩ := fmtHexLower_spec 2 k (by decide) (by omega)
  obtain ⟨b1, b2, b3⟩ := fmtHexLower_spec 4 pc (by decide) (by omega)
  refine ⟨rfl, ?_, lowerHex_append _ _ a2 b2, ?_⟩
  · show (fmtHexLower 2 k ++ fmtHexLower 4 pc).length = 2 * 3
    rw [String.length_append, a1, b1]
  · show digitsValue 16 (fmtHexLower 2 k ++ fmtHexLower 4 pc).data = k * 2 ^ 16 + pc
    have hl : (fmtHexLower 4 pc).data.length = 4 := b1
    rw [String.data_append, digitsValue_append, a3, b3, hl]
    norm_num

/-- On SMS `ix` and `iy` are the 16-bit pairs of their halves. -/
theorem showsRegister_pair (key : String) (hi lo : Nat) (hh : hi < 2 ^ 8) (hl : lo < 2 ^ 8) :
    showsRegister (key, fmtHexLower 4 ((hi <<< 8) ||| lo)) (key, 2, hi * 2 ^ 8 + lo) := by
  rw [← byte_pair_eq hi lo hl]
  exact showsRegister_hex key 4 2 _ (by decide) rfl
    (by have := byte_pair_lt hi lo hh hl; omega)


theorem showsRegisters_nes (st : StateBuffer)
    (h : inRange CpuType.Nes st = true) :
    List.Forall₂ showsRegister (jsonRegisters CpuType.Nes st)
      (registerTable CpuType.Nes st) := by
  simp only [inRange, Bool.and_eq_true, decide_eq_true_eq, and_assoc] at h
  obtain ⟨hPC, hA, hX, hY, hSP, hPS, hCyc⟩ := h
  simp only [jsonRegisters, registerTable]
  exact List.Forall₂.cons
    (showsRegister_hex _ 4 2 _ (by decide) rfl (by omega))
    (List.Forall₂.cons
    (showsRegister_hex _ 2 1 _ (by decide) rfl (by omega))
    (List.Forall₂.cons
    (showsRegister_hex _ 2 1 _ (by decide) rfl (by omega))
    (List.Forall₂.cons
    (showsRegister_hex _ 2 1 _ (by decide) rfl (by omega))
    (List.Forall₂.cons
    (showsRegister_hex _ 2 1 _ (by decide) rfl (by omega))
    (List.Forall₂.cons
    (showsRegister_hex _ 2 1 _ (by decide) rfl (by omega))
    (List.Forall₂.nil))))))

theorem showsRegisters_snes (st : StateBuffer)
    (h : inRange CpuType.Snes st = true) :
    List.Forall₂ showsRegister (jsonRegisters CpuType.Snes st)
      (registerTable CpuType.Snes st) := by
  simp only [inRange, Bool.and_eq_true, decide_eq_true_eq, and_assoc] at h
  obtain ⟨hK, hPC, hA, hX, hY, hSP, hD, hDBR, hPS, hStopState, hCyc⟩ := h
  simp only [jsonRegisters, registerTable]
  exact List.Forall₂.cons
    (showsRegister_bank _ _ _ hK hPC)
    (List.Forall₂.cons
    (showsRegister_hex _ 4 2 _ (by decide) rfl (by omega))
    (List.Forall₂.cons
    (showsRegister_hex _ 4 2 _ (by decide) rfl (by omega))
    (List.Forall₂.cons
    (showsRegister_hex _ 4 2 _ (by decide) rfl (by omega))
    (List.Forall₂.cons
    (showsRegister_hex _ 4 2 _ (by decide) rfl (by omega))
    (List.Forall₂.cons
    (showsRegister_hex _ 4 2 _ (by decide) rfl (by omega))
    (List.Forall₂.cons
    (showsRegister_hex _ 2 1 _ (by decide) rfl (by omega))
    (List.Forall₂.cons
    (showsRegister_hex _ 2 1 _ (by decide) rfl (by omega))
    (List.Forall₂.nil))))))))

theorem showsRegisters_sa1 (st : StateBuffer)
    (h : inRange CpuType.Sa1 st = true) :
    List.Forall₂ showsRegister (jsonRegisters CpuType.Sa1 st)
      (registerTable CpuType.Sa1 st) := by
  simp only [inRange, Bool.and_eq_true, decide_eq_true_eq, and_assoc] at h
  obtain ⟨hK, hPC, hA, hX, hY, hSP, hD, hDBR, hPS, hStopState, hCyc⟩ := h
  simp only [jsonRegisters, registerTable]
  exact List.Forall₂.cons
    (showsRegister_bank _ _ _ hK hPC)
    (List.Forall₂.cons
    (showsRegister_hex _ 4 2 _ (by decide) rfl (by omega))
    (List.Forall₂.cons
    (showsRegister_hex _ 4 2 _ (by decide) rfl (by omega))
    (List.Forall₂.cons
    (showsRegister_hex _ 4 2 _ (by decide) rfl (by omega))
    (List.Forall₂.cons
    (showsRegister_hex _ 4 2 _ (by decide) rfl (by omega))
    (List.Forall₂.cons
    (showsRegister_hex _ 4 2 _ (by decide) rfl (by omega))
    (List.Forall₂.cons
    (showsRegister_hex _ 2 1 _ (by decide) rfl (by omega))
    (List.Forall₂.cons
    (showsRegister_hex _ 2 1 _ (by decide) rfl (by omega))
    (List.Forall₂.nil))))))))

theorem showsRegisters_gameboy (st : StateBuffer)
    (h : inRange CpuType.Gameboy st = true) :
    List.Forall₂ showsRegister (jsonRegisters CpuType.Gameboy st)
      (registerTable CpuType.Gameboy st) := by
  simp only [inRange, Bool.and_eq_true, decide_eq_true_eq, and_assoc] at h
  obtain ⟨hPC, hSP, hA, hFlags, hB, hC, hD, hE, hH, hL, hCyc⟩ := h
  simp only [jsonRegisters, registerTable]
  exact List.Forall₂.cons
    (showsRegister_hex _ 4 2 _ (by decide) rfl (by omega))
    (List.Forall₂.cons
    (showsRegister_hex _ 4 2 _ (by decide) rfl (by omega))
    (List.Forall₂.cons
    (showsRegister_hex _ 2 1 _ (by decide) rfl (by omega))
    (List.Forall₂.cons
    (showsRegister_hex _ 2 1 _ (by decide) rfl (by omega))
    (List.Forall₂.cons
    (showsRegister_hex _ 2 1 _ (by decide) rfl (by omega))
    (List.Forall₂.cons
    (showsRegister_hex _ 2 1 _ (by decide) rfl (by omega))
    (List.Forall₂.cons
    (showsRegister_hex _ 2 1 _ (by decide) rfl (by omega))
    (List.Forall₂.cons
    (showsRegister_hex _ 2 1 _ (by decide) rfl (by omega))
    (List.Forall₂.cons
    (showsRegister_hex _ 2 1 _ (by decide) rfl (by omega))
    (List.Forall₂.cons
    (showsRegister_hex _ 2 1 _ (by decide) rfl (by omega))
    (List.Forall₂.nil))))))))))

theorem showsRegisters_pce (st : StateBuffer)
    (h : inRange CpuType.Pce st = true) :
    List.Forall₂ showsRegister (jsonRegisters CpuType.Pce st)
      (registerTable CpuType.Pce st) := by
  simp only [inRange, Bool.and_eq_true, decide_eq_true_eq, and_assoc] at h
  obtain ⟨hPC, hA, hX, hY, hSP, hPS, hCyc⟩ := h
  simp only [jsonRegisters, registerTable]
  exact List.Forall₂.cons
    (showsRegister_hex _ 4 2 _ (by decide) rfl (by omega))
    (List.Forall₂.cons
    (showsRegister_hex _ 2 1 _ (by decide) rfl (by omega))
    (List.Forall₂.cons
    (showsRegister_hex _ 2 1 _ (by decide) rfl (by omega))
    (List.Forall₂.cons
    (showsRegister_hex _ 2 1 _ (by decide) rfl (by omega))
    (List.Forall₂.cons
    (showsRegister_hex _ 2 1 _ (by decide) rfl (by omega))
    (List.Forall₂.cons
    (showsRegister_hex _ 2 1 _ (by decide) rfl (by omega))
    (List.Forall₂.nil))))))

theorem showsRegisters_sms (st : StateBuffer)
    (h : inRange CpuType.Sms st = true) :
    List.Forall₂ showsRegister (jsonRegisters CpuType.Sms st)
      (registerTable CpuType.Sms st) := by
  simp only [inRange, Bool.and_eq_true, decide_eq_true_eq, and_assoc] at h
  obtain ⟨hPC, hSP, hA, hFlags, hB, hC, hD, hE, hH, hL, hIXH, hIXL, hIYH, hIYL, hI, hR, hCyc⟩ := h
  simp only [jsonRegisters, registerTable]
  exact List.Forall₂.cons
    (showsRegister_hex _ 4 2 _ (by decide) rfl (by omega))
    (List.Forall₂.cons
    (showsRegister_hex _ 4 2 _ (by decide) rfl (by omega))
    (List.Forall₂.cons
    (showsRegister_hex _ 2 1 _ (by decide) rfl (by omega))
    (List.Forall₂.cons
    (showsRegister_hex _ 2 1 _ (by decide) rfl (by omega))
    (List.Forall₂.cons
    (showsRegister_hex _ 2 1 _ (by decide) rfl (by omega))
    (List.Forall₂.cons
    (showsRegister_hex _ 2 1 _ (by decide) rfl (by omega))
    (List.Forall₂.cons
    (showsRegister_hex _ 2 1 _ (by decide) rfl (by omega))
    (List.Forall₂.cons
    (showsRegister_hex _ 2 1 _ (by decide) rfl (by omega))
    (List.Forall₂.cons
    (showsRegister_hex _ 2 1 _ (by decide) rfl (by omega))
    (List.Forall₂.cons
    (showsRegister_hex _ 2 1 _ (by decide) rfl (by omega))
    (List.Forall₂.cons
    (showsRegister_pair _ _ _ hIXH hIXL)
    (List.Forall₂.cons
    (showsRegister_pair _ _ _ hIYH hIYL)
    (List.Forall₂.cons
    (showsRegister_hex _ 2 1 _ (by decide) rfl (by omega))
    (List.Forall₂.cons
    (showsRegister_hex _ 2 1 _ (by decide) rfl (by omega))
    (List.Forall₂.nil))))))))))))))

theorem showsRegisters_ws (st : StateBuffer)
    (h : inRange CpuType.Ws st = true) :
    List.Forall₂ showsRegister (jsonRegisters CpuType.Ws st)
      (registerTable CpuType.Ws st) := by
  simp only [inRange, Bool.and_eq_true, decide_eq_true_eq, and_assoc] at h
  obtain ⟨hCS, hIP, hAX, hBX, hCX, hDX, hSP, hBP, hSI, hDI, hDS, hES, hSS, hCyc⟩ := h
  simp only [jsonRegisters, registerTable]
  exact List.Forall₂.cons
    (showsRegister_hex _ 4 2 _ (by decide) rfl (by omega))
    (List.Forall₂.cons
    (showsRegister_hex _ 4 2 _ (by decide) rfl (by omega))
    (List.Forall₂.cons
    (showsRegister_hex _ 4 2 _ (by decide) rfl (by omega))
    (List.Forall₂.cons
    (showsRegister_hex _ 4 2 _ (by decide) rfl (by omega))
    (List.Forall₂.cons
    (showsRegister_hex _ 4 2 _ (by decide) rfl (by omega))
    (List.Forall₂.cons
    (showsRegister_hex _ 4 2 _ (by decide) rfl (by omega))
    (List.Forall₂.cons
    (showsRegister_hex _ 4 2 _ (by decide) rfl (by omega))
    (List.Forall₂.cons
    (showsRegister_hex _ 4 2 _ (by decide) rfl (by omega))
    (List.Forall₂.cons
    (showsRegister_hex _ 4 2 _ (by decide) rfl (by omega))
    (List.Forall₂.cons
    (showsRegister_hex _ 4 2 _ (by decide) rfl (by omega))
    (List.Forall₂.cons
    (showsRegister_hex _ 4 2 _ (by decide) rfl (by omega))
    (List.Forall₂.cons
    (showsRegister_hex _ 4 2 _ (by decide) rfl (by omega))
    (List.Forall₂.cons
    (showsRegister_hex _ 4 2 _ (by decide) rfl (by omega))
    (List.Forall₂.cons
    (showsRegister_hex _ 4 2 _ (by decide) rfl
      (by have := Nat.mod_lt st.ws.Flags.Get (show 0 < 2 ^ 16 by decide); unfold toU16; omega))
    (List.Forall₂.nil))))))))))))))

theorem showsRegisters_gba (st : StateBuffer)
    (h : inRange CpuType.Gba st = true) :
    List.Forall₂ showsRegister (jsonRegisters CpuType.Gba st)
      (registerTable CpuType.Gba st) := by
  simp only [inRange, Bool.and_eq_true, decide_eq_true_eq, List.all_eq_true] at h
  obtain ⟨hR, _⟩ := h
  have hR' : ∀ i, i < 16 → st.gba.R i < 16 ^ 8 := fun i hi => by
    have := hR i (List.mem_range.2 hi)
    omega
  have hrange : List.range 16 = [0, 1, 2, 3, 4, 5, 6, 7, 8, 9, 10, 11, 12, 13, 14, 15] := by
    decide
  simp only [jsonRegisters, registerTable, hrange, List.map_cons, List.map_nil,
    List.cons_append, List.nil_append]
  exact List.Forall₂.cons
    (showsRegister_hex _ 8 4 _ (by decide) rfl (hR' 0 (by decide)))
    (List.Forall₂.cons
    (showsRegister_hex _ 8 4 _ (by decide) rfl (hR' 1 (by decide)))
    (List.Forall₂.cons
    (showsRegister_hex _ 8 4 _ (by decide) rfl (hR' 2 (by decide)))
    (List.Forall₂.cons
    (showsRegister_hex _ 8 4 _ (by decide) rfl (hR' 3 (by decide)))
    (List.Forall₂.cons
    (showsRegister_hex _ 8 4 _ (by decide) rfl (hR' 4 (by decide)))
    (List.Forall₂.cons
    (showsRegister_hex _ 8 4 _ (by decide) rfl (hR' 5 (by decide)))
    (List.Forall₂.cons
    (showsRegister_hex _ 8 4 _ (by decide) rfl (hR' 6 (by decide)))
    (List.Forall₂.cons
    (showsRegister_hex _ 8 4 _ (by decide) rfl (hR' 7 (by decide)))
    (List.Forall₂.cons
    (showsRegister_hex _ 8 4 _ (by decide) rfl (hR' 8 (by decide)))
    (List.Forall₂.cons
    (showsRegister_hex _ 8 4 _ (by decide) rfl (hR' 9 (by decide)))
    (List.Forall₂.cons
    (showsRegister_hex _ 8 4 _ (by decide) rfl (hR' 10 (by decide)))
    (List.Forall₂.cons
    (showsRegister_hex _ 8 4 _ (by decide) rfl (hR' 11 (by decide)))
    (List.Forall₂.cons
    (showsRegister_hex _ 8 4 _ (by decide) rfl (hR' 12 (by decide)))
    (List.Forall₂.cons
    (showsRegister_hex _ 8 4 _ (by decide) rfl (hR' 13 (by decide)))
    (List.Forall₂.cons
    (showsRegister_hex _ 8 4 _ (by decide) rfl (hR' 14 (by decide)))
    (List.Forall₂.cons
    (showsRegister_hex _ 8 4 _ (by decide) rfl (hR' 15 (by decide)))
    (List.Forall₂.cons
    (showsRegister_hex _ 8 4 _ (by decide) rfl
      (by have := Nat.mod_lt st.gba.CPSR.ToInt32 (show 0 < 2 ^ 32 by decide); unfold toU32; omega))
    (List.Forall₂.nil)))))))))))))))))

/-- On every supported architecture the JSON rendering of a snapshot in range is the text of
the JSON value `registersJson`. -/
theorem FormatRegistersJson_eq_render (cpu : CpuType) (st : StateBuffer)
    (hs : supported cpu = true) (h : inRange cpu st = true) :
    Formatter.FormatRegistersJson cpu st = (registersJson cpu st).render := by
  cases cpu with
  | Nes => exact FormatRegistersJson_nes st h
  | Snes => exact FormatRegistersJson_snes st h
  | Sa1 => exact FormatRegistersJson_sa1 st h
  | Gameboy => exact FormatRegistersJson_gameboy st h
  | Gba => exact FormatRegistersJson_gba st h
  | Pce => exact FormatRegistersJson_pce st h
  | Sms => exact FormatRegistersJson_sms st h
  | Ws => exact FormatRegistersJson_ws st h
  | Spc => exact absurd hs (by decide)
  | NecDsp => exact absurd hs (by decide)
  | Gsu => exact absurd hs (by decide)
  | Cx4 => exact absurd hs (by decide)
  | St018 => exact absurd hs (by decide)

/-- On every supported architecture each register entry of the JSON rendering shows its
register. -/
theorem showsRegisters (cpu : CpuType) (st : StateBuffer) (h : inRange cpu st = true) :
    List.Forall₂ showsRegister (jsonRegisters cpu st) (registerTable cpu st) := by
  cases cpu with
  | Nes => exact showsRegisters_nes st h
  | Snes => exact showsRegisters_snes st h
  | Sa1 => exact showsRegisters_sa1 st h
  | Gameboy => exact showsRegisters_gameboy st h
  | Gba => exact showsRegisters_gba st h
  | Pce => exact showsRegisters_pce st h
  | Sms => exact showsRegisters_sms st h
  | Ws => exact showsRegisters_ws st h
  | Spc => exact List.Forall₂.nil
  | NecDsp => exact List.Forall₂.nil
  | Gsu => exact List.Forall₂.nil
  | Cx4 => exact List.Forall₂.nil
  | St018 => exact List.Forall₂.nil

/-- C18: for every supported architecture and every snapshot whose members fit their types,
the output of `FormatRegistersJson` is the text of the JSON value `registersJson`; in its
`registers` object the registers come first, in the order of `jsonRegisters`, each as a
string, and each of these strings is lower-case hexadecimal, has exactly two digits per byte
of the register and has the register's value. The digits per register are: on NES `pc` 4 and
`a`, `x`, `y`, `sp`, `ps` 2; on SNES `pc` 6 (bank and program counter), `a`, `x`, `y`, `sp`,
`d` 4 and `dbr`, `ps` 2; on GBA `r0` to `r15` and `cpsr` 8. -/
theorem json_registers_fixed_width_hex (cpu : CpuType) (st : StateBuffer)
    (hs : supported cpu = true) (h : inRange cpu st = true) :
    Formatter.FormatRegistersJson cpu st = (registersJson cpu st).render ∧
    (registersJson cpu st).member "registers" =
      some (Json.obj ((jsonRegisters cpu st).map (fun kt => (kt.1, Json.str kt.2)) ++
        [(flagsKey cpu, Json.obj (jsonFlags cpu st))])) ∧
    List.Forall₂ showsRegister (jsonRegisters cpu st) (registerTable cpu st) ∧
    (registerTable CpuType.Nes st).map (fun r => (r.1, 2 * r.2.1)) =
      [("pc", 4), ("a", 2), ("x", 2), ("y", 2), ("sp", 2), ("ps", 2)] ∧
    (registerTable CpuType.Snes st).map (fun r => (r.1, 2 * r.2.1)) =
      [("pc", 6), ("a", 4), ("x", 4), ("y", 4), ("sp", 4), ("d", 4), ("dbr", 2), ("ps", 2)] ∧
    (registerTable CpuType.Gba st).map (fun r => (r.1, 2 * r.2.1)) =
      [("r0", 8), ("r1", 8), ("r2", 8), ("r3", 8), ("r4", 8), ("r5", 8), ("r6", 8), ("r7", 8),
       ("r8", 8), ("r9", 8), ("r10", 8), ("r11", 8), ("r12", 8), ("r13", 8), ("r14", 8),
       ("r15", 8), ("cpsr", 8)] :=
  ⟨FormatRegistersJson_eq_render cpu st hs h, rfl, showsRegisters cpu st h, rfl, rfl, rfl⟩

/-- C18 on the NES snapshot with `PC = $8000`, `A = $12`, `PS = $AA` and 7 cycles. -/
theorem json_registers_fixed_width_hex_witness :
    inRange CpuType.Nes { nes := { PC := 0x8000, A := 0x12, PS := 0xAA, CycleCount := 7 } } =
      true ∧
    Formatter.FormatRegistersJson CpuType.Nes
        { nes := { PC := 0x8000, A := 0x12, PS := 0xAA, CycleCount := 7 } } =
      "\x7b\"registers\":\x7b\"pc\":\"8000\",\"a\":\"12\",\"x\":\"00\",\"y\":\"00\"," ++
        "\"sp\":\"00\",\"ps\":\"aa\",\"flags\":\x7b\"n\":true,\"v\":false,\"d\":true," ++
        "\"i\":false,\"z\":true,\"c\":false\x7d\x7d,\"cycles\":7\x7d" ∧
    List.Forall₂ showsRegister
      (jsonRegisters CpuType.Nes
        { nes := { PC := 0x8000, A := 0x12, PS := 0xAA, CycleCount := 7 } })
      (registerTable CpuType.Nes
        { nes := { PC := 0x8000, A := 0x12, PS := 0xAA, CycleCount := 7 } }) :=
  ⟨by decide, by decide,
    (json_registers_fixed_width_hex CpuType.Nes
      { nes := { PC := 0x8000, A := 0x12, PS := 0xAA, CycleCount := 7 } } rfl
      (by decide)).2.2.1⟩

/-! ## The shape of the JSON rendering -/

set_option maxRecDepth 100000 in
/-- C19 as stated fails on WonderSwan and on GBA. On WonderSwan the member `flags` is the
flag word as a hex string; the booleans are in the object `flag_bits`. On GBA the object
`flags` holds the string `mode` next to its booleans. Both are shown on the zeroed snapshot,
in the output text and in the JSON value it is the text of. -/
theorem FormatRegistersJson_flags_not_all_booleans :
    Formatter.FormatRegistersJson CpuType.Ws {} =
      "\x7b\"registers\":\x7b\"cs\":\"0000\",\"ip\":\"0000\",\"ax\":\"0000\"," ++
        "\"bx\":\"0000\",\"cx\":\"0000\",\"dx\":\"0000\",\"sp\":\"0000\",\"bp\":\"0000\"," ++
        "\"si\":\"0000\",\"di\":\"0000\",\"ds\":\"0000\",\"es\":\"0000\",\"ss\":\"0000\"," ++
        "\"flags\":\"0000\",\"flag_bits\":\x7b\"o\":false,\"d\":false,\"i\":false," ++
        "\"t\":false,\"s\":false,\"z\":false,\"a\":false,\"p\":false,\"c\":false\x7d\x7d," ++
        "\"cycles\":0\x7d" ∧
    Formatter.FormatRegistersJson CpuType.Ws {} = (registersJson CpuType.Ws {}).render ∧
    ((registersJson CpuType.Ws {}).member "registers").bind (Json.member "flags") =
      some (Json.str "0000") ∧
    Formatter.FormatRegistersJson CpuType.Gba {} =
      "\x7b\"registers\":\x7b\"r0\":\"00000000\",\"r1\":\"00000000\",\"r2\":\"00000000\"," ++
        "\"r3\":\"00000000\",\"r4\":\"00000000\",\"r5\":\"00000000\",\"r6\":\"00000000\"," ++
        "\"r7\":\"00000000\",\"r8\":\"00000000\",\"r9\":\"00000000\",\"r10\":\"00000000\"," ++
        "\"r11\":\"00000000\",\"r12\":\"00000000\",\"r13\":\"00000000\"," ++
        "\"r14\":\"00000000\",\"r15\":\"00000000\",\"cpsr\":\"00000000\"," ++
        "\"flags\":\x7b\"n\":false,\"z\":false,\"c\":false,\"v\":false,\"thumb\":false," ++
        "\"mode\":\"USR\"\x7d\x7d,\"cycles\":0\x7d" ∧
    Formatter.FormatRegistersJson CpuType.Gba {} = (registersJson CpuType.Gba {}).render ∧
    (((registersJson CpuType.Gba {}).member "registers").bind (Json.member "flags")).bind
        (Json.member "mode") = some (Json.str "USR") := by
  refine ⟨by decide, FormatRegistersJson_eq_render _ _ rfl (by decide), rfl, by decide,
    FormatRegistersJson_eq_render _ _ rfl (by decide), rfl⟩

/-- C19, as amended: for every supported architecture and every snapshot whose members fit
their types, the output of `FormatRegistersJson` is the text of a JSON object whose
top-level members are the object `registers` and the number `cycles` (followed on SNES and
SA-1 by the number `stop_state`). The flag object is a member of `registers`, under the key
`flag_bits` on WonderSwan and `flags` elsewhere; its values are booleans keyed by one flag
letter each, except on GBA, where it also holds the boolean `thumb` and the string `mode`.
There is no top-level member `flags`. -/
theorem FormatRegistersJson_shape (cpu : CpuType) (st : StateBuffer)
    (hs : supported cpu = true) (h : inRange cpu st = true) :
    Formatter.FormatRegistersJson cpu st = (registersJson cpu st).render ∧
    (∃ regs, (registersJson cpu st).member "registers" = some regs ∧ regs.isObj = true ∧
      regs.member (flagsKey cpu) = some (Json.obj (jsonFlags cpu st))) ∧
    flagsKey cpu = (if cpu = CpuType.Ws then "flag_bits" else "flags") ∧
    (∀ kv ∈ jsonFlags cpu st,
      (kv.2.isBool = true ∧ kv.1.length = 1) ∨
      (cpu = CpuType.Gba ∧ kv.1 = "thumb" ∧ kv.2.isBool = true) ∨
      (cpu = CpuType.Gba ∧ kv.1 = "mode" ∧ kv.2.isStr = true)) ∧
    (registersJson cpu st).member "cycles" = some (Json.num (cycleCount cpu st)) ∧
    (registersJson cpu st).member "flags" = none ∧
    (∃ extra, registersJson cpu st =
        Json.obj ([("registers",
            Json.obj ((jsonRegisters cpu st).map (fun kt => (kt.1, Json.str kt.2)) ++
              [(flagsKey cpu, Json.obj (jsonFlags cpu st))])),
          ("cycles", Json.num (cycleCount cpu st))] ++ extra) ∧
      (extra = [] ∨ ((cpu = CpuType.Snes ∨ cpu = CpuType.Sa1) ∧
        extra = [("stop_state", Json.num st.snes.StopState)]))) := by
  refine ⟨FormatRegistersJson_eq_render cpu st hs h, ?_, ?_, ?_, ?_, ?_, ?_⟩
  · refine ⟨_, rfl, rfl, ?_⟩
    cases cpu <;> first | exact absurd hs (by decide) | rfl
  · cases cpu <;> rfl
  · cases cpu <;> first
      | exact absurd hs (by decide)
      | (simp only [jsonFlags, flagBool, List.mem_cons, List.mem_singleton, List.not_mem_nil,
           or_false, forall_eq_or_imp, forall_eq]
         simp only [Json.isBool, Json.isStr, true_and, and_true, reduceCtorEq, false_and,
           or_false, or_true, true_or]
         decide)
  · rfl
  · cases cpu <;> rfl
  · refine ⟨jsonExtra cpu st, rfl, ?_⟩
    cases cpu <;> first
      | exact Or.inl rfl
      | exact Or.inr ⟨Or.inl rfl, rfl⟩
      | exact Or.inr ⟨Or.inr rfl, rfl⟩

/-- C19, as amended, on the NES snapshot with `PS = $AA` and 7 cycles. -/
theorem FormatRegistersJson_shape_witness :
    inRange CpuType.Nes { nes := { PS := 0xAA, CycleCount := 7 } } = true ∧
    Formatter.FormatRegistersJson CpuType.Nes { nes := { PS := 0xAA, CycleCount := 7 } } =
      (registersJson CpuType.Nes { nes := { PS := 0xAA, CycleCount := 7 } }).render ∧
    ((registersJson CpuType.Nes { nes := { PS := 0xAA, CycleCount := 7 } }).member
        "registers").bind (Json.member "flags") =
      some (Json.obj [("n", Json.bool true), ("v", Json.bool false), ("d", Json.bool true),
        ("i", Json.bool false), ("z", Json.bool true), ("c", Json.bool false)]) ∧
    (registersJson CpuType.Nes { nes := { PS := 0xAA, CycleCount := 7 } }).member "cycles" =
      some (Json.num 7) :=
  ⟨by decide,
    (FormatRegistersJson_shape CpuType.Nes { nes := { PS := 0xAA, CycleCount := 7 } } rfl
      (by decide)).1,
    rfl, rfl⟩

theorem find_append_of_not_mem (a f : List Char) (c : Char) (h : c ∉ a) :
    find (a ++ c :: f) c = some a.length := by
  induction a with
  | nil => simp [find]
  | cons x xs ih =>
    have hx : x ≠ c := fun hxc => h (by simp [hxc])
    have hxs : c ∉ xs := fun hc => h (by simp [hc])
    simp [find, hx, ih hxs]

/-- The resolution of one stored request whose alias has no tab: an alias of the console's
table gives the region's memory type and keeps the file name; any other alias is reported
with the console's aliases and keeps the sentinel. -/
theorem resolveDump_tab_free (memTypeCode : MemoryType → Nat) (console : ConsoleType)
    (typeName file : List Char) (h : '\t' ∉ typeName) :
    resolveDump memTypeCode console (storedDump typeName file) =
      match dumpRegion console typeName with
      | some r => (⟨(memTypeCode r.type : Int), String.mk file⟩, "")
      | none => (⟨-1, String.mk file⟩, unknownDumpReport console typeName) := by
  have hdata : (String.mk typeName ++ "\t" ++ String.mk file).data =
      typeName ++ '\t' :: file := by
    simp [String.data_append]
  have hfind := find_append_of_not_mem typeName file '\t' h
  unfold resolveDump storedDump dumpRegion unknownDumpReport
  simp only [if_true, hdata, hfind, List.take_left', List.drop_succ_cons]
  have hdrop : List.drop typeName.length (typeName ++ '\t' :: file) = '\t' :: file := by simp
  have hdrop1 : List.drop (typeName.length + 1) (typeName ++ '\t' :: file) = file := by
    rw [← List.drop_drop, hdrop]
    rfl
  simp only [hdrop1]

/-- Apart from aliases that contain a tab, C16 holds: of a list of `--dump` requests, those
whose alias is in the console's table reach the batch runner, in their order, with the
region's memory type and their file name; each other request is dropped and reported. -/
theorem resolveDumps_tab_free (memTypeCode : MemoryType → Nat) (console : ConsoleType)
    (reqs : List (List Char × List Char)) (h : ∀ r ∈ reqs, '\t' ∉ r.1) :
    addDumps (resolveDumps memTypeCode console (reqs.map (fun r => storedDump r.1 r.2))).1 =
      reqs.filterMap (fun r =>
        (dumpRegion console r.1).map
          (fun reg => (⟨(memTypeCode reg.type : Int), String.mk r.2⟩ : MemoryDump))) ∧
    (resolveDumps memTypeCode console (reqs.map (fun r => storedDump r.1 r.2))).2 =
      reqs.foldr (fun r out =>
        (if (dumpRegion console r.1).isSome then "" else unknownDumpReport console r.1) ++ out)
        "" := by
  induction reqs with
  | nil => exact ⟨rfl, rfl⟩
  | cons r rest ih =>
    obtain ⟨ih1, ih2⟩ := ih (fun x hx => h x (by simp [hx]))
    have hr := resolveDump_tab_free memTypeCode console r.1 r.2 (h r (by simp))
    simp only [List.map_cons, resolveDumps, hr, List.foldr_cons, List.filterMap_cons]
    cases hreg : dumpRegion console r.1 with
    | none =>
      simp only [Option.map_none', Option.isSome_none, Bool.false_eq_true, if_false, ih2]
      refine ⟨?_, trivial⟩
      simp only [addDumps]
      rw [if_neg (by decide), ih1]
    | some reg =>
      simp only [Option.map_some', Option.isSome_some, if_true, ih2]
      refine ⟨?_, trivial⟩
      simp only [addDumps]
      rw [if_pos (by exact Int.ofNat_nonneg _), ih1]

/-! ## The command line -/

/-- A round of the loop of `ParseArgs` reads at most two further arguments, and only
arguments that are there; so the last case of `parseLoop` is never reached. -/
theorem parseStep_used_le (prog : String) (arg : List Char) (rest : List (List Char))
    (args args1 : CliArgs) (used : Nat)
    (h : parseStep prog arg rest args = ParseStep.next used args1) :
    used ≤ rest.length ∧ used ≤ 2 := by
  unfold parseStep at h
  by_cases c1 : arg = "--help".toList ∨ arg = "-h".toList
  · rw [if_pos c1] at h
    cases h
  rw [if_neg c1] at h
  by_cases c2 : arg = "--dap".toList
  · rw [if_pos c2] at h
    cases h
    omega
  rw [if_neg c2] at h
  by_cases c3 : arg = "--batch".toList
  · rw [if_pos c3] at h
    cases h
    omega
  rw [if_neg c3] at h
  by_cases c4 : arg = "--json".toList
  · rw [if_pos c4] at h
    cases h
    omega
  rw [if_neg c4] at h
  by_cases c5 : arg = "--headless".toList
  · rw [if_pos c5] at h
    cases h
    omega
  rw [if_neg c5] at h
  by_cases c6 : arg = "--break".toList ∧ 1 ≤ rest.length
  · rw [if_pos c6] at h
    split at h
    · cases h
    · cases h
      omega
  rw [if_neg c6] at h
  by_cases c7 : arg = "--timeout".toList ∧ 1 ≤ rest.length
  · rw [if_pos c7] at h
    split at h
    · cases h
    · cases h
      omega
  rw [if_neg c7] at h
  by_cases c8 : arg = "--check-reg".toList ∧ 1 ≤ rest.length
  · rw [if_pos c8] at h
    dsimp only at h
    split at h
    · cases h
    · split at h
      · cases h
      · cases h
        omega
  rw [if_neg c8] at h
  by_cases c9 : (arg = "--check-mem".toList ∨ arg = "--check-mem16".toList) ∧ 1 ≤ rest.length
  · rw [if_pos c9] at h
    dsimp only at h
    split at h
    · cases h
    · split at h
      · cases h
      · split at h
        · cases h
        · cases h
          omega
  rw [if_neg c9] at h
  by_cases c10 : arg = "--dump".toList ∧ 2 ≤ rest.length
  · rw [if_pos c10] at h
    cases h
    omega
  rw [if_neg c10] at h
  by_cases c11 : arg.head? = some '-'
  · rw [if_pos c11] at h
    cases h
  rw [if_neg c11] at h
  by_cases c12 : args.romPath.isEmpty = true
  · rw [if_pos c12] at h
    cases h
    omega
  · rw [if_neg c12] at h
    cases h

/-- The round of the loop of `ParseArgs` for `--dump <type> <file>` stores the request with
the sentinel and goes on behind the two arguments. -/
theorem parseStep_dump (prog : String) (typeName file : List Char) (rest : List (List Char))
    (args : CliArgs) :
    parseStep prog "--dump".toList (typeName :: file :: rest) args =
      ParseStep.next 2 { args with dumps := args.dumps ++ [storedDump typeName file] } := by
  unfold parseStep
  rw [if_neg (by decide), if_neg (by decide), if_neg (by decide), if_neg (by decide),
    if_neg (by decide), if_neg (fun h => absurd h.1 (by decide)),
    if_neg (fun h => absurd h.1 (by decide)), if_neg (fun h => absurd h.1 (by decide)),
    if_neg (fun h => absurd h.1 (by decide)), if_pos ⟨rfl, by simp⟩]
  rfl

/-! ## The memory-hex rendering -/

theorem takeWhile_ext_mem {α : Type} (p q : α → Bool) :
    ∀ (l : List α), (∀ x ∈ l, p x = q x) → l.takeWhile p = l.takeWhile q := by
  intro l
  induction l with
  | nil => intro _; rfl
  | cons a as ih =>
    intro h
    have ha : p a = q a := h a (by simp)
    have has := ih (fun x hx => h x (by simp [hx]))
    simp only [List.takeWhile_cons, ha, has]

theorem takeWhile_range'_lt (m : Nat) : ∀ (n s : Nat),
    (List.range' s n).takeWhile (fun j => decide (j < m)) = List.range' s (min n (m - s)) := by
  intro n
  induction n with
  | zero => intro s; simp
  | succ n ih =>
    intro s
    rw [List.range'_succ, List.takeWhile_cons]
    by_cases h : s < m
    · have hm : min (n + 1) (m - s) = min n (m - (s + 1)) + 1 := by omega
      rw [hm, List.range'_succ, ih (s + 1)]
      simp [h]
    · have hm : min (n + 1) (m - s) = 0 := by omega
      rw [hm]
      simp [h]

theorem takeWhile_range_lt (n m : Nat) :
    (List.range n).takeWhile (fun j => decide (j < m)) = List.range (min n m) := by
  rw [List.range_eq_range', takeWhile_range'_lt, List.range_eq_range']
  simp

/-- Without wrap-around the inner loops of `FormatMemoryHex` cover the next 16 bytes, or
those that are left. -/
theorem memoryHexColumns_eq (len i : Nat) (h : i + 16 ≤ 2 ^ 32) :
    Formatter.memoryHexColumns len i = List.range (min 16 (len - i)) := by
  unfold Formatter.memoryHexColumns
  rw [← takeWhile_range_lt]
  apply takeWhile_ext_mem
  intro j hj
  have hj16 : j < 16 := List.mem_range.mp hj
  have hu : toU32 (i + j) = i + j := Nat.mod_eq_of_lt (by omega)
  rw [hu]
  by_cases hc : i + j < len
  · have : j < len - i := by omega
    simp [hc, this]
  · have : ¬ j < len - i := by omega
    simp [hc, this]

/-- While `len` is at most `2^32 - 16`, the loop of `FormatMemoryHex` started at the row `k`
ends after the `m` rows that are left, having written them in order. -/
theorem memoryHexLoop_rows (data : List Nat) (len startAddr : Nat) (hlen : len ≤ 2 ^ 32 - 16) :
    ∀ (m k fuel : Nat) (oss : String), k + m = (len + 15) / 16 → m + 1 ≤ fuel →
      Formatter.memoryHexLoop data len startAddr fuel (16 * k) oss =
        some ((List.range' k m).foldl
          (fun s q => s ++ Formatter.memoryHexRow data len startAddr (16 * q)) oss) := by
  intro m
  induction m with
  | zero =>
    intro k fuel oss hk hfuel
    obtain ⟨f, rfl⟩ : ∃ f, fuel = f + 1 := ⟨fuel - 1, by omega⟩
    have hge : ¬ 16 * k < len := by omega
    simp [Formatter.memoryHexLoop, hge]
  | succ m ih =>
    intro k fuel oss hk hfuel
    obtain ⟨f, rfl⟩ : ∃ f, fuel = f + 1 := ⟨fuel - 1, by omega⟩
    have hlt : 16 * k < len := by omega
    have hu : toU32 (16 * k + 16) = 16 * (k + 1) := by
      unfold toU32
      rw [Nat.mod_eq_of_lt (by omega)]
      ring
    simp only [Formatter.memoryHexLoop, hlt, if_true, hu]
    rw [ih (k + 1) f _ (by omega) (by omega)]
    simp [List.range'_succ]

/-- Apart from the lengths above `2^32 - 16`, C21 holds: `FormatMemoryHex` ends after
`ceil(len / 16)` rounds, and its text is the rows `0` to `ceil(len / 16) - 1` in order, the
row `k` being rendered from the bytes at `16 k` on. -/
theorem FormatMemoryHex_rows (data : List Nat) (len startAddr fuel : Nat)
    (hlen : len ≤ 2 ^ 32 - 16) (hfuel : (len + 15) / 16 + 1 ≤ fuel) :
    Formatter.FormatMemoryHex fuel data len startAddr =
      some ((List.range ((len + 15) / 16)).foldl
        (fun s k => s ++ Formatter.memoryHexRow data len startAddr (16 * k)) "") := by
  unfold Formatter.FormatMemoryHex
  have h := memoryHexLoop_rows data len startAddr hlen ((len + 15) / 16) 0 fuel ""
    (by omega) hfuel
  rw [List.range_eq_range']
  simpa using h

/-- From a multiple of 16, a length above `2^32 - 16` keeps the loop of `FormatMemoryHex`
running: `i += 16` wraps around to 0 before `i < len` fails. -/
theorem memoryHexLoop_never_ends (data : List Nat) (len startAddr : Nat)
    (hlen : 2 ^ 32 - 16 < len) :
    ∀ (fuel i : Nat) (oss : String), i % 16 = 0 → i < 2 ^ 32 →
      Formatter.memoryHexLoop data len startAddr fuel i oss = none := by
  intro fuel
  induction fuel with
  | zero => intro i oss _ _; rfl
  | succ f ih =>
    intro i oss hmod hi
    have hlt : i < len := by omega
    simp only [Formatter.memoryHexLoop, hlt, if_true]
    apply ih
    · unfold toU32
      omega
    · exact Nat.mod_lt _ (by decide)

/-- C21 fails for the lengths above `2^32 - 16`, the largest being `0xFFFFFFFF`: whatever
the bytes and the start address, the loop `for(uint32_t i = 0; i < len; i += 16)` never ends
(after the row at `0xFFFFFFF0` the counter wraps to 0), so `FormatMemoryHex` returns no text,
however many rounds it is given. -/
theorem FormatMemoryHex_never_returns (data : List Nat) (startAddr fuel : Nat) :
    Formatter.FormatMemoryHex fuel data 0xFFFFFFFF startAddr = none ∧
    Formatter.FormatMemoryHex fuel data 0xFFFFFFF1 startAddr = none :=
  ⟨memoryHexLoop_never_ends data _ startAddr (by decide) fuel 0 "" rfl (by decide),
    memoryHexLoop_never_ends data _ startAddr (by decide) fuel 0 "" rfl (by decide)⟩

theorem fmtHexUpper_length_le (w n e : Nat) (hn : n < 16 ^ e) (he : 0 < e) :
    (fmtHexUpper w n).length ≤ max w e := by
  have hlen : (Nat.toDigits 16 n).length ≤ e :=
    Nat.toDigitsCore_length 16 (by decide) (n + 1) n e hn he
  unfold fmtHexUpper
  simp only [String.length, List.length_append, List.length_replicate, List.length_map]
  omega

theorem fmtHexUpper_length (w n : Nat) (hn : n < 16 ^ w) (hw : 0 < w) :
    (fmtHexUpper w n).length = w := by
  have hlen : (Nat.toDigits 16 n).length ≤ w :=
    Nat.toDigitsCore_length 16 (by decide) (n + 1) n w hn hw
  unfold fmtHexUpper
  simp only [String.length, List.length_append, List.length_replicate, List.length_map]
  omega

/-- The text `%02X ` of a byte fits its buffer of 4 characters. -/
theorem snprintf_byte (b : Nat) (hb : b < 2 ^ 8) :
    snprintf 4 (fmtHexUpper 2 b ++ " ") = fmtHexUpper 2 b ++ " " := by
  apply snprintf_of_length_le
  rw [String.length_append, fmtHexUpper_length 2 b (by omega) (by decide)]
  decide

/-- The text `%06X: ` of a 32-bit address fits its buffer of 16 characters. -/
theorem snprintf_address (a : Nat) (ha : a < 2 ^ 32) :
    snprintf 16 (fmtHexUpper 6 a ++ ": ") = fmtHexUpper 6 a ++ ": " := by
  apply snprintf_of_length_le
  have := fmtHexUpper_length_le 6 a 8 (by omega) (by decide)
  rw [String.length_append]
  have h2 : (": " : String).length = 2 := by decide
  omega

theorem byteAt_lt (data : List Nat) (k : Nat) : byteAt data k < 2 ^ 8 :=
  Nat.mod_lt _ (by decide)

/-- A row of `FormatMemoryHex`, while `len` is at most `2^32 - 16`: the address
`startAddr + 16 k` (in 32 bits) as `%06X`, a colon and a blank, the bytes of the row as
`%02X` with a blank after each, one more blank, the ASCII column and the line break. The row
holds 16 bytes, or the bytes that are left. -/
theorem memoryHexRow_eq (data : List Nat) (len startAddr k : Nat) (hlen : len ≤ 2 ^ 32 - 16)
    (hk : 16 * k < len) :
    Formatter.memoryHexRow data len startAddr (16 * k) =
      fmtHexUpper 6 (toU32 (startAddr + 16 * k)) ++ ": " ++
        (List.range (min 16 (len - 16 * k))).foldl
          (fun oss j => oss ++ (fmtHexUpper 2 (byteAt data (16 * k + j)) ++ " ")) "" ++
        " " ++
        String.mk ((List.range (min 16 (len - 16 * k))).map
          (fun j => Formatter.asciiChar (byteAt data (16 * k + j)))) ++ "\n" := by
  unfold Formatter.memoryHexRow
  simp only []
  rw [memoryHexColumns_eq len (16 * k) (by omega),
    snprintf_address (toU32 (startAddr + 16 * k)) (Nat.mod_lt _ (by decide))]
  have hu : ∀ j ∈ List.range (min 16 (len - 16 * k)), toU32 (16 * k + j) = 16 * k + j := by
    intro j hj
    have := List.mem_range.mp hj
    exact Nat.mod_eq_of_lt (by omega)
  have hfold : (List.range (min 16 (len - 16 * k))).foldl
      (fun oss j => oss ++ snprintf 4 (fmtHexUpper 2 (byteAt data (toU32 (16 * k + j))) ++ " "))
      "" =
      (List.range (min 16 (len - 16 * k))).foldl
        (fun oss j => oss ++ (fmtHexUpper 2 (byteAt data (16 * k + j)) ++ " ")) "" := by
    apply List.foldl_ext
    intro oss j hj
    rw [hu j hj, snprintf_byte _ (byteAt_lt _ _)]
  have hmap : (List.range (min 16 (len - 16 * k))).map
      (fun j => Formatter.asciiChar (byteAt data (toU32 (16 * k + j)))) =
      (List.range (min 16 (len - 16 * k))).map
        (fun j => Formatter.asciiChar (byteAt data (16 * k + j))) := by
    apply List.map_congr_left
    intro j hj
    rw [hu j hj]
  rw [hfold, hmap]

/-- A buffer of 18 bytes at `$8000` gives two rows, of 16 and of 2 bytes. -/
theorem FormatMemoryHex_sample :
    Formatter.FormatMemoryHex 3
      [0x48, 0x69, 0x21, 0x00, 0x7E, 0x7F, 0xFF, 0x20, 0x41, 0x42, 0x43, 0x44, 0x45, 0x46, 0x47,
        0x0A, 0x61, 0x1F] 18 0x8000 =
      some ("008000: 48 69 21 00 7E 7F FF 20 41 42 43 44 45 46 47 0A  Hi!.~.. ABCDEFG.\n" ++
        "008010: 61 1F  a.\n") := by
  decide

/-! ## The disassembly rendering -/

theorem foldl_append_length {α : Type} (f : α → String) (n : Nat)
    (hf : ∀ a, (f a).length = n) :
    ∀ (l : List α) (acc : String),
      (l.foldl (fun oss a => oss ++ f a) acc).length = acc.length + n * l.length := by
  intro l
  induction l with
  | nil => intro acc; simp
  | cons a as ih =>
    intro acc
    rw [List.foldl_cons, ih, String.length_append, hf a, List.length_cons]
    ring

theorem foldl_replicate_length (s : String) (n : Nat) : ∀ (acc : String),
    ((List.replicate n s).foldl (fun r x => r ++ x) acc).length = acc.length + s.length * n := by
  induction n with
  | zero => intro acc; simp
  | succ n ih =>
    intro acc
    rw [List.replicate_succ, List.foldl_cons, ih, String.length_append]
    ring

theorem join_replicate_length (s : String) (n : Nat) :
    (String.join (List.replicate n s)).length = s.length * n := by
  unfold String.join
  rw [foldl_replicate_length]
  simp

/-- The loop of `FormatDisassembly` writes the lines with a non-negative address, in order. -/
theorem FormatDisassembly_foldl (lines : List CodeLineData) : ∀ (acc : String),
    lines.foldl (fun oss line =>
        if line.Address < 0 then oss else oss ++ Formatter.disassemblyLine line) acc =
      (lines.filter (fun line => decide (0 ≤ line.Address))).foldl
        (fun oss line => oss ++ Formatter.disassemblyLine line) acc := by
  induction lines with
  | nil => intro acc; rfl
  | cons l rest ih =>
    intro acc
    by_cases h : l.Address < 0
    · have h2 : ¬ 0 ≤ l.Address := by omega
      simp only [List.foldl_cons, h, if_true, ih, List.filter_cons, h2, decide_False,
        Bool.false_eq_true, if_false]
    · have h2 : 0 ≤ l.Address := by omega
      simp only [List.foldl_cons, h, if_false, ih, List.filter_cons, h2, decide_True, if_true]

/-- C22: for every array of code lines, `FormatDisassembly` writes one line for each entry
with a non-negative address, in the order of the array, and nothing for the others. Each
line is the address as `%06X: `, then the column of the instruction bytes, then the decoded
text, then `  ; ` and the comment exactly when the comment is not empty, then the line break.
The byte column shows the first `min(OpSize, 4)` bytes, each as `%02X` and a blank, padded
with three blanks for each byte short of 4, and always has 12 characters: the decoded text
starts at the same column whatever the instruction size. For a 32-bit address the address
text is not cut. -/
theorem FormatDisassembly_lines (lines : List CodeLineData) :
    Formatter.FormatDisassembly lines =
      (lines.filter (fun line => decide (0 ≤ line.Address))).foldl
        (fun oss line => oss ++ Formatter.disassemblyLine line) "" ∧
    ∀ line : CodeLineData, ∃ bytes : String,
      Formatter.disassemblyLine line =
        snprintf 16 (fmtHexUpper 6 line.Address.toNat ++ ": ") ++ bytes ++
          String.mk line.Text ++
          (if line.Comment ≠ [] then "  ; " ++ String.mk line.Comment else "") ++ "\n" ∧
      bytes =
        (List.range (min 4 line.OpSize)).foldl
          (fun oss j => oss ++ (fmtHexUpper 2 (byteAt line.ByteCode j) ++ " ")) "" ++
        String.join (List.replicate (4 - line.OpSize) "   ") ∧
      bytes.length = 12 ∧
      (line.Address.toNat < 2 ^ 32 →
        snprintf 16 (fmtHexUpper 6 line.Address.toNat ++ ": ") =
          fmtHexUpper 6 line.Address.toNat ++ ": ") := by
  refine ⟨FormatDisassembly_foldl lines "", ?_⟩
  intro line
  have hfold : (List.range (min 4 line.OpSize)).foldl
      (fun oss j => oss ++ snprintf 4 (fmtHexUpper 2 (byteAt line.ByteCode j) ++ " ")) "" =
      (List.range (min 4 line.OpSize)).foldl
        (fun oss j => oss ++ (fmtHexUpper 2 (byteAt line.ByteCode j) ++ " ")) "" := by
    apply List.foldl_ext
    intro oss j _
    rw [snprintf_byte _ (byteAt_lt _ _)]
  refine ⟨_, ?_, rfl, ?_, fun h => snprintf_address _ h⟩
  · unfold Formatter.disassemblyLine
    simp only []
    rw [takeWhile_range_lt, hfold]
    apply String.ext
    simp [List.append_assoc]
  · rw [String.length_append, join_replicate_length,
      foldl_append_length (fun j => fmtHexUpper 2 (byteAt line.ByteCode j) ++ " ") 3
        (fun j => by
          rw [String.length_append, fmtHexUpper_length 2 _ (by
            have := byteAt_lt line.ByteCode j
            omega) (by decide)]
          decide)]
    rw [List.length_range]
    have h3 : ("   " : String).length = 3 := by decide
    have h0 : ("" : String).length = 0 := by decide
    rw [h3, h0]
    omega

/-- Three code lines, the second without an address: two lines are written, and the text
starts at column 20 for an instruction of 2 bytes as for one of 5. -/
theorem FormatDisassembly_sample :
    Formatter.FormatDisassembly
      [{ Address := 0x8000, OpSize := 2, ByteCode := [0xA9, 0x00], Text := "LDA #$00".toList },
       { Address := -1, Text := "--------".toList },
       { Address := 0x8002, OpSize := 5, ByteCode := [1, 2, 3, 4, 5], Text := "XYZ".toList,
         Comment := "note".toList }] =
      "008000: A9 00       LDA #$00\n008002: 01 02 03 04 XYZ  ; note\n" := by
  decide

/-! ## The call-stack rendering -/

/-- The loop of `FormatCallstack` writes one line per frame, in order, the frame at position
`k` of the rest with the index `i + k`. -/
theorem callstackLoop_append (xs ys : List StackFrameInfo) : ∀ (i : Nat) (oss : String),
    Formatter.callstackLoop (xs ++ ys) i oss =
      Formatter.callstackLoop ys (i + xs.length) (Formatter.callstackLoop xs i oss) := by
  induction xs with
  | nil => intro i oss; rfl
  | cons x rest ih =>
    intro i oss
    have hidx : i + 1 + rest.length = i + (rest.length + 1) := by omega
    show Formatter.callstackLoop (rest ++ ys) (i + 1) (oss ++ Formatter.callstackLine i x) =
      Formatter.callstackLoop ys (i + (rest.length + 1))
        (Formatter.callstackLoop rest (i + 1) (oss ++ Formatter.callstackLine i x))
    rw [ih, hidx]

theorem callstackLoop_singleton (frame : StackFrameInfo) (i : Nat) (oss : String) :
    Formatter.callstackLoop [frame] i oss = oss ++ Formatter.callstackLine i frame := rfl

theorem callstackLoop_enum (frames : List StackFrameInfo) : ∀ (i : Nat) (oss : String),
    Formatter.callstackLoop frames i oss =
      (frames.enumFrom i).foldl (fun s p => s ++ Formatter.callstackLine p.1 p.2) oss := by
  induction frames with
  | nil => intro i oss; rfl
  | cons f rest ih =>
    intro i oss
    simp only [Formatter.callstackLoop, List.enumFrom_cons, List.foldl_cons, ih]

/-- The line of the frame at an index below `2^31`, with 32-bit addresses: `#`, the index,
the source and the target as `%06X`, the tag and the line break; the buffer of 64 characters
does not cut it. -/
theorem callstackLine_eq (i : Nat) (frame : StackFrameInfo) (hi : i < 2 ^ 31)
    (hs : frame.Source < 2 ^ 32) (ht : frame.Target < 2 ^ 32) :
    Formatter.callstackLine i frame =
      "#" ++ fmtDec (i : Int) ++ "  $" ++ fmtHexUpper 6 frame.Source ++ " -> $" ++
        fmtHexUpper 6 frame.Target ++
        (if frame.Flags &&& 1 ≠ 0 then " [NMI]"
          else if frame.Flags &&& 2 ≠ 0 then " [IRQ]" else "") ++ "\n" := by
  unfold Formatter.callstackLine
  simp only []
  rw [toI32_of_lt i hi]
  apply snprintf_of_length_le
  have h1 := fmtDec_length_le i 10 (by omega) (by decide)
  have h2 := fmtHexUpper_length_le 6 frame.Source 8 (by omega) (by decide)
  have h3 := fmtHexUpper_length_le 6 frame.Target 8 (by omega) (by decide)
  have h4 : (if frame.Flags &&& 1 ≠ 0 then " [NMI]"
      else if frame.Flags &&& 2 ≠ 0 then " [IRQ]" else ("" : String)).length ≤ 6 := by
    split_ifs <;> decide
  simp only [String.length_append]
  have e1 : ("#" : String).length = 1 := by decide
  have e2 : ("  $" : String).length = 3 := by decide
  have e3 : (" -> $" : String).length = 5 := by decide
  have e4 : ("\n" : String).length = 1 := by decide
  rw [e1, e2, e3, e4]
  omega

/-- C23: for an array of at most `2^31` frames (the shell passes at most 64) with 32-bit
addresses, `FormatCallstack` writes exactly one line per frame, in frame order, and the line
of the frame at index `i` is `#i`, the source and the target as upper-case hex zero-padded to
six digits, and the tag `[NMI]` when flag bit 0 is set, otherwise `[IRQ]` when flag bit 1 is
set, otherwise none. -/
theorem FormatCallstack_lines (frames : List StackFrameInfo) (hcount : frames.length ≤ 2 ^ 31)
    (hrange : ∀ f ∈ frames, f.Source < 2 ^ 32 ∧ f.Target < 2 ^ 32) :
    Formatter.FormatCallstack frames =
      (frames.enum).foldl (fun s p =>
        s ++ ("#" ++ fmtDec (p.1 : Int) ++ "  $" ++ fmtHexUpper 6 p.2.Source ++ " -> $" ++
          fmtHexUpper 6 p.2.Target ++
          (if p.2.Flags.testBit 0 then " [NMI]"
            else if p.2.Flags.testBit 1 then " [IRQ]" else "") ++ "\n")) "" := by
  unfold Formatter.FormatCallstack
  rw [callstackLoop_enum, List.enum]
  apply List.foldl_ext
  intro s p hp
  obtain ⟨i, f⟩ := p
  have hmem := List.mem_enumFrom hp
  have hi : i < 2 ^ 31 := by
    have := hmem.2.1
    omega
  have hfm : f ∈ frames := by
    rw [hmem.2.2]
    exact List.getElem_mem _
  have hf := hrange f hfm
  rw [callstackLine_eq i f hi hf.1 hf.2]
  have b0 : (f.Flags &&& 1 ≠ 0) ↔ f.Flags.testBit 0 = true :=
    and_two_pow_ne_zero f.Flags 0
  have b1 : (f.Flags &&& 2 ≠ 0) ↔ f.Flags.testBit 1 = true :=
    and_two_pow_ne_zero f.Flags 1
  simp only [b0, b1]

/-- C23 on three frames, a plain call, an NMI and an IRQ: three lines, in order. -/
theorem FormatCallstack_lines_witness :
    Formatter.FormatCallstack
      [{ Source := 0x8000, Target := 0x9000, Flags := 0 },
       { Source := 0x9010, Target := 0xFFFA, Flags := 1 },
       { Source := 0x1234, Target := 0xC000, Flags := 2 }] =
      "#0  $008000 -> $009000\n#1  $009010 -> $00FFFA [NMI]\n#2  $001234 -> $00C000 [IRQ]\n" :=
  (FormatCallstack_lines
    [{ Source := 0x8000, Target := 0x9000, Flags := 0 },
     { Source := 0x9010, Target := 0xFFFA, Flags := 1 },
     { Source := 0x1234, Target := 0xC000, Flags := 2 }] (by decide) (by decide)).trans
    (by decide)

/-- Beyond `2^31` frames, for an array no caller passes: the index is a `uint32_t` printed
with `%d`, so the line of the frame at index `2^31` would start with `#-2147483648`. -/
theorem FormatCallstack_index_printed_negative :
    Formatter.FormatCallstack
        (List.replicate (2 ^ 31) ({} : StackFrameInfo) ++ [({} : StackFrameInfo)]) =
      Formatter.FormatCallstack (List.replicate (2 ^ 31) ({} : StackFrameInfo)) ++
        "#-2147483648  $000000 -> $000000\n" ∧
    Formatter.callstackLine (2 ^ 31) { Source := 0x8000, Target := 0x9000, Flags := 1 } =
      "#-2147483648  $008000 -> $009000 [NMI]\n" := by
  constructor
  · unfold Formatter.FormatCallstack
    rw [callstackLoop_append, List.length_replicate]
    have hline : Formatter.callstackLine (0 + 2 ^ 31) {} =
        "#-2147483648  $000000 -> $000000\n" := by decide
    rw [callstackLoop_singleton, hline]
  · decide

/-- Three frames: a plain call, an NMI and an IRQ. -/
theorem FormatCallstack_sample :
    Formatter.FormatCallstack
      [{ Source := 0x8000, Target := 0x9000, Flags := 0 },
       { Source := 0x9010, Target := 0xFFFA, Flags := 1 },
       { Source := 0x1234567, Target := 0xC000, Flags := 2 }] =
      "#0  $008000 -> $009000\n#1  $009010 -> $00FFFA [NMI]\n#2  $1234567 -> $00C000 [IRQ]\n" := by
  decide

/-! ## The stopped flag of the bridge -/

theorem ProcessNotification_stopped (l : CliNotificationListener)
    (t : ConsoleNotificationType) :
    (l.ProcessNotification t)._stopped =
      (l._stopped || decide (t = ConsoleNotificationType.EmulationStopped)) := by
  cases t <;> simp [CliNotificationListener.ProcessNotification]

theorem deliver_stopped (ns : List ConsoleNotificationType) : ∀ (l : CliNotificationListener),
    (CliNotificationListener.deliver l ns)._stopped =
      (l._stopped || ns.any (fun t => decide (t = ConsoleNotificationType.EmulationStopped))) := by
  induction ns with
  | nil => intro l; simp [CliNotificationListener.deliver]
  | cons t ts ih =>
    intro l
    show (CliNotificationListener.deliver (l.ProcessNotification t) ts)._stopped = _
    rw [ih, ProcessNotification_stopped, List.any_cons, Bool.or_assoc]

/-- C28: for every bridge state. A notification leaves the stopped flag as it was, except
that `EmulationStopped` sets it: `CodeBreak`, `PpuFrameDone` and every other kind keep the
result of `IsStopped`. `Reset` keeps it. A `WaitForBreak` that returns keeps it when no
`EmulationStopped` notification is processed while it waits, and otherwise the flag is set;
so no operation turns the flag from true to false. -/
theorem stopped_flag_frame (l : CliNotificationListener) :
    (∀ t, (l.ProcessNotification t).IsStopped =
      (l.IsStopped || decide (t = ConsoleNotificationType.EmulationStopped))) ∧
    (∀ t, l.IsStopped = true → (l.ProcessNotification t).IsStopped = true) ∧
    l.Reset.IsStopped = l.IsStopped ∧
    (∀ timeoutMs arriving res, l.WaitForBreak timeoutMs arriving = some res →
      (ConsoleNotificationType.EmulationStopped ∉ arriving → res.2.IsStopped = l.IsStopped) ∧
      (l.IsStopped = true → res.2.IsStopped = true) ∧
      (res.2.IsStopped = true →
        l.IsStopped = true ∨ ConsoleNotificationType.EmulationStopped ∈ arriving)) := by
  refine ⟨fun t => ProcessNotification_stopped l t, ?_, rfl, ?_⟩
  · intro t h
    show (l.ProcessNotification t)._stopped = true
    rw [ProcessNotification_stopped]
    simp [show l._stopped = true from h]
  · intro timeoutMs arriving res hres
    have key : res.2._stopped = l._stopped ∨
        res.2._stopped = (CliNotificationListener.deliver l arriving)._stopped := by
      unfold CliNotificationListener.WaitForBreak at hres
      by_cases h1 : l._breakOccurred = true
      · rw [if_pos h1] at hres
        cases hres
        exact Or.inl rfl
      · rw [if_neg h1] at hres
        by_cases h2 : timeoutMs > 0
        · simp only [h2, if_true] at hres
          cases hres
          exact Or.inr rfl
        · by_cases h3 : (CliNotificationListener.deliver l arriving)._breakOccurred = true
          · simp only [h2, h3, if_false, if_true] at hres
            cases hres
            exact Or.inr rfl
          · simp only [h2, h3, if_false] at hres
            cases hres
    have hany : ∀ b : Bool,
        (arriving.any (fun t => decide (t = ConsoleNotificationType.EmulationStopped)) = b) →
        (b = true ↔ ConsoleNotificationType.EmulationStopped ∈ arriving) := by
      intro b hb
      rw [← hb, List.any_eq_true]
      constructor
      · rintro ⟨t, ht, hd⟩
        have := of_decide_eq_true hd
        exact this ▸ ht
      · intro h
        exact ⟨_, h, decide_eq_true rfl⟩
    have hiff := hany _ rfl
    show (ConsoleNotificationType.EmulationStopped ∉ arriving → res.2._stopped = l._stopped) ∧
      (l._stopped = true → res.2._stopped = true) ∧
      (res.2._stopped = true →
        l._stopped = true ∨ ConsoleNotificationType.EmulationStopped ∈ arriving)
    rcases key with hk | hk
    · rw [hk]
      exact ⟨fun _ => rfl, fun h => h, fun h => Or.inl h⟩
    · rw [hk, deliver_stopped]
      refine ⟨?_, ?_, ?_⟩
      · intro hnot
        have : arriving.any
            (fun t => decide (t = ConsoleNotificationType.EmulationStopped)) = false := by
          by_contra hc
          exact hnot (hiff.mp (by simpa using hc))
        simp [this]
      · intro h
        simp [h]
      · intro h
        rcases Bool.or_eq_true_iff.mp h with h1 | h2
        · exact Or.inl h1
        · exact Or.inr (hiff.mp h2)

/-- C28 on a fresh bridge: a wait during which `CodeBreak` arrives returns with the stopped
flag still clear, and one during which `EmulationStopped` arrives returns with it set. -/
theorem stopped_flag_frame_witness :
    (∃ res, ({} : CliNotificationListener).WaitForBreak 5000
        [ConsoleNotificationType.CodeBreak] = some res ∧ res.2.IsStopped = false) ∧
    (∃ res, ({} : CliNotificationListener).WaitForBreak 5000
        [ConsoleNotificationType.EmulationStopped] = some res ∧ res.2.IsStopped = true) := by
  refine ⟨⟨_, rfl, ?_⟩, ⟨_, rfl, rfl⟩⟩
  exact ((stopped_flag_frame {}).2.2.2 5000 [ConsoleNotificationType.CodeBreak] _ rfl).1
    (by decide)

/-! ## The exit code of the command line -/

/-- C27 fails for a malformed `--break` address, a malformed `--check-reg`, `--check-mem`
or `--check-mem16` address or value, and a non-numeric `--timeout`: `ParseAddr` and
`std::stoi` throw `std::invalid_argument`, `ParseArgs` and `main` have no handler, and the
exception leaves `main` instead of the exit code 2. -/
theorem main_throws_on_malformed_value (RunCliMode : CliArgs → Outcome (Int × String)) :
    main RunCliMode "mesen" ["game.nes".toList, "--break".toList, "zz".toList] =
      Outcome.threw StdException.invalid_argument ∧
    main RunCliMode "mesen" ["game.nes".toList, "--timeout".toList, "soon".toList] =
      Outcome.threw StdException.invalid_argument ∧
    main RunCliMode "mesen" ["game.nes".toList, "--check-reg".toList, "A=zz".toList] =
      Outcome.threw StdException.invalid_argument ∧
    main RunCliMode "mesen" ["game.nes".toList, "--check-mem".toList, "zz=00".toList] =
      Outcome.threw StdException.invalid_argument ∧
    main RunCliMode "mesen" ["game.nes".toList, "--check-mem16".toList, "10=".toList] =
      Outcome.threw StdException.invalid_argument := by
  refine ⟨rfl, rfl, rfl, rfl, rfl⟩

/-- Apart from the exceptions of C27: whenever `ParseArgs` returns, `main` ends with the
exit code 2 of a usage error, or goes on to the DAP mode (exit code 0) or, with a ROM path,
to `RunCliMode`. -/
theorem main_after_ParseArgs (RunCliMode : CliArgs → Outcome (Int × String)) (prog : String)
    (argv : List (List Char)) (res : ParseResult) (h : ParseArgs prog argv = Except.ok res) :
    (main RunCliMode prog argv = Outcome.returned (2, res.stderr) ∧ res.ok = false) ∨
    (main RunCliMode prog argv =
        Outcome.returned
          (2, res.stderr ++ "Error: ROM path is required.\n" ++ PrintUsage prog) ∧
      res.ok = true ∧ res.args.dapMode = false ∧ res.args.romPath = []) ∨
    (main RunCliMode prog argv =
        Outcome.returned
          (0, res.stderr ++ "[DAP] DAP mode not yet implemented. Waiting for Phase 1.\n") ∧
      res.ok = true ∧ res.args.dapMode = true) ∨
    (main RunCliMode prog argv = RunCliMode res.args ∧
      res.ok = true ∧ res.args.dapMode = false ∧ res.args.romPath ≠ []) := by
  unfold main
  rw [h]
  cases hok : res.ok with
  | false => exact Or.inl ⟨by simp [hok], rfl⟩
  | true =>
    cases hdap : res.args.dapMode with
    | true => exact Or.inr (Or.inr (Or.inl ⟨by simp [hok, hdap], rfl, rfl⟩))
    | false =>
      cases hrom : res.args.romPath with
      | nil => exact Or.inr (Or.inl ⟨by simp [hok, hdap, hrom], rfl, rfl, rfl⟩)
      | cons c cs =>
        exact Or.inr (Or.inr (Or.inr ⟨by simp [hok, hdap, hrom], rfl, rfl, by simp⟩))

/-- The usage errors of C27 that `ParseArgs` reports itself, and the missing ROM path, give
the exit code 2: an unknown option, `--break` without a value, a second ROM path,
`--check-reg` and `--check-mem` values without `=`, and no ROM path without `--dap`. -/
theorem main_usage_errors (RunCliMode : CliArgs → Outcome (Int × String)) :
    (∃ err, main RunCliMode "mesen" ["game.nes".toList, "--fast".toList] =
      Outcome.returned (2, err)) ∧
    (∃ err, main RunCliMode "mesen" ["game.nes".toList, "--break".toList] =
      Outcome.returned (2, err)) ∧
    (∃ err, main RunCliMode "mesen" ["game.nes".toList, "other.nes".toList] =
      Outcome.returned (2, err)) ∧
    (∃ err, main RunCliMode "mesen" ["game.nes".toList, "--check-reg".toList, "A".toList] =
      Outcome.returned (2, err)) ∧
    (∃ err, main RunCliMode "mesen" ["game.nes".toList, "--check-mem".toList, "10".toList] =
      Outcome.returned (2, err)) ∧
    (∃ err, main RunCliMode "mesen" ["--batch".toList] = Outcome.returned (2, err)) ∧
    (∃ err, main RunCliMode "mesen" ["--dap".toList] = Outcome.returned (0, err)) := by
  refine ⟨⟨_, rfl⟩, ⟨_, rfl⟩, ⟨_, rfl⟩, ⟨_, rfl⟩, ⟨_, rfl⟩, ⟨_, rfl⟩, ⟨_, rfl⟩⟩

/-! ## Register assertions and the JSON rendering -/

theorem fmtHexLower_value (w n : Nat) : digitsValue 16 (fmtHexLower w n).data = n := by
  obtain ⟨_, h2⟩ := toDigitsCore_hex (n + 1) n (Nat.lt_succ_self n)
  unfold fmtHexLower
  simp only []
  rw [digitsValue_zeros]
  exact h2

theorem fmtHexLower_injective (w a b : Nat) (h : fmtHexLower w a = fmtHexLower w b) : a = b := by
  have := congrArg (fun s => digitsValue 16 s.data) h
  simp only [fmtHexLower_value] at this
  exact this

theorem iequals_lower : ∀ (a r : List Char), iequals a r = true →
    a.map tolower = r.map tolower := by
  intro a
  induction a with
  | nil =>
    intro r h
    cases r with
    | nil => rfl
    | cons x xs => simp [iequals] at h
  | cons c cs ih =>
    intro r h
    cases r with
    | nil => simp [iequals] at h
    | cons x xs =>
      simp only [iequals] at h
      by_cases hc : tolower c = tolower x
      · simp only [hc, ne_eq, not_true_eq_false, if_false] at h
        simp only [List.map_cons, hc, ih xs h]
      · simp [hc] at h

theorem firstMatch_elim (name : List Char) : ∀ (table : List (String × Nat)) (v : Nat),
    firstMatch name table = some v →
    ∃ e, e ∈ table ∧ iequals name e.1.toList = true ∧ v = toU16 e.2 := by
  intro table
  induction table with
  | nil => intro v h; simp [firstMatch] at h
  | cons e rest ih =>
    intro v h
    obtain ⟨reg, value⟩ := e
    simp only [firstMatch] at h
    by_cases hm : iequals name reg.toList = true
    · rw [if_pos hm] at h
      injection h with h
      exact ⟨(reg, value), List.mem_cons_self _ _, hm, h.symm⟩
    · rw [if_neg hm] at h
      obtain ⟨e, he, h1, h2⟩ := ih v h
      exact ⟨e, List.mem_cons_of_mem _ he, h1, h2⟩

theorem unique_of_nodup_keys : ∀ (J : List (String × String)), (J.map Prod.fst).Nodup →
    ∀ (k a b : String), (k, a) ∈ J → (k, b) ∈ J → a = b := by
  intro J
  induction J with
  | nil => intro _ k a b ha; simp at ha
  | cons e rest ih =>
    intro hnd k a b ha hb
    simp only [List.map_cons, List.nodup_cons] at hnd
    obtain ⟨hnot, hnd⟩ := hnd
    rcases List.mem_cons.mp ha with ha | ha <;> rcases List.mem_cons.mp hb with hb | hb
    · rw [← ha] at hb
      exact ((Prod.mk.injEq _ _ _ _).mp hb).2.symm
    · exfalso
      apply hnot
      rw [← ha]
      exact List.mem_map.mpr ⟨(k, b), hb, rfl⟩
    · exfalso
      apply hnot
      rw [← hb]
      exact List.mem_map.mpr ⟨(k, a), ha, rfl⟩
    · exact ih hnd k a b ha hb

theorem shownAs_of_entry (J : List (String × String)) (key : String) (w value v : Nat)
    (hmem : (key, fmtHexLower w value) ∈ J) (hnd : (J.map Prod.fst).Nodup)
    (hw : w = 2 ∨ w = 4) (h16 : value < 2 ^ 16) (hwb : value < 16 ^ w) :
    shownAs J key (toU16 value) v := by
  have hlen : (fmtHexLower w value).length = w :=
    (fmtHexLower_spec w value (by omega) hwb).1
  refine ⟨fmtHexLower w value, hmem, fun t ht => unique_of_nodup_keys J hnd key t _ ht hmem,
    ?_, ?_⟩
  · rw [hlen]; exact hw
  · rw [hlen]
    have hv : toU16 value = value := Nat.mod_eq_of_lt h16
    rw [hv]
    exact ⟨fun h => by rw [h], fmtHexLower_injective w value v⟩

/-- On Nes a register name the lookup accepts is shown by the JSON
rendering under its lower-case key, and the assertion passes exactly on the shown value. -/
theorem lookup_agrees_nes (st : StateBuffer) (name : List Char) (actual v : Nat)
    (hin : inRange CpuType.Nes st = true)
    (hacc : GetRegisterValue CpuType.Nes name st = Except.ok (actual, true)) :
    shownAs (jsonRegisters CpuType.Nes st) (String.mk (name.map tolower)) actual v := by
  simp only [GetRegisterValue] at hacc
  split at hacc
  case h_2 => simp at hacc
  rename_i found hfm
  have hact : found = actual := by injection hacc with h1; injection h1
  obtain ⟨e, hmem, hname, hval⟩ := firstMatch_elim name _ found hfm
  have hnd : ((jsonRegisters CpuType.Nes st).map Prod.fst).Nodup := by
    have hkeys : (jsonRegisters CpuType.Nes st).map Prod.fst =
        ["pc", "a", "x", "y", "sp", "ps"] := rfl
    rw [hkeys]; decide
  simp only [inRange, Bool.and_eq_true, decide_eq_true_eq] at hin
  rw [← hact, hval]
  simp only [List.mem_cons, List.mem_singleton, List.not_mem_nil, or_false] at hmem
  rcases hmem with rfl | rfl | rfl | rfl | rfl | rfl
  · have hkey : String.mk (name.map tolower) = "a" := by
      rw [iequals_lower name _ hname]; rfl
    rw [hkey]
    exact shownAs_of_entry _ "a" 2 st.nes.A v
      (by simp [jsonRegisters]) hnd (Or.inl rfl) (by omega) (by omega)
  · have hkey : String.mk (name.map tolower) = "x" := by
      rw [iequals_lower name _ hname]; rfl
    rw [hkey]
    exact shownAs_of_entry _ "x" 2 st.nes.X v
      (by simp [jsonRegisters]) hnd (Or.inl rfl) (by omega) (by omega)
  · have hkey : String.mk (name.map tolower) = "y" := by
      rw [iequals_lower name _ hname]; rfl
    rw [hkey]
    exact shownAs_of_entry _ "y" 2 st.nes.Y v
      (by simp [jsonRegisters]) hnd (Or.inl rfl) (by omega) (by omega)
  · have hkey : String.mk (name.map tolower) = "sp" := by
      rw [iequals_lower name _ hname]; rfl
    rw [hkey]
    exact shownAs_of_entry _ "sp" 2 st.nes.SP v
      (by simp [jsonRegisters]) hnd (Or.inl rfl) (by omega) (by omega)
  · have hkey : String.mk (name.map tolower) = "pc" := by
      rw [iequals_lower name _ hname]; rfl
    rw [hkey]
    exact shownAs_of_entry _ "pc" 4 st.nes.PC v
      (by simp [jsonRegisters]) hnd (Or.inr rfl) (by omega) (by omega)
  · have hkey : String.mk (name.map tolower) = "ps" := by
      rw [iequals_lower name _ hname]; rfl
    rw [hkey]
    exact shownAs_of_entry _ "ps" 2 st.nes.PS v
      (by simp [jsonRegisters]) hnd (Or.inl rfl) (by omega) (by omega)

/-- On Snes a register name the lookup accepts, other than `PC` and `K`, is shown by the JSON
rendering under its lower-case key, and the assertion passes exactly on the shown value. -/
theorem lookup_agrees_snes (st : StateBuffer) (name : List Char) (actual v : Nat)
    (hin : inRange CpuType.Snes st = true)
    (hacc : GetRegisterValue CpuType.Snes name st = Except.ok (actual, true))
    (hpc : iequals name "PC".toList = false) (hk : iequals name "K".toList = false) :
    shownAs (jsonRegisters CpuType.Snes st) (String.mk (name.map tolower)) actual v := by
  simp only [GetRegisterValue] at hacc
  split at hacc
  case h_2 => simp at hacc
  rename_i found hfm
  have hact : found = actual := by injection hacc with h1; injection h1
  obtain ⟨e, hmem, hname, hval⟩ := firstMatch_elim name _ found hfm
  have hnd : ((jsonRegisters CpuType.Snes st).map Prod.fst).Nodup := by
    have hkeys : (jsonRegisters CpuType.Snes st).map Prod.fst =
        ["pc", "a", "x", "y", "sp", "d", "dbr", "ps"] := rfl
    rw [hkeys]; decide
  simp only [inRange, Bool.and_eq_true, decide_eq_true_eq] at hin
  rw [← hact, hval]
  simp only [List.mem_cons, List.mem_singleton, List.not_mem_nil, or_false] at hmem
  rcases hmem with rfl | rfl | rfl | rfl | rfl | rfl | rfl | rfl | rfl
  · have hkey : String.mk (name.map tolower) = "a" := by
      rw [iequals_lower name _ hname]; rfl
    rw [hkey]
    exact shownAs_of_entry _ "a" 4 st.snes.A v
      (by simp [jsonRegisters]) hnd (Or.inr rfl) (by omega) (by omega)
  · have hkey : String.mk (name.map tolower) = "x" := by
      rw [iequals_lower name _ hname]; rfl
    rw [hkey]
    exact shownAs_of_entry _ "x" 4 st.snes.X v
      (by simp [jsonRegisters]) hnd (Or.inr rfl) (by omega) (by omega)
  · have hkey : String.mk (name.map tolower) = "y" := by
      rw [iequals_lower name _ hname]; rfl
    rw [hkey]
    exact shownAs_of_entry _ "y" 4 st.snes.Y v
      (by simp [jsonRegisters]) hnd (Or.inr rfl) (by omega) (by omega)
  · have hkey : String.mk (name.map tolower) = "sp" := by
      rw [iequals_lower name _ hname]; rfl
    rw [hkey]
    exact shownAs_of_entry _ "sp" 4 st.snes.SP v
      (by simp [jsonRegisters]) hnd (Or.inr rfl) (by omega) (by omega)
  · have hkey : String.mk (name.map tolower) = "d" := by
      rw [iequals_lower name _ hname]; rfl
    rw [hkey]
    exact shownAs_of_entry _ "d" 4 st.snes.D v
      (by simp [jsonRegisters]) hnd (Or.inr rfl) (by omega) (by omega)
  · have hkey : String.mk (name.map tolower) = "dbr" := by
      rw [iequals_lower name _ hname]; rfl
    rw [hkey]
    exact shownAs_of_entry _ "dbr" 2 st.snes.DBR v
      (by simp [jsonRegisters]) hnd (Or.inl rfl) (by omega) (by omega)
  · have hkey : String.mk (name.map tolower) = "ps" := by
      rw [iequals_lower name _ hname]; rfl
    rw [hkey]
    exact shownAs_of_entry _ "ps" 2 st.snes.PS v
      (by simp [jsonRegisters]) hnd (Or.inl rfl) (by omega) (by omega)
  · rw [hpc] at hname; exact absurd hname (by decide)
  · rw [hk] at hname; exact absurd hname (by decide)

/-- On Sa1 a register name the lookup accepts, other than `PC` and `K`, is shown by the JSON
rendering under its lower-case key, and the assertion passes exactly on the shown value. -/
theorem lookup_agrees_sa1 (st : StateBuffer) (name : List Char) (actual v : Nat)
    (hin : inRange CpuType.Sa1 st = true)
    (hacc : GetRegisterValue CpuType.Sa1 name st = Except.ok (actual, true))
    (hpc : iequals name "PC".toList = false) (hk : iequals name "K".toList = false) :
    shownAs (jsonRegisters CpuType.Sa1 st) (String.mk (name.map tolower)) actual v := by
  simp only [GetRegisterValue] at hacc
  split at hacc
  case h_2 => simp at hacc
  rename_i found hfm
  have hact : found = actual := by injection hacc with h1; injection h1
  obtain ⟨e, hmem, hname, hval⟩ := firstMatch_elim name _ found hfm
  have hnd : ((jsonRegisters CpuType.Sa1 st).map Prod.fst).Nodup := by
    have hkeys : (jsonRegisters CpuType.Sa1 st).map Prod.fst =
        ["pc", "a", "x", "y", "sp", "d", "dbr", "ps"] := rfl
    rw [hkeys]; decide
  simp only [inRange, Bool.and_eq_true, decide_eq_true_eq] at hin
  rw [← hact, hval]
  simp only [List.mem_cons, List.mem_singleton, List.not_mem_nil, or_false] at hmem
  rcases hmem with rfl | rfl | rfl | rfl | rfl | rfl | rfl | rfl | rfl
  · have hkey : String.mk (name.map tolower) = "a" := by
      rw [iequals_lower name _ hname]; rfl
    rw [hkey]
    exact shownAs_of_entry _ "a" 4 st.snes.A v
      (by simp [jsonRegisters]) hnd (Or.inr rfl) (by omega) (by omega)
  · have hkey : String.mk (name.map tolower) = "x" := by
      rw [iequals_lower name _ hname]; rfl
    rw [hkey]
    exact shownAs_of_entry _ "x" 4 st.snes.X v
      (by simp [jsonRegisters]) hnd (Or.inr rfl) (by omega) (by omega)
  · have hkey : String.mk (name.map tolower) = "y" := by
      rw [iequals_lower name _ hname]; rfl
    rw [hkey]
    exact shownAs_of_entry _ "y" 4 st.snes.Y v
      (by simp [jsonRegisters]) hnd (Or.inr rfl) (by omega) (by omega)
  · have hkey : String.mk (name.map tolower) = "sp" := by
      rw [iequals_lower name _ hname]; rfl
    rw [hkey]
    exact shownAs_of_entry _ "sp" 4 st.snes.SP v
      (by simp [jsonRegisters]) hnd (Or.inr rfl) (by omega) (by omega)
  · have hkey : String.mk (name.map tolower) = "d" := by
      rw [iequals_lower name _ hname]; rfl
    rw [hkey]
    exact shownAs_of_entry _ "d" 4 st.snes.D v
      (by simp [jsonRegisters]) hnd (Or.inr rfl) (by omega) (by omega)
  · have hkey : String.mk (name.map tolower) = "dbr" := by
      rw [iequals_lower name _ hname]; rfl
    rw [hkey]
    exact shownAs_of_entry _ "dbr" 2 st.snes.DBR v
      (by simp [jsonRegisters]) hnd (Or.inl rfl) (by omega) (by omega)
  · have hkey : String.mk (name.map tolower) = "ps" := by
      rw [iequals_lower name _ hname]; rfl
    rw [hkey]
    exact shownAs_of_entry _ "ps" 2 st.snes.PS v
      (by simp [jsonRegisters]) hnd (Or.inl rfl) (by omega) (by omega)
  · rw [hpc] at hname; exact absurd hname (by decide)
  · rw [hk] at hname; exact absurd hname (by decide)

/-- On Gameboy a register name the lookup accepts is shown by the JSON
rendering under its lower-case key, and the assertion passes exactly on the shown value. -/
theorem lookup_agrees_gameboy (st : StateBuffer) (name : List Char) (actual v : Nat)
    (hin : inRange CpuType.Gameboy st = true)
    (hacc : GetRegisterValue CpuType.Gameboy name st = Except.ok (actual, true)) :
    shownAs (jsonRegisters CpuType.Gameboy st) (String.mk (name.map tolower)) actual v := by
  simp only [GetRegisterValue] at hacc
  split at hacc
  case h_2 => simp at hacc
  rename_i found hfm
  have hact : found = actual := by injection hacc with h1; injection h1
  obtain ⟨e, hmem, hname, hval⟩ := firstMatch_elim name _ found hfm
  have hnd : ((jsonRegisters CpuType.Gameboy st).map Prod.fst).Nodup := by
    have hkeys : (jsonRegisters CpuType.Gameboy st).map Prod.fst =
        ["pc", "sp", "a", "f", "b", "c", "d", "e", "h", "l"] := rfl
    rw [hkeys]; decide
  simp only [inRange, Bool.and_eq_true, decide_eq_true_eq] at hin
  rw [← hact, hval]
  simp only [List.mem_cons, List.mem_singleton, List.not_mem_nil, or_false] at hmem
  rcases hmem with rfl | rfl | rfl | rfl | rfl | rfl | rfl | rfl | rfl | rfl
  · have hkey : String.mk (name.map tolower) = "a" := by
      rw [iequals_lower name _ hname]; rfl
    rw [hkey]
    exact shownAs_of_entry _ "a" 2 st.gb.A v
      (by simp [jsonRegisters]) hnd (Or.inl rfl) (by omega) (by omega)
  · have hkey : String.mk (name.map tolower) = "f" := by
      rw [iequals_lower name _ hname]; rfl
    rw [hkey]
    exact shownAs_of_entry _ "f" 2 st.gb.Flags v
      (by simp [jsonRegisters]) hnd (Or.inl rfl) (by omega) (by omega)
  · have hkey : String.mk (name.map tolower) = "b" := by
      rw [iequals_lower name _ hname]; rfl
    rw [hkey]
    exact shownAs_of_entry _ "b" 2 st.gb.B v
      (by simp [jsonRegisters]) hnd (Or.inl rfl) (by omega) (by omega)
  · have hkey : String.mk (name.map tolower) = "c" := by
      rw [iequals_lower name _ hname]; rfl
    rw [hkey]
    exact shownAs_of_entry _ "c" 2 st.gb.C v
      (by simp [jsonRegisters]) hnd (Or.inl rfl) (by omega) (by omega)
  · have hkey : String.mk (name.map tolower) = "d" := by
      rw [iequals_lower name _ hname]; rfl
    rw [hkey]
    exact shownAs_of_entry _ "d" 2 st.gb.D v
      (by simp [jsonRegisters]) hnd (Or.inl rfl) (by omega) (by omega)
  · have hkey : String.mk (name.map tolower) = "e" := by
      rw [iequals_lower name _ hname]; rfl
    rw [hkey]
    exact shownAs_of_entry _ "e" 2 st.gb.E v
      (by simp [jsonRegisters]) hnd (Or.inl rfl) (by omega) (by omega)
  · have hkey : String.mk (name.map tolower) = "h" := by
      rw [iequals_lower name _ hname]; rfl
    rw [hkey]
    exact shownAs_of_entry _ "h" 2 st.gb.H v
      (by simp [jsonRegisters]) hnd (Or.inl rfl) (by omega) (by omega)
  · have hkey : String.mk (name.map tolower) = "l" := by
      rw [iequals_lower name _ hname]; rfl
    rw [hkey]
    exact shownAs_of_entry _ "l" 2 st.gb.L v
      (by simp [jsonRegisters]) hnd (Or.inl rfl) (by omega) (by omega)
  · have hkey : String.mk (name.map tolower) = "sp" := by
      rw [iequals_lower name _ hname]; rfl
    rw [hkey]
    exact shownAs_of_entry _ "sp" 4 st.gb.SP v
      (by simp [jsonRegisters]) hnd (Or.inr rfl) (by omega) (by omega)
  · have hkey : String.mk (name.map tolower) = "pc" := by
      rw [iequals_lower name _ hname]; rfl
    rw [hkey]
    exact shownAs_of_entry _ "pc" 4 st.gb.PC v
      (by simp [jsonRegisters]) hnd (Or.inr rfl) (by omega) (by omega)

/-- On Pce a register name the lookup accepts is shown by the JSON
rendering under its lower-case key, and the assertion passes exactly on the shown value. -/
theorem lookup_agrees_pce (st : StateBuffer) (name : List Char) (actual v : Nat)
    (hin : inRange CpuType.Pce st = true)
    (hacc : GetRegisterValue CpuType.Pce name st = Except.ok (actual, true)) :
    shownAs (jsonRegisters CpuType.Pce st) (String.mk (name.map tolower)) actual v := by
  simp only [GetRegisterValue] at hacc
  split at hacc
  case h_2 => simp at hacc
  rename_i found hfm
  have hact : found = actual := by injection hacc with h1; injection h1
  obtain ⟨e, hmem, hname, hval⟩ := firstMatch_elim name _ found hfm
  have hnd : ((jsonRegisters CpuType.Pce st).map Prod.fst).Nodup := by
    have hkeys : (jsonRegisters CpuType.Pce st).map Prod.fst =
        ["pc", "a", "x", "y", "sp", "ps"] := rfl
    rw [hkeys]; decide
  simp only [inRange, Bool.and_eq_true, decide_eq_true_eq] at hin
  rw [← hact, hval]
  simp only [List.mem_cons, List.mem_singleton, List.not_mem_nil, or_false] at hmem
  rcases hmem with rfl | rfl | rfl | rfl | rfl | rfl
  · have hkey : String.mk (name.map tolower) = "a" := by
      rw [iequals_lower name _ hname]; rfl
    rw [hkey]
    exact shownAs_of_entry _ "a" 2 st.pce.A v
      (by simp [jsonRegisters]) hnd (Or.inl rfl) (by omega) (by omega)
  · have hkey : String.mk (name.map tolower) = "x" := by
      rw [iequals_lower name _ hname]; rfl
    rw [hkey]
    exact shownAs_of_entry _ "x" 2 st.pce.X v
      (by simp [jsonRegisters]) hnd (Or.inl rfl) (by omega) (by omega)
  · have hkey : String.mk (name.map tolower) = "y" := by
      rw [iequals_lower name _ hname]; rfl
    rw [hkey]
    exact shownAs_of_entry _ "y" 2 st.pce.Y v
      (by simp [jsonRegisters]) hnd (Or.inl rfl) (by omega) (by omega)
  · have hkey : String.mk (name.map tolower) = "sp" := by
      rw [iequals_lower name _ hname]; rfl
    rw [hkey]
    exact shownAs_of_entry _ "sp" 2 st.pce.SP v
      (by simp [jsonRegisters]) hnd (Or.inl rfl) (by omega) (by omega)
  · have hkey : String.mk (name.map tolower) = "pc" := by
      rw [iequals_lower name _ hname]; rfl
    rw [hkey]
    exact shownAs_of_entry _ "pc" 4 st.pce.PC v
      (by simp [jsonRegisters]) hnd (Or.inr rfl) (by omega) (by omega)
  · have hkey : String.mk (name.map tolower) = "ps" := by
      rw [iequals_lower name _ hname]; rfl
    rw [hkey]
    exact shownAs_of_entry _ "ps" 2 st.pce.PS v
      (by simp [jsonRegisters]) hnd (Or.inl rfl) (by omega) (by omega)

/-- On Sms a register name the lookup accepts is shown by the JSON
rendering under its lower-case key, and the assertion passes exactly on the shown value. -/
theorem lookup_agrees_sms (st : StateBuffer) (name : List Char) (actual v : Nat)
    (hin : inRange CpuType.Sms st = true)
    (hacc : GetRegisterValue CpuType.Sms name st = Except.ok (actual, true)) :
    shownAs (jsonRegisters CpuType.Sms st) (String.mk (name.map tolower)) actual v := by
  simp only [GetRegisterValue] at hacc
  split at hacc
  case h_2 => simp at hacc
  rename_i found hfm
  have hact : found = actual := by injection hacc with h1; injection h1
  obtain ⟨e, hmem, hname, hval⟩ := firstMatch_elim name _ found hfm
  have hnd : ((jsonRegisters CpuType.Sms st).map Prod.fst).Nodup := by
    have hkeys : (jsonRegisters CpuType.Sms st).map Prod.fst =
        ["pc", "sp", "a", "f", "b", "c", "d", "e", "h", "l", "ix", "iy", "i", "r"] := rfl
    rw [hkeys]; decide
  simp only [inRange, Bool.and_eq_true, decide_eq_true_eq] at hin
  rw [← hact, hval]
  simp only [List.mem_cons, List.mem_singleton, List.not_mem_nil, or_false] at hmem
  rcases hmem with rfl | rfl | rfl | rfl | rfl | rfl | rfl | rfl | rfl | rfl | rfl | rfl
  · have hkey : String.mk (name.map tolower) = "a" := by
      rw [iequals_lower name _ hname]; rfl
    rw [hkey]
    exact shownAs_of_entry _ "a" 2 st.sms.A v
      (by simp [jsonRegisters]) hnd (Or.inl rfl) (by omega) (by omega)
  · have hkey : String.mk (name.map tolower) = "f" := by
      rw [iequals_lower name _ hname]; rfl
    rw [hkey]
    exact shownAs_of_entry _ "f" 2 st.sms.Flags v
      (by simp [jsonRegisters]) hnd (Or.inl rfl) (by omega) (by omega)
  · have hkey : String.mk (name.map tolower) = "b" := by
      rw [iequals_lower name _ hname]; rfl
    rw [hkey]
    exact shownAs_of_entry _ "b" 2 st.sms.B v
      (by simp [jsonRegisters]) hnd (Or.inl rfl) (by omega) (by omega)
  · have hkey : String.mk (name.map tolower) = "c" := by
      rw [iequals_lower name _ hname]; rfl
    rw [hkey]
    exact shownAs_of_entry _ "c" 2 st.sms.C v
      (by simp [jsonRegisters]) hnd (Or.inl rfl) (by omega) (by omega)
  · have hkey : String.mk (name.map tolower) = "d" := by
      rw [iequals_lower name _ hname]; rfl
    rw [hkey]
    exact shownAs_of_entry _ "d" 2 st.sms.D v
      (by simp [jsonRegisters]) hnd (Or.inl rfl) (by omega) (by omega)
  · have hkey : String.mk (name.map tolower) = "e" := by
      rw [iequals_lower name _ hname]; rfl
    rw [hkey]
    exact shownAs_of_entry _ "e" 2 st.sms.E v
      (by simp [jsonRegisters]) hnd (Or.inl rfl) (by omega) (by omega)
  · have hkey : String.mk (name.map tolower) = "h" := by
      rw [iequals_lower name _ hname]; rfl
    rw [hkey]
    exact shownAs_of_entry _ "h" 2 st.sms.H v
      (by simp [jsonRegisters]) hnd (Or.inl rfl) (by omega) (by omega)
  · have hkey : String.mk (name.map tolower) = "l" := by
      rw [iequals_lower name _ hname]; rfl
    rw [hkey]
    exact shownAs_of_entry _ "l" 2 st.sms.L v
      (by simp [jsonRegisters]) hnd (Or.inl rfl) (by omega) (by omega)
  · have hkey : String.mk (name.map tolower) = "sp" := by
      rw [iequals_lower name _ hname]; rfl
    rw [hkey]
    exact shownAs_of_entry _ "sp" 4 st.sms.SP v
      (by simp [jsonRegisters]) hnd (Or.inr rfl) (by omega) (by omega)
  · have hkey : String.mk (name.map tolower) = "pc" := by
      rw [iequals_lower name _ hname]; rfl
    rw [hkey]
    exact shownAs_of_entry _ "pc" 4 st.sms.PC v
      (by simp [jsonRegisters]) hnd (Or.inr rfl) (by omega) (by omega)
  · have hkey : String.mk (name.map tolower) = "ix" := by
      rw [iequals_lower name _ hname]; rfl
    rw [hkey]
    exact shownAs_of_entry _ "ix" 4 ((st.sms.IXH <<< 8) ||| st.sms.IXL) v
      (by simp [jsonRegisters]) hnd (Or.inr rfl) (byte_pair_lt _ _ (by omega) (by omega)) (by have := byte_pair_lt st.sms.IXH st.sms.IXL (by omega) (by omega); omega)
  · have hkey : String.mk (name.map tolower) = "iy" := by
      rw [iequals_lower name _ hname]; rfl
    rw [hkey]
    exact shownAs_of_entry _ "iy" 4 ((st.sms.IYH <<< 8) ||| st.sms.IYL) v
      (by simp [jsonRegisters]) hnd (Or.inr rfl) (byte_pair_lt _ _ (by omega) (by omega)) (by have := byte_pair_lt st.sms.IYH st.sms.IYL (by omega) (by omega); omega)

/-- On Ws a register name the lookup accepts is shown by the JSON
rendering under its lower-case key, and the assertion passes exactly on the shown value. -/
theorem lookup_agrees_ws (st : StateBuffer) (name : List Char) (actual v : Nat)
    (hin : inRange CpuType.Ws st = true)
    (hacc : GetRegisterValue CpuType.Ws name st = Except.ok (actual, true)) :
    shownAs (jsonRegisters CpuType.Ws st) (String.mk (name.map tolower)) actual v := by
  simp only [GetRegisterValue] at hacc
  split at hacc
  case h_2 => simp at hacc
  rename_i found hfm
  have hact : found = actual := by injection hacc with h1; injection h1
  obtain ⟨e, hmem, hname, hval⟩ := firstMatch_elim name _ found hfm
  have hnd : ((jsonRegisters CpuType.Ws st).map Prod.fst).Nodup := by
    have hkeys : (jsonRegisters CpuType.Ws st).map Prod.fst =
        ["cs", "ip", "ax", "bx", "cx", "dx", "sp", "bp", "si", "di", "ds", "es", "ss", "flags"] := rfl
    rw [hkeys]; decide
  simp only [inRange, Bool.and_eq_true, decide_eq_true_eq] at hin
  rw [← hact, hval]
  simp only [List.mem_cons, List.mem_singleton, List.not_mem_nil, or_false] at hmem
  rcases hmem with rfl | rfl | rfl | rfl | rfl | rfl | rfl | rfl | rfl | rfl | rfl | rfl | rfl
  · have hkey : String.mk (name.map tolower) = "ax" := by
      rw [iequals_lower name _ hname]; rfl
    rw [hkey]
    exact shownAs_of_entry _ "ax" 4 st.ws.AX v
      (by simp [jsonRegisters]) hnd (Or.inr rfl) (by omega) (by omega)
  · have hkey : String.mk (name.map tolower) = "bx" := by
      rw [iequals_lower name _ hname]; rfl
    rw [hkey]
    exact shownAs_of_entry _ "bx" 4 st.ws.BX v
      (by simp [jsonRegisters]) hnd (Or.inr rfl) (by omega) (by omega)
  · have hkey : String.mk (name.map tolower) = "cx" := by
      rw [iequals_lower name _ hname]; rfl
    rw [hkey]
    exact shownAs_of_entry _ "cx" 4 st.ws.CX v
      (by simp [jsonRegisters]) hnd (Or.inr rfl) (by omega) (by omega)
  · have hkey : String.mk (name.map tolower) = "dx" := by
      rw [iequals_lower name _ hname]; rfl
    rw [hkey]
    exact shownAs_of_entry _ "dx" 4 st.ws.DX v
      (by simp [jsonRegisters]) hnd (Or.inr rfl) (by omega) (by omega)
  · have hkey : String.mk (name.map tolower) = "sp" := by
      rw [iequals_lower name _ hname]; rfl
    rw [hkey]
    exact shownAs_of_entry _ "sp" 4 st.ws.SP v
      (by simp [jsonRegisters]) hnd (Or.inr rfl) (by omega) (by omega)
  · have hkey : String.mk (name.map tolower) = "bp" := by
      rw [iequals_lower name _ hname]; rfl
    rw [hkey]
    exact shownAs_of_entry _ "bp" 4 st.ws.BP v
      (by simp [jsonRegisters]) hnd (Or.inr rfl) (by omega) (by omega)
  · have hkey : String.mk (name.map tolower) = "si" := by
      rw [iequals_lower name _ hname]; rfl
    rw [hkey]
    exact shownAs_of_entry _ "si" 4 st.ws.SI v
      (by simp [jsonRegisters]) hnd (Or.inr rfl) (by omega) (by omega)
  · have hkey : String.mk (name.map tolower) = "di" := by
      rw [iequals_lower name _ hname]; rfl
    rw [hkey]
    exact shownAs_of_entry _ "di" 4 st.ws.DI v
      (by simp [jsonRegisters]) hnd (Or.inr rfl) (by omega) (by omega)
  · have hkey : String.mk (name.map tolower) = "cs" := by
      rw [iequals_lower name _ hname]; rfl
    rw [hkey]
    exact shownAs_of_entry _ "cs" 4 st.ws.CS v
      (by simp [jsonRegisters]) hnd (Or.inr rfl) (by omega) (by omega)
  · have hkey : String.mk (name.map tolower) = "ip" := by
      rw [iequals_lower name _ hname]; rfl
    rw [hkey]
    exact shownAs_of_entry _ "ip" 4 st.ws.IP v
      (by simp [jsonRegisters]) hnd (Or.inr rfl) (by omega) (by omega)
  · have hkey : String.mk (name.map tolower) = "ds" := by
      rw [iequals_lower name _ hname]; rfl
    rw [hkey]
    exact shownAs_of_entry _ "ds" 4 st.ws.DS v
      (by simp [jsonRegisters]) hnd (Or.inr rfl) (by omega) (by omega)
  · have hkey : String.mk (name.map tolower) = "es" := by
      rw [iequals_lower name _ hname]; rfl
    rw [hkey]
    exact shownAs_of_entry _ "es" 4 st.ws.ES v
      (by simp [jsonRegisters]) hnd (Or.inr rfl) (by omega) (by omega)
  · have hkey : String.mk (name.map tolower) = "ss" := by
      rw [iequals_lower name _ hname]; rfl
    rw [hkey]
    exact shownAs_of_entry _ "ss" 4 st.ws.SS v
      (by simp [jsonRegisters]) hnd (Or.inr rfl) (by omega) (by omega)
/-- C29 as stated fails on GBA and for the SNES names `PC` and `K`. On GBA the lookup
returns the low 16 bits of the 32-bit register: with `R[0] = $00011234` the assertion
`R0=$1234` passes while the JSON rendering shows `"r0":"00011234"`, not `00001234`. On SNES
`PC=$8000` passes in bank 1 while the JSON rendering shows the 24-bit `"pc":"018000"`, and
`K` is accepted by the lookup but the rendering has no key `k`. -/
theorem register_assertion_differs_from_json :
    (inRange CpuType.Gba { gba := { R := fun i => if i = 0 then 0x11234 else 0 } } = true ∧
      assertionPasses (fun _ => MemoryType.Other 0)
        { sampleWorld [] with
          stateBuffer := { gba := { R := fun i => if i = 0 then 0x11234 else 0 } } }
        CpuType.Gba 0 ⟨AssertionType.Reg, "R0".toList, 0, 0x1234, 2⟩ = true ∧
      ("r0", "00011234") ∈
        jsonRegisters CpuType.Gba { gba := { R := fun i => if i = 0 then 0x11234 else 0 } } ∧
      ("r0", fmtHexLower 8 0x1234) ∉
        jsonRegisters CpuType.Gba { gba := { R := fun i => if i = 0 then 0x11234 else 0 } }) ∧
    (inRange CpuType.Snes { snes := { K := 1, PC := 0x8000 } } = true ∧
      assertionPasses (fun _ => MemoryType.Other 0)
        { sampleWorld [] with stateBuffer := { snes := { K := 1, PC := 0x8000 } } }
        CpuType.Snes 0 ⟨AssertionType.Reg, "PC".toList, 0, 0x8000, 2⟩ = true ∧
      jsonRegisters CpuType.Snes { snes := { K := 1, PC := 0x8000 } } =
        [("pc", "018000"), ("a", "0000"), ("x", "0000"), ("y", "0000"), ("sp", "0000"),
         ("d", "0000"), ("dbr", "00"), ("ps", "00")] ∧
      GetRegisterValue CpuType.Snes "K".toList { snes := { K := 1, PC := 0x8000 } } =
        Except.ok (1, true)) := by
  refine ⟨⟨by decide, by decide, by decide, by decide⟩, ⟨by decide, by decide, by decide,
    by decide⟩⟩

/-- C29, amended: on NES, Game Boy, PC Engine, SMS and WonderSwan for every register name the
lookup accepts, and on SNES and SA-1 for every accepted name other than `PC` and `K`, and for
every snapshot whose members fit their types: the output of `FormatRegistersJson` is the text
of the JSON value `registersJson`, whose `registers` object holds the entries of
`jsonRegisters`; exactly one of them is under the lower-case of the name, its text has 2 or 4
hex digits, and the register assertion passes exactly when that text is the expected value
in lower-case hex of that many digits. -/
theorem register_assertion_agrees_with_json (GetCpuMemoryType : CpuType → MemoryType)
    (w : BatchWorld) (cpu : CpuType) (i : Nat) (check : BatchAssertion)
    (hcpu : cpu = CpuType.Nes ∨ cpu = CpuType.Snes ∨ cpu = CpuType.Sa1 ∨
      cpu = CpuType.Gameboy ∨ cpu = CpuType.Pce ∨ cpu = CpuType.Sms ∨ cpu = CpuType.Ws)
    (hin : inRange cpu w.stateBuffer = true)
    (htype : check.type = AssertionType.Reg)
    (hacc : ∃ actual, GetRegisterValue cpu check.name w.stateBuffer = Except.ok (actual, true))
    (hsnes : cpu = CpuType.Snes ∨ cpu = CpuType.Sa1 →
      iequals check.name "PC".toList = false ∧ iequals check.name "K".toList = false) :
    Formatter.FormatRegistersJson cpu w.stateBuffer = (registersJson cpu w.stateBuffer).render ∧
    (registersJson cpu w.stateBuffer).member "registers" =
      some (Json.obj ((jsonRegisters cpu w.stateBuffer).map (fun kt => (kt.1, Json.str kt.2)) ++
        [(flagsKey cpu, Json.obj (jsonFlags cpu w.stateBuffer))])) ∧
    ∃ text, (String.mk (check.name.map tolower), text) ∈ jsonRegisters cpu w.stateBuffer ∧
      (∀ t, (String.mk (check.name.map tolower), t) ∈ jsonRegisters cpu w.stateBuffer →
        t = text) ∧
      (text.length = 2 ∨ text.length = 4) ∧
      (assertionPasses GetCpuMemoryType w cpu i check = true ↔
        text = fmtHexLower text.length check.expected) := by
  obtain ⟨actual, hacc⟩ := hacc
  have hs : supported cpu = true := by
    rcases hcpu with h | h | h | h | h | h | h <;> rw [h] <;> rfl
  refine ⟨FormatRegistersJson_eq_render cpu w.stateBuffer hs hin, rfl, ?_⟩
  have hpass : assertionPasses GetCpuMemoryType w cpu i check = true ↔
      actual = check.expected := by
    unfold assertionPasses
    rw [htype]
    simp only [hacc, Bool.true_and, decide_eq_true_eq]
  have key : shownAs (jsonRegisters cpu w.stateBuffer) (String.mk (check.name.map tolower))
      actual check.expected := by
    rcases hcpu with h | h | h | h | h | h | h
    · subst h; exact lookup_agrees_nes _ _ _ _ hin hacc
    · subst h
      exact lookup_agrees_snes _ _ _ _ hin hacc (hsnes (Or.inl rfl)).1 (hsnes (Or.inl rfl)).2
    · subst h
      exact lookup_agrees_sa1 _ _ _ _ hin hacc (hsnes (Or.inr rfl)).1 (hsnes (Or.inr rfl)).2
    · subst h; exact lookup_agrees_gameboy _ _ _ _ hin hacc
    · subst h; exact lookup_agrees_pce _ _ _ _ hin hacc
    · subst h; exact lookup_agrees_sms _ _ _ _ hin hacc
    · subst h; exact lookup_agrees_ws _ _ _ _ hin hacc
  obtain ⟨text, h1, h2, h3, h4⟩ := key
  exact ⟨text, h1, h2, h3, hpass.trans h4⟩

/-- C29 on the NES snapshot with `A = 0`: the assertion `A=$00` passes, and the JSON
rendering shows `"a":"00"`. -/
theorem register_assertion_agrees_with_json_witness :
    assertionPasses (fun _ => MemoryType.Other 0)
      { sampleWorld [] with stateBuffer := { nes := { A := 0 } } } CpuType.Nes 0
      ⟨AssertionType.Reg, "A".toList, 0, 0, 2⟩ = true ∧
    ("a", "00") ∈ jsonRegisters CpuType.Nes { nes := { A := 0 } } ∧
    ∃ text, ("a", text) ∈ jsonRegisters CpuType.Nes { nes := { A := 0 } } ∧
      (∀ t, ("a", t) ∈ jsonRegisters CpuType.Nes { nes := { A := 0 } } → t = text) ∧
      (text.length = 2 ∨ text.length = 4) ∧
      (assertionPasses (fun _ => MemoryType.Other 0)
        { sampleWorld [] with stateBuffer := { nes := { A := 0 } } } CpuType.Nes 0
        ⟨AssertionType.Reg, "A".toList, 0, 0, 2⟩ = true ↔ text = fmtHexLower text.length 0) :=
  ⟨by decide, by decide,
    (register_assertion_agrees_with_json (fun _ => MemoryType.Other 0)
      { sampleWorld [] with stateBuffer := { nes := { A := 0 } } } CpuType.Nes 0
      ⟨AssertionType.Reg, "A".toList, 0, 0, 2⟩ (Or.inl rfl) (by decide) rfl ⟨0, by decide⟩
      (fun h => by rcases h with h | h <;> exact absurd h (by decide))).2.2⟩

/-! ## The shell loop: unknown commands and malformed arguments -/

namespace DebuggerCli

theorem classify_other (cmd : List Char) (h : cmd ∉ builtinVerbs) :
    classify cmd = Verb.Other := by
  have hm : ∀ s, s ∈ builtinVerbs → ¬ cmd = s := fun s hs heq => h (heq ▸ hs)
  unfold classify
  rw [if_neg (fun hc => hc.elim (hm _ (by decide)) (hm _ (by decide)))]
  rw [if_neg (fun hc => hc.elim (hm _ (by decide)) (hm _ (by decide)))]
  rw [if_neg (hm _ (by decide))]
  rw [if_neg (fun hc => hc.elim (hm _ (by decide))
    (fun hc => hc.elim (hm _ (by decide)) (hm _ (by decide))))]
  rw [if_neg (fun hc => hc.elim (hm _ (by decide)) (hm _ (by decide)))]
  rw [if_neg (hm _ (by decide))]
  rw [if_neg (fun hc => hc.elim (hm _ (by decide)) (hm _ (by decide)))]
  rw [if_neg (hm _ (by decide))]
  rw [if_neg (fun hc => hc.elim (hm _ (by decide)) (hm _ (by decide)))]
  rw [if_neg (fun hc => hc.elim (hm _ (by decide)) (hm _ (by decide)))]
  rw [if_neg (hm _ (by decide))]
  rw [if_neg (hm _ (by decide))]
  rw [if_neg (fun hc => hc.elim (hm _ (by decide)) (hm _ (by decide)))]
  rw [if_neg (fun hc => hc.elim (hm _ (by decide)) (hm _ (by decide)))]
  rw [if_neg (hm _ (by decide))]
  rw [if_neg (hm _ (by decide))]
  rw [if_neg (hm _ (by decide))]
  rw [if_neg (fun hc => hc.elim (hm _ (by decide))
    (fun hc => hc.elim (hm _ (by decide)) (hm _ (by decide))))]
  rw [if_neg (fun hc => hc.elim (hm _ (by decide))
    (fun hc => hc.elim (hm _ (by decide)) (hm _ (by decide))))]

theorem Tokenize_ne_nil (line : List Char) (h : Tokenize line ≠ []) : line ≠ [] := by
  intro hl
  rw [hl] at h
  exact h rfl

theorem execLine_returned (GetCpuMemoryType : CpuType → MemoryType)
    (memTypeCode : MemoryType → Nat) (what : Thrown → String) (w : ShellWorld)
    (sh sh1 : Shell) (line : List Char) (hne : Tokenize line ≠ [])
    (hd : dispatch GetCpuMemoryType memTypeCode w sh (Tokenize line) =
      (sh1, Ending.returned)) :
    execLine GetCpuMemoryType memTypeCode what w sh line = (sh1, true) := by
  unfold execLine
  rw [if_neg (Tokenize_ne_nil line hne)]
  simp only [if_neg hne, hd]

theorem execLine_threw (GetCpuMemoryType : CpuType → MemoryType)
    (memTypeCode : MemoryType → Nat) (what : Thrown → String) (w : ShellWorld)
    (sh sh1 : Shell) (e : Thrown) (line : List Char) (hne : Tokenize line ≠ [])
    (hd : dispatch GetCpuMemoryType memTypeCode w sh (Tokenize line) =
      (sh1, Ending.threw e)) :
    execLine GetCpuMemoryType memTypeCode what w sh line =
      (sh1.printErr ("Error: " ++ what e ++ "\n"), true) := by
  unfold execLine
  rw [if_neg (Tokenize_ne_nil line hne)]
  simp only [if_neg hne, hd]

theorem execLine_blocked (GetCpuMemoryType : CpuType → MemoryType)
    (memTypeCode : MemoryType → Nat) (what : Thrown → String) (w : ShellWorld)
    (sh sh1 : Shell) (line : List Char) (hne : Tokenize line ≠ [])
    (hd : dispatch GetCpuMemoryType memTypeCode w sh (Tokenize line) =
      (sh1, Ending.blocked)) :
    execLine GetCpuMemoryType memTypeCode what w sh line = (sh1, false) := by
  unfold execLine
  rw [if_neg (Tokenize_ne_nil line hne)]
  simp only [if_neg hne, hd]

theorem runLoop_next (GetCpuMemoryType : CpuType → MemoryType)
    (memTypeCode : MemoryType → Nat) (what : Thrown → String) (w : ShellWorld)
    (sh sh1 : Shell) (line : List Char) (rest : List (ShellWorld × List Char))
    (hq : sh.cli._quit = false)
    (h : execLine GetCpuMemoryType memTypeCode what w (sh.print "(mesen) ") line =
      (sh1, true)) :
    runLoop GetCpuMemoryType memTypeCode what ((w, line) :: rest) sh =
      runLoop GetCpuMemoryType memTypeCode what rest sh1 := by
  rw [runLoop]
  simp only [hq, h, if_true, Bool.false_eq_true, if_false]

theorem regionCommand_unknown (w : ShellWorld) (sh : Shell) (tokens : List (List Char))
    (halias : ∀ r ∈ ConsoleInfo.GetMemoryRegions sh.cli._consoleType,
      tokens.headD [] ≠ r.shortName.toList) :
    regionCommand w sh tokens =
      (sh.print ("Unknown command: " ++ String.mk (tokens.headD []) ++
        ". Type 'help' for commands.\n"), Ending.returned) := by
  have hfind : (ConsoleInfo.GetMemoryRegions sh.cli._consoleType).find?
      (fun r => decide (tokens.headD [] = r.shortName.toList)) = none := by
    rw [List.find?_eq_none]
    intro r hr
    simp only [decide_eq_true_eq]
    exact halias r hr
  unfold regionCommand
  simp only [hfind]

end DebuggerCli

/-- C25: a line whose first token is neither one of the verbs and abbreviations of the `if`
chain nor the short name of a memory region of the console makes the round print
`Unknown command: <token>. Type 'help' for commands.` on standard output and end: standard
output afterwards is what it was before followed by this message. The data members of the
shell (breakpoints, id counter, quit flag, the emulator with the breakpoint set pushed to
it), the bridge, the recorded calls on bridge and core, standard error and the files are
unchanged, and the loop goes on with the next line, after whose prompt standard output holds
the prompt of this round and the message. -/
theorem unknown_command_is_reported (GetCpuMemoryType : CpuType → MemoryType)
    (memTypeCode : MemoryType → Nat) (what : Thrown → String) (w : ShellWorld) (sh : Shell)
    (line cmd : List Char) (args : List (List Char))
    (htok : DebuggerCli.Tokenize line = cmd :: args)
    (hverb : cmd ∉ DebuggerCli.builtinVerbs)
    (halias : ∀ r ∈ ConsoleInfo.GetMemoryRegions sh.cli._consoleType,
      cmd ≠ r.shortName.toList) :
    DebuggerCli.execLine GetCpuMemoryType memTypeCode what w sh line =
      (sh.print ("Unknown command: " ++ String.mk cmd ++ ". Type 'help' for commands.\n"),
        true) ∧
    (DebuggerCli.execLine GetCpuMemoryType memTypeCode what w sh line).1.io.stdout =
      sh.io.stdout ++ ("Unknown command: " ++ String.mk cmd ++
        ". Type 'help' for commands.\n") ∧
    (DebuggerCli.execLine GetCpuMemoryType memTypeCode what w sh line).1.cli = sh.cli ∧
    (DebuggerCli.execLine GetCpuMemoryType memTypeCode what w sh line).1.listener =
      sh.listener ∧
    (DebuggerCli.execLine GetCpuMemoryType memTypeCode what w sh line).1.log = sh.log ∧
    (DebuggerCli.execLine GetCpuMemoryType memTypeCode what w sh line).1.io.stderr =
      sh.io.stderr ∧
    (DebuggerCli.execLine GetCpuMemoryType memTypeCode what w sh line).1.io.files =
      sh.io.files ∧
    (∀ rest, sh.cli._quit = false →
      DebuggerCli.runLoop GetCpuMemoryType memTypeCode what ((w, line) :: rest) sh =
        DebuggerCli.runLoop GetCpuMemoryType memTypeCode what rest
          ((sh.print "(mesen) ").print
            ("Unknown command: " ++ String.mk cmd ++ ". Type 'help' for commands.\n"))) ∧
    ((sh.print "(mesen) ").print
        ("Unknown command: " ++ String.mk cmd ++ ". Type 'help' for commands.\n")).io.stdout =
      sh.io.stdout ++ "(mesen) " ++
        ("Unknown command: " ++ String.mk cmd ++ ". Type 'help' for commands.\n") ∧
    (sh.cli._quit = false →
      (DebuggerCli.runLoop GetCpuMemoryType memTypeCode what [(w, line)] sh).1.io.stdout =
        sh.io.stdout ++ "(mesen) " ++
          ("Unknown command: " ++ String.mk cmd ++ ". Type 'help' for commands.\n") ++
          "(mesen) ") := by
  have hne : DebuggerCli.Tokenize line ≠ [] := by rw [htok]; exact List.cons_ne_nil _ _
  have key : ∀ s : Shell, s.cli._consoleType = sh.cli._consoleType →
      DebuggerCli.execLine GetCpuMemoryType memTypeCode what w s line =
        (s.print ("Unknown command: " ++ String.mk cmd ++ ". Type 'help' for commands.\n"),
          true) := by
    intro s hs
    apply DebuggerCli.execLine_returned _ _ _ _ _ _ _ hne
    rw [htok]
    unfold DebuggerCli.dispatch
    have hc : DebuggerCli.classify ((cmd :: args).headD []) = DebuggerCli.Verb.Other :=
      DebuggerCli.classify_other cmd hverb
    simp only [hc]
    exact DebuggerCli.regionCommand_unknown w s (cmd :: args) (by rw [hs]; exact halias)
  have hloop : ∀ rest, sh.cli._quit = false →
      DebuggerCli.runLoop GetCpuMemoryType memTypeCode what ((w, line) :: rest) sh =
        DebuggerCli.runLoop GetCpuMemoryType memTypeCode what rest
          ((sh.print "(mesen) ").print
            ("Unknown command: " ++ String.mk cmd ++ ". Type 'help' for commands.\n")) :=
    fun rest hq => DebuggerCli.runLoop_next _ _ _ _ _ _ _ _ hq (key (sh.print "(mesen) ") rfl)
  rw [key sh rfl]
  refine ⟨rfl, rfl, rfl, rfl, rfl, rfl, rfl, hloop, rfl, ?_⟩
  intro hq
  rw [hloop [] hq]
  have hq2 : ((sh.print "(mesen) ").print
      ("Unknown command: " ++ String.mk cmd ++
        ". Type 'help' for commands.\n")).cli._quit = false := hq
  unfold DebuggerCli.runLoop
  rw [hq2]
  rfl

/-- C25 on the line `frobnicate 12` of an NES shell: standard output holds the message. -/
theorem unknown_command_is_reported_witness :
    DebuggerCli.execLine (fun _ => MemoryType.Other 0) (fun _ => 0) (fun _ => "what")
        (sampleCore []) sampleShell "frobnicate 12".toList =
      (sampleShell.print "Unknown command: frobnicate. Type 'help' for commands.\n", true) ∧
    (DebuggerCli.execLine (fun _ => MemoryType.Other 0) (fun _ => 0) (fun _ => "what")
        (sampleCore []) sampleShell "frobnicate 12".toList).1.io.stdout =
      "Unknown command: frobnicate. Type 'help' for commands.\n" :=
  ⟨(unknown_command_is_reported (fun _ => MemoryType.Other 0) (fun _ => 0) (fun _ => "what")
      (sampleCore []) sampleShell "frobnicate 12".toList "frobnicate".toList ["12".toList]
      (by decide) (by decide) (by decide)).1,
    by decide⟩

theorem fails_error {α : Type} (r : Except StdException α) (h : fails r = true) :
    ∃ e, r = Except.error e := by
  cases r with
  | error e => exact ⟨e, rfl⟩
  | ok v => simp [fails] at h

theorem argumentFails_length (regions : List ConsoleInfo.MemoryRegion)
    (tokens : List (List Char)) (h : argumentFails regions tokens = true) :
    1 < tokens.length := by
  simp only [argumentFails, Bool.or_eq_true, Bool.and_eq_true, decide_eq_true_eq] at h
  rcases h with (((((((h | h) | h) | h) | h) | h) | h) | h) | h
  · exact h.1.2
  · exact h.1.2
  · exact h.1.2
  · exact h.1.2
  · exact h.1.2
  · exact h.1.2
  · have := h.1.2; omega
  · exact h.1.2
  · exact h.1.2

namespace DebuggerCli

/-- A command whose argument fails to parse leaves `dispatch` by an exception, with the
shell as it was. -/
theorem dispatch_argument_fails (GetCpuMemoryType : CpuType → MemoryType)
    (memTypeCode : MemoryType → Nat) (w : ShellWorld)
    (regions : List ConsoleInfo.MemoryRegion) (tokens : List (List Char))
    (h : argumentFails regions tokens = true) :
    ∃ e, ∀ sh : Shell, ConsoleInfo.GetMemoryRegions sh.cli._consoleType = regions →
      dispatch GetCpuMemoryType memTypeCode w sh tokens = (sh, Ending.threw e) := by
  simp only [argumentFails, Bool.or_eq_true, Bool.and_eq_true, decide_eq_true_eq] at h
  rcases h with (((((((h | h) | h) | h) | h) | h) | h) | h) | h
  · obtain ⟨⟨hcmd, hlen⟩, hf⟩ := h
    obtain ⟨e, he⟩ := fails_error _ hf
    have hc : classify (tokens.headD []) = Verb.Step := by
      rcases hcmd with hcmd | hcmd <;> rw [hcmd] <;> decide
    refine ⟨Thrown.stoi e, ?_⟩
    intro sh hsh
    unfold dispatch
    simp only [hc, if_pos hlen, he, viaStoi]
  · obtain ⟨⟨hcmd, hlen⟩, hf⟩ := h
    obtain ⟨e, he⟩ := fails_error _ hf
    have hc : classify (tokens.headD []) = Verb.Frames := by rw [hcmd]; decide
    refine ⟨Thrown.stoi e, ?_⟩
    intro sh hsh
    unfold dispatch
    simp only [hc, if_neg (Nat.not_lt.mpr hlen), he, viaStoi]
  · obtain ⟨⟨hcmd, hlen⟩, hf⟩ := h
    obtain ⟨e, he⟩ := fails_error _ hf
    have hc : classify (tokens.headD []) = Verb.Break := by
      rcases hcmd with hcmd | hcmd <;> rw [hcmd] <;> decide
    refine ⟨Thrown.stoul e, ?_⟩
    intro sh hsh
    unfold dispatch
    simp only [hc, if_neg (Nat.not_lt.mpr hlen), he, viaStoul]
  · obtain ⟨⟨hcmd, hlen⟩, hf⟩ := h
    obtain ⟨e, he⟩ := fails_error _ hf
    have hc : classify (tokens.headD []) = Verb.Watch := by rw [hcmd]; decide
    refine ⟨Thrown.stoul e, ?_⟩
    intro sh hsh
    unfold dispatch
    simp only [hc, if_neg (Nat.not_lt.mpr hlen), he, viaStoul]
  · obtain ⟨⟨hcmd, hlen⟩, hf⟩ := h
    obtain ⟨e, he⟩ := fails_error _ hf
    have hc : classify (tokens.headD []) = Verb.Delete := by
      rcases hcmd with hcmd | hcmd <;> rw [hcmd] <;> decide
    refine ⟨Thrown.stoul e, ?_⟩
    intro sh hsh
    unfold dispatch
    simp only [hc, if_neg (Nat.not_lt.mpr hlen), he, viaStoul]
  · obtain ⟨⟨hcmd, hlen⟩, hf⟩ := h
    have hc : classify (tokens.headD []) = Verb.Mem := by
      rcases hcmd with hcmd | hcmd <;> rw [hcmd] <;> decide
    cases ha : ParseAddress (tokens.getD 1 []) with
    | error e =>
      refine ⟨Thrown.stoul e, ?_⟩
      intro sh hsh
      unfold dispatch
      simp only [hc, if_neg (Nat.not_lt.mpr hlen), ha, viaStoul]
    | ok addr =>
      rw [ha] at hf
      rcases hf with hf | hf
      · simp [fails] at hf
      · obtain ⟨e, he⟩ := fails_error _ hf.2
        refine ⟨Thrown.stoul e, ?_⟩
        intro sh hsh
        unfold dispatch
        simp only [hc, if_neg (Nat.not_lt.mpr hlen), ha, viaStoul, if_pos hf.1, he]
  · obtain ⟨⟨hcmd, hlen⟩, hf⟩ := h
    have hc : classify (tokens.headD []) = Verb.Set := by rw [hcmd]; decide
    cases ha : ParseAddress (tokens.getD 1 []) with
    | error e =>
      refine ⟨Thrown.stoul e, ?_⟩
      intro sh hsh
      unfold dispatch
      simp only [hc, if_neg (Nat.not_lt.mpr hlen), ha, viaStoul]
    | ok addr =>
      rw [ha] at hf
      rcases hf with hf | hf
      · simp [fails] at hf
      · obtain ⟨e, he⟩ := fails_error _ hf
        refine ⟨Thrown.stoul e, ?_⟩
        intro sh hsh
        unfold dispatch
        simp only [hc, if_neg (Nat.not_lt.mpr hlen), ha, viaStoul, he]
  · obtain ⟨⟨hcmd, hlen⟩, hf⟩ := h
    have hc : classify (tokens.headD []) = Verb.Disasm := by
      rcases hcmd with hcmd | hcmd <;> rw [hcmd] <;> decide
    cases ha : ParseAddress (tokens.getD 1 []) with
    | error e =>
      refine ⟨Thrown.stoul e, ?_⟩
      intro sh hsh
      unfold dispatch
      simp only [hc, disasmCommand, if_pos hlen, ha, viaStoul]
    | ok addr =>
      rw [ha] at hf
      rcases hf with hf | hf
      · simp [fails] at hf
      · obtain ⟨e, he⟩ := fails_error _ hf.2
        refine ⟨Thrown.stoi e, ?_⟩
        intro sh hsh
        unfold dispatch
        simp only [hc, disasmCommand, if_pos hlen, ha, viaStoul, if_pos hf.1, he, viaStoi]
  · obtain ⟨⟨⟨hcmd, hany⟩, hlen⟩, hf⟩ := h
    have hc : classify (tokens.headD []) = Verb.Other := classify_other _ hcmd
    have hsome : ∃ r, regions.find?
        (fun r => decide (tokens.headD [] = r.shortName.toList)) = some r := by
      cases hfind : regions.find?
          (fun r => decide (tokens.headD [] = r.shortName.toList)) with
      | some r => exact ⟨r, rfl⟩
      | none =>
        exfalso
        rw [List.find?_eq_none] at hfind
        rw [List.any_eq_true] at hany
        obtain ⟨r, hr, hrr⟩ := hany
        exact hfind r hr hrr
    obtain ⟨r, hr⟩ := hsome
    cases ha : ParseAddress (tokens.getD 1 []) with
    | error e =>
      refine ⟨Thrown.stoul e, ?_⟩
      intro sh hsh
      unfold dispatch
      simp only [hc, regionCommand, hsh, hr, if_pos hlen, ha, viaStoul]
    | ok addr =>
      rw [ha] at hf
      rcases hf with hf | hf
      · simp [fails] at hf
      · obtain ⟨e, he⟩ := fails_error _ hf.2
        refine ⟨Thrown.stoul e, ?_⟩
        intro sh hsh
        unfold dispatch
        simp only [hc, regionCommand, hsh, hr, if_pos hlen, ha, viaStoul, if_pos hf.1, he]

end DebuggerCli

/-- C24: a line that is a command whose address or numeric argument fails to parse
(`argumentFails`) makes the round end after writing `Error: ` and the text of the exception
to standard error; the data members of the shell (breakpoints, id counter, quit flag, the
emulator with the breakpoint set pushed to it), the bridge, the recorded calls on bridge and
core, standard output and the files are unchanged, and the loop goes on with the next
line. -/
theorem parse_failure_is_reported (GetCpuMemoryType : CpuType → MemoryType)
    (memTypeCode : MemoryType → Nat) (what : Thrown → String) (w : ShellWorld) (sh : Shell)
    (line : List Char)
    (hfail : argumentFails (ConsoleInfo.GetMemoryRegions sh.cli._consoleType)
      (DebuggerCli.Tokenize line) = true) :
    ∃ e, DebuggerCli.execLine GetCpuMemoryType memTypeCode what w sh line =
        (sh.printErr ("Error: " ++ what e ++ "\n"), true) ∧
      (sh.printErr ("Error: " ++ what e ++ "\n")).cli = sh.cli ∧
      (sh.printErr ("Error: " ++ what e ++ "\n")).listener = sh.listener ∧
      (sh.printErr ("Error: " ++ what e ++ "\n")).log = sh.log ∧
      (sh.printErr ("Error: " ++ what e ++ "\n")).io.stdout = sh.io.stdout ∧
      (sh.printErr ("Error: " ++ what e ++ "\n")).io.files = sh.io.files ∧
      ∀ rest, sh.cli._quit = false →
        DebuggerCli.runLoop GetCpuMemoryType memTypeCode what ((w, line) :: rest) sh =
          DebuggerCli.runLoop GetCpuMemoryType memTypeCode what rest
            ((sh.print "(mesen) ").printErr ("Error: " ++ what e ++ "\n")) := by
  have hne : DebuggerCli.Tokenize line ≠ [] := by
    have := argumentFails_length _ _ hfail
    intro h0
    rw [h0] at this
    simp at this
  obtain ⟨e, he⟩ := DebuggerCli.dispatch_argument_fails GetCpuMemoryType memTypeCode w _
    (DebuggerCli.Tokenize line) hfail
  refine ⟨e, DebuggerCli.execLine_threw _ _ _ _ _ _ _ _ hne (he sh rfl), rfl, rfl, rfl, rfl,
    rfl, ?_⟩
  intro rest hq
  exact DebuggerCli.runLoop_next _ _ _ _ _ _ _ _ hq
    (DebuggerCli.execLine_threw _ _ _ _ _ _ _ _ hne (he (sh.print "(mesen) ") rfl))

/-- C24 on the line `break zz` of an NES shell: the exception of `std::stoul` is reported and
the shell keeps its state. -/
theorem parse_failure_is_reported_witness :
    argumentFails (ConsoleInfo.GetMemoryRegions sampleShell.cli._consoleType)
      (DebuggerCli.Tokenize "break zz".toList) = true ∧
    DebuggerCli.execLine (fun _ => MemoryType.Other 0) (fun _ => 0) (fun _ => "stoul")
        (sampleCore []) sampleShell "break zz".toList =
      (sampleShell.printErr ("Error: " ++ "stoul" ++ "\n"), true) := by
  obtain ⟨e, h, _⟩ :=
    parse_failure_is_reported (fun _ => MemoryType.Other 0) (fun _ => 0) (fun _ => "stoul")
      (sampleCore []) sampleShell "break zz".toList (by decide)
  exact ⟨by decide, h⟩
/-! ## The region command: clamping of the length -/

theorem readAndPrint_blocked (w : ShellWorld) (sh : Shell) (memType : MemoryType)
    (addr len stop : Nat) (hstop : toU32 (addr + len + (2 ^ 32 - 1)) = stop)
    (h : Formatter.FormatMemoryHex (len / 16 + 2) (w.GetMemoryValues memType addr stop) len
      addr = none) :
    DebuggerCli.readAndPrint w sh memType addr len =
      (sh.act (CoreAction.GetMemoryValues memType addr stop), Ending.blocked) := by
  unfold DebuggerCli.readAndPrint
  simp only [hstop, h]

theorem readAndPrint_returned (w : ShellWorld) (sh : Shell) (memType : MemoryType)
    (addr len stop : Nat) (text : String) (hstop : toU32 (addr + len + (2 ^ 32 - 1)) = stop)
    (h : Formatter.FormatMemoryHex (len / 16 + 2) (w.GetMemoryValues memType addr stop) len
      addr = some text) :
    DebuggerCli.readAndPrint w sh memType addr len =
      ((sh.act (CoreAction.GetMemoryValues memType addr stop)).print text,
        Ending.returned) := by
  unfold DebuggerCli.readAndPrint
  simp only [hstop, h]

theorem CmdMemTyped_inside (w : ShellWorld) (sh : Shell) (addr len size : Nat)
    (memType : MemoryType) (label : String) (hdbg : w.dbgRequest = true)
    (hs : toU32 (w.GetMemorySize memType) = size) (haddr : addr < size) :
    DebuggerCli.CmdMemTyped w sh addr len memType label =
      DebuggerCli.readAndPrint w (sh.act (CoreAction.GetMemorySize memType)) memType addr
        (if toU32 (addr + len) > size then size - addr else len) := by
  unfold DebuggerCli.CmdMemTyped
  have h0 : ¬ size = 0 := by omega
  have h1 : ¬ addr ≥ size := by omega
  simp only [hdbg, Bool.not_true, Bool.false_eq_true, if_false, hs, h0, h1]

/-- C26 fails where the 32-bit arithmetic of `CmdMemTyped` wraps. In a region of `0x800`
bytes, at the address `0x10` with the requested length `0xFFFFFFF8` (the line
`ram 10 4294967288` on NES), the sum `addr + len` wraps to 8, the length is not clamped,
`GetMemoryValues` is called with the end address 7 (below the start) and `FormatMemoryHex` is
given the length `0xFFFFFFF8`, on which it never returns. With the requested length 0 at the
address 0 the end address `addr + len - 1` wraps to `0xFFFFFFFF`, far beyond the region. -/
theorem CmdMemTyped_length_wraps (sh : Shell) (memType : MemoryType) (label : String) :
    DebuggerCli.CmdMemTyped (sampleCore []) sh 0x10 0xFFFFFFF8 memType label =
      ((sh.act (CoreAction.GetMemorySize memType)).act
        (CoreAction.GetMemoryValues memType 0x10 7), Ending.blocked) ∧
    DebuggerCli.CmdMemTyped (sampleCore []) sh 0 0 memType label =
      (((sh.act (CoreAction.GetMemorySize memType)).act
        (CoreAction.GetMemoryValues memType 0 0xFFFFFFFF)).print "", Ending.returned) ∧
    DebuggerCli.dispatch (fun _ => MemoryType.Other 0) (fun _ => 0) (sampleCore []) sampleShell
        (DebuggerCli.Tokenize "ram 10 4294967288".toList) =
      DebuggerCli.CmdMemTyped (sampleCore []) sampleShell 0x10 0xFFFFFFF8
        MemoryType.NesInternalRam "Internal RAM" := by
  refine ⟨?_, ?_, ?_⟩
  · rw [CmdMemTyped_inside (sampleCore []) sh 0x10 0xFFFFFFF8 0x800 memType label rfl rfl
      (by decide)]
    rw [if_neg (by decide)]
    exact readAndPrint_blocked (sampleCore []) _ memType 0x10 0xFFFFFFF8 7 (by decide)
      (memoryHexLoop_never_ends [] 0xFFFFFFF8 0x10 (by decide) (0xFFFFFFF8 / 16 + 2) 0 "" rfl
        (by decide))
  · rw [CmdMemTyped_inside (sampleCore []) sh 0 0 0x800 memType label rfl rfl (by decide)]
    rw [if_neg (by decide)]
    exact readAndPrint_returned (sampleCore []) _ memType 0 0 0xFFFFFFFF "" (by decide)
      rfl
  · have ht : DebuggerCli.Tokenize "ram 10 4294967288".toList =
        ["ram".toList, "10".toList, "4294967288".toList] := by decide
    have hc : DebuggerCli.classify "ram".toList = DebuggerCli.Verb.Other := by decide
    have hfind : (ConsoleInfo.GetMemoryRegions sampleShell.cli._consoleType).find?
        (fun r => decide ("ram".toList = r.shortName.toList)) =
        some ⟨MemoryType.NesInternalRam, "Internal RAM", "ram"⟩ := by decide
    have ha : ParseAddress "10".toList = Except.ok 0x10 := by decide
    have hl : stoul "4294967288".toList 10 = Except.ok 0xFFFFFFF8 := by decide
    have hu : toU32 0xFFFFFFF8 = 0xFFFFFFF8 := by decide
    rw [ht]
    unfold DebuggerCli.dispatch
    simp only [List.headD_cons, hc]
    unfold DebuggerCli.regionCommand
    simp only [List.headD_cons, hfind, List.length_cons, List.length_nil, List.getD_cons_succ,
      List.getD_cons_zero, ha, hl, DebuggerCli.viaStoul]
    rw [if_pos (by decide), if_pos (by decide)]
    simp only [hu]

theorem CmdMemTyped_out_of_range (w : ShellWorld) (sh : Shell) (addr len : Nat)
    (memType : MemoryType) (label : String) (hdbg : w.dbgRequest = true)
    (hsize : 0 < toU32 (w.GetMemorySize memType))
    (haddr : toU32 (w.GetMemorySize memType) ≤ addr) :
    DebuggerCli.CmdMemTyped w sh addr len memType label =
      ((sh.act (CoreAction.GetMemorySize memType)).print
        ("Address $" ++ fmtHexUpper 4 addr ++ " out of range (size: $" ++
          fmtHexUpper 0 (toU32 (w.GetMemorySize memType)) ++ " / " ++
          fmtDec (toU32 (w.GetMemorySize memType)) ++ " bytes)\n"), Ending.returned) := by
  unfold DebuggerCli.CmdMemTyped
  have h0 : ¬ toU32 (w.GetMemorySize memType) = 0 := by omega
  simp only [hdbg, Bool.not_true, Bool.false_eq_true, if_false, h0, ge_iff_le, haddr, if_true]

/-- Apart from the wrap-around of C26: for a requested length of at least 1 with
`addr + len` below `2^32`, in a region of at most `2^32 - 16` bytes, an address inside the
region makes `CmdMemTyped` read the range from `addr` to `addr + min len (size - addr) - 1`,
which ends inside the region, and print the dump of `min len (size - addr)` bytes. -/
theorem CmdMemTyped_clamps (w : ShellWorld) (sh : Shell) (addr len : Nat)
    (memType : MemoryType) (label : String) (hdbg : w.dbgRequest = true)
    (haddr : addr < toU32 (w.GetMemorySize memType))
    (hsize : toU32 (w.GetMemorySize memType) ≤ 2 ^ 32 - 16)
    (hlen : 1 ≤ len) (hsum : addr + len < 2 ^ 32) :
    ∃ text,
      Formatter.FormatMemoryHex (min len (toU32 (w.GetMemorySize memType) - addr) / 16 + 2)
        (w.GetMemoryValues memType addr
          (addr + min len (toU32 (w.GetMemorySize memType) - addr) - 1))
        (min len (toU32 (w.GetMemorySize memType) - addr)) addr = some text ∧
      DebuggerCli.CmdMemTyped w sh addr len memType label =
        (((sh.act (CoreAction.GetMemorySize memType)).act
          (CoreAction.GetMemoryValues memType addr
            (addr + min len (toU32 (w.GetMemorySize memType) - addr) - 1))).print text,
          Ending.returned) ∧
      addr + min len (toU32 (w.GetMemorySize memType) - addr) - 1 ≤
        toU32 (w.GetMemorySize memType) - 1 := by
  generalize hs : toU32 (w.GetMemorySize memType) = size at haddr hsize
  have hlen1 : (if toU32 (addr + len) > size then size - addr else len) =
      min len (size - addr) := by
    have : toU32 (addr + len) = addr + len := Nat.mod_eq_of_lt hsum
    rw [this]
    by_cases hc : addr + len > size
    · rw [if_pos hc]; omega
    · rw [if_neg hc]; omega
  have hstop : toU32 (addr + min len (size - addr) + (2 ^ 32 - 1)) =
      addr + min len (size - addr) - 1 := by
    unfold toU32
    omega
  have hfmt := FormatMemoryHex_rows
    (w.GetMemoryValues memType addr (addr + min len (size - addr) - 1))
    (min len (size - addr)) addr (min len (size - addr) / 16 + 2) (by omega) (by omega)
  refine ⟨_, hfmt, ?_, by omega⟩
  rw [CmdMemTyped_inside w sh addr len size memType label hdbg hs haddr, hlen1]
  exact readAndPrint_returned w _ memType addr _ _ _ hstop hfmt
/-! ## The order of the calls on the bridge and the core -/

namespace DebuggerCli

theorem PrintState_log (w : ShellWorld) (sh : Shell) :
    (PrintState w sh).log = sh.log ++ stateActions w sh.cli := by
  unfold PrintState stateActions
  cases hs : w.dbgState with
  | false => simp
  | true =>
    cases hj : sh.cli._jsonOutput with
    | true => simp [hj, Shell.print, Shell.act]
    | false =>
      cases hd : w.dbgDisasmAtPC with
      | false => simp [hj, hd, PrintDisassemblyAtPC, Shell.print, Shell.act]
      | true => simp [hj, hd, PrintDisassemblyAtPC, Shell.print, Shell.act]

theorem waitAndPrint_log (w : ShellWorld) (sh : Shell) (timeoutMs : Int) :
    (waitAndPrint w sh timeoutMs).1.log =
      sh.log ++ [CoreAction.WaitForBreak timeoutMs] ++
        (if (sh.listener.WaitForBreak timeoutMs w.arriving).isSome then stateActions w sh.cli
         else []) := by
  unfold waitAndPrint
  simp only [Shell.act]
  cases hw : sh.listener.WaitForBreak timeoutMs w.arriving with
  | none => simp
  | some res => simp [PrintState_log]

theorem waitAndPrint_ending (w : ShellWorld) (sh : Shell) (timeoutMs : Int) :
    (waitAndPrint w sh timeoutMs).2 =
      (if (sh.listener.WaitForBreak timeoutMs w.arriving).isSome then Ending.returned
       else Ending.blocked) := by
  unfold waitAndPrint
  simp only [Shell.act]
  cases hw : sh.listener.WaitForBreak timeoutMs w.arriving with
  | none => simp
  | some res => simp

theorem stateActions_no_reset (w : ShellWorld) (cli : DebuggerCli) :
    CoreAction.Reset ∉ stateActions w cli := by
  unfold stateActions
  cases w.dbgState <;> cases cli._jsonOutput <;> cases w.dbgDisasmAtPC <;> simp

theorem stateActions_head (w : ShellWorld) (cli : DebuggerCli) :
    (stateActions w cli = [] ∧ w.dbgState = false) ∨
    (∃ rest, stateActions w cli = CoreAction.GetCpuState cli._primaryCpu :: rest ∧
      w.dbgState = true) := by
  unfold stateActions
  cases w.dbgState
  · exact Or.inl ⟨rfl, rfl⟩
  · exact Or.inr ⟨_, rfl, rfl⟩

end DebuggerCli

/-- The dump loop with its calls recorded writes what `runDumps` writes, and records reads
of the memory dumper only. -/
theorem runDumpsLogged_eq (w : BatchWorld) (jsonOutput : Bool) (dumps : List MemoryDump) :
    ∀ (i : Nat) (io : Streams) (log : List BatchAction),
      ∃ more, runDumpsLogged w jsonOutput dumps i io log =
          (runDumps w jsonOutput dumps i io, log ++ more) ∧
        ∀ a ∈ more, a.isMemoryRead = true := by
  induction dumps with
  | nil => intro i io log; exact ⟨[], by simp [runDumpsLogged, runDumps], by simp⟩
  | cons d rest ih =>
    intro i io log
    unfold runDumpsLogged runDumps
    by_cases h1 : (!w.dbgAtDump i) = true
    · simp only [h1, if_true]
      exact ih _ _ _
    · simp only [h1, if_false]
      by_cases h2 : toU32 (w.GetMemorySize d.memType) = 0
      · simp only [h2, if_true]
        obtain ⟨more, hm, hr⟩ := ih (i + 1)
          { io with stderr := io.stderr ++ "Warning: memory type not available for dump to " ++
              d.filename ++ "\n" } (log ++ [BatchAction.GetMemorySize d.memType])
        refine ⟨BatchAction.GetMemorySize d.memType :: more, ?_, ?_⟩
        · rw [hm]; simp
        · intro a ha
          rcases List.mem_cons.1 ha with rfl | ha
          · rfl
          · exact hr a ha
      · simp only [h2, if_false]
        by_cases h3 : (!w.fileOpens d.filename) = true
        · simp only [h3, if_true]
          obtain ⟨more, hm, hr⟩ := ih (i + 1)
            { io with stderr := io.stderr ++ "Error: could not open " ++ d.filename ++
                " for writing\n" }
            (log ++ [BatchAction.GetMemorySize d.memType] ++
              [BatchAction.GetMemoryState d.memType])
          refine ⟨BatchAction.GetMemorySize d.memType ::
            BatchAction.GetMemoryState d.memType :: more, ?_, ?_⟩
          · rw [hm]; simp
          · intro a ha
            rcases List.mem_cons.1 ha with rfl | ha
            · rfl
            · rcases List.mem_cons.1 ha with rfl | ha
              · rfl
              · exact hr a ha
        · simp only [h3, if_false]
          by_cases h4 : (!jsonOutput) = true
          · simp only [h4, if_true]
            obtain ⟨more, hm, hr⟩ := ih (i + 1)
              { io with
                files := io.files ++ [(d.filename, w.GetMemoryState d.memType)],
                stderr := io.stderr ++ "Dumped " ++
                  fmtDec (toU32 (w.GetMemorySize d.memType)) ++ " bytes to " ++
                  d.filename ++ "\n" }
              (log ++ [BatchAction.GetMemorySize d.memType] ++
                [BatchAction.GetMemoryState d.memType])
            refine ⟨BatchAction.GetMemorySize d.memType ::
              BatchAction.GetMemoryState d.memType :: more, ?_, ?_⟩
            · rw [hm]; simp
            · intro a ha
              rcases List.mem_cons.1 ha with rfl | ha
              · rfl
              · rcases List.mem_cons.1 ha with rfl | ha
                · rfl
                · exact hr a ha
          · simp only [h4, if_false]
            obtain ⟨more, hm, hr⟩ := ih (i + 1)
              { io with files := io.files ++ [(d.filename, w.GetMemoryState d.memType)] }
              (log ++ [BatchAction.GetMemorySize d.memType] ++
                [BatchAction.GetMemoryState d.memType])
            refine ⟨BatchAction.GetMemorySize d.memType ::
              BatchAction.GetMemoryState d.memType :: more, ?_, ?_⟩
            · rw [hm]; simp
            · intro a ha
              rcases List.mem_cons.1 ha with rfl | ha
              · rfl
              · rcases List.mem_cons.1 ha with rfl | ha
                · rfl
                · exact hr a ha

/-- The assertion loop with its calls recorded ends as `runChecks` ends, and records reads of
the memory dumper only. -/
theorem runChecksLogged_eq (w : BatchWorld) (primaryCpu : CpuType) (jsonOutput : Bool)
    (cpuMemType : MemoryType) (checks : List BatchAssertion) :
    ∀ (i : Nat) (acc : Bool × Streams) (log : List BatchAction),
      ∃ more, runChecksLogged w primaryCpu jsonOutput cpuMemType checks i acc log =
          (log ++ more, runChecks w primaryCpu jsonOutput cpuMemType checks i acc) ∧
        ∀ a ∈ more, a.isMemoryRead = true := by
  induction checks with
  | nil => intro i acc log; exact ⟨[], by simp [runChecksLogged, runChecks], by simp⟩
  | cons check rest ih =>
    intro i acc log
    unfold runChecksLogged runChecks
    by_cases h1 : check.type = AssertionType.Reg
    · simp only [h1, if_true]
      cases hg : GetRegisterValue primaryCpu check.name w.stateBuffer with
      | error e => exact ⟨[], by simp, by simp⟩
      | ok res =>
        obtain ⟨actual, found⟩ := res
        simp only []
        by_cases h2 : (!found) = true
        · simp only [h2, if_true]
          exact ih _ _ _
        · simp only [h2, if_false]
          exact ih _ _ _
    · simp only [h1, if_false]
      by_cases h2 : (!w.dbgAtCheck i) = true
      · simp only [h2, if_true]
        exact ih _ _ _
      · simp only [h2, if_false]
        obtain ⟨more, hm, hr⟩ := ih (i + 1)
          (report jsonOutput ("[$" ++ fmtHexUpper 6 check.address ++ "]")
            (if check.size = 2 then toU16 (w.GetMemoryValue16 cpuMemType check.address)
              else w.GetMemoryValue cpuMemType check.address % 2 ^ 8) check.expected acc)
          (log ++ [if check.size = 2 then BatchAction.GetMemoryValue16 cpuMemType check.address
            else BatchAction.GetMemoryValue cpuMemType check.address])
        refine ⟨(if check.size = 2 then BatchAction.GetMemoryValue16 cpuMemType check.address
            else BatchAction.GetMemoryValue cpuMemType check.address) :: more, ?_, ?_⟩
        · rw [hm]; simp
        · intro a ha
          rcases List.mem_cons.1 ha with rfl | ha
          · split_ifs <;> rfl
          · exact hr a ha

/-- The outcome of `BatchRunner::Run` with its calls recorded is the outcome of
`BatchRunner.Run`; with the debugger there at the start the calls recorded are `Reset`, `Run`
and `WaitForBreak` with the timeout, then, exactly when the wait returns `true` and the
debugger is still there, `GetCpuState` and after it reads of the memory dumper only; without
the debugger at the start nothing is called. -/
theorem RunLogged_spec (GetCpuMemoryType : CpuType → MemoryType)
    (FormatRegisters FormatRegistersJson : CpuType → StateBuffer → String)
    (w : BatchWorld) (r : BatchRunner) :
    (BatchRunner.RunLogged GetCpuMemoryType FormatRegisters FormatRegistersJson w r).2 =
      BatchRunner.Run GetCpuMemoryType FormatRegisters FormatRegistersJson w r ∧
    (w.dbgAtStart = false →
      (BatchRunner.RunLogged GetCpuMemoryType FormatRegisters FormatRegistersJson w r).1 =
        []) ∧
    (w.dbgAtStart = true →
      ∃ more,
        (BatchRunner.RunLogged GetCpuMemoryType FormatRegisters FormatRegistersJson w r).1 =
          [BatchAction.Reset, BatchAction.Run, BatchAction.WaitForBreak r._timeoutMs] ++
            (if (r._listener.Reset.WaitForBreak r._timeoutMs w.arriving).any
                  (fun res => res.1) = true ∧ w.dbgAfterWait = true then
              BatchAction.GetCpuState r._primaryCpu :: more else []) ∧
        ∀ a ∈ more, a.isMemoryRead = true) := by
  cases h0 : w.dbgAtStart with
  | false =>
    refine ⟨?_, fun _ => ?_, fun h => absurd h (by decide)⟩ <;>
      simp [BatchRunner.RunLogged, BatchRunner.Run, h0]
  | true =>
    suffices key :
        (BatchRunner.RunLogged GetCpuMemoryType FormatRegisters FormatRegistersJson w r).2 =
          BatchRunner.Run GetCpuMemoryType FormatRegisters FormatRegistersJson w r ∧
        ∃ more,
          (BatchRunner.RunLogged GetCpuMemoryType FormatRegisters FormatRegistersJson w r).1 =
            [BatchAction.Reset, BatchAction.Run, BatchAction.WaitForBreak r._timeoutMs] ++
              (if (r._listener.Reset.WaitForBreak r._timeoutMs w.arriving).any
                    (fun res => res.1) = true ∧ w.dbgAfterWait = true then
                BatchAction.GetCpuState r._primaryCpu :: more else []) ∧
          ∀ a ∈ more, a.isMemoryRead = true from
      ⟨key.1, fun h => absurd h (by decide), fun _ => key.2⟩
    unfold BatchRunner.RunLogged BatchRunner.Run
    simp only [h0, Bool.not_true, Bool.false_eq_true, if_false]
    cases hw : r._listener.Reset.WaitForBreak r._timeoutMs w.arriving with
    | none => exact ⟨rfl, [], by simp, by simp⟩
    | some res =>
      obtain ⟨hit, l⟩ := res
      cases hit with
      | false => exact ⟨by simp, [], by simp, by simp⟩
      | true =>
        cases h2 : w.dbgAfterWait with
        | false => exact ⟨by simp, [], by simp, by simp⟩
        | true =>
          simp only [Bool.not_true, Bool.false_eq_true, if_false, Option.any_some, and_self,
            if_true]
          obtain ⟨m1, hd, hr1⟩ := runDumpsLogged_eq w r._jsonOutput r._dumps 0
            { stdout := (if r._jsonOutput = true then
                FormatRegistersJson r._primaryCpu w.stateBuffer
              else FormatRegisters r._primaryCpu w.stateBuffer) ++ "\n" }
            ([BatchAction.Reset, BatchAction.Run, BatchAction.WaitForBreak r._timeoutMs] ++
              [BatchAction.GetCpuState r._primaryCpu])
          rw [hd]
          cases he : r._assertions.isEmpty with
          | true =>
            simp only [if_true]
            exact ⟨by first | rfl | trivial, m1, by simp, hr1⟩
          | false =>
            simp only [Bool.false_eq_true, if_false]
            obtain ⟨m2, hc, hr2⟩ := runChecksLogged_eq w r._primaryCpu r._jsonOutput
              (GetCpuMemoryType r._primaryCpu) r._assertions 0
              (true, runDumps w r._jsonOutput r._dumps 0
                { stdout := (if r._jsonOutput = true then
                    FormatRegistersJson r._primaryCpu w.stateBuffer
                  else FormatRegisters r._primaryCpu w.stateBuffer) ++ "\n" })
              ([BatchAction.Reset, BatchAction.Run,
                  BatchAction.WaitForBreak r._timeoutMs] ++
                [BatchAction.GetCpuState r._primaryCpu] ++ m1)
            rw [hc]
            cases hres : runChecks w r._primaryCpu r._jsonOutput
                (GetCpuMemoryType r._primaryCpu) r._assertions 0
                (true, runDumps w r._jsonOutput r._dumps 0
                  { stdout := (if r._jsonOutput = true then
                      FormatRegistersJson r._primaryCpu w.stateBuffer
                    else FormatRegisters r._primaryCpu w.stateBuffer) ++ "\n" }) with
            | error e =>
              refine ⟨by rfl, m1 ++ m2, by simp, ?_⟩
              intro a ha
              rcases List.mem_append.1 ha with ha | ha
              · exact hr1 a ha
              · exact hr2 a ha
            | ok res =>
              obtain ⟨allPassed, io1⟩ := res
              refine ⟨by rfl, m1 ++ m2, by simp, ?_⟩
              intro a ha
              rcases List.mem_append.1 ha with ha | ha
              · exact hr1 a ha
              · exact hr2 a ha

/-- C30 as stated fails: a control request is issued, but no state capture follows. In the
batch runner with a timeout of one second and no stop, the calls are `Reset`, `Run`,
`WaitForBreak(1000)` and `Run` returns the exit code 2; in the shell, `run` without a stop
never returns from `WaitForBreak(0)`; and `step` captures nothing when the debugger is gone
after the wait. -/
theorem control_request_without_state_capture :
    (BatchRunner.RunLogged (fun _ => MemoryType.Other 0) (fun _ _ => "") (fun _ _ => "")
        (sampleWorld []) (sampleRunner CpuType.Nes 1000 [])).1 =
      [BatchAction.Reset, BatchAction.Run, BatchAction.WaitForBreak 1000] ∧
    (∃ res, (BatchRunner.RunLogged (fun _ => MemoryType.Other 0) (fun _ _ => "")
        (fun _ _ => "") (sampleWorld []) (sampleRunner CpuType.Nes 1000 [])).2 =
          Outcome.returned res ∧
      res.exitCode = 2) ∧
    (∃ res, BatchRunner.Run (fun _ => MemoryType.Other 0) (fun _ _ => "") (fun _ _ => "")
        (sampleWorld []) (sampleRunner CpuType.Nes 1000 []) = Outcome.returned res ∧
      res.exitCode = 2) ∧
    (DebuggerCli.CmdRun (sampleCore []) sampleShell).2 = Ending.blocked ∧
    (DebuggerCli.CmdRun (sampleCore []) sampleShell).1.log =
      [CoreAction.Reset, CoreAction.Run, CoreAction.WaitForBreak 0] ∧
    DebuggerCli.CmdStep { sampleCore [ConsoleNotificationType.CodeBreak] with dbgState := false }
        sampleShell 1 =
      ({ sampleShell with
          log := [CoreAction.Reset, CoreAction.Step CpuType.Nes 1 StepType.Step,
            CoreAction.WaitForBreak 5000] }, Ending.returned) := by
  refine ⟨by decide, ⟨_, rfl, by decide⟩, ⟨_, rfl, by decide⟩, by decide, by decide,
    by decide⟩

/-- C30, amended: in every execution of `step`, `next`, `finish`, `run` and `frames` in which
the debugger is there for the control request, and in every execution of `BatchRunner::Run`
that finds the debugger at its start, the calls recorded are `Reset`, then the control
request, then `WaitForBreak`, in this order and with nothing between them; the calls of
`PrintState`, which start with the state capture `GetCpuState` and contain no `Reset`, follow
exactly when the wait returns and the debugger is still there. In the batch runner, whose
outcome is that of `BatchRunner.Run`, the state capture `GetCpuState` follows exactly when
the wait returns `true` and the debugger is still there, and after it come only reads of the
memory dumper. -/
theorem control_request_follows_reset (w : ShellWorld) (sh : Shell) (count : Int)
    (GetCpuMemoryType : CpuType → MemoryType)
    (FormatRegisters FormatRegistersJson : CpuType → StateBuffer → String)
    (bw : BatchWorld) (r : BatchRunner)
    (hreq : w.dbgRequest = true) (hstart : bw.dbgAtStart = true) :
    (DebuggerCli.CmdStep w sh count).1.log =
      sh.log ++ [CoreAction.Reset, CoreAction.Step sh.cli._primaryCpu count StepType.Step,
        CoreAction.WaitForBreak 5000] ++
        (if (sh.listener.Reset.WaitForBreak 5000 w.arriving).isSome then
          DebuggerCli.stateActions w sh.cli else []) ∧
    (DebuggerCli.CmdNext w sh).1.log =
      sh.log ++ [CoreAction.Reset, CoreAction.Step sh.cli._primaryCpu 1 StepType.StepOver,
        CoreAction.WaitForBreak 5000] ++
        (if (sh.listener.Reset.WaitForBreak 5000 w.arriving).isSome then
          DebuggerCli.stateActions w sh.cli else []) ∧
    (DebuggerCli.CmdFinish w sh).1.log =
      sh.log ++ [CoreAction.Reset, CoreAction.Step sh.cli._primaryCpu 1 StepType.StepOut,
        CoreAction.WaitForBreak 30000] ++
        (if (sh.listener.Reset.WaitForBreak 30000 w.arriving).isSome then
          DebuggerCli.stateActions w sh.cli else []) ∧
    (DebuggerCli.CmdRun w sh).1.log =
      sh.log ++ [CoreAction.Reset, CoreAction.Run, CoreAction.WaitForBreak 0] ++
        (if (sh.listener.Reset.WaitForBreak 0 w.arriving).isSome then
          DebuggerCli.stateActions w sh.cli else []) ∧
    (DebuggerCli.CmdFrames w sh count).1.log =
      sh.log ++ [CoreAction.Reset, CoreAction.Step sh.cli._primaryCpu count StepType.PpuFrame,
        CoreAction.WaitForBreak (wrapI32 (count * 1000 + 5000))] ++
        (if (sh.listener.Reset.WaitForBreak (wrapI32 (count * 1000 + 5000))
            w.arriving).isSome then
          DebuggerCli.stateActions w sh.cli else []) ∧
    ((BatchRunner.RunLogged GetCpuMemoryType FormatRegisters FormatRegistersJson bw r).2 =
        BatchRunner.Run GetCpuMemoryType FormatRegisters FormatRegistersJson bw r ∧
      ∃ more,
        (BatchRunner.RunLogged GetCpuMemoryType FormatRegisters FormatRegistersJson bw r).1 =
          [BatchAction.Reset, BatchAction.Run, BatchAction.WaitForBreak r._timeoutMs] ++
            (if (r._listener.Reset.WaitForBreak r._timeoutMs bw.arriving).any
                  (fun res => res.1) = true ∧ bw.dbgAfterWait = true then
              BatchAction.GetCpuState r._primaryCpu :: more else []) ∧
        ∀ a ∈ more, a.isMemoryRead = true) ∧
    CoreAction.Reset ∉ DebuggerCli.stateActions w sh.cli ∧
    ((DebuggerCli.stateActions w sh.cli = [] ∧ w.dbgState = false) ∨
      (∃ rest, DebuggerCli.stateActions w sh.cli =
          CoreAction.GetCpuState sh.cli._primaryCpu :: rest ∧ w.dbgState = true)) := by
  have hrun := RunLogged_spec GetCpuMemoryType FormatRegisters FormatRegistersJson bw r
  refine ⟨?_, ?_, ?_, ?_, ?_, ⟨hrun.1, hrun.2.2 hstart⟩,
    DebuggerCli.stateActions_no_reset w sh.cli, DebuggerCli.stateActions_head w sh.cli⟩
  · unfold DebuggerCli.CmdStep
    rw [DebuggerCli.waitAndPrint_log]
    simp [hreq, DebuggerCli.resetBridge, Shell.act]
  · unfold DebuggerCli.CmdNext
    rw [DebuggerCli.waitAndPrint_log]
    simp [hreq, DebuggerCli.resetBridge, Shell.act]
  · unfold DebuggerCli.CmdFinish
    rw [DebuggerCli.waitAndPrint_log]
    simp [hreq, DebuggerCli.resetBridge, Shell.act]
  · unfold DebuggerCli.CmdRun
    rw [DebuggerCli.waitAndPrint_log]
    simp [hreq, DebuggerCli.resetBridge, Shell.act, Shell.print]
  · unfold DebuggerCli.CmdFrames
    rw [DebuggerCli.waitAndPrint_log]
    simp [hreq, DebuggerCli.resetBridge, Shell.act]

/-- C30 on the NES shell `sampleShell` and the batch runner `sampleRunner`, with a code break
arriving during the wait: `step 2` is `Reset`, `Step`, `WaitForBreak(5000)`, then the state
capture and the disassembly at the program counter; the batch run with a memory assertion is
`Reset`, `Run`, `WaitForBreak(1000)`, the state capture and the read of the assertion. -/
theorem control_request_follows_reset_witness :
    (DebuggerCli.CmdStep (sampleCore [ConsoleNotificationType.CodeBreak]) sampleShell 2).1.log =
      [CoreAction.Reset, CoreAction.Step CpuType.Nes 2 StepType.Step,
        CoreAction.WaitForBreak 5000, CoreAction.GetCpuState CpuType.Nes,
        CoreAction.GetProgramCounter CpuType.Nes,
        CoreAction.GetDisassemblyOutput CpuType.Nes 0x8000 3] ∧
    (BatchRunner.RunLogged (fun _ => MemoryType.Other 0) Formatter.FormatRegisters
        Formatter.FormatRegistersJson (sampleWorld [ConsoleNotificationType.CodeBreak])
        (sampleRunner CpuType.Nes 1000 [⟨AssertionType.Mem, [], 0x10, 0x10, 1⟩])).1 =
      [BatchAction.Reset, BatchAction.Run, BatchAction.WaitForBreak 1000,
        BatchAction.GetCpuState CpuType.Nes,
        BatchAction.GetMemoryValue (MemoryType.Other 0) 0x10] := by
  have h := (control_request_follows_reset (sampleCore [ConsoleNotificationType.CodeBreak])
    sampleShell 2 (fun _ => MemoryType.Other 0) Formatter.FormatRegisters
    Formatter.FormatRegistersJson (sampleWorld [ConsoleNotificationType.CodeBreak])
    (sampleRunner CpuType.Nes 1000 [⟨AssertionType.Mem, [], 0x10, 0x10, 1⟩]) rfl rfl).1
  rw [h]
  exact ⟨by decide, by decide⟩

/-- The list `builtinVerbs` holds exactly the first tokens the `if` chain of `Run` accepts
before its final `else`. -/
theorem classify_other_iff (cmd : List Char) :
    DebuggerCli.classify cmd = DebuggerCli.Verb.Other ↔ cmd ∉ DebuggerCli.builtinVerbs := by
  constructor
  · intro h hm
    have hall : ∀ s ∈ DebuggerCli.builtinVerbs,
        DebuggerCli.classify s ≠ DebuggerCli.Verb.Other := by decide
    exact hall cmd hm h
  · exact DebuggerCli.classify_other cmd

/-! ## The two address parsers -/

theorem toU32_lt (n : Nat) : toU32 n < 2 ^ 32 := Nat.mod_lt _ (by decide)

theorem ParseAddress_lt (s : List Char) (v : Nat) (h : ParseAddress s = Except.ok v) :
    v < 2 ^ 32 := by
  cases hf : find s ':' with
  | none =>
    rw [ParseAddress_of_no_colon s hf] at h
    cases hs : stoul (stripPrefix s) 16 with
    | error e => rw [hs] at h; cases h
    | ok a =>
      rw [hs] at h
      injection h with h
      rw [← h]
      exact toU32_lt a
  | some colon =>
    rw [ParseAddress_of_colon s colon hf] at h
    cases hb : stoul (s.take colon) 16 with
    | error e => rw [hb] at h; cases h
    | ok bank =>
      rw [hb] at h
      cases ha : stoul (s.drop (colon + 1)) 16 with
      | error e => rw [ha] at h; cases h
      | ok addr =>
        rw [ha] at h
        injection h with h
        rw [← h]
        apply Nat.or_lt_two_pow (toU32_lt _)
        exact Nat.lt_of_le_of_lt Nat.and_le_right (by decide)

/-- C36: for every string, `ParseAddr` of the command-line front end and
`DebuggerCli::ParseAddress` give the same result: either both throw, the same exception, or
both return the same value, which is below `2^32`. -/
theorem ParseAddr_agrees_with_ParseAddress (s : List Char) :
    ParseAddr s = ParseAddress s ∧
    ((∃ e, ParseAddr s = Except.error e ∧ ParseAddress s = Except.error e) ∨
      (∃ v, v < 2 ^ 32 ∧ ParseAddr s = Except.ok v ∧ ParseAddress s = Except.ok v)) := by
  have heq : ParseAddr s = ParseAddress s := rfl
  refine ⟨heq, ?_⟩
  rw [heq]
  cases h : ParseAddress s with
  | error e => exact Or.inl ⟨e, rfl, rfl⟩
  | ok v => exact Or.inr ⟨v, ParseAddress_lt s v h, rfl, rfl⟩

/-! ## The unbounded wait -/

/-- C33: for every bridge state and every sequence of notifications processed during the
wait, `WaitForBreak(0)` never returns `false`. It returns exactly when the pending flag is
set, before the call or by a notification during the wait; it then returns `true` and leaves
the pending flag cleared; otherwise it never returns. A negative timeout behaves as 0. -/
theorem WaitForBreak_zero_never_false (l : CliNotificationListener)
    (arriving : List ConsoleNotificationType) :
    (∀ res, l.WaitForBreak 0 arriving = some res →
      res.1 = true ∧ res.2._breakOccurred = false ∧
        (l._breakOccurred = true ∨ (l.deliver arriving)._breakOccurred = true)) ∧
    ((l.WaitForBreak 0 arriving).isSome = true ↔
      (l._breakOccurred = true ∨ (l.deliver arriving)._breakOccurred = true)) ∧
    (∀ timeoutMs : Int, timeoutMs ≤ 0 →
      l.WaitForBreak timeoutMs arriving = l.WaitForBreak 0 arriving) := by
  refine ⟨?_, ?_, ?_⟩
  · intro res hres
    unfold CliNotificationListener.WaitForBreak at hres
    by_cases h1 : l._breakOccurred = true
    · rw [if_pos h1] at hres
      injection hres with hres
      rw [← hres]
      exact ⟨rfl, rfl, Or.inl h1⟩
    · rw [if_neg h1] at hres
      simp only [gt_iff_lt, lt_irrefl, if_false] at hres
      by_cases h2 : (l.deliver arriving)._breakOccurred = true
      · rw [if_pos h2] at hres
        injection hres with hres
        rw [← hres]
        exact ⟨rfl, rfl, Or.inr h2⟩
      · rw [if_neg h2] at hres
        cases hres
  · unfold CliNotificationListener.WaitForBreak
    by_cases h1 : l._breakOccurred = true
    · rw [if_pos h1]
      simp [h1]
    · rw [if_neg h1]
      simp only [gt_iff_lt, lt_irrefl, if_false]
      by_cases h2 : (l.deliver arriving)._breakOccurred = true
      · rw [if_pos h2]
        simp [h2]
      · rw [if_neg h2]
        simp [h1, h2]
  · intro timeoutMs ht
    unfold CliNotificationListener.WaitForBreak
    have h0 : ¬ timeoutMs > 0 := by omega
    simp only [h0, gt_iff_lt, lt_irrefl, if_false]

/-- C33 on a fresh bridge: with a code break arriving during the wait, `WaitForBreak(0)`
returns `true` with the pending flag cleared; without any notification it does not return. -/
theorem WaitForBreak_zero_never_false_witness :
    (({} : CliNotificationListener).WaitForBreak 0 [ConsoleNotificationType.CodeBreak] =
        some (true, {}) ∧
      (true = true ∧ ({} : CliNotificationListener)._breakOccurred = false ∧
        (({} : CliNotificationListener)._breakOccurred = true ∨
          (({} : CliNotificationListener).deliver
            [ConsoleNotificationType.CodeBreak])._breakOccurred = true))) ∧
    ({} : CliNotificationListener).WaitForBreak 0 [] = none :=
  ⟨⟨by decide,
    (WaitForBreak_zero_never_false {} [ConsoleNotificationType.CodeBreak]).1 (true, {})
      (by decide)⟩, by decide⟩

/-! ## The exit code does not depend on the dumps -/

/-- The verdict of the assertion loop (`allPassed`, or the exception) depends on the
snapshot, the memory reads and the assertions only, not on the output mode or on what has been
written so far. -/
theorem runChecks_verdict (w1 w2 : BatchWorld) (cpu : CpuType) (j1 j2 : Bool)
    (cpuMemType : MemoryType) (hsb : w1.stateBuffer = w2.stateBuffer)
    (hdc : w1.dbgAtCheck = w2.dbgAtCheck) (hmv : w1.GetMemoryValue = w2.GetMemoryValue)
    (hmv16 : w1.GetMemoryValue16 = w2.GetMemoryValue16) (checks : List BatchAssertion) :
    ∀ (i : Nat) (acc1 acc2 : Bool × Streams), acc1.1 = acc2.1 →
      (runChecks w1 cpu j1 cpuMemType checks i acc1).map Prod.fst =
        (runChecks w2 cpu j2 cpuMemType checks i acc2).map Prod.fst := by
  induction checks with
  | nil =>
    intro i acc1 acc2 h
    simp only [runChecks, Except.map, h]
  | cons check rest ih =>
    intro i acc1 acc2 h
    simp only [runChecks]
    by_cases ht : check.type = AssertionType.Reg
    · rw [if_pos ht, if_pos ht, ← hsb]
      cases hg : GetRegisterValue cpu check.name w1.stateBuffer with
      | error e => rfl
      | ok res =>
        obtain ⟨actual, found⟩ := res
        cases found with
        | false =>
          simp only [Bool.not_false, if_true]
          exact ih _ _ _ rfl
        | true =>
          simp only [Bool.not_true, Bool.false_eq_true, if_false]
          apply ih
          rw [report_fst, report_fst, h]
    · rw [if_neg ht, if_neg ht, ← hdc, ← hmv, ← hmv16]
      cases w1.dbgAtCheck i with
      | false =>
        simp only [Bool.not_false, if_true]
        exact ih _ _ _ rfl
      | true =>
        simp only [Bool.not_true, Bool.false_eq_true, if_false]
        apply ih
        rw [report_fst, report_fst, h]

/-- C35: two runs of `BatchRunner::Run` that agree on the debugger availability at the
start, after the wait and at the memory assertions, on the notifications, the CPU snapshot,
the memory reads, the bridge, the CPU type, the timeout and the assertion list have the same
exit status (the same exit code, the same exception, or both never return), whatever the
dump requests, the region sizes and contents, the files that can be opened, the output mode
and the renderings of the registers. -/
theorem exit_code_independent_of_dumps (GetCpuMemoryType : CpuType → MemoryType)
    (FormatRegisters1 FormatRegistersJson1 FormatRegisters2 FormatRegistersJson2 :
      CpuType → StateBuffer → String)
    (w1 w2 : BatchWorld) (r1 r2 : BatchRunner)
    (hstart : w1.dbgAtStart = w2.dbgAtStart) (harr : w1.arriving = w2.arriving)
    (hafter : w1.dbgAfterWait = w2.dbgAfterWait) (hsb : w1.stateBuffer = w2.stateBuffer)
    (hdc : w1.dbgAtCheck = w2.dbgAtCheck) (hmv : w1.GetMemoryValue = w2.GetMemoryValue)
    (hmv16 : w1.GetMemoryValue16 = w2.GetMemoryValue16)
    (hl : r1._listener = r2._listener) (hcpu : r1._primaryCpu = r2._primaryCpu)
    (htime : r1._timeoutMs = r2._timeoutMs) (hchecks : r1._assertions = r2._assertions) :
    exitCodeOf (BatchRunner.Run GetCpuMemoryType FormatRegisters1 FormatRegistersJson1 w1 r1) =
      exitCodeOf
        (BatchRunner.Run GetCpuMemoryType FormatRegisters2 FormatRegistersJson2 w2 r2) := by
  unfold BatchRunner.Run
  rw [← hstart, ← harr, ← hafter, ← hl, ← htime, ← hchecks, ← hcpu]
  cases w1.dbgAtStart with
  | false => rfl
  | true =>
    simp only [Bool.not_true, Bool.false_eq_true, if_false]
    cases r1._listener.Reset.WaitForBreak r1._timeoutMs w1.arriving with
    | none => rfl
    | some res =>
      obtain ⟨hit, l⟩ := res
      cases hit with
      | false => rfl
      | true =>
        cases w1.dbgAfterWait with
        | false => rfl
        | true =>
          simp only [Bool.not_true, Bool.false_eq_true, if_false]
          cases r1._assertions.isEmpty with
          | true => rfl
          | false =>
            simp only [Bool.false_eq_true, if_false]
            have hv := runChecks_verdict w1 w2 r1._primaryCpu r1._jsonOutput r2._jsonOutput
              (GetCpuMemoryType r1._primaryCpu) hsb hdc hmv hmv16 r1._assertions 0
              (true, runDumps w1 r1._jsonOutput r1._dumps 0
                { stdout := (if r1._jsonOutput = true then
                    FormatRegistersJson1 r1._primaryCpu w1.stateBuffer
                  else FormatRegisters1 r1._primaryCpu w1.stateBuffer) ++ "\n" })
              (true, runDumps w2 r2._jsonOutput r2._dumps 0
                { stdout := (if r2._jsonOutput = true then
                    FormatRegistersJson2 r1._primaryCpu w2.stateBuffer
                  else FormatRegisters2 r1._primaryCpu w2.stateBuffer) ++ "\n" })
              rfl
            revert hv
            cases runChecks w1 r1._primaryCpu r1._jsonOutput (GetCpuMemoryType r1._primaryCpu)
                r1._assertions 0
                (true, runDumps w1 r1._jsonOutput r1._dumps 0
                  { stdout := (if r1._jsonOutput = true then
                      FormatRegistersJson1 r1._primaryCpu w1.stateBuffer
                    else FormatRegisters1 r1._primaryCpu w1.stateBuffer) ++ "\n" }) with
            | error e1 =>
              cases runChecks w2 r1._primaryCpu r2._jsonOutput (GetCpuMemoryType r1._primaryCpu)
                  r1._assertions 0
                  (true, runDumps w2 r2._jsonOutput r2._dumps 0
                    { stdout := (if r2._jsonOutput = true then
                        FormatRegistersJson2 r1._primaryCpu w2.stateBuffer
                      else FormatRegisters2 r1._primaryCpu w2.stateBuffer) ++ "\n" }) with
              | error e2 =>
                intro hv
                simp only [Except.map, Except.error.injEq] at hv
                simp only [exitCodeOf, hv]
              | ok p2 => intro hv; simp [Except.map] at hv
            | ok p1 =>
              cases runChecks w2 r1._primaryCpu r2._jsonOutput (GetCpuMemoryType r1._primaryCpu)
                  r1._assertions 0
                  (true, runDumps w2 r2._jsonOutput r2._dumps 0
                    { stdout := (if r2._jsonOutput = true then
                        FormatRegistersJson2 r1._primaryCpu w2.stateBuffer
                      else FormatRegisters2 r1._primaryCpu w2.stateBuffer) ++ "\n" }) with
              | error e2 => intro hv; simp [Except.map] at hv
              | ok p2 =>
                intro hv
                obtain ⟨a1, io1⟩ := p1
                obtain ⟨a2, io2⟩ := p2
                simp only [Except.map, Except.ok.injEq] at hv
                simp only [exitCodeOf, hv]

/-- C35 on an NES run that stops at once with one passing and one failing assertion: in text
mode without dumps, and in JSON mode with a dump of a region of size zero and a dump to a
file that cannot be opened, the exit code is 1. -/
theorem exit_code_independent_of_dumps_witness :
    exitCodeOf (BatchRunner.Run (fun _ => MemoryType.Other 0) Formatter.FormatRegisters
        Formatter.FormatRegistersJson (sampleWorld [ConsoleNotificationType.CodeBreak])
        (sampleRunner CpuType.Nes 1000
          [⟨AssertionType.Reg, ['a'], 0, 0x12, 2⟩, ⟨AssertionType.Reg, ['x'], 0, 1, 2⟩])) =
      exitCodeOf (BatchRunner.Run (fun _ => MemoryType.Other 0) Formatter.FormatRegisters
        Formatter.FormatRegistersJson
        { sampleWorld [ConsoleNotificationType.CodeBreak] with
          GetMemorySize := fun t => if t = 1 then 0 else 4,
          fileOpens := fun _ => false }
        { sampleRunner CpuType.Nes 1000
            [⟨AssertionType.Reg, ['a'], 0, 0x12, 2⟩, ⟨AssertionType.Reg, ['x'], 0, 1, 2⟩] with
          _jsonOutput := true,
          _dumps := [⟨1, "a.bin"⟩, ⟨2, "b.bin"⟩] }) ∧
    exitCodeOf (BatchRunner.Run (fun _ => MemoryType.Other 0) Formatter.FormatRegisters
        Formatter.FormatRegistersJson (sampleWorld [ConsoleNotificationType.CodeBreak])
        (sampleRunner CpuType.Nes 1000
          [⟨AssertionType.Reg, ['a'], 0, 0x12, 2⟩, ⟨AssertionType.Reg, ['x'], 0, 1, 2⟩])) =
      Outcome.returned 1 :=
  ⟨exit_code_independent_of_dumps (fun _ => MemoryType.Other 0) Formatter.FormatRegisters
      Formatter.FormatRegistersJson Formatter.FormatRegisters Formatter.FormatRegistersJson
      (sampleWorld [ConsoleNotificationType.CodeBreak])
      { sampleWorld [ConsoleNotificationType.CodeBreak] with
        GetMemorySize := fun t => if t = 1 then 0 else 4,
        fileOpens := fun _ => false }
      (sampleRunner CpuType.Nes 1000
        [⟨AssertionType.Reg, ['a'], 0, 0x12, 2⟩, ⟨AssertionType.Reg, ['x'], 0, 1, 2⟩])
      { sampleRunner CpuType.Nes 1000
          [⟨AssertionType.Reg, ['a'], 0, 0x12, 2⟩, ⟨AssertionType.Reg, ['x'], 0, 1, 2⟩] with
        _jsonOutput := true,
        _dumps := [⟨1, "a.bin"⟩, ⟨2, "b.bin"⟩] }
      rfl rfl rfl rfl rfl rfl rfl rfl rfl rfl rfl, rfl⟩

/-! ## Every breakpoint of the shell is enabled -/

namespace DebuggerCli

end DebuggerCli

/-- In the region table of every console the short names are pairwise distinct, none is a
verb or abbreviation of the `if` chain of `Run`, and the search of `Run` for a short name of
the table finds its own entry. -/
theorem region_table_facts (console : ConsoleType) :
    ((ConsoleInfo.GetMemoryRegions console).map (fun r => r.shortName)).Nodup ∧
    (∀ r ∈ ConsoleInfo.GetMemoryRegions console,
      r.shortName.toList ∉ DebuggerCli.builtinVerbs) ∧
    (∀ r ∈ ConsoleInfo.GetMemoryRegions console,
      (ConsoleInfo.GetMemoryRegions console).find?
        (fun r' => decide (r.shortName.toList = r'.shortName.toList)) = some r) := by
  cases console with
  | Snes => exact ⟨by decide, by decide, by decide⟩
  | Gameboy => exact ⟨by decide, by decide, by decide⟩
  | Nes => exact ⟨by decide, by decide, by decide⟩
  | PcEngine => exact ⟨by decide, by decide, by decide⟩
  | Sms => exact ⟨by decide, by decide, by decide⟩
  | Gba => exact ⟨by decide, by decide, by decide⟩
  | Ws => exact ⟨by decide, by decide, by decide⟩

/-- C31: for every console and every entry of its region table, a token list whose first
token is the entry's short name is dispatched to `CmdMemTyped` with the memory type and the
name of exactly that entry, the address being the second token parsed by `ParseAddress` or 0
without one, and the length the third token parsed by `std::stoul` or 256 without one; a
parse failure leaves by the exception instead. Within one console the short names are
pairwise distinct and none of them is a verb or abbreviation of the `if` chain. -/
theorem region_alias_dispatch (GetCpuMemoryType : CpuType → MemoryType)
    (memTypeCode : MemoryType → Nat) (w : ShellWorld) (sh : Shell)
    (r : ConsoleInfo.MemoryRegion) (tokens : List (List Char))
    (hr : r ∈ ConsoleInfo.GetMemoryRegions sh.cli._consoleType)
    (hcmd : tokens.headD [] = r.shortName.toList) :
    DebuggerCli.dispatch GetCpuMemoryType memTypeCode w sh tokens =
      (match (if tokens.length > 1 then
          DebuggerCli.viaStoul (ParseAddress (tokens.getD 1 [])) else Except.ok 0) with
      | Except.error e => (sh, Ending.threw e)
      | Except.ok addr =>
        match (if tokens.length > 2 then
            DebuggerCli.viaStoul (stoul (tokens.getD 2 []) 10) else Except.ok 256) with
        | Except.error e => (sh, Ending.threw e)
        | Except.ok len => DebuggerCli.CmdMemTyped w sh addr (toU32 len) r.type r.name) ∧
    (tokens.length = 1 →
      DebuggerCli.dispatch GetCpuMemoryType memTypeCode w sh tokens =
        DebuggerCli.CmdMemTyped w sh 0 256 r.type r.name) ∧
    ((ConsoleInfo.GetMemoryRegions sh.cli._consoleType).map (fun r => r.shortName)).Nodup ∧
    (∀ r' ∈ ConsoleInfo.GetMemoryRegions sh.cli._consoleType,
      r'.shortName.toList ∉ DebuggerCli.builtinVerbs) := by
  obtain ⟨hnd, hverb, hfind⟩ := region_table_facts sh.cli._consoleType
  have hc : DebuggerCli.classify (tokens.headD []) = DebuggerCli.Verb.Other := by
    rw [hcmd]
    exact DebuggerCli.classify_other _ (hverb r hr)
  have hmain : DebuggerCli.dispatch GetCpuMemoryType memTypeCode w sh tokens =
      (match (if tokens.length > 1 then
          DebuggerCli.viaStoul (ParseAddress (tokens.getD 1 [])) else Except.ok 0) with
      | Except.error e => (sh, Ending.threw e)
      | Except.ok addr =>
        match (if tokens.length > 2 then
            DebuggerCli.viaStoul (stoul (tokens.getD 2 []) 10) else Except.ok 256) with
        | Except.error e => (sh, Ending.threw e)
        | Except.ok len => DebuggerCli.CmdMemTyped w sh addr (toU32 len) r.type r.name) := by
    unfold DebuggerCli.dispatch
    simp only [hc]
    unfold DebuggerCli.regionCommand
    simp only [hcmd, hfind r hr]
    try rfl
  refine ⟨hmain, ?_, hnd, hverb⟩
  intro hlen
  rw [hmain]
  have h1 : ¬ tokens.length > 1 := by omega
  have h2 : ¬ tokens.length > 2 := by omega
  have hu : toU32 256 = 256 := by decide
  simp only [h1, h2, if_false, hu]

/-- C31 on the NES shell: the line `oam` is the dump of the first 256 bytes of the sprite
RAM. -/
theorem region_alias_dispatch_witness :
    DebuggerCli.dispatch (fun _ => MemoryType.Other 0) (fun _ => 0) (sampleCore []) sampleShell
        (DebuggerCli.Tokenize "oam".toList) =
      DebuggerCli.CmdMemTyped (sampleCore []) sampleShell 0 256 MemoryType.NesSpriteRam
        "Sprite RAM" :=
  (region_alias_dispatch (fun _ => MemoryType.Other 0) (fun _ => 0) (sampleCore []) sampleShell
    ⟨MemoryType.NesSpriteRam, "Sprite RAM", "oam"⟩ (DebuggerCli.Tokenize "oam".toList)
    (by decide) (by decide)).2.1 (by decide)

/-! ## The timeout of `frames` -/

theorem wrapI32_of_range (i : Int) (h0 : 0 ≤ i) (h1 : i < 2 ^ 31) : wrapI32 i = i := by
  unfold wrapI32
  have hm : i % 2 ^ 32 = i := Int.emod_eq_of_lt h0 (by omega)
  rw [hm, toI32_of_lt i.toNat (by omega)]
  omega

/-- C34 fails for the frame counts below -4 and above 2147478. The line `frames -5` is
parsed (`std::stoi` accepts the sign), the timeout `-5 * 1000 + 5000` is 0, and
`WaitForBreak(0)` waits without bound: with no stop the command never returns. For the count
2147479 the sum exceeds the range of `int`; wrapped to 32 bits it is negative, which
`WaitForBreak` also takes as an unbounded wait. -/
theorem CmdFrames_waits_without_bound :
    DebuggerCli.CmdFrames (sampleCore []) sampleShell (-5) =
      ({ sampleShell with
          log := [CoreAction.Reset, CoreAction.Step CpuType.Nes (-5) StepType.PpuFrame,
            CoreAction.WaitForBreak 0] }, Ending.blocked) ∧
    (DebuggerCli.execLine (fun _ => MemoryType.Other 0) (fun _ => 0) (fun _ => "")
      (sampleCore []) sampleShell "frames -5".toList).2 = false ∧
    wrapI32 (2147479 * 1000 + 5000) = -2147483296 ∧
    (DebuggerCli.CmdFrames (sampleCore []) sampleShell 2147479).2 = Ending.blocked := by
  refine ⟨by decide, by decide, by decide, by decide⟩

/-- Apart from the counts of C34: for a frame count from -4 to 2147478 the timeout passed to
`WaitForBreak` is `count * 1000 + 5000` milliseconds, it is positive, and the command
returns. -/
theorem CmdFrames_bounded_wait (w : ShellWorld) (sh : Shell) (count : Int)
    (hlo : -4 ≤ count) (hhi : count ≤ 2147478) :
    wrapI32 (count * 1000 + 5000) = count * 1000 + 5000 ∧
    0 < count * 1000 + 5000 ∧
    CoreAction.WaitForBreak (count * 1000 + 5000) ∈ (DebuggerCli.CmdFrames w sh count).1.log ∧
    (DebuggerCli.CmdFrames w sh count).2 = Ending.returned := by
  have hw : wrapI32 (count * 1000 + 5000) = count * 1000 + 5000 :=
    wrapI32_of_range _ (by omega) (by omega)
  have hpos : 0 < count * 1000 + 5000 := by omega
  refine ⟨hw, hpos, ?_, ?_⟩
  · unfold DebuggerCli.CmdFrames
    simp only []
    rw [DebuggerCli.waitAndPrint_log, hw]
    simp
  · unfold DebuggerCli.CmdFrames
    simp only []
    rw [DebuggerCli.waitAndPrint_ending, hw]
    obtain ⟨res, hres⟩ := WaitForBreak_returns_of_pos
      (if w.dbgRequest = true then
        (DebuggerCli.resetBridge sh).act
          (CoreAction.Step sh.cli._primaryCpu count StepType.PpuFrame)
      else DebuggerCli.resetBridge sh).listener (count * 1000 + 5000) hpos w.arriving
    rw [hres]
    rfl

/-! ## The register keys of the JSON rendering and the register lookup -/

theorem gba_register_resolves (st : StateBuffer) (i : Nat) (hi : i < 16) :
    GetRegisterValue CpuType.Gba ('R' :: Nat.toDigits 10 i) st =
      Except.ok (toU16 (st.gba.R i), true) ∧
    GetRegisterValue CpuType.Gba ('r' :: Nat.toDigits 10 i) st =
      Except.ok (toU16 (st.gba.R i), true) := by
  interval_cases i <;> exact ⟨rfl, rfl⟩

theorem gbaKey_toList (i : Nat) : (gbaKey i).toList = 'r' :: Nat.toDigits 10 i := rfl

theorem keys_resolve_nes (st : StateBuffer) (key text : String)
    (hmem : (key, text) ∈ jsonRegisters CpuType.Nes st)
    (hex : key ∉ unresolvedKeys CpuType.Nes) :
    ∃ v, GetRegisterValue CpuType.Nes key.toList st = Except.ok (v, true) := by
  simp only [jsonRegisters, List.mem_cons, List.mem_singleton, Prod.mk.injEq,
    List.not_mem_nil, or_false] at hmem
  rcases hmem with ⟨rfl, rfl⟩ | ⟨rfl, rfl⟩ | ⟨rfl, rfl⟩ | ⟨rfl, rfl⟩ | ⟨rfl, rfl⟩ | ⟨rfl, rfl⟩
  · exact ⟨_, rfl⟩
  · exact ⟨_, rfl⟩
  · exact ⟨_, rfl⟩
  · exact ⟨_, rfl⟩
  · exact ⟨_, rfl⟩
  · exact ⟨_, rfl⟩

theorem keys_resolve_snes (st : StateBuffer) (key text : String)
    (hmem : (key, text) ∈ jsonRegisters CpuType.Snes st)
    (hex : key ∉ unresolvedKeys CpuType.Snes) :
    ∃ v, GetRegisterValue CpuType.Snes key.toList st = Except.ok (v, true) := by
  simp only [jsonRegisters, List.mem_cons, List.mem_singleton, Prod.mk.injEq,
    List.not_mem_nil, or_false] at hmem
  rcases hmem with hk | hk | hk | hk | hk | hk | hk | hk <;>
    obtain ⟨rfl, rfl⟩ := hk
  · exact ⟨_, rfl⟩
  · exact ⟨_, rfl⟩
  · exact ⟨_, rfl⟩
  · exact ⟨_, rfl⟩
  · exact ⟨_, rfl⟩
  · exact ⟨_, rfl⟩
  · exact ⟨_, rfl⟩
  · exact ⟨_, rfl⟩

theorem keys_resolve_sa1 (st : StateBuffer) (key text : String)
    (hmem : (key, text) ∈ jsonRegisters CpuType.Sa1 st)
    (hex : key ∉ unresolvedKeys CpuType.Sa1) :
    ∃ v, GetRegisterValue CpuType.Sa1 key.toList st = Except.ok (v, true) := by
  simp only [jsonRegisters, List.mem_cons, List.mem_singleton, Prod.mk.injEq,
    List.not_mem_nil, or_false] at hmem
  rcases hmem with hk | hk | hk | hk | hk | hk | hk | hk <;>
    obtain ⟨rfl, rfl⟩ := hk
  · exact ⟨_, rfl⟩
  · exact ⟨_, rfl⟩
  · exact ⟨_, rfl⟩
  · exact ⟨_, rfl⟩
  · exact ⟨_, rfl⟩
  · exact ⟨_, rfl⟩
  · exact ⟨_, rfl⟩
  · exact ⟨_, rfl⟩

theorem keys_resolve_gameboy (st : StateBuffer) (key text : String)
    (hmem : (key, text) ∈ jsonRegisters CpuType.Gameboy st)
    (hex : key ∉ unresolvedKeys CpuType.Gameboy) :
    ∃ v, GetRegisterValue CpuType.Gameboy key.toList st = Except.ok (v, true) := by
  simp only [jsonRegisters, List.mem_cons, List.mem_singleton, Prod.mk.injEq,
    List.not_mem_nil, or_false] at hmem
  rcases hmem with hk | hk | hk | hk | hk | hk | hk | hk | hk | hk <;>
    obtain ⟨rfl, rfl⟩ := hk
  · exact ⟨_, rfl⟩
  · exact ⟨_, rfl⟩
  · exact ⟨_, rfl⟩
  · exact ⟨_, rfl⟩
  · exact ⟨_, rfl⟩
  · exact ⟨_, rfl⟩
  · exact ⟨_, rfl⟩
  · exact ⟨_, rfl⟩
  · exact ⟨_, rfl⟩
  · exact ⟨_, rfl⟩

theorem keys_resolve_pce (st : StateBuffer) (key text : String)
    (hmem : (key, text) ∈ jsonRegisters CpuType.Pce st)
    (hex : key ∉ unresolvedKeys CpuType.Pce) :
    ∃ v, GetRegisterValue CpuType.Pce key.toList st = Except.ok (v, true) := by
  simp only [jsonRegisters, List.mem_cons, List.mem_singleton, Prod.mk.injEq,
    List.not_mem_nil, or_false] at hmem
  rcases hmem with ⟨rfl, rfl⟩ | ⟨rfl, rfl⟩ | ⟨rfl, rfl⟩ | ⟨rfl, rfl⟩ | ⟨rfl, rfl⟩ | ⟨rfl, rfl⟩
  · exact ⟨_, rfl⟩
  · exact ⟨_, rfl⟩
  · exact ⟨_, rfl⟩
  · exact ⟨_, rfl⟩
  · exact ⟨_, rfl⟩
  · exact ⟨_, rfl⟩

theorem keys_resolve_sms (st : StateBuffer) (key text : String)
    (hmem : (key, text) ∈ jsonRegisters CpuType.Sms st)
    (hex : key ∉ unresolvedKeys CpuType.Sms) :
    ∃ v, GetRegisterValue CpuType.Sms key.toList st = Except.ok (v, true) := by
  simp only [jsonRegisters, List.mem_cons, List.mem_singleton, Prod.mk.injEq,
    List.not_mem_nil, or_false] at hmem
  rcases hmem with hk | hk | hk | hk | hk | hk | hk | hk | hk | hk | hk | hk | hk | hk <;>
    obtain ⟨rfl, rfl⟩ := hk
  · exact ⟨_, rfl⟩
  · exact ⟨_, rfl⟩
  · exact ⟨_, rfl⟩
  · exact ⟨_, rfl⟩
  · exact ⟨_, rfl⟩
  · exact ⟨_, rfl⟩
  · exact ⟨_, rfl⟩
  · exact ⟨_, rfl⟩
  · exact ⟨_, rfl⟩
  · exact ⟨_, rfl⟩
  · exact ⟨_, rfl⟩
  · exact ⟨_, rfl⟩
  · exact absurd (by decide) hex
  · exact absurd (by decide) hex

theorem keys_resolve_ws (st : StateBuffer) (key text : String)
    (hmem : (key, text) ∈ jsonRegisters CpuType.Ws st)
    (hex : key ∉ unresolvedKeys CpuType.Ws) :
    ∃ v, GetRegisterValue CpuType.Ws key.toList st = Except.ok (v, true) := by
  simp only [jsonRegisters, List.mem_cons, List.mem_singleton, Prod.mk.injEq,
    List.not_mem_nil, or_false] at hmem
  rcases hmem with hk | hk | hk | hk | hk | hk | hk | hk | hk | hk | hk | hk | hk | hk <;>
    obtain ⟨rfl, rfl⟩ := hk
  · exact ⟨_, rfl⟩
  · exact ⟨_, rfl⟩
  · exact ⟨_, rfl⟩
  · exact ⟨_, rfl⟩
  · exact ⟨_, rfl⟩
  · exact ⟨_, rfl⟩
  · exact ⟨_, rfl⟩
  · exact ⟨_, rfl⟩
  · exact ⟨_, rfl⟩
  · exact ⟨_, rfl⟩
  · exact ⟨_, rfl⟩
  · exact ⟨_, rfl⟩
  · exact ⟨_, rfl⟩
  · exact absurd (by decide) hex

theorem keys_resolve_gba (st : StateBuffer) (key text : String)
    (hmem : (key, text) ∈ jsonRegisters CpuType.Gba st)
    (hex : key ∉ unresolvedKeys CpuType.Gba) :
    ∃ v, GetRegisterValue CpuType.Gba key.toList st = Except.ok (v, true) := by
  simp only [jsonRegisters, List.mem_append, List.mem_map, List.mem_range, List.mem_singleton,
    Prod.mk.injEq] at hmem
  rcases hmem with ⟨i, hi, hk, -⟩ | ⟨hk, -⟩
  · rw [← hk, gbaKey_toList]
    exact ⟨_, (gba_register_resolves st i hi).2⟩
  · exact absurd (by rw [hk]; decide) hex

/-- The lookup of the batch runner does not know the JSON register keys `i` and `r` on SMS,
`cpsr` on GBA and `flags` on WonderSwan: for each it returns 0 with `found = false`, whatever
the snapshot. -/
theorem json_key_unresolved (st : StateBuffer) :
    (("i", fmtHexLower 2 st.sms.I) ∈ jsonRegisters CpuType.Sms st ∧
      GetRegisterValue CpuType.Sms "i".toList st = Except.ok (0, false)) ∧
    (("r", fmtHexLower 2 st.sms.R) ∈ jsonRegisters CpuType.Sms st ∧
      GetRegisterValue CpuType.Sms "r".toList st = Except.ok (0, false)) ∧
    (("cpsr", fmtHexLower 8 (toU32 st.gba.CPSR.ToInt32)) ∈ jsonRegisters CpuType.Gba st ∧
      GetRegisterValue CpuType.Gba "cpsr".toList st = Except.ok (0, false)) ∧
    (("flags", fmtHexLower 4 (toU16 st.ws.Flags.Get)) ∈ jsonRegisters CpuType.Ws st ∧
      GetRegisterValue CpuType.Ws "flags".toList st = Except.ok (0, false)) :=
  ⟨⟨by simp [jsonRegisters], rfl⟩, ⟨by simp [jsonRegisters], rfl⟩,
    ⟨by simp [jsonRegisters], rfl⟩, ⟨by simp [jsonRegisters], rfl⟩⟩

/-- C32 as stated fails for four register keys of the JSON rendering, shown on the zeroed
snapshot: the lookup of the batch runner does not know `i` and `r` on SMS, `cpsr` on GBA and
`flags` on WonderSwan; for each it returns 0 with `found = false`. The entries of
`jsonRegisters` are the registers of the output of `FormatRegistersJson`. -/
theorem json_key_not_resolved :
    (("i", "00") ∈ jsonRegisters CpuType.Sms {} ∧
      GetRegisterValue CpuType.Sms "i".toList {} = Except.ok (0, false)) ∧
    (("r", "00") ∈ jsonRegisters CpuType.Sms {} ∧
      GetRegisterValue CpuType.Sms "r".toList {} = Except.ok (0, false)) ∧
    (("cpsr", "00000000") ∈ jsonRegisters CpuType.Gba {} ∧
      GetRegisterValue CpuType.Gba "cpsr".toList {} = Except.ok (0, false)) ∧
    (("flags", "0000") ∈ jsonRegisters CpuType.Ws {} ∧
      GetRegisterValue CpuType.Ws "flags".toList {} = Except.ok (0, false)) ∧
    (Formatter.FormatRegistersJson CpuType.Sms {} = (registersJson CpuType.Sms {}).render ∧
      (registersJson CpuType.Sms {}).member "registers" =
        some (Json.obj ((jsonRegisters CpuType.Sms {}).map (fun kt => (kt.1, Json.str kt.2)) ++
          [(flagsKey CpuType.Sms, Json.obj (jsonFlags CpuType.Sms {}))]))) :=
  ⟨(json_key_unresolved {}).1, (json_key_unresolved {}).2.1, (json_key_unresolved {}).2.2.1,
    (json_key_unresolved {}).2.2.2,
    FormatRegistersJson_eq_render CpuType.Sms {} rfl (by decide), rfl⟩

/-- C32, amended: for every supported architecture and every snapshot, every register key of
the JSON rendering other than `i` and `r` on SMS, `cpsr` on GBA and `flags` on WonderSwan is
a name the register lookup resolves with `found = true`; and on GBA each of `R0` to `R15`,
with `R` in either case, resolves to the low 16 bits of the register of that number. The
keys are those of `jsonRegisters`, the registers of the JSON value whose text
`FormatRegistersJson` returns for a snapshot whose members fit their types. -/
theorem json_keys_resolve (cpu : CpuType) (st : StateBuffer) (key text : String)
    (hmem : (key, text) ∈ jsonRegisters cpu st) (hex : key ∉ unresolvedKeys cpu) :
    (∃ v, GetRegisterValue cpu key.toList st = Except.ok (v, true)) ∧
    (∀ i, i < 16 →
      GetRegisterValue CpuType.Gba ('R' :: Nat.toDigits 10 i) st =
        Except.ok (toU16 (st.gba.R i), true) ∧
      GetRegisterValue CpuType.Gba ('r' :: Nat.toDigits 10 i) st =
        Except.ok (toU16 (st.gba.R i), true)) ∧
    (supported cpu = true → inRange cpu st = true →
      Formatter.FormatRegistersJson cpu st = (registersJson cpu st).render ∧
      (registersJson cpu st).member "registers" =
        some (Json.obj ((jsonRegisters cpu st).map (fun kt => (kt.1, Json.str kt.2)) ++
          [(flagsKey cpu, Json.obj (jsonFlags cpu st))]))) := by
  refine ⟨?_, fun i hi => gba_register_resolves st i hi,
    fun hs hin => ⟨FormatRegistersJson_eq_render cpu st hs hin, rfl⟩⟩
  cases cpu with
  | Nes => exact keys_resolve_nes st key text hmem hex
  | Snes => exact keys_resolve_snes st key text hmem hex
  | Sa1 => exact keys_resolve_sa1 st key text hmem hex
  | Gameboy => exact keys_resolve_gameboy st key text hmem hex
  | Gba => exact keys_resolve_gba st key text hmem hex
  | Pce => exact keys_resolve_pce st key text hmem hex
  | Sms => exact keys_resolve_sms st key text hmem hex
  | Ws => exact keys_resolve_ws st key text hmem hex
  | Spc => simp [jsonRegisters] at hmem
  | NecDsp => simp [jsonRegisters] at hmem
  | Gsu => simp [jsonRegisters] at hmem
  | Cx4 => simp [jsonRegisters] at hmem
  | St018 => simp [jsonRegisters] at hmem

/-- C32 on the SMS snapshot with `IXH = $12`, `IXL = $34`: the key `ix` of the JSON rendering
is resolved by the lookup, to `$1234`; and `R7` resolves on GBA. -/
theorem json_keys_resolve_witness :
    ("ix", "1234") ∈ jsonRegisters CpuType.Sms { sms := { IXH := 0x12, IXL := 0x34 } } ∧
    GetRegisterValue CpuType.Sms "ix".toList { sms := { IXH := 0x12, IXL := 0x34 } } =
      Except.ok (0x1234, true) ∧
    ∃ v, GetRegisterValue CpuType.Sms "ix".toList { sms := { IXH := 0x12, IXL := 0x34 } } =
      Except.ok (v, true) :=
  ⟨by decide, by decide,
    (json_keys_resolve CpuType.Sms { sms := { IXH := 0x12, IXL := 0x34 } } "ix" "1234"
      (by decide) (by decide)).1⟩

/-! ## The flags texts are injective -/

theorem byte_eq_of_testBit (a b : Nat) (ha : a < 2 ^ 8) (hb : b < 2 ^ 8)
    (h : ∀ k, k < 8 → a.testBit k = b.testBit k) : a = b := by
  apply Nat.eq_of_testBit_eq
  intro i
  by_cases hi : i < 8
  · exact h i hi
  · have h8 : (2 : Nat) ^ 8 ≤ 2 ^ i := Nat.pow_le_pow_right (by decide) (by omega)
    rw [Nat.testBit_eq_false_of_lt (Nat.lt_of_lt_of_le ha h8),
      Nat.testBit_eq_false_of_lt (Nat.lt_of_lt_of_le hb h8)]

theorem ite_char_injective (p q : Bool) (s c : Char) (hsc : s ≠ c)
    (h : (if p = true then s else c) = (if q = true then s else c)) : p = q := by
  cases p <;> cases q
  · rfl
  · simp at h; exact absurd h.symm hsc
  · simp at h; exact absurd h hsc
  · rfl

theorem FormatNesFlags_data (ps : Nat) :
    (Formatter.FormatNesFlags ps).data =
      [if ps.testBit 7 = true then 'N' else 'n',
       if ps.testBit 6 = true then 'V' else 'v',
       if ps.testBit 5 = true then '1' else '0',
       if ps.testBit 4 = true then 'B' else 'b',
       if ps.testBit 3 = true then 'D' else 'd',
       if ps.testBit 2 = true then 'I' else 'i',
       if ps.testBit 1 = true then 'Z' else 'z',
       if ps.testBit 0 = true then 'C' else 'c'] := by
  unfold Formatter.FormatNesFlags
  rw [flagChar_bit ps PSFlags.Negative 7 _ _ (by decide),
    flagChar_bit ps PSFlags.Overflow 6 _ _ (by decide),
    flagChar_bit ps PSFlags.Reserved 5 _ _ (by decide),
    flagChar_bit ps PSFlags.Break 4 _ _ (by decide),
    flagChar_bit ps PSFlags.Decimal 3 _ _ (by decide),
    flagChar_bit ps PSFlags.Interrupt 2 _ _ (by decide),
    flagChar_bit ps PSFlags.Zero 1 _ _ (by decide),
    flagChar_bit ps PSFlags.Carry 0 _ _ (by decide)]

theorem FormatNesFlags_injective (a b : Nat) (ha : a < 2 ^ 8) (hb : b < 2 ^ 8)
    (h : Formatter.FormatNesFlags a = Formatter.FormatNesFlags b) : a = b := by
  have hd := congrArg String.data h
  rw [FormatNesFlags_data, FormatNesFlags_data] at hd
  simp only [List.cons.injEq, and_true] at hd
  obtain ⟨h7, h6, h5, h4, h3, h2, h1, h0⟩ := hd
  apply byte_eq_of_testBit a b ha hb
  intro k hk
  interval_cases k
  · exact ite_char_injective _ _ _ _ (by decide) h0
  · exact ite_char_injective _ _ _ _ (by decide) h1
  · exact ite_char_injective _ _ _ _ (by decide) h2
  · exact ite_char_injective _ _ _ _ (by decide) h3
  · exact ite_char_injective _ _ _ _ (by decide) h4
  · exact ite_char_injective _ _ _ _ (by decide) h5
  · exact ite_char_injective _ _ _ _ (by decide) h6
  · exact ite_char_injective _ _ _ _ (by decide) h7

theorem FormatSnesFlags_data (ps : Nat) :
    (Formatter.FormatSnesFlags ps).data =
      [if ps.testBit 7 = true then 'N' else 'n',
       if ps.testBit 6 = true then 'V' else 'v',
       if ps.testBit 5 = true then 'M' else 'm',
       if ps.testBit 4 = true then 'X' else 'x',
       if ps.testBit 3 = true then 'D' else 'd',
       if ps.testBit 2 = true then 'I' else 'i',
       if ps.testBit 1 = true then 'Z' else 'z',
       if ps.testBit 0 = true then 'C' else 'c'] := by
  unfold Formatter.FormatSnesFlags
  rw [flagChar_bit ps ProcFlags.Negative 7 _ _ (by decide),
    flagChar_bit ps ProcFlags.Overflow 6 _ _ (by decide),
    flagChar_bit ps ProcFlags.MemoryMode8 5 _ _ (by decide),
    flagChar_bit ps ProcFlags.IndexMode8 4 _ _ (by decide),
    flagChar_bit ps ProcFlags.Decimal 3 _ _ (by decide),
    flagChar_bit ps ProcFlags.IrqDisable 2 _ _ (by decide),
    flagChar_bit ps ProcFlags.Zero 1 _ _ (by decide),
    flagChar_bit ps ProcFlags.Carry 0 _ _ (by decide)]

theorem FormatSnesFlags_injective (a b : Nat) (ha : a < 2 ^ 8) (hb : b < 2 ^ 8)
    (h : Formatter.FormatSnesFlags a = Formatter.FormatSnesFlags b) : a = b := by
  have hd := congrArg String.data h
  rw [FormatSnesFlags_data, FormatSnesFlags_data] at hd
  simp only [List.cons.injEq, and_true] at hd
  obtain ⟨h7, h6, h5, h4, h3, h2, h1, h0⟩ := hd
  apply byte_eq_of_testBit a b ha hb
  intro k hk
  interval_cases k
  · exact ite_char_injective _ _ _ _ (by decide) h0
  · exact ite_char_injective _ _ _ _ (by decide) h1
  · exact ite_char_injective _ _ _ _ (by decide) h2
  · exact ite_char_injective _ _ _ _ (by decide) h3
  · exact ite_char_injective _ _ _ _ (by decide) h4
  · exact ite_char_injective _ _ _ _ (by decide) h5
  · exact ite_char_injective _ _ _ _ (by decide) h6
  · exact ite_char_injective _ _ _ _ (by decide) h7

theorem FormatPceFlags_data (ps : Nat) :
    (Formatter.FormatPceFlags ps).data =
      [if ps.testBit 7 = true then 'N' else 'n',
       if ps.testBit 6 = true then 'V' else 'v',
       if ps.testBit 5 = true then 'T' else 't',
       if ps.testBit 4 = true then 'B' else 'b',
       if ps.testBit 3 = true then 'D' else 'd',
       if ps.testBit 2 = true then 'I' else 'i',
       if ps.testBit 1 = true then 'Z' else 'z',
       if ps.testBit 0 = true then 'C' else 'c'] := by
  unfold Formatter.FormatPceFlags
  rw [flagChar_bit ps PceCpuFlags.Negative 7 _ _ (by decide),
    flagChar_bit ps PceCpuFlags.Overflow 6 _ _ (by decide),
    flagChar_bit ps PceCpuFlags.Memory 5 _ _ (by decide),
    flagChar_bit ps PceCpuFlags.Break 4 _ _ (by decide),
    flagChar_bit ps PceCpuFlags.Decimal 3 _ _ (by decide),
    flagChar_bit ps PceCpuFlags.Interrupt 2 _ _ (by decide),
    flagChar_bit ps PceCpuFlags.Zero 1 _ _ (by decide),
    flagChar_bit ps PceCpuFlags.Carry 0 _ _ (by decide)]

theorem FormatPceFlags_injective (a b : Nat) (ha : a < 2 ^ 8) (hb : b < 2 ^ 8)
    (h : Formatter.FormatPceFlags a = Formatter.FormatPceFlags b) : a = b := by
  have hd := congrArg String.data h
  rw [FormatPceFlags_data, FormatPceFlags_data] at hd
  simp only [List.cons.injEq, and_true] at hd
  obtain ⟨h7, h6, h5, h4, h3, h2, h1, h0⟩ := hd
  apply byte_eq_of_testBit a b ha hb
  intro k hk
  interval_cases k
  · exact ite_char_injective _ _ _ _ (by decide) h0
  · exact ite_char_injective _ _ _ _ (by decide) h1
  · exact ite_char_injective _ _ _ _ (by decide) h2
  · exact ite_char_injective _ _ _ _ (by decide) h3
  · exact ite_char_injective _ _ _ _ (by decide) h4
  · exact ite_char_injective _ _ _ _ (by decide) h5
  · exact ite_char_injective _ _ _ _ (by decide) h6
  · exact ite_char_injective _ _ _ _ (by decide) h7

theorem FormatSmsFlags_data (ps : Nat) :
    (Formatter.FormatSmsFlags ps).data =
      [if ps.testBit 7 = true then 'S' else 's',
       if ps.testBit 6 = true then 'Z' else 'z',
       if ps.testBit 5 = true then '5' else '.',
       if ps.testBit 4 = true then 'H' else 'h',
       if ps.testBit 3 = true then '3' else '.',
       if ps.testBit 2 = true then 'P' else 'p',
       if ps.testBit 1 = true then 'N' else 'n',
       if ps.testBit 0 = true then 'C' else 'c'] := by
  unfold Formatter.FormatSmsFlags
  rw [flagChar_bit ps SmsCpuFlags.Sign 7 _ _ (by decide),
    flagChar_bit ps SmsCpuFlags.Zero 6 _ _ (by decide),
    flagChar_bit ps SmsCpuFlags.F5 5 _ _ (by decide),
    flagChar_bit ps SmsCpuFlags.HalfCarry 4 _ _ (by decide),
    flagChar_bit ps SmsCpuFlags.F3 3 _ _ (by decide),
    flagChar_bit ps SmsCpuFlags.Parity 2 _ _ (by decide),
    flagChar_bit ps SmsCpuFlags.AddSub 1 _ _ (by decide),
    flagChar_bit ps SmsCpuFlags.Carry 0 _ _ (by decide)]

theorem FormatSmsFlags_injective (a b : Nat) (ha : a < 2 ^ 8) (hb : b < 2 ^ 8)
    (h : Formatter.FormatSmsFlags a = Formatter.FormatSmsFlags b) : a = b := by
  have hd := congrArg String.data h
  rw [FormatSmsFlags_data, FormatSmsFlags_data] at hd
  simp only [List.cons.injEq, and_true] at hd
  obtain ⟨h7, h6, h5, h4, h3, h2, h1, h0⟩ := hd
  apply byte_eq_of_testBit a b ha hb
  intro k hk
  interval_cases k
  · exact ite_char_injective _ _ _ _ (by decide) h0
  · exact ite_char_injective _ _ _ _ (by decide) h1
  · exact ite_char_injective _ _ _ _ (by decide) h2
  · exact ite_char_injective _ _ _ _ (by decide) h3
  · exact ite_char_injective _ _ _ _ (by decide) h4
  · exact ite_char_injective _ _ _ _ (by decide) h5
  · exact ite_char_injective _ _ _ _ (by decide) h6
  · exact ite_char_injective _ _ _ _ (by decide) h7

/-- C39: the eight masks of each of the NES, SNES, PCE and SMS flag sets are the eight
single-bit masks of a byte, in the order of the flags text from bit 7 down to bit 0, and each
of `FormatNesFlags`, `FormatSnesFlags`, `FormatPceFlags` and `FormatSmsFlags` is injective on
bytes: two status bytes with the same text of 8 characters are equal. -/
theorem flags_text_injective (a b : Nat) (ha : a < 2 ^ 8) (hb : b < 2 ^ 8) :
    (Formatter.FormatNesFlags a = Formatter.FormatNesFlags b → a = b) ∧
    (Formatter.FormatSnesFlags a = Formatter.FormatSnesFlags b → a = b) ∧
    (Formatter.FormatPceFlags a = Formatter.FormatPceFlags b → a = b) ∧
    (Formatter.FormatSmsFlags a = Formatter.FormatSmsFlags b → a = b) ∧
    ((Formatter.FormatNesFlags a).length = 8 ∧ (Formatter.FormatSnesFlags a).length = 8 ∧
      (Formatter.FormatPceFlags a).length = 8 ∧ (Formatter.FormatSmsFlags a).length = 8) ∧
    [PSFlags.Negative, PSFlags.Overflow, PSFlags.Reserved, PSFlags.Break, PSFlags.Decimal,
      PSFlags.Interrupt, PSFlags.Zero, PSFlags.Carry] =
      [2 ^ 7, 2 ^ 6, 2 ^ 5, 2 ^ 4, 2 ^ 3, 2 ^ 2, 2 ^ 1, 2 ^ 0] ∧
    [ProcFlags.Negative, ProcFlags.Overflow, ProcFlags.MemoryMode8, ProcFlags.IndexMode8,
      ProcFlags.Decimal, ProcFlags.IrqDisable, ProcFlags.Zero, ProcFlags.Carry] =
      [2 ^ 7, 2 ^ 6, 2 ^ 5, 2 ^ 4, 2 ^ 3, 2 ^ 2, 2 ^ 1, 2 ^ 0] ∧
    [PceCpuFlags.Negative, PceCpuFlags.Overflow, PceCpuFlags.Memory, PceCpuFlags.Break,
      PceCpuFlags.Decimal, PceCpuFlags.Interrupt, PceCpuFlags.Zero, PceCpuFlags.Carry] =
      [2 ^ 7, 2 ^ 6, 2 ^ 5, 2 ^ 4, 2 ^ 3, 2 ^ 2, 2 ^ 1, 2 ^ 0] ∧
    [SmsCpuFlags.Sign, SmsCpuFlags.Zero, SmsCpuFlags.F5, SmsCpuFlags.HalfCarry, SmsCpuFlags.F3,
      SmsCpuFlags.Parity, SmsCpuFlags.AddSub, SmsCpuFlags.Carry] =
      [2 ^ 7, 2 ^ 6, 2 ^ 5, 2 ^ 4, 2 ^ 3, 2 ^ 2, 2 ^ 1, 2 ^ 0] :=
  ⟨FormatNesFlags_injective a b ha hb, FormatSnesFlags_injective a b ha hb,
    FormatPceFlags_injective a b ha hb, FormatSmsFlags_injective a b ha hb,
    ⟨rfl, rfl, rfl, rfl⟩, by decide, by decide, by decide, by decide⟩

/-- C39 on the status bytes `$AA` and `$AB`, which differ in the carry bit: their NES texts
`Nv1bDiZc` and `Nv1bDiZC` differ. -/
theorem flags_text_injective_witness :
    Formatter.FormatNesFlags 0xAA = "Nv1bDiZc" ∧ Formatter.FormatNesFlags 0xAB = "Nv1bDiZC" ∧
    (Formatter.FormatNesFlags 0xAA = Formatter.FormatNesFlags 0xAB → 0xAA = 0xAB) :=
  ⟨by decide, by decide, (flags_text_injective 0xAA 0xAB (by decide) (by decide)).1⟩

/-! ## The text and the JSON renderings agree on the flags -/

theorem toULong_dec_length (n : Nat) : (fmtDec (toULong n : Nat)).length ≤ 20 := by
  apply fmtDec_length_le _ 20 _ (by decide)
  have := Nat.mod_lt n (show 0 < 2 ^ ULONG_BITS by decide)
  unfold toULong
  have h2 : (2 : Nat) ^ ULONG_BITS < 10 ^ 20 := by decide
  omega

/-- On Nes the text rendering of a snapshot in range holds the flags part after a fixed
number of characters. -/
theorem flags_text_nes (st : StateBuffer) (h : inRange CpuType.Nes st = true) :
    ∃ pre post, Formatter.FormatRegisters CpuType.Nes st =
        pre ++ flagsSegment CpuType.Nes (textFlags CpuType.Nes st) false "" ++ post ∧
      pre.length = flagsOffset CpuType.Nes := by
  simp only [inRange, Bool.and_eq_true, decide_eq_true_eq, and_assoc] at h
  obtain ⟨hPC, hA, hX, hY, hSP, hPS, hCyc⟩ := h
  have l0 := fmtHexUpper_length 4 st.nes.PC (by omega) (by decide)
  have l1 := fmtHexUpper_length 2 st.nes.A (by omega) (by decide)
  have l2 := fmtHexUpper_length 2 st.nes.X (by omega) (by decide)
  have l3 := fmtHexUpper_length 2 st.nes.Y (by omega) (by decide)
  have l4 := fmtHexUpper_length 2 st.nes.SP (by omega) (by decide)
  have lc := toULong_dec_length st.nes.CycleCount
  have lf : (Formatter.FormatNesFlags st.nes.PS).length = 8 := rfl
  refine ⟨"PC=$" ++ fmtHexUpper 4 st.nes.PC ++ "  A=$" ++ fmtHexUpper 2 st.nes.A ++ "  X=$" ++
      fmtHexUpper 2 st.nes.X ++ "  Y=$" ++ fmtHexUpper 2 st.nes.Y ++ "  SP=$" ++
      fmtHexUpper 2 st.nes.SP,
    fmtDec (toULong st.nes.CycleCount), ?_, ?_⟩
  · show Formatter.FormatNesRegisters st.nes = _
    unfold Formatter.FormatNesRegisters
    try simp only []
    rw [snprintf_of_length_le]
    · simp only [flagsSegment, textFlags, String.append_assoc]
    · simp only [String.length_append, l0, l1, l2, l3, l4, lf]
      simp only [String.length]
      simp
      omega
  · simp only [String.length_append, l0, l1, l2, l3, l4]
    rfl

/-- On Snes the text rendering of a snapshot in range holds the flags part after a fixed
number of characters. -/
theorem flags_text_snes (st : StateBuffer) (h : inRange CpuType.Snes st = true) :
    ∃ pre post, Formatter.FormatRegisters CpuType.Snes st =
        pre ++ flagsSegment CpuType.Snes (textFlags CpuType.Snes st) false "" ++ post ∧
      pre.length = flagsOffset CpuType.Snes := by
  simp only [inRange, Bool.and_eq_true, decide_eq_true_eq, and_assoc] at h
  obtain ⟨hK, hPC, hA, hX, hY, hSP, hD, hDBR, hPS, hStopState, hCyc⟩ := h
  have l0 := fmtHexUpper_length 2 st.snes.K (by omega) (by decide)
  have l1 := fmtHexUpper_length 4 st.snes.PC (by omega) (by decide)
  have l2 := fmtHexUpper_length 4 st.snes.A (by omega) (by decide)
  have l3 := fmtHexUpper_length 4 st.snes.X (by omega) (by decide)
  have l4 := fmtHexUpper_length 4 st.snes.Y (by omega) (by decide)
  have l5 := fmtHexUpper_length 4 st.snes.SP (by omega) (by decide)
  have l6 := fmtHexUpper_length 4 st.snes.D (by omega) (by decide)
  have l7 := fmtHexUpper_length 2 st.snes.DBR (by omega) (by decide)
  have lc := toULong_dec_length st.snes.CycleCount
  have lf : (Formatter.FormatSnesFlags st.snes.PS).length = 8 := rfl
  refine ⟨"PC=$" ++ fmtHexUpper 2 st.snes.K ++ ":" ++ fmtHexUpper 4 st.snes.PC ++ "  A=$" ++
      fmtHexUpper 4 st.snes.A ++ "  X=$" ++ fmtHexUpper 4 st.snes.X ++ "  Y=$" ++
      fmtHexUpper 4 st.snes.Y ++ "  SP=$" ++ fmtHexUpper 4 st.snes.SP ++ "  D=$" ++
      fmtHexUpper 4 st.snes.D ++ "  DBR=$" ++ fmtHexUpper 2 st.snes.DBR,
    ((if decide (st.snes.PS &&& ProcFlags.MemoryMode8 ≠ 0) = true then "m8" else "m16") ++ " " ++
      (if decide (st.snes.PS &&& ProcFlags.IndexMode8 ≠ 0) = true then "x8" else "x16") ++
      "]  Cycles: " ++ fmtDec (toULong st.snes.CycleCount)), ?_, ?_⟩
  · show Formatter.FormatSnesRegisters st.snes = _
    unfold Formatter.FormatSnesRegisters
    try simp only []
    rw [snprintf_of_length_le]
    · simp only [flagsSegment, textFlags, String.append_assoc]
    · split_ifs <;>
      · simp only [String.length_append, l0, l1, l2, l3, l4, l5, l6, l7, lf]
        simp only [String.length]
        simp
        omega
  · simp only [String.length_append, l0, l1, l2, l3, l4, l5, l6, l7]
    rfl

/-- On Sa1 the text rendering of a snapshot in range holds the flags part after a fixed
number of characters. -/
theorem flags_text_sa1 (st : StateBuffer) (h : inRange CpuType.Sa1 st = true) :
    ∃ pre post, Formatter.FormatRegisters CpuType.Sa1 st =
        pre ++ flagsSegment CpuType.Sa1 (textFlags CpuType.Sa1 st) false "" ++ post ∧
      pre.length = flagsOffset CpuType.Sa1 := by
  simp only [inRange, Bool.and_eq_true, decide_eq_true_eq, and_assoc] at h
  obtain ⟨hK, hPC, hA, hX, hY, hSP, hD, hDBR, hPS, hStopState, hCyc⟩ := h
  have l0 := fmtHexUpper_length 2 st.snes.K (by omega) (by decide)
  have l1 := fmtHexUpper_length 4 st.snes.PC (by omega) (by decide)
  have l2 := fmtHexUpper_length 4 st.snes.A (by omega) (by decide)
  have l3 := fmtHexUpper_length 4 st.snes.X (by omega) (by decide)
  have l4 := fmtHexUpper_length 4 st.snes.Y (by omega) (by decide)
  have l5 := fmtHexUpper_length 4 st.snes.SP (by omega) (by decide)
  have l6 := fmtHexUpper_length 4 st.snes.D (by omega) (by decide)
  have l7 := fmtHexUpper_length 2 st.snes.DBR (by omega) (by decide)
  have lc := toULong_dec_length st.snes.CycleCount
  have lf : (Formatter.FormatSnesFlags st.snes.PS).length = 8 := rfl
  refine ⟨"PC=$" ++ fmtHexUpper 2 st.snes.K ++ ":" ++ fmtHexUpper 4 st.snes.PC ++ "  A=$" ++
      fmtHexUpper 4 st.snes.A ++ "  X=$" ++ fmtHexUpper 4 st.snes.X ++ "  Y=$" ++
      fmtHexUpper 4 st.snes.Y ++ "  SP=$" ++ fmtHexUpper 4 st.snes.SP ++ "  D=$" ++
      fmtHexUpper 4 st.snes.D ++ "  DBR=$" ++ fmtHexUpper 2 st.snes.DBR,
    ((if decide (st.snes.PS &&& ProcFlags.MemoryMode8 ≠ 0) = true then "m8" else "m16") ++ " " ++
      (if decide (st.snes.PS &&& ProcFlags.IndexMode8 ≠ 0) = true then "x8" else "x16") ++
      "]  Cycles: " ++ fmtDec (toULong st.snes.CycleCount)), ?_, ?_⟩
  · show Formatter.FormatSnesRegisters st.snes = _
    unfold Formatter.FormatSnesRegisters
    try simp only []
    rw [snprintf_of_length_le]
    · simp only [flagsSegment, textFlags, String.append_assoc]
    · split_ifs <;>
      · simp only [String.length_append, l0, l1, l2, l3, l4, l5, l6, l7, lf]
        simp only [String.length]
        simp
        omega
  · simp only [String.length_append, l0, l1, l2, l3, l4, l5, l6, l7]
    rfl

/-- On Gameboy the text rendering of a snapshot in range holds the flags part after a fixed
number of characters. -/
theorem flags_text_gameboy (st : StateBuffer) (h : inRange CpuType.Gameboy st = true) :
    ∃ pre post, Formatter.FormatRegisters CpuType.Gameboy st =
        pre ++ flagsSegment CpuType.Gameboy (textFlags CpuType.Gameboy st) false "" ++ post ∧
      pre.length = flagsOffset CpuType.Gameboy := by
  simp only [inRange, Bool.and_eq_true, decide_eq_true_eq, and_assoc] at h
  obtain ⟨hPC, hSP, hA, hFlags, hB, hC, hD, hE, hH, hL, hCyc⟩ := h
  have l0 := fmtHexUpper_length 4 st.gb.PC (by omega) (by decide)
  have l1 := fmtHexUpper_length 4 st.gb.SP (by omega) (by decide)
  have l2 := fmtHexUpper_length 2 st.gb.A (by omega) (by decide)
  have l3 := fmtHexUpper_length 2 st.gb.Flags (by omega) (by decide)
  have l4 := fmtHexUpper_length 2 st.gb.B (by omega) (by decide)
  have l5 := fmtHexUpper_length 2 st.gb.C (by omega) (by decide)
  have l6 := fmtHexUpper_length 2 st.gb.D (by omega) (by decide)
  have l7 := fmtHexUpper_length 2 st.gb.E (by omega) (by decide)
  have l8 := fmtHexUpper_length 2 st.gb.H (by omega) (by decide)
  have l9 := fmtHexUpper_length 2 st.gb.L (by omega) (by decide)
  have lc := toULong_dec_length st.gb.CycleCount
  have lf : (Formatter.FormatGbFlags st.gb.Flags).length = 4 := rfl
  refine ⟨"PC=$" ++ fmtHexUpper 4 st.gb.PC ++ "  SP=$" ++ fmtHexUpper 4 st.gb.SP ++ "  A=$" ++
      fmtHexUpper 2 st.gb.A ++ "  F=$" ++ fmtHexUpper 2 st.gb.Flags ++ "  B=$" ++
      fmtHexUpper 2 st.gb.B ++ "  C=$" ++ fmtHexUpper 2 st.gb.C ++ "  D=$" ++
      fmtHexUpper 2 st.gb.D ++ "  E=$" ++ fmtHexUpper 2 st.gb.E ++ "  H=$" ++
      fmtHexUpper 2 st.gb.H ++ "  L=$" ++ fmtHexUpper 2 st.gb.L,
    fmtDec (toULong st.gb.CycleCount), ?_, ?_⟩
  · show Formatter.FormatGbRegisters st.gb = _
    unfold Formatter.FormatGbRegisters
    try simp only []
    rw [snprintf_of_length_le]
    · simp only [flagsSegment, textFlags, String.append_assoc]
    · simp only [String.length_append, l0, l1, l2, l3, l4, l5, l6, l7, l8, l9, lf]
      simp only [String.length]
      simp
      omega
  · simp only [String.length_append, l0, l1, l2, l3, l4, l5, l6, l7, l8, l9]
    rfl

/-- On Pce the text rendering of a snapshot in range holds the flags part after a fixed
number of characters. -/
theorem flags_text_pce (st : StateBuffer) (h : inRange CpuType.Pce st = true) :
    ∃ pre post, Formatter.FormatRegisters CpuType.Pce st =
        pre ++ flagsSegment CpuType.Pce (textFlags CpuType.Pce st) false "" ++ post ∧
      pre.length = flagsOffset CpuType.Pce := by
  simp only [inRange, Bool.and_eq_true, decide_eq_true_eq, and_assoc] at h
  obtain ⟨hPC, hA, hX, hY, hSP, hPS, hCyc⟩ := h
  have l0 := fmtHexUpper_length 4 st.pce.PC (by omega) (by decide)
  have l1 := fmtHexUpper_length 2 st.pce.A (by omega) (by decide)
  have l2 := fmtHexUpper_length 2 st.pce.X (by omega) (by decide)
  have l3 := fmtHexUpper_length 2 st.pce.Y (by omega) (by decide)
  have l4 := fmtHexUpper_length 2 st.pce.SP (by omega) (by decide)
  have lc := toULong_dec_length st.pce.CycleCount
  have lf : (Formatter.FormatPceFlags st.pce.PS).length = 8 := rfl
  refine ⟨"PC=$" ++ fmtHexUpper 4 st.pce.PC ++ "  A=$" ++ fmtHexUpper 2 st.pce.A ++ "  X=$" ++
      fmtHexUpper 2 st.pce.X ++ "  Y=$" ++ fmtHexUpper 2 st.pce.Y ++ "  SP=$" ++
      fmtHexUpper 2 st.pce.SP,
    fmtDec (toULong st.pce.CycleCount), ?_, ?_⟩
  · show Formatter.FormatPceRegisters st.pce = _
    unfold Formatter.FormatPceRegisters
    try simp only []
    rw [snprintf_of_length_le]
    · simp only [flagsSegment, textFlags, String.append_assoc]
    · simp only [String.length_append, l0, l1, l2, l3, l4, lf]
      simp only [String.length]
      simp
      omega
  · simp only [String.length_append, l0, l1, l2, l3, l4]
    rfl

/-- On Sms the text rendering of a snapshot in range holds the flags part after a fixed
number of characters. -/
theorem flags_text_sms (st : StateBuffer) (h : inRange CpuType.Sms st = true) :
    ∃ pre post, Formatter.FormatRegisters CpuType.Sms st =
        pre ++ flagsSegment CpuType.Sms (textFlags CpuType.Sms st) false "" ++ post ∧
      pre.length = flagsOffset CpuType.Sms := by
  simp only [inRange, Bool.and_eq_true, decide_eq_true_eq, and_assoc] at h
  obtain ⟨hPC, hSP, hA, hFlags, hB, hC, hD, hE, hH, hL, hIXH, hIXL, hIYH, hIYL, hI, hR, hCyc⟩ := h
  have l0 := fmtHexUpper_length 4 st.sms.PC (by omega) (by decide)
  have l1 := fmtHexUpper_length 4 st.sms.SP (by omega) (by decide)
  have l2 := fmtHexUpper_length 2 st.sms.A (by omega) (by decide)
  have l3 := fmtHexUpper_length 2 st.sms.Flags (by omega) (by decide)
  have l4 := fmtHexUpper_length 2 st.sms.B (by omega) (by decide)
  have l5 := fmtHexUpper_length 2 st.sms.C (by omega) (by decide)
  have l6 := fmtHexUpper_length 2 st.sms.D (by omega) (by decide)
  have l7 := fmtHexUpper_length 2 st.sms.E (by omega) (by decide)
  have l8 := fmtHexUpper_length 2 st.sms.H (by omega) (by decide)
  have l9 := fmtHexUpper_length 2 st.sms.L (by omega) (by decide)
  have l10 := fmtHexUpper_length 2 st.sms.IXH (by omega) (by decide)
  have l11 := fmtHexUpper_length 2 st.sms.IXL (by omega) (by decide)
  have l12 := fmtHexUpper_length 2 st.sms.IYH (by omega) (by decide)
  have l13 := fmtHexUpper_length 2 st.sms.IYL (by omega) (by decide)
  have l14 := fmtHexUpper_length 2 st.sms.I (by omega) (by decide)
  have l15 := fmtHexUpper_length 2 st.sms.R (by omega) (by decide)
  have lc := toULong_dec_length st.sms.CycleCount
  have lf : (Formatter.FormatSmsFlags st.sms.Flags).length = 8 := rfl
  refine ⟨"PC=$" ++ fmtHexUpper 4 st.sms.PC ++ "  SP=$" ++ fmtHexUpper 4 st.sms.SP ++ "  A=$" ++
      fmtHexUpper 2 st.sms.A ++ "  F=$" ++ fmtHexUpper 2 st.sms.Flags ++ "  B=$" ++
      fmtHexUpper 2 st.sms.B ++ "  C=$" ++ fmtHexUpper 2 st.sms.C ++ "  D=$" ++
      fmtHexUpper 2 st.sms.D ++ "  E=$" ++ fmtHexUpper 2 st.sms.E ++ "  H=$" ++
      fmtHexUpper 2 st.sms.H ++ "  L=$" ++ fmtHexUpper 2 st.sms.L ++ "\nIX=$" ++
      fmtHexUpper 2 st.sms.IXH ++ fmtHexUpper 2 st.sms.IXL ++ "  IY=$" ++
      fmtHexUpper 2 st.sms.IYH ++ fmtHexUpper 2 st.sms.IYL ++ "  I=$" ++ fmtHexUpper 2 st.sms.I ++
      "  R=$" ++ fmtHexUpper 2 st.sms.R,
    fmtDec (toULong st.sms.CycleCount), ?_, ?_⟩
  · show Formatter.FormatSmsRegisters st.sms = _
    unfold Formatter.FormatSmsRegisters
    try simp only []
    rw [snprintf_of_length_le]
    · simp only [flagsSegment, textFlags, String.append_assoc]
    · simp only [String.length_append, l0, l1, l2, l3, l4, l5, l6, l7, l8, l9, l10, l11, l12, l13, l14, l15, lf]
      simp only [String.length]
      simp
      omega
  · simp only [String.length_append, l0, l1, l2, l3, l4, l5, l6, l7, l8, l9, l10, l11, l12, l13, l14, l15]
    rfl

/-- On Ws the text rendering of a snapshot in range holds the flags part after a fixed
number of characters. -/
theorem flags_text_ws (st : StateBuffer) (h : inRange CpuType.Ws st = true) :
    ∃ pre post, Formatter.FormatRegisters CpuType.Ws st =
        pre ++ flagsSegment CpuType.Ws (textFlags CpuType.Ws st) false "" ++ post ∧
      pre.length = flagsOffset CpuType.Ws := by
  simp only [inRange, Bool.and_eq_true, decide_eq_true_eq, and_assoc] at h
  obtain ⟨hCS, hIP, hAX, hBX, hCX, hDX, hSP, hBP, hSI, hDI, hDS, hES, hSS, hCyc⟩ := h
  have l0 := fmtHexUpper_length 4 st.ws.CS (by omega) (by decide)
  have l1 := fmtHexUpper_length 4 st.ws.IP (by omega) (by decide)
  have l2 := fmtHexUpper_length 4 st.ws.AX (by omega) (by decide)
  have l3 := fmtHexUpper_length 4 st.ws.BX (by omega) (by decide)
  have l4 := fmtHexUpper_length 4 st.ws.CX (by omega) (by decide)
  have l5 := fmtHexUpper_length 4 st.ws.DX (by omega) (by decide)
  have l6 := fmtHexUpper_length 4 st.ws.SP (by omega) (by decide)
  have l7 := fmtHexUpper_length 4 st.ws.BP (by omega) (by decide)
  have l8 := fmtHexUpper_length 4 st.ws.SI (by omega) (by decide)
  have l9 := fmtHexUpper_length 4 st.ws.DI (by omega) (by decide)
  have l10 := fmtHexUpper_length 4 st.ws.DS (by omega) (by decide)
  have l11 := fmtHexUpper_length 4 st.ws.ES (by omega) (by decide)
  have l12 := fmtHexUpper_length 4 st.ws.SS (by omega) (by decide)
  have lw := fmtHexUpper_length 4 (toU16 st.ws.Flags.Get)
    (by have := Nat.mod_lt st.ws.Flags.Get (show 0 < 2 ^ 16 by decide); unfold toU16; omega)
    (by decide)
  have lc := toULong_dec_length st.ws.CycleCount
  refine ⟨"CS:IP=$" ++ fmtHexUpper 4 st.ws.CS ++ ":" ++ fmtHexUpper 4 st.ws.IP ++ "  AX=$" ++
      fmtHexUpper 4 st.ws.AX ++ "  BX=$" ++ fmtHexUpper 4 st.ws.BX ++ "  CX=$" ++
      fmtHexUpper 4 st.ws.CX ++ "  DX=$" ++ fmtHexUpper 4 st.ws.DX ++ "\nSP=$" ++
      fmtHexUpper 4 st.ws.SP ++ "  BP=$" ++ fmtHexUpper 4 st.ws.BP ++ "  SI=$" ++
      fmtHexUpper 4 st.ws.SI ++ "  DI=$" ++ fmtHexUpper 4 st.ws.DI ++ "  DS=$" ++
      fmtHexUpper 4 st.ws.DS ++ "  ES=$" ++ fmtHexUpper 4 st.ws.ES ++ "  SS=$" ++
      fmtHexUpper 4 st.ws.SS ++ "\nFlags=$" ++ fmtHexUpper 4 (toU16 st.ws.Flags.Get),
    fmtDec (toULong st.ws.CycleCount), ?_, ?_⟩
  · show Formatter.FormatWsRegisters st.ws = _
    unfold Formatter.FormatWsRegisters
    try simp only []
    rw [snprintf_of_length_le]
    · simp only [flagsSegment, textFlags, String.append_assoc]
    · simp only [String.length_append, l0, l1, l2, l3, l4, l5, l6, l7, l8, l9, l10, l11, l12, lw]
      simp only [String.length]
      simp
      omega
  · simp only [String.length_append, l0, l1, l2, l3, l4, l5, l6, l7, l8, l9, l10, l11, l12, lw]
    rfl

theorem gbaRegisterText_length (s : GbaCpuState) (i : Nat) (hi : i < 16)
    (hr : s.R i < 2 ^ 32) :
    (Formatter.gbaRegisterText s i).length =
      (if i = 3 ∨ i = 7 then 15 else if i = 11 then 16 else if i = 10 ∨ i = 12 then 15
        else 14) := by
  have l := fmtHexUpper_length 8 (s.R i) (by omega) (by decide)
  unfold Formatter.gbaRegisterText
  simp only [String.length_append, l]
  interval_cases i <;> decide

/-- On Gba the text rendering of a snapshot in range holds the flags part after a fixed number
of characters. -/
theorem flags_text_gba (st : StateBuffer) (h : inRange CpuType.Gba st = true) :
    ∃ pre post, Formatter.FormatRegisters CpuType.Gba st =
        pre ++ flagsSegment CpuType.Gba (textFlags CpuType.Gba st) st.gba.CPSR.Thumb
          (Formatter.GbaModeName st.gba.CPSR.Mode) ++ post ∧
      pre.length = flagsOffset CpuType.Gba := by
  simp only [inRange, Bool.and_eq_true, decide_eq_true_eq, List.all_eq_true] at h
  obtain ⟨hR, hCyc⟩ := h
  have hR' : ∀ i, i < 16 → st.gba.R i < 2 ^ 32 := fun i hi => hR i (List.mem_range.2 hi)
  have hrange : List.range 16 = [0, 1, 2, 3, 4, 5, 6, 7, 8, 9, 10, 11, 12, 13, 14, 15] := by
    decide
  have lw := fmtHexUpper_length 8 (toU32 st.gba.CPSR.ToInt32)
    (by have := Nat.mod_lt st.gba.CPSR.ToInt32 (show 0 < 2 ^ 32 by decide); unfold toU32; omega)
    (by decide)
  have lc := toULong_dec_length st.gba.CycleCount
  have lm := GbaModeName_length st.gba.CPSR.Mode
  have g0 : (Formatter.gbaRegisterText st.gba 0).length = 14 :=
    gbaRegisterText_length st.gba 0 (by decide) (hR' 0 (by decide))
  have g1 : (Formatter.gbaRegisterText st.gba 1).length = 14 :=
    gbaRegisterText_length st.gba 1 (by decide) (hR' 1 (by decide))
  have g2 : (Formatter.gbaRegisterText st.gba 2).length = 14 :=
    gbaRegisterText_length st.gba 2 (by decide) (hR' 2 (by decide))
  have g3 : (Formatter.gbaRegisterText st.gba 3).length = 15 :=
    gbaRegisterText_length st.gba 3 (by decide) (hR' 3 (by decide))
  have g4 : (Formatter.gbaRegisterText st.gba 4).length = 14 :=
    gbaRegisterText_length st.gba 4 (by decide) (hR' 4 (by decide))
  have g5 : (Formatter.gbaRegisterText st.gba 5).length = 14 :=
    gbaRegisterText_length st.gba 5 (by decide) (hR' 5 (by decide))
  have g6 : (Formatter.gbaRegisterText st.gba 6).length = 14 :=
    gbaRegisterText_length st.gba 6 (by decide) (hR' 6 (by decide))
  have g7 : (Formatter.gbaRegisterText st.gba 7).length = 15 :=
    gbaRegisterText_length st.gba 7 (by decide) (hR' 7 (by decide))
  have g8 : (Formatter.gbaRegisterText st.gba 8).length = 14 :=
    gbaRegisterText_length st.gba 8 (by decide) (hR' 8 (by decide))
  have g9 : (Formatter.gbaRegisterText st.gba 9).length = 14 :=
    gbaRegisterText_length st.gba 9 (by decide) (hR' 9 (by decide))
  have g10 : (Formatter.gbaRegisterText st.gba 10).length = 15 :=
    gbaRegisterText_length st.gba 10 (by decide) (hR' 10 (by decide))
  have g11 : (Formatter.gbaRegisterText st.gba 11).length = 16 :=
    gbaRegisterText_length st.gba 11 (by decide) (hR' 11 (by decide))
  have g12 : (Formatter.gbaRegisterText st.gba 12).length = 15 :=
    gbaRegisterText_length st.gba 12 (by decide) (hR' 12 (by decide))
  have g13 : (Formatter.gbaRegisterText st.gba 13).length = 14 :=
    gbaRegisterText_length st.gba 13 (by decide) (hR' 13 (by decide))
  have g14 : (Formatter.gbaRegisterText st.gba 14).length = 14 :=
    gbaRegisterText_length st.gba 14 (by decide) (hR' 14 (by decide))
  have g15 : (Formatter.gbaRegisterText st.gba 15).length = 14 :=
    gbaRegisterText_length st.gba 15 (by decide) (hR' 15 (by decide))
  have lr : ((List.range 16).foldl (fun buf i => buf ++ Formatter.gbaRegisterText st.gba i)
      "").length = 230 := by
    rw [hrange]
    simp only [List.foldl_cons, List.foldl_nil, String.length_append, g0, g1, g2, g3, g4, g5, g6, g7, g8, g9, g10, g11, g12, g13, g14, g15]
    rfl
  refine ⟨(List.range 16).foldl (fun buf i => buf ++ Formatter.gbaRegisterText st.gba i) "" ++
      "\nCPSR=$" ++ fmtHexUpper 8 (toU32 st.gba.CPSR.ToInt32),
    fmtDec (toULong st.gba.CycleCount), ?_, ?_⟩
  · show Formatter.FormatGbaRegisters st.gba = _
    unfold Formatter.FormatGbaRegisters
    simp only []
    rw [snprintf_of_length_le]
    · simp only [flagsSegment, textFlags, String.append_assoc]
    · split_ifs <;>
      · simp only [String.length_append, lr, lw, lm]
        simp only [String.length]
        simp
        omega
  · simp only [String.length_append, lr, lw]
    rfl

/-- On Nes each boolean of the JSON flag object is true exactly when the flags string of the
text rendering holds the capital letter of its key, and false exactly when it holds the small
letter. -/
theorem flags_agree_nes (st : StateBuffer) (key : String) (value : Json)
    (hm : (key, value) ∈ jsonFlags CpuType.Nes st)
    (hthumb : key ≠ "thumb") (hmode : key ≠ "mode") :
    ∃ c b, key = String.mk [c] ∧ value = Json.bool b ∧ c.isLower = true ∧
      (b = true ↔ c.toUpper ∈ (textFlags CpuType.Nes st).data) ∧
      (b = false ↔ c ∈ (textFlags CpuType.Nes st).data) := by
  simp only [jsonFlags, flagBool, List.mem_cons, Prod.mk.injEq, List.mem_nil_iff, or_false] at hm
  simp only [textFlags, Formatter.FormatNesFlags, flagChar]
  rcases hm with ⟨rfl, rfl⟩ | ⟨rfl, rfl⟩ | ⟨rfl, rfl⟩ | ⟨rfl, rfl⟩ | ⟨rfl, rfl⟩ | ⟨rfl, rfl⟩
  · exact ⟨'n', _, rfl, rfl, rfl, by simp [eq_ite_iff], by simp [eq_ite_iff]⟩
  · exact ⟨'v', _, rfl, rfl, rfl, by simp [eq_ite_iff], by simp [eq_ite_iff]⟩
  · exact ⟨'d', _, rfl, rfl, rfl, by simp [eq_ite_iff], by simp [eq_ite_iff]⟩
  · exact ⟨'i', _, rfl, rfl, rfl, by simp [eq_ite_iff], by simp [eq_ite_iff]⟩
  · exact ⟨'z', _, rfl, rfl, rfl, by simp [eq_ite_iff], by simp [eq_ite_iff]⟩
  · exact ⟨'c', _, rfl, rfl, rfl, by simp [eq_ite_iff], by simp [eq_ite_iff]⟩

/-- On Snes each boolean of the JSON flag object is true exactly when the flags string of the
text rendering holds the capital letter of its key, and false exactly when it holds the small
letter. -/
theorem flags_agree_snes (st : StateBuffer) (key : String) (value : Json)
    (hm : (key, value) ∈ jsonFlags CpuType.Snes st)
    (hthumb : key ≠ "thumb") (hmode : key ≠ "mode") :
    ∃ c b, key = String.mk [c] ∧ value = Json.bool b ∧ c.isLower = true ∧
      (b = true ↔ c.toUpper ∈ (textFlags CpuType.Snes st).data) ∧
      (b = false ↔ c ∈ (textFlags CpuType.Snes st).data) := by
  simp only [jsonFlags, flagBool, List.mem_cons, Prod.mk.injEq, List.mem_nil_iff, or_false] at hm
  simp only [textFlags, Formatter.FormatSnesFlags, flagChar]
  rcases hm with hk | hk | hk | hk | hk | hk | hk | hk <;>
    obtain ⟨rfl, rfl⟩ := hk
  · exact ⟨'n', _, rfl, rfl, rfl, by simp [eq_ite_iff], by simp [eq_ite_iff]⟩
  · exact ⟨'v', _, rfl, rfl, rfl, by simp [eq_ite_iff], by simp [eq_ite_iff]⟩
  · exact ⟨'m', _, rfl, rfl, rfl, by simp [eq_ite_iff], by simp [eq_ite_iff]⟩
  · exact ⟨'x', _, rfl, rfl, rfl, by simp [eq_ite_iff], by simp [eq_ite_iff]⟩
  · exact ⟨'d', _, rfl, rfl, rfl, by simp [eq_ite_iff], by simp [eq_ite_iff]⟩
  · exact ⟨'i', _, rfl, rfl, rfl, by simp [eq_ite_iff], by simp [eq_ite_iff]⟩
  · exact ⟨'z', _, rfl, rfl, rfl, by simp [eq_ite_iff], by simp [eq_ite_iff]⟩
  · exact ⟨'c', _, rfl, rfl, rfl, by simp [eq_ite_iff], by simp [eq_ite_iff]⟩

/-- On Sa1 each boolean of the JSON flag object is true exactly when the flags string of the
text rendering holds the capital letter of its key, and false exactly when it holds the small
letter. -/
theorem flags_agree_sa1 (st : StateBuffer) (key : String) (value : Json)
    (hm : (key, value) ∈ jsonFlags CpuType.Sa1 st)
    (hthumb : key ≠ "thumb") (hmode : key ≠ "mode") :
    ∃ c b, key = String.mk [c] ∧ value = Json.bool b ∧ c.isLower = true ∧
      (b = true ↔ c.toUpper ∈ (textFlags CpuType.Sa1 st).data) ∧
      (b = false ↔ c ∈ (textFlags CpuType.Sa1 st).data) := by
  simp only [jsonFlags, flagBool, List.mem_cons, Prod.mk.injEq, List.mem_nil_iff, or_false] at hm
  simp only [textFlags, Formatter.FormatSnesFlags, flagChar]
  rcases hm with hk | hk | hk | hk | hk | hk | hk | hk <;>
    obtain ⟨rfl, rfl⟩ := hk
  · exact ⟨'n', _, rfl, rfl, rfl, by simp [eq_ite_iff], by simp [eq_ite_iff]⟩
  · exact ⟨'v', _, rfl, rfl, rfl, by simp [eq_ite_iff], by simp [eq_ite_iff]⟩
  · exact ⟨'m', _, rfl, rfl, rfl, by simp [eq_ite_iff], by simp [eq_ite_iff]⟩
  · exact ⟨'x', _, rfl, rfl, rfl, by simp [eq_ite_iff], by simp [eq_ite_iff]⟩
  · exact ⟨'d', _, rfl, rfl, rfl, by simp [eq_ite_iff], by simp [eq_ite_iff]⟩
  · exact ⟨'i', _, rfl, rfl, rfl, by simp [eq_ite_iff], by simp [eq_ite_iff]⟩
  · exact ⟨'z', _, rfl, rfl, rfl, by simp [eq_ite_iff], by simp [eq_ite_iff]⟩
  · exact ⟨'c', _, rfl, rfl, rfl, by simp [eq_ite_iff], by simp [eq_ite_iff]⟩

/-- On Gameboy each boolean of the JSON flag object is true exactly when the flags string of the
text rendering holds the capital letter of its key, and false exactly when it holds the small
letter. -/
theorem flags_agree_gameboy (st : StateBuffer) (key : String) (value : Json)
    (hm : (key, value) ∈ jsonFlags CpuType.Gameboy st)
    (hthumb : key ≠ "thumb") (hmode : key ≠ "mode") :
    ∃ c b, key = String.mk [c] ∧ value = Json.bool b ∧ c.isLower = true ∧
      (b = true ↔ c.toUpper ∈ (textFlags CpuType.Gameboy st).data) ∧
      (b = false ↔ c ∈ (textFlags CpuType.Gameboy st).data) := by
  simp only [jsonFlags, flagBool, List.mem_cons, Prod.mk.injEq, List.mem_nil_iff, or_false] at hm
  simp only [textFlags, Formatter.FormatGbFlags, flagChar]
  rcases hm with ⟨rfl, rfl⟩ | ⟨rfl, rfl⟩ | ⟨rfl, rfl⟩ | ⟨rfl, rfl⟩
  · exact ⟨'z', _, rfl, rfl, rfl, by simp [eq_ite_iff], by simp [eq_ite_iff]⟩
  · exact ⟨'n', _, rfl, rfl, rfl, by simp [eq_ite_iff], by simp [eq_ite_iff]⟩
  · exact ⟨'h', _, rfl, rfl, rfl, by simp [eq_ite_iff], by simp [eq_ite_iff]⟩
  · exact ⟨'c', _, rfl, rfl, rfl, by simp [eq_ite_iff], by simp [eq_ite_iff]⟩

/-- On Pce each boolean of the JSON flag object is true exactly when the flags string of the
text rendering holds the capital letter of its key, and false exactly when it holds the small
letter. -/
theorem flags_agree_pce (st : StateBuffer) (key : String) (value : Json)
    (hm : (key, value) ∈ jsonFlags CpuType.Pce st)
    (hthumb : key ≠ "thumb") (hmode : key ≠ "mode") :
    ∃ c b, key = String.mk [c] ∧ value = Json.bool b ∧ c.isLower = true ∧
      (b = true ↔ c.toUpper ∈ (textFlags CpuType.Pce st).data) ∧
      (b = false ↔ c ∈ (textFlags CpuType.Pce st).data) := by
  simp only [jsonFlags, flagBool, List.mem_cons, Prod.mk.injEq, List.mem_nil_iff, or_false] at hm
  simp only [textFlags, Formatter.FormatPceFlags, flagChar]
  rcases hm with hk | hk | hk | hk | hk | hk | hk <;>
    obtain ⟨rfl, rfl⟩ := hk
  · exact ⟨'n', _, rfl, rfl, rfl, by simp [eq_ite_iff], by simp [eq_ite_iff]⟩
  · exact ⟨'v', _, rfl, rfl, rfl, by simp [eq_ite_iff], by simp [eq_ite_iff]⟩
  · exact ⟨'t', _, rfl, rfl, rfl, by simp [eq_ite_iff], by simp [eq_ite_iff]⟩
  · exact ⟨'d', _, rfl, rfl, rfl, by simp [eq_ite_iff], by simp [eq_ite_iff]⟩
  · exact ⟨'i', _, rfl, rfl, rfl, by simp [eq_ite_iff], by simp [eq_ite_iff]⟩
  · exact ⟨'z', _, rfl, rfl, rfl, by simp [eq_ite_iff], by simp [eq_ite_iff]⟩
  · exact ⟨'c', _, rfl, rfl, rfl, by simp [eq_ite_iff], by simp [eq_ite_iff]⟩

/-- On Sms each boolean of the JSON flag object is true exactly when the flags string of the
text rendering holds the capital letter of its key, and false exactly when it holds the small
letter. -/
theorem flags_agree_sms (st : StateBuffer) (key : String) (value : Json)
    (hm : (key, value) ∈ jsonFlags CpuType.Sms st)
    (hthumb : key ≠ "thumb") (hmode : key ≠ "mode") :
    ∃ c b, key = String.mk [c] ∧ value = Json.bool b ∧ c.isLower = true ∧
      (b = true ↔ c.toUpper ∈ (textFlags CpuType.Sms st).data) ∧
      (b = false ↔ c ∈ (textFlags CpuType.Sms st).data) := by
  simp only [jsonFlags, flagBool, List.mem_cons, Prod.mk.injEq, List.mem_nil_iff, or_false] at hm
  simp only [textFlags, Formatter.FormatSmsFlags, flagChar]
  rcases hm with ⟨rfl, rfl⟩ | ⟨rfl, rfl⟩ | ⟨rfl, rfl⟩ | ⟨rfl, rfl⟩ | ⟨rfl, rfl⟩ | ⟨rfl, rfl⟩
  · exact ⟨'s', _, rfl, rfl, rfl, by simp [eq_ite_iff], by simp [eq_ite_iff]⟩
  · exact ⟨'z', _, rfl, rfl, rfl, by simp [eq_ite_iff], by simp [eq_ite_iff]⟩
  · exact ⟨'h', _, rfl, rfl, rfl, by simp [eq_ite_iff], by simp [eq_ite_iff]⟩
  · exact ⟨'p', _, rfl, rfl, rfl, by simp [eq_ite_iff], by simp [eq_ite_iff]⟩
  · exact ⟨'n', _, rfl, rfl, rfl, by simp [eq_ite_iff], by simp [eq_ite_iff]⟩
  · exact ⟨'c', _, rfl, rfl, rfl, by simp [eq_ite_iff], by simp [eq_ite_iff]⟩

/-- On Ws each boolean of the JSON flag object is true exactly when the flags string of the
text rendering holds the capital letter of its key, and false exactly when it holds the small
letter. -/
theorem flags_agree_ws (st : StateBuffer) (key : String) (value : Json)
    (hm : (key, value) ∈ jsonFlags CpuType.Ws st)
    (hthumb : key ≠ "thumb") (hmode : key ≠ "mode") :
    ∃ c b, key = String.mk [c] ∧ value = Json.bool b ∧ c.isLower = true ∧
      (b = true ↔ c.toUpper ∈ (textFlags CpuType.Ws st).data) ∧
      (b = false ↔ c ∈ (textFlags CpuType.Ws st).data) := by
  simp only [jsonFlags, flagBool, List.mem_cons, Prod.mk.injEq, List.mem_nil_iff, or_false] at hm
  simp only [textFlags]
  rcases hm with hk | hk | hk | hk | hk | hk | hk | hk | hk <;>
    obtain ⟨rfl, rfl⟩ := hk
  · exact ⟨'o', _, rfl, rfl, rfl, by simp [eq_ite_iff], by simp [eq_ite_iff]⟩
  · exact ⟨'d', _, rfl, rfl, rfl, by simp [eq_ite_iff], by simp [eq_ite_iff]⟩
  · exact ⟨'i', _, rfl, rfl, rfl, by simp [eq_ite_iff], by simp [eq_ite_iff]⟩
  · exact ⟨'t', _, rfl, rfl, rfl, by simp [eq_ite_iff], by simp [eq_ite_iff]⟩
  · exact ⟨'s', _, rfl, rfl, rfl, by simp [eq_ite_iff], by simp [eq_ite_iff]⟩
  · exact ⟨'z', _, rfl, rfl, rfl, by simp [eq_ite_iff], by simp [eq_ite_iff]⟩
  · exact ⟨'a', _, rfl, rfl, rfl, by simp [eq_ite_iff], by simp [eq_ite_iff]⟩
  · exact ⟨'p', _, rfl, rfl, rfl, by simp [eq_ite_iff], by simp [eq_ite_iff]⟩
  · exact ⟨'c', _, rfl, rfl, rfl, by simp [eq_ite_iff], by simp [eq_ite_iff]⟩

/-- On Gba each boolean of the JSON flag object is true exactly when the flags string of the
text rendering holds the capital letter of its key, and false exactly when it holds the small
letter. -/
theorem flags_agree_gba (st : StateBuffer) (key : String) (value : Json)
    (hm : (key, value) ∈ jsonFlags CpuType.Gba st)
    (hthumb : key ≠ "thumb") (hmode : key ≠ "mode") :
    ∃ c b, key = String.mk [c] ∧ value = Json.bool b ∧ c.isLower = true ∧
      (b = true ↔ c.toUpper ∈ (textFlags CpuType.Gba st).data) ∧
      (b = false ↔ c ∈ (textFlags CpuType.Gba st).data) := by
  simp only [jsonFlags, flagBool, List.mem_cons, Prod.mk.injEq, List.mem_nil_iff, or_false] at hm
  simp only [textFlags]
  rcases hm with ⟨rfl, rfl⟩ | ⟨rfl, rfl⟩ | ⟨rfl, rfl⟩ | ⟨rfl, rfl⟩ | ⟨rfl, rfl⟩ | ⟨rfl, rfl⟩
  · exact ⟨'n', _, rfl, rfl, rfl, by simp [eq_ite_iff], by simp [eq_ite_iff]⟩
  · exact ⟨'z', _, rfl, rfl, rfl, by simp [eq_ite_iff], by simp [eq_ite_iff]⟩
  · exact ⟨'c', _, rfl, rfl, rfl, by simp [eq_ite_iff], by simp [eq_ite_iff]⟩
  · exact ⟨'v', _, rfl, rfl, rfl, by simp [eq_ite_iff], by simp [eq_ite_iff]⟩
  · exact absurd rfl hthumb
  · exact absurd rfl hmode
/-- C40: on every supported architecture, for every snapshot in range, the text and the JSON
renderings agree on the flags. The JSON rendering is the text of `registersJson`, whose flag
object is `jsonFlags`, with distinct keys; the text rendering holds, after `flagsOffset`
characters, the flags part `flagsSegment` with the flags string `textFlags`. Each member of
the flag object other than `thumb` and `mode` has a one-letter key and a boolean value, which
is true exactly when the flags string holds the capital letter of the key and false exactly
when it holds the small letter. On GBA the flag object has a boolean `thumb` and a string
`mode`, and the bracket of the text shows `THUMB` when `thumb` is true, `ARM` when it is
false, and the same mode name. -/
theorem text_and_json_flags_agree (cpu : CpuType) (st : StateBuffer)
    (hs : supported cpu = true) (h : inRange cpu st = true) :
    Formatter.FormatRegistersJson cpu st = (registersJson cpu st).render ∧
    ((jsonFlags cpu st).map Prod.fst).Nodup ∧
    (∃ thumb mode,
      (cpu = CpuType.Gba →
        ("thumb", Json.bool thumb) ∈ jsonFlags cpu st ∧
        ("mode", Json.str mode) ∈ jsonFlags cpu st) ∧
      ∃ pre post,
        Formatter.FormatRegisters cpu st =
          pre ++ flagsSegment cpu (textFlags cpu st) thumb mode ++ post ∧
        pre.length = flagsOffset cpu) ∧
    (∀ key value, (key, value) ∈ jsonFlags cpu st → key ≠ "thumb" → key ≠ "mode" →
      ∃ c b, key = String.mk [c] ∧ value = Json.bool b ∧ c.isLower = true ∧
        (b = true ↔ c.toUpper ∈ (textFlags cpu st).data) ∧
        (b = false ↔ c ∈ (textFlags cpu st).data)) := by
  refine ⟨FormatRegistersJson_eq_render cpu st hs h, ?_, ?_, ?_⟩
  · cases cpu <;> simp only [jsonFlags, List.map_cons, List.map_nil] <;> decide
  · cases cpu with
    | Nes => exact ⟨false, "", fun hc => CpuType.noConfusion hc, flags_text_nes st h⟩
    | Snes => exact ⟨false, "", fun hc => CpuType.noConfusion hc, flags_text_snes st h⟩
    | Sa1 => exact ⟨false, "", fun hc => CpuType.noConfusion hc, flags_text_sa1 st h⟩
    | Gameboy => exact ⟨false, "", fun hc => CpuType.noConfusion hc, flags_text_gameboy st h⟩
    | Gba =>
      refine ⟨st.gba.CPSR.Thumb, Formatter.GbaModeName st.gba.CPSR.Mode, fun _ => ?_,
        flags_text_gba st h⟩
      simp [jsonFlags]
    | Pce => exact ⟨false, "", fun hc => CpuType.noConfusion hc, flags_text_pce st h⟩
    | Sms => exact ⟨false, "", fun hc => CpuType.noConfusion hc, flags_text_sms st h⟩
    | Ws => exact ⟨false, "", fun hc => CpuType.noConfusion hc, flags_text_ws st h⟩
    | Spc => exact absurd hs (by decide)
    | NecDsp => exact absurd hs (by decide)
    | Gsu => exact absurd hs (by decide)
    | Cx4 => exact absurd hs (by decide)
    | St018 => exact absurd hs (by decide)
  · intro key value hm hthumb hmode
    cases cpu with
    | Nes => exact flags_agree_nes st key value hm hthumb hmode
    | Snes => exact flags_agree_snes st key value hm hthumb hmode
    | Sa1 => exact flags_agree_sa1 st key value hm hthumb hmode
    | Gameboy => exact flags_agree_gameboy st key value hm hthumb hmode
    | Gba => exact flags_agree_gba st key value hm hthumb hmode
    | Pce => exact flags_agree_pce st key value hm hthumb hmode
    | Sms => exact flags_agree_sms st key value hm hthumb hmode
    | Ws => exact flags_agree_ws st key value hm hthumb hmode
    | Spc => exact absurd hs (by decide)
    | NecDsp => exact absurd hs (by decide)
    | Gsu => exact absurd hs (by decide)
    | Cx4 => exact absurd hs (by decide)
    | St018 => exact absurd hs (by decide)

set_option maxRecDepth 100000 in
/-- C40 on the NES snapshot with `PC = $8000`, `A = $12`, `PS = $AA` and 7 cycles: the text
shows the flags string `Nv1bDiZc`, and the JSON member `n` is true, as the capital `N` of the
flags string says. -/
theorem text_and_json_flags_agree_witness :
    supported CpuType.Nes = true ∧
    inRange CpuType.Nes { nes := { PC := 0x8000, A := 0x12, PS := 0xAA, CycleCount := 7 } } =
      true ∧
    Formatter.FormatRegisters CpuType.Nes
        { nes := { PC := 0x8000, A := 0x12, PS := 0xAA, CycleCount := 7 } } =
      "PC=$8000  A=$12  X=$00  Y=$00  SP=$00\nFlags: Nv1bDiZc  Cycles: 7" ∧
    ∃ c b, "n" = String.mk [c] ∧ Json.bool true = Json.bool b ∧ c.isLower = true ∧
      (b = true ↔ c.toUpper ∈ (textFlags CpuType.Nes
        { nes := { PC := 0x8000, A := 0x12, PS := 0xAA, CycleCount := 7 } }).data) ∧
      (b = false ↔ c ∈ (textFlags CpuType.Nes
        { nes := { PC := 0x8000, A := 0x12, PS := 0xAA, CycleCount := 7 } }).data) :=
  ⟨by decide, by decide, by decide,
    (text_and_json_flags_agree CpuType.Nes
      { nes := { PC := 0x8000, A := 0x12, PS := 0xAA, CycleCount := 7 } } rfl
      (by decide)).2.2.2 "n" (Json.bool true) (List.Mem.head _) (by decide) (by decide)⟩

end MesenGDB
